import Mathlib

/-!
# Fused power-model channel (`ps/PowerModelChannel.cpp`)

A shallow embedding of the `PowerModelChannel` class: the data members become the
fields of a structure, every member function becomes a function from the state
before the call to the outcome of the call paired with the state after it.

Conventions of the embedding.

* A call returns `Except Error α × PowerModelChannel R`: the state component is the
  state at the point where the call returned, threw or aborted.
* `int` values are `Int`, kept in the 32-bit range by `toInt32` where the source
  does arithmetic on them; `unsigned int` arguments are `Nat`.
* Container sizes are `Nat` (a `std::vector` never gets near `2^31` entries).
* C++ `double` is an arbitrary carrier `R` with the operations the source uses
  (`+`, `*`, `/`, conversion from `int`); no law of arithmetic is assumed unless a
  theorem says so.
* `sc_is_running()` and `sc_time_stamp()` belong to the SystemC kernel: the first
  is the field `sc_is_running`, the second is passed to the calls that read it.
* A file is the list of its lines, a line is the list of its comma-separated fields.
-/

namespace FusedPs

/-- Ways in which a call on the channel stops early. -/
inductive Error where
  /-- The `std::runtime_error` of `registerEvent` / `registerState`. -/
  | registrationAfterStart
  /-- The `std::invalid_argument` of `registerEvent` / `registerState`. -/
  | duplicateName
  /-- The `std::runtime_error` of `reportEvent` / `reportState`. -/
  | simulationNotRunning
  /-- A failed `sc_assert`. -/
  | assertion
  /-- An access outside a vector, or `back()` on an empty vector. -/
  | undefinedBehaviour
  deriving DecidableEq, Repr

/-- Conversion of an integer value to C++ `int` (two's complement, 32 bits). -/
def toInt32 (x : Int) : Int := (x + 2147483648) % 4294967296 - 2147483648

/-- Conversion of an integer value to C++ `unsigned int` (32 bits). -/
def toUInt32 (x : Int) : Int := x % 4294967296

/-- Modelled from the spec: `PowerModelEventBase` (`ps/PowerModelEventBase.hpp` is not
part of the sources): "pure function `voltage → energy`, carrying a name". -/
structure PowerModelEventBase (R : Type) where
  name : String
  calculateEnergy : R → R

/-- Modelled from the spec: `PowerModelStateBase` (`ps/PowerModelStateBase.hpp` is not
part of the sources): "pure function `voltage → current`, carrying a name". -/
structure PowerModelStateBase (R : Type) where
  name : String
  calculateCurrent : R → R

/-- Registered event together with the id of its module. -/
structure ModuleEventEntry (R : Type) where
  event : PowerModelEventBase R
  moduleId : Nat

/-- Registered state together with the id of its module. -/
structure ModuleStateEntry (R : Type) where
  state : PowerModelStateBase R
  moduleId : Nat

/-- One comma-separated field of a log file. -/
inductive Cell (R : Type) where
  | text (s : String)
  | int (i : Int)
  | real (x : R)

/-- Content of a file: its lines, each the list of its fields. -/
abbrev FileContent (R : Type) := List (List (Cell R))

/-- Files by name. -/
abbrev FileSystem (R : Type) := String → FileContent R

/-- Opening a file with `std::ios::trunc`. -/
def FileSystem.truncate {R : Type} (fs : FileSystem R) (name : String) : FileSystem R :=
  fun n => if n = name then [] else fs n

/-- Appending lines to a file opened with `std::ios::app`. -/
def FileSystem.append {R : Type} (fs : FileSystem R) (name : String)
    (lines : FileContent R) : FileSystem R :=
  fun n => if n = name then fs n ++ lines else fs n

/-- Modelled from the spec: `sc_core::sc_time` (SystemC is not part of the sources). A time
is a number of resolution units; `to_seconds` is `sc_time::to_seconds()` and
`to_microseconds t` is `static_cast<int>(t.to_seconds() * 1.0e6)`. -/
class SimTime (R : Type) where
  to_seconds : Nat → R
  to_microseconds : Nat → Int

/-- Data members of `PowerModelChannel`, the flag of the SystemC kernel and the files. -/
structure PowerModelChannel (R : Type) where
  /-- Value of `sc_is_running()`. -/
  sc_is_running : Bool
  m_supplyVoltage : R
  /-- Number of `m_supplyVoltageChangedEvent.notify(SC_ZERO_TIME)` calls so far. -/
  m_supplyVoltageChangedEvent : Nat
  m_moduleNames : List String
  m_events : List (ModuleEventEntry R)
  m_eventRates : List Int
  m_states : List (ModuleStateEntry R)
  m_eventLogFileName : String
  m_stateLogFileName : String
  m_staticPowerLogFileName : String
  m_eventPowerLogFileName : String
  m_logTimestep : Nat
  m_eventLog : List (List Int)
  m_stateLog : List (List Int)
  m_staticPowerLog : List (List R)
  m_eventPowerLog : List (List R)
  files : FileSystem R

/-- How many log entries to save in memory before dumping to file. -/
def m_logDumpThreshold : Nat := 2

/-- How many static power log entries to average out. -/
def m_staticPowerAveragingFactor : Nat := 3

/-- How many event power log entries to average out. -/
def m_eventPowerAveragingFactor : Nat := 3

/-- Assignment through `v.back()`: the last entry of a non-empty vector is replaced. -/
def setBack {α : Type} (v : List α) (x : α) : List α := v.dropLast ++ [x]

/-- Name of a log file as the constructor computes it. -/
def logFileName (name logFilePath suffix : String) : String :=
  if logFilePath = "none" then "none" else logFilePath ++ "/" ++ name ++ suffix

/-- Constructor. The four log files are created empty unless the path is `"none"`;
the files are taken to be writable. -/
def PowerModelChannel.new {R : Type} [Zero R] (fs : FileSystem R) (name logFilePath : String)
    (logTimestep : Nat) : PowerModelChannel R :=
  let eventLogFileName := logFileName name logFilePath "_eventlog.csv"
  let stateLogFileName := logFileName name logFilePath "_statelog.csv"
  let staticPowerLogFileName := logFileName name logFilePath "_static_power_log.csv"
  let eventPowerLogFileName := logFileName name logFilePath "_event_power_log.csv"
  { sc_is_running := false
    m_supplyVoltage := 0
    m_supplyVoltageChangedEvent := 0
    m_moduleNames := []
    m_events := []
    m_eventRates := []
    m_states := []
    m_eventLogFileName := eventLogFileName
    m_stateLogFileName := stateLogFileName
    m_staticPowerLogFileName := staticPowerLogFileName
    m_eventPowerLogFileName := eventPowerLogFileName
    m_logTimestep := logTimestep
    m_eventLog := []
    m_stateLog := [[]]
    m_staticPowerLog := []
    m_eventPowerLog := []
    files :=
      if logFilePath ≠ "none" then
        (((fs.truncate eventLogFileName).truncate stateLogFileName).truncate
          staticPowerLogFileName).truncate eventPowerLogFileName
      else fs }

/-- Tail of `registerEvent` ("Add event to m_events"). -/
def PowerModelChannel.addEvent {R : Type} (s : PowerModelChannel R)
    (eventPtr : PowerModelEventBase R) (moduleId : Nat) :
    Except Error Nat × PowerModelChannel R :=
  let id := s.m_events.length
  let s1 := { s with m_events := s.m_events ++ [ModuleEventEntry.mk eventPtr moduleId],
                     m_eventRates := s.m_eventRates ++ [0] }
  if s1.m_events.length = s1.m_eventRates.length then (.ok id, s1)
  else (.error .assertion, s1)

/-- The member function `registerEvent`. -/
def PowerModelChannel.registerEvent {R : Type} (s : PowerModelChannel R) (moduleName : String)
    (eventPtr : PowerModelEventBase R) : Except Error Nat × PowerModelChannel R :=
  if s.sc_is_running then (.error .registrationAfterStart, s)
  else
    let it := s.m_moduleNames.indexOf moduleName
    if it = s.m_moduleNames.length then
      -- This is the first registration for this module
      let s1 := { s with m_moduleNames := s.m_moduleNames ++ [moduleName] }
      match s1.m_stateLog.getLast? with
      | none => (.error .undefinedBehaviour, s1)
      | some row =>
        PowerModelChannel.addEvent { s1 with m_stateLog := setBack s1.m_stateLog (row ++ [-1]) }
          eventPtr s.m_moduleNames.length
    else
      if s.m_events.any (fun e => e.event.name == eventPtr.name && e.moduleId == it) then
        (.error .duplicateName, s)
      else PowerModelChannel.addEvent s eventPtr it

/-- Tail of `registerState` ("Add state to m_states" and the default state). -/
def PowerModelChannel.addState {R : Type} (s : PowerModelChannel R)
    (statePtr : PowerModelStateBase R) (moduleId : Nat) :
    Except Error Nat × PowerModelChannel R :=
  let id := s.m_states.length
  let s1 := { s with m_states := s.m_states ++ [ModuleStateEntry.mk statePtr moduleId] }
  match s1.m_stateLog.getLast? with
  | none => (.error .undefinedBehaviour, s1)
  | some row =>
    match row[moduleId]? with
    | none => (.error .undefinedBehaviour, s1)
    | some cur =>
      if cur = -1 then
        (.ok id, { s1 with m_stateLog := setBack s1.m_stateLog (row.set moduleId (id : Int)) })
      else (.ok id, s1)

/-- The member function `registerState`. -/
def PowerModelChannel.registerState {R : Type} (s : PowerModelChannel R) (moduleName : String)
    (statePtr : PowerModelStateBase R) : Except Error Nat × PowerModelChannel R :=
  if s.sc_is_running then (.error .registrationAfterStart, s)
  else
    let it := s.m_moduleNames.indexOf moduleName
    if it = s.m_moduleNames.length then
      -- This is the first state registration for this module
      let s1 := { s with m_moduleNames := s.m_moduleNames ++ [moduleName] }
      match s1.m_stateLog.getLast? with
      | none => (.error .undefinedBehaviour, s1)
      | some row =>
        PowerModelChannel.addState { s1 with m_stateLog := setBack s1.m_stateLog (row ++ [-1]) }
          statePtr s.m_moduleNames.length
    else
      if s.m_states.any (fun e => e.state.name == statePtr.name && e.moduleId == it) then
        (.error .duplicateName, s)
      else PowerModelChannel.addState s statePtr it

/-- The member function `reportEvent`. The assertion compares `eventId` with the size of
the newest event-log row, as the source does. -/
def PowerModelChannel.reportEvent {R : Type} (s : PowerModelChannel R) (eventId : Nat)
    (n : Nat) : Except Error Unit × PowerModelChannel R :=
  if !s.sc_is_running then (.error .simulationNotRunning, s)
  else
    match s.m_eventLog.getLast? with
    | none => (.error .undefinedBehaviour, s)
    | some row =>
      if ¬ eventId < row.length then (.error .assertion, s)
      else
        match s.m_eventRates[eventId]? with
        | none => (.error .undefinedBehaviour, s)
        | some c =>
          let s1 := { s with m_eventRates := s.m_eventRates.set eventId (toInt32 (c + n)) }
          match row[eventId]? with
          | none => (.error .undefinedBehaviour, s1)
          | some x =>
            (.ok (), { s1 with
              m_eventLog := setBack s1.m_eventLog (row.set eventId (toInt32 (x + n))) })

/-- The member function `reportState`. -/
def PowerModelChannel.reportState {R : Type} (s : PowerModelChannel R) (stateId : Nat) :
    Except Error Unit × PowerModelChannel R :=
  if !s.sc_is_running then (.error .simulationNotRunning, s)
  else
    match s.m_states[stateId]? with
    | none => (.error .assertion, s)
    | some entry =>
      match s.m_stateLog.getLast? with
      | none => (.error .undefinedBehaviour, s)
      | some row =>
        if entry.moduleId < row.length then
          (.ok (), { s with
            m_stateLog := setBack s.m_stateLog (row.set entry.moduleId (stateId : Int)) })
        else (.error .undefinedBehaviour, s)

/-- The member function `popEventCount`. -/
def PowerModelChannel.popEventCount {R : Type} (s : PowerModelChannel R) (eventId : Nat) :
    Except Error Int × PowerModelChannel R :=
  match s.m_eventLog.getLast? with
  | none => (.error .undefinedBehaviour, s)
  | some row =>
    if ¬ eventId < row.length then (.error .assertion, s)
    else
      match s.m_eventRates[eventId]? with
      | none => (.error .undefinedBehaviour, s)
      | some tmp => (.ok tmp, { s with m_eventRates := s.m_eventRates.set eventId 0 })

/-- The member function `popEventEnergy`. -/
def PowerModelChannel.popEventEnergy {R : Type} [Mul R] [IntCast R] (s : PowerModelChannel R)
    (eventId : Nat) : Except Error R × PowerModelChannel R :=
  match s.m_eventLog.getLast? with
  | none => (.error .undefinedBehaviour, s)
  | some row =>
    if ¬ eventId < row.length then (.error .assertion, s)
    else
      match s.m_events[eventId]? with
      | none => (.error .undefinedBehaviour, s)
      | some entry =>
        match s.popEventCount eventId with
        | (.ok count, s1) =>
          (.ok (entry.event.calculateEnergy s.m_supplyVoltage * (count : R)), s1)
        | (.error err, s1) => (.error err, s1)

/-- Loop of `popDynamicEnergy` over the event ids still to visit. -/
def PowerModelChannel.popDynamicEnergyLoop {R : Type} [Add R] [Mul R] [IntCast R] :
    List Nat → R → PowerModelChannel R → Except Error R × PowerModelChannel R
  | [], result, s => (.ok result, s)
  | i :: rest, result, s =>
    match s.popEventEnergy i with
    | (.ok e, s1) => PowerModelChannel.popDynamicEnergyLoop rest (result + e) s1
    | (.error err, s1) => (.error err, s1)

/-- The member function `popDynamicEnergy`. -/
def PowerModelChannel.popDynamicEnergy {R : Type} [Zero R] [Add R] [Mul R] [IntCast R]
    (s : PowerModelChannel R) : Except Error R × PowerModelChannel R :=
  PowerModelChannel.popDynamicEnergyLoop (List.range s.m_events.length) 0 s

/-- The member function `setSupplyVoltage`. -/
def PowerModelChannel.setSupplyVoltage {R : Type} [DecidableEq R] (s : PowerModelChannel R)
    (val : R) : PowerModelChannel R :=
  if s.m_supplyVoltage ≠ val then
    { s with m_supplyVoltage := val,
             m_supplyVoltageChangedEvent := s.m_supplyVoltageChangedEvent + 1 }
  else s

/-- Lines that the "Values" loop of `dumpEventCsv` / `dumpStateCsv` writes: one line per
row, nothing at all for a row without entries. -/
def rowLines {R : Type} (log : List (List Int)) : FileContent R :=
  (log.filter (fun row => !row.isEmpty)).map (fun row => row.map Cell.int)

/-- Header line of the event log. Module ids of registered events are positions of
`m_moduleNames`, so the lookup stays inside the vector. -/
def PowerModelChannel.eventLogHeader {R : Type} (s : PowerModelChannel R) : List (Cell R) :=
  s.m_events.map (fun e => Cell.text (s.m_moduleNames.getD e.moduleId "" ++ " " ++ e.event.name))
    ++ [Cell.text "time(us)"]

/-- The member function `dumpEventCsv`. -/
def PowerModelChannel.dumpEventCsv {R : Type} (s : PowerModelChannel R) : PowerModelChannel R :=
  let header : FileContent R :=
    if (s.files s.m_eventLogFileName).isEmpty then [s.eventLogHeader] else []
  { s with files := s.files.append s.m_eventLogFileName (header ++ rowLines s.m_eventLog) }

/-- Legend and column header of the state log. -/
def PowerModelChannel.stateLogHeader {R : Type} (s : PowerModelChannel R) : FileContent R :=
  [[Cell.text "module", Cell.text "state", Cell.text "id"]]
    ++ (List.range s.m_states.length).zipWith
        (fun i e => [Cell.text (s.m_moduleNames.getD e.moduleId ""), Cell.text e.state.name,
                     Cell.int (i : Int)]) s.m_states
    ++ [[], []]
    ++ [s.m_moduleNames.map Cell.text ++ [Cell.text "time(us)"]]

/-- The member function `dumpStateCsv`. -/
def PowerModelChannel.dumpStateCsv {R : Type} (s : PowerModelChannel R) : PowerModelChannel R :=
  let header : FileContent R :=
    if (s.files s.m_stateLogFileName).isEmpty then s.stateLogHeader else []
  { s with files := s.files.append s.m_stateLogFileName (header ++ rowLines s.m_stateLog) }

/-- The statement `res[j] += row[j] / factor` for the leading entries of `row`. -/
def addScaled {R : Type} [Add R] [Div R] [IntCast R] (factor : Nat) : List R → List R → List R
  | r :: res, x :: row => (r + x / (((factor : Int) : R))) :: addScaled factor res row
  | res, _ => res

/-- Loop of `dumpStaticPowerCsv` / `dumpEventPowerCsv` over the buffered samples, from
sample `i` on: `res` is the running row, `out` the lines written so far. -/
def averageLoop {R : Type} [Zero R] [Add R] [Div R] [IntCast R] (factor size : Nat) :
    Nat → List (List R) → List R → FileContent R → Option (FileContent R)
  | _, [], _, out => some out
  | i, row :: rest, res, out =>
    if row.isEmpty || decide (res.length < row.length - 1) || res.isEmpty then none
    else
      -- Average values
      let res1 := addScaled factor res row.dropLast
      -- Dump
      let dump : Bool := (decide (0 < i) && i % factor == 0) || i == size - 1
      let out1 := if dump then out ++ [res1.map Cell.real] else out
      let res2 := if dump then res1.map (fun _ => (0 : R)) else res1
      -- Time stamp
      let res3 :=
        if i % factor == 0 then
          match row.getLast? with
          | some t => setBack res2 t
          | none => res2
        else res2
      averageLoop factor size (i + 1) rest res3 out1

/-- The member function `dumpStaticPowerCsv`. -/
def PowerModelChannel.dumpStaticPowerCsv {R : Type} [Zero R] [Add R] [Div R] [IntCast R]
    (s : PowerModelChannel R) : Except Error Unit × PowerModelChannel R :=
  let header : FileContent R :=
    if (s.files s.m_staticPowerLogFileName).isEmpty then
      [s.m_moduleNames.map Cell.text ++ [Cell.text "time(s)"]]
    else []
  let s1 := { s with files := s.files.append s.m_staticPowerLogFileName header }
  match s.m_stateLog.getLast? with
  | none => (.error .undefinedBehaviour, s1)
  | some back =>
    match averageLoop m_staticPowerAveragingFactor s.m_staticPowerLog.length 0
        s.m_staticPowerLog (List.replicate (back.length + 1) (0 : R)) [] with
    | none => (.error .undefinedBehaviour, s1)
    | some lines =>
      (.ok (), { s1 with files := s1.files.append s.m_staticPowerLogFileName lines })

/-- The member function `dumpEventPowerCsv`. -/
def PowerModelChannel.dumpEventPowerCsv {R : Type} [Zero R] [Add R] [Div R] [IntCast R]
    (s : PowerModelChannel R) : Except Error Unit × PowerModelChannel R :=
  let header : FileContent R :=
    if (s.files s.m_eventPowerLogFileName).isEmpty then
      [s.m_events.map (fun e => Cell.text e.event.name) ++ [Cell.text "time(s)"]]
    else []
  let s1 := { s with files := s.files.append s.m_eventPowerLogFileName header }
  match s.m_eventLog.getLast? with
  | none => (.error .undefinedBehaviour, s1)
  | some back =>
    match averageLoop m_eventPowerAveragingFactor s.m_eventPowerLog.length 0
        s.m_eventPowerLog (List.replicate (back.length + 1) (0 : R)) [] with
    | none => (.error .undefinedBehaviour, s1)
    | some lines =>
      (.ok (), { s1 with files := s1.files.append s.m_eventPowerLogFileName lines })

/-- First loop of `getStaticCurrent`: the entries logged for the module columns. The
state id is read as `int`, so the test `stateId >= 0` is effective here. -/
def PowerModelChannel.staticPowerEntries {R : Type} [Zero R] [Mul R] (s : PowerModelChannel R) :
    List Int → Option (List R)
  | [] => some []
  | stateId :: rest =>
    if 0 ≤ stateId then
      match s.m_states[stateId.toNat]? with
      | none => none
      | some e =>
        (PowerModelChannel.staticPowerEntries s rest).map
          (fun t => (s.m_supplyVoltage * e.state.calculateCurrent s.m_supplyVoltage) :: t)
    else (PowerModelChannel.staticPowerEntries s rest).map (fun t => (0 : R) :: t)

/-- The `std::accumulate` of `getStaticCurrent`. The lambda takes the state id as
`const unsigned int &`, so every column is converted with `toUInt32` before the test
`stateId >= 0` and before it indexes `m_states`. -/
def PowerModelChannel.staticCurrentSum {R : Type} [Add R] (s : PowerModelChannel R) :
    List Int → R → Option R
  | [], sum => some sum
  | stateId :: rest, sum =>
    if 0 ≤ toUInt32 stateId then
      match s.m_states[(toUInt32 stateId).toNat]? with
      | none => none
      | some e =>
        PowerModelChannel.staticCurrentSum s rest (sum + e.state.calculateCurrent s.m_supplyVoltage)
    else PowerModelChannel.staticCurrentSum s rest sum

/-- The member function `getStaticCurrent`, called at simulated time `now`. -/
def PowerModelChannel.getStaticCurrent {R : Type} [Zero R] [Add R] [Mul R] [Div R] [IntCast R]
    [SimTime R] (s : PowerModelChannel R) (now : Nat) : Except Error R × PowerModelChannel R :=
  match s.m_stateLog.getLast? with
  | none => (.error .undefinedBehaviour, s)
  | some back =>
    if back.isEmpty then (.error .undefinedBehaviour, s)
    else
      match s.staticPowerEntries back.dropLast with
      | none => (.error .undefinedBehaviour, s)
      | some entries =>
        -- the row has `back.size() + 1` entries: the module columns, one entry that stays
        -- 0.0, and the time stamp
        let sample := entries ++ [(0 : R), SimTime.to_seconds now]
        let s1 := { s with m_staticPowerLog := s.m_staticPowerLog ++ [sample] }
        let flushed : Except Error Unit × PowerModelChannel R :=
          if s1.m_staticPowerLog.length > m_logDumpThreshold then
            match s1.dumpStaticPowerCsv with
            | (.ok (), s2) => (.ok (), { s2 with m_staticPowerLog := [] })
            | (.error err, s2) => (.error err, s2)
          else (.ok (), s1)
        match flushed with
        | (.error err, s2) => (.error err, s2)
        | (.ok (), s2) =>
          match s2.staticCurrentSum back.dropLast 0 with
          | none => (.error .undefinedBehaviour, s2)
          | some total => (.ok total, s2)

/-- First loop of `getDynamicPower`: the dynamic power of the events `i, i+1, ...` from
the counts of the newest event-log row. -/
def PowerModelChannel.dynamicPowerEntries {R : Type} [Mul R] [Div R] [IntCast R] [SimTime R]
    (s : PowerModelChannel R) : Nat → List Int → Option (List R)
  | _, [] => some []
  | i, numberOfEvents :: rest =>
    match s.m_events[i]? with
    | none => none
    | some e =>
      (PowerModelChannel.dynamicPowerEntries s (i + 1) rest).map
        (fun t => ((numberOfEvents : R) * e.event.calculateEnergy s.m_supplyVoltage
                    / SimTime.to_seconds s.m_logTimestep) :: t)

/-- Second loop of `getDynamicPower`: the column `total` of the sample accumulates the
columns `i, i+1, ...` below `count`. -/
def totalLoop {R : Type} [Add R] (total count : Nat) : Nat → List R → Option (List R)
  | 0, sample => some sample
  | fuel + 1, sample =>
    let i := count - (fuel + 1)
    match sample[total]?, sample[i]? with
    | some t, some x => totalLoop total count fuel (sample.set total (t + x))
    | _, _ => none

/-- The member function `getDynamicPower`, called at simulated time `now`. -/
def PowerModelChannel.getDynamicPower {R : Type} [Zero R] [Add R] [Mul R] [Div R] [IntCast R]
    [SimTime R] (s : PowerModelChannel R) (now : Nat) : Except Error Unit × PowerModelChannel R :=
  match s.m_eventLog.getLast? with
  | none => (.error .undefinedBehaviour, s)
  | some back =>
    if back.isEmpty then (.error .undefinedBehaviour, s)
    else
      match s.dynamicPowerEntries 0 back.dropLast with
      | none => (.error .undefinedBehaviour, s)
      | some entries =>
        -- the row has `back.size() + 1` entries: the event columns, one entry that is 0.0
        -- so far, and the time stamp
        let sample0 := entries ++ [(0 : R), SimTime.to_seconds now]
        -- Total dynamic power in column past event dynamic powers
        match totalLoop s.m_events.length s.m_events.length s.m_events.length sample0 with
        | none => (.error .undefinedBehaviour, { s with m_eventPowerLog := s.m_eventPowerLog ++ [sample0] })
        | some sample =>
          let s1 := { s with m_eventPowerLog := s.m_eventPowerLog ++ [sample] }
          if s1.m_eventPowerLog.length > m_logDumpThreshold then
            match s1.dumpEventPowerCsv with
            | (.ok (), s2) => (.ok (), { s2 with m_eventPowerLog := [] })
            | (.error err, s2) => (.error err, s2)
          else (.ok (), s1)

/-- The callback `start_of_simulation` ("Initialize event and state log"). -/
def PowerModelChannel.start_of_simulation {R : Type} [SimTime R] (s : PowerModelChannel R) :
    Except Error Unit × PowerModelChannel R :=
  let s1 := { s with
    m_eventLog := s.m_eventLog ++
      [setBack (List.replicate (s.m_events.length + 1) (0 : Int))
        (SimTime.to_microseconds R s.m_logTimestep)] }
  match s1.m_stateLog.getLast? with
  | none => (.error .undefinedBehaviour, s1)
  | some row =>
    (.ok (), { s1 with
      m_stateLog := setBack s1.m_stateLog (row ++ [SimTime.to_microseconds R s.m_logTimestep]) })

/-- Step of the SystemC kernel between elaboration and simulation: the callback
`start_of_simulation` runs and, when it returns, `sc_is_running()` becomes true. -/
def PowerModelChannel.startSimulation {R : Type} [SimTime R] (s : PowerModelChannel R) :
    Except Error Unit × PowerModelChannel R :=
  match s.start_of_simulation with
  | (.ok (), s1) => (.ok (), { s1 with sc_is_running := true })
  | (.error err, s1) => (.error err, s1)

/-- Whether the thread `logLoop` returns at once ("Logging disabled."). -/
def PowerModelChannel.loggingDisabled {R : Type} (s : PowerModelChannel R) : Bool :=
  s.m_eventLogFileName == "none" || s.m_logTimestep == 0

/-- One pass through the body of the `while (1)` of `logLoop`, after `wait(m_logTimestep)`
has returned at simulated time `now`. -/
def PowerModelChannel.logLoopBody {R : Type} [SimTime R] (s : PowerModelChannel R) (now : Nat) :
    Except Error Unit × PowerModelChannel R :=
  -- Copy current state (excluding time stamp)
  match s.m_stateLog.getLast? with
  | none => (.error .undefinedBehaviour, s)
  | some currentState =>
    -- Dump file when log exceeds threshold
    let s1 :=
      if s.m_eventLog.length > m_logDumpThreshold then
        { s.dumpEventCsv.dumpStateCsv with m_eventLog := [], m_stateLog := [] }
      else s
    -- Push new timestep
    let s2 := { s1 with
      m_eventLog := s1.m_eventLog ++ [List.replicate (s1.m_events.length + 1) (0 : Int)],
      m_stateLog := s1.m_stateLog ++ [currentState] }
    -- Last column in the new row is the current time step
    if currentState.isEmpty then (.error .undefinedBehaviour, s2)
    else
      let ts := SimTime.to_microseconds R (s.m_logTimestep + now)
      (.ok (), { s2 with
        m_eventLog := s1.m_eventLog ++ [setBack (List.replicate (s1.m_events.length + 1) 0) ts],
        m_stateLog := s1.m_stateLog ++ [setBack currentState ts] })

/-- The thread `logLoop` resumed by the kernel at simulated time `now`: nothing happens
when logging is disabled (the thread has returned), otherwise one pass of the loop. -/
def PowerModelChannel.logLoop {R : Type} [SimTime R] (s : PowerModelChannel R) (now : Nat) :
    Except Error Unit × PowerModelChannel R :=
  if s.loggingDisabled then (.ok (), s) else s.logLoopBody now

/-- The destructor: the four dumps in the order of the source. -/
def PowerModelChannel.destroy {R : Type} [Zero R] [Add R] [Div R] [IntCast R]
    (s : PowerModelChannel R) : Except Error Unit × PowerModelChannel R :=
  match s.dumpEventCsv.dumpStateCsv.dumpStaticPowerCsv with
  | (.error err, s1) => (.error err, s1)
  | (.ok (), s1) => s1.dumpEventPowerCsv

/-! ## Sequences of calls -/

/-- Registration call of the elaboration phase. -/
inductive RegCall (R : Type) where
  | registerEvent (moduleName : String) (eventPtr : PowerModelEventBase R)
  | registerState (moduleName : String) (statePtr : PowerModelStateBase R)

/-- Module name a registration call is made under. -/
def RegCall.moduleName {R : Type} : RegCall R → String
  | .registerEvent moduleName _ => moduleName
  | .registerState moduleName _ => moduleName

/-- Outcome of one registration call. -/
def PowerModelChannel.register {R : Type} (s : PowerModelChannel R) :
    RegCall R → Except Error Nat × PowerModelChannel R
  | .registerEvent moduleName eventPtr => s.registerEvent moduleName eventPtr
  | .registerState moduleName statePtr => s.registerState moduleName statePtr

/-- State after a sequence of registration calls; a call that throws is caught by its
caller and the sequence goes on. -/
def PowerModelChannel.registerAll {R : Type} (s : PowerModelChannel R)
    (calls : List (RegCall R)) : PowerModelChannel R :=
  calls.foldl (fun t c => (t.register c).2) s

/-- Channel at the end of elaboration: constructed, then the registration calls made. -/
def PowerModelChannel.elaborated {R : Type} [Zero R] (fs : FileSystem R)
    (name logFilePath : String) (logTimestep : Nat) (regs : List (RegCall R)) :
    PowerModelChannel R :=
  (PowerModelChannel.new fs name logFilePath logTimestep).registerAll regs

/-- Channel at the start of the run phase: constructed, the registration calls made, the
simulation started. -/
def PowerModelChannel.started {R : Type} [Zero R] [SimTime R] (fs : FileSystem R)
    (name logFilePath : String) (logTimestep : Nat) (regs : List (RegCall R)) :
    PowerModelChannel R :=
  (PowerModelChannel.elaborated fs name logFilePath logTimestep regs).startSimulation.2

/-- Number of `registerEvent` calls of a sequence that return an id. -/
def PowerModelChannel.successfulEvents {R : Type} (s : PowerModelChannel R) :
    List (RegCall R) → Nat
  | [] => 0
  | .registerEvent moduleName eventPtr :: cs =>
    (match (s.registerEvent moduleName eventPtr).1 with
      | .ok _ => 1
      | .error _ => 0) +
      PowerModelChannel.successfulEvents (s.registerEvent moduleName eventPtr).2 cs
  | .registerState moduleName statePtr :: cs =>
    PowerModelChannel.successfulEvents (s.registerState moduleName statePtr).2 cs

/-- Number of `registerState` calls of a sequence that return an id. -/
def PowerModelChannel.successfulStates {R : Type} (s : PowerModelChannel R) :
    List (RegCall R) → Nat
  | [] => 0
  | .registerEvent moduleName eventPtr :: cs =>
    PowerModelChannel.successfulStates (s.registerEvent moduleName eventPtr).2 cs
  | .registerState moduleName statePtr :: cs =>
    (match (s.registerState moduleName statePtr).1 with
      | .ok _ => 1
      | .error _ => 0) +
      PowerModelChannel.successfulStates (s.registerState moduleName statePtr).2 cs

/-- Names of a list in the order of their first occurrence. -/
def firstOccurrences (names : List String) : List String :=
  names.foldl (fun acc n => if n ∈ acc then acc else acc ++ [n]) []

/-- Call of the run phase: reports, voltage changes, wake-ups of the periodic logger
and pops of single counters. -/
inductive RunCall (R : Type) where
  | reportEvent (eventId n : Nat)
  | reportState (stateId : Nat)
  | setSupplyVoltage (val : R)
  | logLoop (now : Nat)
  | popEventCount (eventId : Nat)

/-- Ids of a run-phase call are ids that registration has handed out. -/
def RunCall.Valid {R : Type} (events states : Nat) : RunCall R → Prop
  | .reportEvent eventId _ => eventId < events
  | .reportState stateId => stateId < states
  | .setSupplyVoltage _ => True
  | .logLoop _ => True
  | .popEventCount eventId => eventId < events

/-- Outcome of one run-phase call, the popped value dropped. -/
def PowerModelChannel.runCall {R : Type} [DecidableEq R] [SimTime R] (s : PowerModelChannel R) :
    RunCall R → Except Error Unit × PowerModelChannel R
  | .reportEvent eventId n => s.reportEvent eventId n
  | .reportState stateId => s.reportState stateId
  | .setSupplyVoltage val => (.ok (), s.setSupplyVoltage val)
  | .logLoop now => s.logLoop now
  | .popEventCount eventId =>
    match s.popEventCount eventId with
    | (.ok _, s1) => (.ok (), s1)
    | (.error err, s1) => (.error err, s1)

/-- A sequence of run-phase calls; the first call that fails ends the run. -/
def PowerModelChannel.runCalls {R : Type} [DecidableEq R] [SimTime R] :
    PowerModelChannel R → List (RunCall R) → Except Error Unit × PowerModelChannel R
  | s, [] => (.ok (), s)
  | s, c :: cs =>
    match s.runCall c with
    | (.ok (), s1) => PowerModelChannel.runCalls s1 cs
    | (.error err, s1) => (.error err, s1)

/-- Effect of one call on the number of occurrences of `eventId` reported and not yet
popped. -/
def pendingStep {R : Type} (eventId : Nat) (acc : Int) : RunCall R → Int
  | .reportEvent j n => if j = eventId then acc + (n : Int) else acc
  | .popEventCount j => if j = eventId then 0 else acc
  | _ => acc

/-- Sum of the `n` of the `reportEvent(eventId, n)` calls of a sequence that come after
its last `popEventCount(eventId)`. -/
def pendingCount {R : Type} (eventId : Nat) (calls : List (RunCall R)) : Int :=
  calls.foldl (pendingStep eventId) 0

/-- Clock used in the examples: time resolution 1 ps, real numbers are rationals. -/
instance instSimTimeRat : SimTime ℚ where
  to_seconds t := (t : ℚ) / 1000000000000
  to_microseconds t := ((t / 1000000 : Nat) : Int)

/-- Event of the examples: constant energy. -/
def ConstantEnergyEvent (name : String) (energy : ℚ) : PowerModelEventBase ℚ :=
  { name := name, calculateEnergy := fun _ => energy }

/-- State of the examples: constant current. -/
def ConstantCurrentState (name : String) (current : ℚ) : PowerModelStateBase ℚ :=
  { name := name, calculateCurrent := fun _ => current }

/-- Event of the examples whose energy is proportional to the supply voltage. -/
def VoltageScaledEvent (name : String) (factor : ℚ) : PowerModelEventBase ℚ :=
  { name := name, calculateEnergy := fun v => factor * v }

/-- Channel of the examples: logging to directory `"."` every microsecond. -/
def exampleChannel : PowerModelChannel ℚ :=
  PowerModelChannel.new (fun _ => []) "ch" "." 1000000

/-- Registrations of `examples/simple/main.cpp`. -/
def exampleRegistrations : List (RegCall ℚ) :=
  [.registerEvent "memory" (ConstantEnergyEvent "write" (1 / 1000)),
   .registerEvent "memory" (ConstantEnergyEvent "read" (5 / 100000)),
   .registerState "memory" (ConstantCurrentState "off" 0),
   .registerState "memory" (ConstantCurrentState "on" (1 / 10000))]

/-- Channel of the examples with the registrations of `examples/simple/main.cpp`. -/
def exampleRegistered : PowerModelChannel ℚ :=
  PowerModelChannel.elaborated (fun _ => []) "ch" "." 1000000 exampleRegistrations

/-- The registered example channel after the start of the simulation. -/
def exampleRunning : PowerModelChannel ℚ :=
  PowerModelChannel.started (fun _ => []) "ch" "." 1000000 exampleRegistrations

/-- Run of the examples: one report of `2^31` occurrences of event 0. -/
def exampleLargeReport : List (RunCall ℚ) := [.reportEvent 0 2147483648]

/-- Run of the examples: reports of both events around a pop, a state change, a voltage
change and a wake-up of the logger. -/
def exampleRun : List (RunCall ℚ) :=
  [.reportEvent 0 4, .reportEvent 1 7, .popEventCount 0, .reportEvent 0 2, .reportState 1,
   .setSupplyVoltage 2, .logLoop 1000000, .reportEvent 0 3, .reportEvent 1 1]

/-- Energy pending in the counters: the sum over the registered events, in increasing id
order, of the energy of the event at the present supply voltage times its counter (the
factors in the order of `popEventEnergy`). -/
def PowerModelChannel.pendingEnergy {R : Type} [Zero R] [Add R] [Mul R] [IntCast R]
    (s : PowerModelChannel R) : R :=
  (List.zip s.m_events s.m_eventRates).foldl
    (fun sum p => sum + p.1.event.calculateEnergy s.m_supplyVoltage * ((p.2 : Int) : R)) 0

/-- An event of that name is registered under that module name. -/
def PowerModelChannel.HasEvent {R : Type} (s : PowerModelChannel R)
    (moduleName eventName : String) : Prop :=
  ∃ x ∈ s.m_events, x.event.name = eventName ∧ s.m_moduleNames[x.moduleId]? = some moduleName

/-- A state of that name is registered under that module name. -/
def PowerModelChannel.HasState {R : Type} (s : PowerModelChannel R)
    (moduleName stateName : String) : Prop :=
  ∃ x ∈ s.m_states, x.state.name = stateName ∧ s.m_moduleNames[x.moduleId]? = some moduleName

/-- The errors that the channel signals to its caller by an exception. -/
def Error.Signalled (err : Error) : Prop :=
  err = .registrationAfterStart ∨ err = .duplicateName ∨ err = .simulationNotRunning

/-- Module id stored with the descriptor that a registration call was given `id` for. -/
def PowerModelChannel.storedModuleId {R : Type} (s : PowerModelChannel R) :
    RegCall R → Nat → Option Nat
  | .registerEvent _ _, id => (s.m_events[id]?).map (fun x => x.moduleId)
  | .registerState _ _, id => (s.m_states[id]?).map (fun x => x.moduleId)

/-- Registrations of the examples with a refused call among them: "write" twice under
"memory", then the state "off". -/
def exampleRegistrationsWithDuplicate : List (RegCall ℚ) :=
  [.registerEvent "memory" (ConstantEnergyEvent "write" (1 / 1000)),
   .registerEvent "memory" (ConstantEnergyEvent "write" (1 / 500)),
   .registerState "memory" (ConstantCurrentState "off" 0)]

/-- Registrations of the examples that follow `exampleRegistrationsWithDuplicate`. -/
def exampleLaterRegistrations : List (RegCall ℚ) :=
  [.registerEvent "memory" (ConstantEnergyEvent "read" (5 / 100000)),
   .registerState "memory" (ConstantCurrentState "on" (1 / 10000))]

/-- Registrations of the examples with two modules: `exampleRegistrationsWithDuplicate`,
then "cpu" and "memory" in turn. -/
def exampleTwoModules : List (RegCall ℚ) :=
  exampleRegistrationsWithDuplicate ++
    [.registerState "cpu" (ConstantCurrentState "off" 0),
     .registerEvent "memory" (ConstantEnergyEvent "read" (5 / 100000)),
     .registerEvent "cpu" (ConstantEnergyEvent "write" (1 / 250))]

/-! ## Invariants -/

/-- Distinctness of the pairs (module id, name) of the registered events. -/
def EventsUnique {R : Type} (events : List (ModuleEventEntry R)) : Prop :=
  events.Pairwise (fun a b => ¬ (a.moduleId = b.moduleId ∧ a.event.name = b.event.name))

/-- Distinctness of the pairs (module id, name) of the registered states. -/
def StatesUnique {R : Type} (states : List (ModuleStateEntry R)) : Prop :=
  states.Pairwise (fun a b => ¬ (a.moduleId = b.moduleId ∧ a.state.name = b.state.name))

/-- What holds of a channel during elaboration, between construction and the start of
the simulation. -/
structure PowerModelChannel.Elaborating {R : Type} (s : PowerModelChannel R) : Prop where
  notRunning : s.sc_is_running = false
  nodup : s.m_moduleNames.Nodup
  rates : s.m_eventRates.length = s.m_events.length
  eventLog : s.m_eventLog = []
  stateLog : ∃ row, s.m_stateLog = [row] ∧ row.length = s.m_moduleNames.length
  eventModule : ∀ e ∈ s.m_events, e.moduleId < s.m_moduleNames.length
  stateModule : ∀ e ∈ s.m_states, e.moduleId < s.m_moduleNames.length
  eventsUnique : EventsUnique s.m_events
  statesUnique : StatesUnique s.m_states
  ratesZero : ∀ c ∈ s.m_eventRates, c = 0

/-- What holds of a channel in the run phase. -/
structure PowerModelChannel.Running {R : Type} (s : PowerModelChannel R) : Prop where
  running : s.sc_is_running = true
  rates : s.m_eventRates.length = s.m_events.length
  eventLog : ∃ pre row, s.m_eventLog = pre ++ [row] ∧ row.length = s.m_events.length + 1
  stateLog : ∃ pre row, s.m_stateLog = pre ++ [row] ∧ row.length = s.m_moduleNames.length + 1
  stateModule : ∀ e ∈ s.m_states, e.moduleId < s.m_moduleNames.length

/-! ## Current states -/

/-- Current state of a module: its column of the newest state-log row
(`m_stateLog.back()[moduleId]`). -/
def PowerModelChannel.currentState {R : Type} (s : PowerModelChannel R) (moduleId : Nat) :
    Option Int :=
  match s.m_stateLog.getLast? with
  | none => none
  | some row => row[moduleId]?

/-- The value `v` is the default current state of module `k`: the id of the first state
registered with module id `k`, or -1 when no state is registered with it. -/
def IsDefaultState {R : Type} (states : List (ModuleStateEntry R)) (k : Nat) (v : Int) : Prop :=
  (v = -1 ∧ ∀ x ∈ states, x.moduleId ≠ k) ∨
  ∃ (i : Nat) (x : ModuleStateEntry R), v = (i : Int) ∧ states[i]? = some x ∧ x.moduleId = k ∧
    ∀ (j : Nat) (y : ModuleStateEntry R), j < i → states[j]? = some y → y.moduleId ≠ k

/-- Registrations of the examples with a module that registers events only: those of
`examples/simple/main.cpp`, then the event "transfer" of a module "bus". -/
def exampleWithEventOnlyModule : List (RegCall ℚ) :=
  exampleRegistrations ++ [.registerEvent "bus" (ConstantEnergyEvent "transfer" (1 / 4000))]

/-- Example channel constructed with the log path `"none"`, with the registrations of
`examples/simple/main.cpp`, after the start of the simulation. -/
def exampleNoLogging : PowerModelChannel ℚ :=
  PowerModelChannel.started (fun _ => []) "ch" "none" 1000000 exampleRegistrations

/-- Running example channel with a module "bus" that has registered events only. -/
def exampleRunningWithEventOnlyModule : PowerModelChannel ℚ :=
  PowerModelChannel.started (fun _ => []) "ch" "." 1000000 exampleWithEventOnlyModule

/-- Running example channel whose only module registers "on" (0.1 A) first, then "off". -/
def exampleRunningOnFirst : PowerModelChannel ℚ :=
  PowerModelChannel.started (fun _ => []) "ch" "." 1000000
    [.registerState "memory" (ConstantCurrentState "on" (1 / 10)),
     .registerState "memory" (ConstantCurrentState "off" 0)]

/-! ## Static current and samples -/

/-- Module columns of the newest state-log row: the row without its trailing time stamp. -/
def PowerModelChannel.moduleColumns {R : Type} (s : PowerModelChannel R) : List Int :=
  match s.m_stateLog.getLast? with
  | none => []
  | some row => row.dropLast

/-- Static current as the interface describes it: the sum, over the modules that have a
defined current state, of the current of that state at the present supply voltage; a
module whose column is negative (unset) contributes nothing. -/
def PowerModelChannel.staticCurrent {R : Type} [Zero R] [Add R] (s : PowerModelChannel R) : R :=
  s.moduleColumns.foldl
    (fun sum stateId =>
      if 0 ≤ stateId then
        match s.m_states[stateId.toNat]? with
        | some e => sum + e.state.calculateCurrent s.m_supplyVoltage
        | none => sum
      else sum) 0

/-- Every module has a current state: each module column of the newest state-log row is
the id of a registered state (state ids are `int`s: there are fewer than `2^31` states). -/
def PowerModelChannel.AllModulesSet {R : Type} (s : PowerModelChannel R) : Prop :=
  s.m_states.length < 2147483648 ∧
    ∀ v ∈ s.moduleColumns, 0 ≤ v ∧ v < (s.m_states.length : Int)

/-- Entry that `getStaticCurrent` logs for a module column: supply voltage times the
current of the state, 0 for an unset column. -/
def PowerModelChannel.staticPower {R : Type} [Zero R] [Mul R] (s : PowerModelChannel R)
    (stateId : Int) : R :=
  if 0 ≤ stateId then
    match s.m_states[stateId.toNat]? with
    | some e => s.m_supplyVoltage * e.state.calculateCurrent s.m_supplyVoltage
    | none => 0
  else 0

/-- Raw sample that a `getStaticCurrent` call at simulated time `now` puts in the
static-power buffer. -/
def PowerModelChannel.staticPowerSample {R : Type} [Zero R] [Mul R] [SimTime R]
    (s : PowerModelChannel R) (now : Nat) : List R :=
  s.moduleColumns.map s.staticPower ++ [0, SimTime.to_seconds now]

/-- Shape of the two sample buffers in the run phase: at most 2 rows wait in each, every
row of the static-power buffer has (number of modules + 2) entries and every row of the
event-power buffer (number of events + 2). -/
structure PowerModelChannel.Sampling {R : Type} (s : PowerModelChannel R) : Prop where
  staticRows : ∀ row ∈ s.m_staticPowerLog, row.length = s.m_moduleNames.length + 2
  staticBound : s.m_staticPowerLog.length ≤ 2
  eventRows : ∀ row ∈ s.m_eventPowerLog, row.length = s.m_events.length + 2
  eventBound : s.m_eventPowerLog.length ≤ 2

/-- A line of a power log: not empty, every field a real number. -/
def RealLine {R : Type} (line : List (Cell R)) : Prop :=
  line ≠ [] ∧ ∀ c ∈ line, ∃ x, c = Cell.real x

/-- Running example channel at a supply voltage of 2 V with the module "memory" reported
"on" (0.0001 A). -/
def exampleOnAtTwoVolts : PowerModelChannel ℚ :=
  ((exampleRunning.setSupplyVoltage 2).reportState 1).2

/-! ## The event log and the state log as sequences of rows -/

/-- Effect of one run-phase call on the rows of the event log, read as one growing
sequence (written and buffered rows together): a report is added to the newest row, a
wake-up of the enabled logger opens a new row of zeros stamped with the end of its
interval. -/
def eventRowsStep {R : Type} [SimTime R] (events logTimestep : Nat) (enabled : Bool)
    (rows : List (List Int)) : RunCall R → List (List Int)
  | .reportEvent eventId n =>
    match rows.getLast? with
    | some row => setBack rows (row.set eventId (toInt32 (row.getD eventId 0 + (n : Int))))
    | none => rows
  | .logLoop now =>
    if enabled then
      rows ++ [List.replicate events (0 : Int) ++ [SimTime.to_microseconds R (logTimestep + now)]]
    else rows
  | _ => rows

/-- Rows of the event log that a run creates, in creation order with their final counts. -/
def eventRows {R : Type} [SimTime R] (events logTimestep : Nat) (enabled : Bool)
    (start : List (List Int)) (calls : List (RunCall R)) : List (List Int) :=
  calls.foldl (eventRowsStep events logTimestep enabled) start

/-- Effect of one run-phase call on the rows of the state log, read as one growing
sequence: a state report sets the column of its module in the newest row, a wake-up of the
enabled logger opens a new row that copies the newest one and is stamped with the end of
its interval. -/
def stateRowsStep {R : Type} [SimTime R] (states : List (ModuleStateEntry R))
    (logTimestep : Nat) (enabled : Bool) (rows : List (List Int)) : RunCall R → List (List Int)
  | .reportState stateId =>
    match rows.getLast?, states[stateId]? with
    | some row, some e => setBack rows (row.set e.moduleId (stateId : Int))
    | _, _ => rows
  | .logLoop now =>
    if enabled then
      match rows.getLast? with
      | some row => rows ++ [setBack row (SimTime.to_microseconds R (logTimestep + now))]
      | none => rows
    else rows
  | _ => rows

/-- Rows of the state log that a run creates, in creation order with their final entries. -/
def stateRows {R : Type} [SimTime R] (states : List (ModuleStateEntry R)) (logTimestep : Nat)
    (enabled : Bool) (start : List (List Int)) (calls : List (RunCall R)) : List (List Int) :=
  calls.foldl (stateRowsStep states logTimestep enabled) start

/-- Sum of one column over a sequence of rows. -/
def columnSum (column : Nat) (rows : List (List Int)) : Int :=
  (rows.map (fun row => row.getD column 0)).sum

/-- Occurrences that one call reports for event `eventId`. -/
def reportedBy {R : Type} (eventId : Nat) : RunCall R → Nat
  | .reportEvent j n => if j = eventId then n else 0
  | _ => 0

/-- Total of the `n` of the `reportEvent(eventId, n)` calls of a sequence. -/
def reportedTotal {R : Type} (eventId : Nat) (calls : List (RunCall R)) : Nat :=
  (calls.map (reportedBy eventId)).sum

/-- Whether a call is a wake-up of the periodic logger. -/
def RunCall.isLogLoop {R : Type} : RunCall R → Bool
  | .logLoop _ => true
  | _ => false

/-- Number of wake-ups of the periodic logger in a sequence of calls. -/
def loggerSteps {R : Type} (calls : List (RunCall R)) : Nat :=
  (calls.filter RunCall.isLogLoop).length

/-- The four log files of the channel are four different files. -/
structure PowerModelChannel.DistinctLogFiles {R : Type} (s : PowerModelChannel R) : Prop where
  eventState : s.m_eventLogFileName ≠ s.m_stateLogFileName
  eventStatic : s.m_eventLogFileName ≠ s.m_staticPowerLogFileName
  eventPower : s.m_eventLogFileName ≠ s.m_eventPowerLogFileName
  stateStatic : s.m_stateLogFileName ≠ s.m_staticPowerLogFileName
  statePower : s.m_stateLogFileName ≠ s.m_eventPowerLogFileName
  staticPower : s.m_staticPowerLogFileName ≠ s.m_eventPowerLogFileName

/-- Fields that no call of the run phase changes: the registry, the file names and the
logging interval. -/
structure PowerModelChannel.SameSetup {R : Type} (base s : PowerModelChannel R) : Prop where
  events : s.m_events = base.m_events
  states : s.m_states = base.m_states
  moduleNames : s.m_moduleNames = base.m_moduleNames
  eventName : s.m_eventLogFileName = base.m_eventLogFileName
  stateName : s.m_stateLogFileName = base.m_stateLogFileName
  staticName : s.m_staticPowerLogFileName = base.m_staticPowerLogFileName
  powerName : s.m_eventPowerLogFileName = base.m_eventPowerLogFileName
  timestep : s.m_logTimestep = base.m_logTimestep

/-- Relation between the channel `s` reached from `base` and the rows `evRows`, `stRows`
created so far: the rows `flushedE`, `flushedS` are in the files, after the header, and
the others wait in the buffers. -/
structure PowerModelChannel.LogInv {R : Type} (base s : PowerModelChannel R)
    (evRows stRows flushedE flushedS : List (List Int)) : Prop where
  running : s.Running
  setup : base.SameSetup s
  eventRows : flushedE ++ s.m_eventLog = evRows
  stateRows : flushedS ++ s.m_stateLog = stRows
  flushedLength : flushedE.length = flushedS.length
  bufferLength : s.m_eventLog.length = s.m_stateLog.length
  eventNonempty : ∀ r ∈ evRows, r ≠ []
  stateNonempty : ∀ r ∈ stRows, r ≠ []
  eventFile : s.files base.m_eventLogFileName =
    if flushedE = [] then base.files base.m_eventLogFileName
    else base.eventLogHeader :: flushedE.map (List.map Cell.int)
  stateFile : s.files base.m_stateLogFileName =
    if flushedS = [] then base.files base.m_stateLogFileName
    else base.stateLogHeader ++ flushedS.map (List.map Cell.int)
  otherFiles : ∀ f, f ≠ base.m_eventLogFileName → f ≠ base.m_stateLogFileName →
    s.files f = base.files f
  disabled : base.loggingDisabled = true → flushedE = []
  staticLog : s.m_staticPowerLog = base.m_staticPowerLog
  powerLog : s.m_eventPowerLog = base.m_eventPowerLog

/-- Fields that elaboration does not change: the file names, the logging interval, the
files and the two sample buffers. -/
structure PowerModelChannel.SameOutput {R : Type} (base s : PowerModelChannel R) : Prop where
  eventName : s.m_eventLogFileName = base.m_eventLogFileName
  stateName : s.m_stateLogFileName = base.m_stateLogFileName
  staticName : s.m_staticPowerLogFileName = base.m_staticPowerLogFileName
  powerName : s.m_eventPowerLogFileName = base.m_eventPowerLogFileName
  timestep : s.m_logTimestep = base.m_logTimestep
  files : s.files = base.files
  staticLog : s.m_staticPowerLog = base.m_staticPowerLog
  powerLog : s.m_eventPowerLog = base.m_eventPowerLog

/-- Run of the examples with three wake-ups of the logger (the third one flushes the
buffers) and reports in the first, second and fourth interval. -/
def exampleLoggedRun : List (RunCall ℚ) :=
  [.reportEvent 0 4, .logLoop 1000000, .reportState 1, .reportEvent 1 7, .logLoop 2000000,
   .logLoop 3000000, .reportEvent 0 1]

/-! ## Averaged rows of the power logs -/

/-- Average of three raw samples as the logger is described: in every value column the
arithmetic mean `(x + y + z) / 3` of the three entries, in the last column the time stamp
of the first sample. The rows that the code writes are `windowRow3` below; the two agree
where the arithmetic is exact. -/
def meanRow {R : Type} [Add R] [Div R] [IntCast R] (a b c : List R) : List R :=
  List.zipWith3 (fun x y z => (x + y + z) / ((3 : Int) : R)) a.dropLast b.dropLast c.dropLast
    ++ a.getLast?.toList

/-- Averaged rows of a sequence of raw samples as the logger is described: one `meanRow`
for every three consecutive samples. -/
def meanRows {R : Type} [Add R] [Div R] [IntCast R] : List (List R) → List (List R)
  | a :: b :: c :: rest => meanRow a b c :: meanRows rest
  | _ => []

/-- Row written for a window of three raw samples, with the operations of the dump loop
in their order and no law of arithmetic assumed: in every value column the three entries,
each divided by 3, added one after the other to 0 (`res[j] += row[j] / 3` on a row of
zeros); in the last column the time stamp of the first sample. -/
def windowRow3 {R : Type} [Zero R] [Add R] [Div R] [IntCast R] (a b c : List R) : List R :=
  List.zipWith3
      (fun x y z => 0 + x / ((3 : Int) : R) + y / ((3 : Int) : R) + z / ((3 : Int) : R))
      a.dropLast b.dropLast c.dropLast
    ++ a.getLast?.toList

/-- Rows written for a sequence of raw samples taken three by three: one `windowRow3` for
every three consecutive samples. -/
def fullWindowRows {R : Type} [Zero R] [Add R] [Div R] [IntCast R] :
    List (List R) → List (List R)
  | a :: b :: c :: rest => windowRow3 a b c :: fullWindowRows rest
  | _ => []

/-- Relation between the raw samples taken so far, the sample buffer and the power-log
file: the samples before the buffered ones have been written, three by three, as rows
after the header. -/
structure SampleInv {R : Type} [Zero R] [Add R] [Div R] [IntCast R] (width : Nat)
    (header : List (Cell R)) (samples buffer : List (List R)) (file : FileContent R) :
    Prop where
  split : ∃ flushed, samples = flushed ++ buffer ∧ flushed.length % 3 = 0 ∧
    file =
      if flushed.isEmpty then [] else header :: (fullWindowRows flushed).map (List.map Cell.real)
  bound : buffer.length ≤ 2
  rows : ∀ r ∈ samples, r.length = width

/-! ## Runs with sampling calls -/

/-- Call of the run phase, the sampling calls and the energy pops included. -/
inductive SimCall (R : Type) where
  | run (c : RunCall R)
  | popEventEnergy (eventId : Nat)
  | popDynamicEnergy
  | getStaticCurrent (now : Nat)
  | getDynamicPower (now : Nat)

/-- Ids of a call are ids that registration has handed out. -/
def SimCall.Valid {R : Type} (events states : Nat) : SimCall R → Prop
  | .run c => c.Valid events states
  | .popEventEnergy eventId => eventId < events
  | .popDynamicEnergy => True
  | .getStaticCurrent _ => True
  | .getDynamicPower _ => True

/-- Outcome of one call, the returned value dropped. -/
def PowerModelChannel.simCall {R : Type} [Zero R] [Add R] [Mul R] [Div R] [IntCast R]
    [DecidableEq R] [SimTime R] (s : PowerModelChannel R) :
    SimCall R → Except Error Unit × PowerModelChannel R
  | .run c => s.runCall c
  | .popEventEnergy eventId =>
    match s.popEventEnergy eventId with
    | (.ok _, s1) => (.ok (), s1)
    | (.error err, s1) => (.error err, s1)
  | .popDynamicEnergy =>
    match s.popDynamicEnergy with
    | (.ok _, s1) => (.ok (), s1)
    | (.error err, s1) => (.error err, s1)
  | .getStaticCurrent now =>
    match s.getStaticCurrent now with
    | (.ok _, s1) => (.ok (), s1)
    | (.error err, s1) => (.error err, s1)
  | .getDynamicPower now => s.getDynamicPower now

/-- A sequence of calls; the first call that fails ends the run. -/
def PowerModelChannel.simCalls {R : Type} [Zero R] [Add R] [Mul R] [Div R] [IntCast R]
    [DecidableEq R] [SimTime R] :
    PowerModelChannel R → List (SimCall R) → Except Error Unit × PowerModelChannel R
  | s, [] => (.ok (), s)
  | s, c :: cs =>
    match s.simCall c with
    | (.ok (), s1) => PowerModelChannel.simCalls s1 cs
    | (.error err, s1) => (.error err, s1)

/-- Raw sample that a `getDynamicPower` call at simulated time `now` puts in the
event-power buffer: the row after its total column is filled. -/
def PowerModelChannel.dynamicPowerSample {R : Type} [Zero R] [Add R] [Mul R] [Div R]
    [IntCast R] [SimTime R] (s : PowerModelChannel R) (now : Nat) : List R :=
  match s.m_eventLog.getLast? with
  | none => []
  | some back =>
    match s.dynamicPowerEntries 0 back.dropLast with
    | none => []
    | some entries =>
      match totalLoop s.m_events.length s.m_events.length s.m_events.length
          (entries ++ [(0 : R), SimTime.to_seconds now]) with
      | none => []
      | some sample => sample

/-- Raw static-power sample that one call takes in the state `s`: one for a
`getStaticCurrent` call, none for another call. -/
def PowerModelChannel.staticSampleOf {R : Type} [Zero R] [Mul R] [SimTime R]
    (s : PowerModelChannel R) : SimCall R → List (List R)
  | .getStaticCurrent now => [s.staticPowerSample now]
  | _ => []

/-- Raw dynamic-power sample that one call takes in the state `s`: one for a
`getDynamicPower` call, none for another call. -/
def PowerModelChannel.dynamicSampleOf {R : Type} [Zero R] [Add R] [Mul R] [Div R] [IntCast R]
    [SimTime R] (s : PowerModelChannel R) : SimCall R → List (List R)
  | .getDynamicPower now => [s.dynamicPowerSample now]
  | _ => []

/-- Raw static-power samples of a run, in the order of the `getStaticCurrent` calls. -/
def PowerModelChannel.staticSamples {R : Type} [Zero R] [Add R] [Mul R] [Div R] [IntCast R]
    [DecidableEq R] [SimTime R] : PowerModelChannel R → List (SimCall R) → List (List R)
  | _, [] => []
  | s, c :: cs => s.staticSampleOf c ++ PowerModelChannel.staticSamples (s.simCall c).2 cs

/-- Raw dynamic-power samples of a run, in the order of the `getDynamicPower` calls. -/
def PowerModelChannel.dynamicSamples {R : Type} [Zero R] [Add R] [Mul R] [Div R] [IntCast R]
    [DecidableEq R] [SimTime R] : PowerModelChannel R → List (SimCall R) → List (List R)
  | _, [] => []
  | s, c :: cs => s.dynamicSampleOf c ++ PowerModelChannel.dynamicSamples (s.simCall c).2 cs

/-- Header line of the static-power log. -/
def PowerModelChannel.staticPowerHeader {R : Type} (s : PowerModelChannel R) : List (Cell R) :=
  s.m_moduleNames.map Cell.text ++ [Cell.text "time(s)"]

/-- Header line of the event-power log. -/
def PowerModelChannel.eventPowerHeader {R : Type} (s : PowerModelChannel R) : List (Cell R) :=
  s.m_events.map (fun e => Cell.text e.event.name) ++ [Cell.text "time(s)"]

/-- Relation between the channel `s` reached from `base` and the raw samples taken so far:
both sample buffers and both power-log files are as `SampleInv` says. -/
structure PowerModelChannel.PowerInv {R : Type} [Zero R] [Add R] [Div R] [IntCast R]
    (base s : PowerModelChannel R) (stSamples dynSamples : List (List R)) : Prop where
  running : s.Running
  setup : base.SameSetup s
  static : SampleInv (base.m_moduleNames.length + 2) base.staticPowerHeader stSamples
    s.m_staticPowerLog (s.files base.m_staticPowerLogFileName)
  dynamic : SampleInv (base.m_events.length + 2) base.eventPowerHeader dynSamples
    s.m_eventPowerLog (s.files base.m_eventPowerLogFileName)

/-- Run of the examples with three `getStaticCurrent` and three `getDynamicPower` calls
at 2 V, reports in between. -/
def exampleSampledRun : List (SimCall ℚ) :=
  [.run (.setSupplyVoltage 2), .getStaticCurrent 0, .run (.reportEvent 0 3),
   .getDynamicPower 0, .getStaticCurrent 1000000, .run (.reportState 1),
   .getStaticCurrent 2000000, .getDynamicPower 1000000, .popDynamicEnergy,
   .getDynamicPower 2000000]

/-- Running example channel after `reportEvent(0, 4)` and `reportState(1)`. -/
def exampleReported : PowerModelChannel ℚ :=
  (exampleRunning.runCalls [.reportEvent 0 4, .reportState 1]).2

/-! ## Dynamic power samples -/

/-- Event columns of the newest event-log row: the row without its trailing time stamp. -/
def PowerModelChannel.eventCounts {R : Type} (s : PowerModelChannel R) : List Int :=
  match s.m_eventLog.getLast? with
  | none => []
  | some row => row.dropLast

/-- Dynamic power of an event that occurred `count` times in the logging interval:
count times the energy of the event at the present supply voltage, divided by the logging
interval in seconds. -/
def PowerModelChannel.dynamicPower {R : Type} [Mul R] [Div R] [IntCast R] [SimTime R]
    (s : PowerModelChannel R) (count : Int) (e : ModuleEventEntry R) : R :=
  (count : R) * e.event.calculateEnergy s.m_supplyVoltage / SimTime.to_seconds s.m_logTimestep

/-- Raw dynamic-power row as the interface describes it: the dynamic power of every
registered event, their sum (added up from 0 in increasing id order), the time of the
sample in seconds. -/
def PowerModelChannel.dynamicPowerRow {R : Type} [Zero R] [Add R] [Mul R] [Div R] [IntCast R]
    [SimTime R] (s : PowerModelChannel R) (now : Nat) : List R :=
  List.zipWith s.dynamicPower s.eventCounts s.m_events ++
    [(List.zipWith s.dynamicPower s.eventCounts s.m_events).foldl (fun a b => a + b) 0,
      SimTime.to_seconds now]

/-! ## Well-formed current states -/

/-- The entry `v` of column `k` of a state-log row is well formed: it is the unset marker
-1, or the id of a registered state that belongs to module `k`. -/
def WellFormedEntry {R : Type} (states : List (ModuleStateEntry R)) (k : Nat) (v : Int) :
    Prop :=
  v = -1 ∨ ∃ e : ModuleStateEntry R, 0 ≤ v ∧ states[v.toNat]? = some e ∧ e.moduleId = k

/-- Every module column of a state-log row is well formed. -/
def WellFormedRow {R : Type} (states : List (ModuleStateEntry R)) (modules : Nat)
    (row : List Int) : Prop :=
  ∀ k, k < modules → ∃ v, row[k]? = some v ∧ WellFormedEntry states k v

/-- The two row buffers of the periodic logger go together and stay small: they hold the
same number of rows, at most 3. -/
structure PowerModelChannel.BoundedLogs {R : Type} (s : PowerModelChannel R) : Prop where
  sameLength : s.m_eventLog.length = s.m_stateLog.length
  bound : s.m_eventLog.length ≤ 3

/-- The channels `s` and `t` differ at most in the two sample buffers and in the files. -/
structure PowerModelChannel.SameCore {R : Type} (s t : PowerModelChannel R) : Prop where
  running : t.sc_is_running = s.sc_is_running
  supplyVoltage : t.m_supplyVoltage = s.m_supplyVoltage
  notified : t.m_supplyVoltageChangedEvent = s.m_supplyVoltageChangedEvent
  moduleNames : t.m_moduleNames = s.m_moduleNames
  events : t.m_events = s.m_events
  eventRates : t.m_eventRates = s.m_eventRates
  states : t.m_states = s.m_states
  eventName : t.m_eventLogFileName = s.m_eventLogFileName
  stateName : t.m_stateLogFileName = s.m_stateLogFileName
  staticName : t.m_staticPowerLogFileName = s.m_staticPowerLogFileName
  powerName : t.m_eventPowerLogFileName = s.m_eventPowerLogFileName
  timestep : t.m_logTimestep = s.m_logTimestep
  eventLog : t.m_eventLog = s.m_eventLog
  stateLog : t.m_stateLog = s.m_stateLog

/-- Run of the examples with reports, five wake-ups of the logger (the third one flushes
the row buffers) and one sample of each kind. -/
def exampleMixedRun : List (SimCall ℚ) :=
  [.run (.reportEvent 0 4), .run (.logLoop 1000000), .run (.reportState 1),
   .run (.logLoop 2000000), .run (.logLoop 3000000), .getStaticCurrent 3000000,
   .getDynamicPower 3000000, .run (.reportEvent 1 7), .run (.logLoop 4000000),
   .popDynamicEnergy, .run (.logLoop 5000000)]

/-- Run of the examples with one `getStaticCurrent` and one `getDynamicPower` call, both
at 5 us, at 2 V with "memory" reported "on" and four "write" events. -/
def exampleOneSampleRun : List (SimCall ℚ) :=
  [.run (.setSupplyVoltage 2), .run (.reportState 1), .run (.reportEvent 0 4),
   .getStaticCurrent 5000000, .getDynamicPower 5000000]

/-- Run of the examples with two `getStaticCurrent` calls, at 5 us and at 6 us. -/
def exampleTwoSampleRun : List (SimCall ℚ) :=
  [.run (.setSupplyVoltage 2), .run (.reportState 1), .getStaticCurrent 5000000,
   .getStaticCurrent 6000000]

/-! ## Rows of the power logs for any number of samples -/

/-- Model of the C++ type `double` (IEEE 754 binary64) for its finite values: the value is
`mantissa * 2 ^ exponent`, with mantissa 0 and exponent 0 for zero and
`2 ^ 52 ≤ |mantissa| < 2 ^ 53` otherwise. Not modelled: infinities, NaN, the sign of zero,
and the bounds of the exponent (no overflow, no subnormal numbers). -/
structure Double where
  mantissa : Int
  exponent : Int
deriving DecidableEq

/-- Number of binary digits of `n` (the first argument bounds the recursion). -/
def Double.bitLength : Nat → Nat → Nat
  | 0, _ => 0
  | fuel + 1, n => if n = 0 then 0 else Double.bitLength fuel (n / 2) + 1

/-- Largest `l` with `2 ^ l ≤ n / d`, for positive `n` and `d`. -/
def Double.floorLog2 (n d : Nat) : Int :=
  let l : Int := (Double.bitLength n n : Int) - (Double.bitLength d d : Int)
  if (if 0 ≤ l then decide (n < d * 2 ^ l.toNat) else decide (n * 2 ^ (-l).toNat < d))
  then l - 1 else l

/-- Rounding of the exact value `n / d * 2 ^ s` to a `double`: to the nearest value with a
53-bit mantissa, a tie to the even mantissa (the default rounding mode). -/
def Double.round (n : Int) (d : Nat) (s : Int) : Double :=
  if n = 0 ∨ d = 0 then ⟨0, 0⟩
  else
    let a := n.natAbs
    let e := Double.floorLog2 a d - 52
    let num := if e < 0 then a * 2 ^ (-e).toNat else a
    let den := if e < 0 then d else d * 2 ^ e.toNat
    let q := num / den
    let r := num % den
    let m := if 2 * r < den then q else if den < 2 * r then q + 1
             else if q % 2 = 0 then q else q + 1
    let m1 := if m = 2 ^ 53 then 2 ^ 52 else m
    let e1 := if m = 2 ^ 53 then e + 1 else e
    ⟨if n < 0 then -(m1 : Int) else (m1 : Int), e1 + s⟩

/-- The value `0.0`. -/
instance instZeroDouble : Zero Double := ⟨⟨0, 0⟩⟩

/-- Addition of `double`: the exact sum, rounded. -/
instance instAddDouble : Add Double where
  add x y :=
    let e := min x.exponent y.exponent
    Double.round (x.mantissa * 2 ^ (x.exponent - e).toNat
      + y.mantissa * 2 ^ (y.exponent - e).toNat) 1 e

/-- Multiplication of `double`: the exact product, rounded. -/
instance instMulDouble : Mul Double where
  mul x y := Double.round (x.mantissa * y.mantissa) 1 (x.exponent + y.exponent)

/-- Division of `double`: the exact quotient, rounded. A division by zero, whose result is
an infinity or NaN, is outside the model and gives 0 here. -/
instance instDivDouble : Div Double where
  div x y := Double.round (if y.mantissa < 0 then -x.mantissa else x.mantissa)
    y.mantissa.natAbs (x.exponent - y.exponent)

/-- Conversion of an integer to `double`. -/
instance instIntCastDouble : IntCast Double := ⟨fun n => Double.round n 1 0⟩

/-- Conversion `static_cast<int>` of a `double`: truncation toward zero (a value outside
the range of `int` is not reduced). -/
def Double.toInt (x : Double) : Int :=
  if 0 ≤ x.exponent then x.mantissa * 2 ^ x.exponent.toNat
  else Int.tdiv x.mantissa (2 ^ (-x.exponent).toNat)

/-- Clock of the examples in `double`: time resolution 1 ps, `to_seconds` the number of
picoseconds divided by `1e12`. -/
instance instSimTimeDouble : SimTime Double where
  to_seconds t := ((t : Int) : Double) / ((1000000000000 : Int) : Double)
  to_microseconds t :=
    Double.toInt (((t : Int) : Double) / ((1000000000000 : Int) : Double)
      * ((1000000 : Int) : Double))

/-- Exact value of a `double`, as a rational number. -/
def Double.toRat (x : Double) : ℚ := (x.mantissa : ℚ) * (2 : ℚ) ^ x.exponent

/-- Current of the examples in `double`: the literal `1.500055`, that is the `double`
nearest to 1500055/1000000, `0x1.80039abf33871p+0`. -/
def exampleDoubleCurrent : Double := Double.round 1500055 1000000 0

/-- Running channel of the examples in `double`: one module "memory" with the one state
"on" of constant current `1.500055`, logging to directory `"."` every microsecond. -/
def exampleDoubleRunning : PowerModelChannel Double :=
  PowerModelChannel.started (fun _ => []) "ch" "." 1000000
    [.registerState "memory" { name := "on", calculateCurrent := fun _ => exampleDoubleCurrent }]

/-- Rows of a power log against its raw samples, for `3 * m` samples: there are `m` rows
of `valueColumns + 1` entries, and row `j` holds in every value column the entries of the
raw samples `3j`, `3j+1`, `3j+2`, each divided by 3, added in this order to 0, and in the
time-stamp column (the column after the value columns) the time stamp of raw sample
`3j`. -/
def AveragedInThrees {R : Type} [Zero R] [Add R] [Div R] [IntCast R] (valueColumns m : Nat)
    (samples rows : List (List R)) : Prop :=
  rows.length = m ∧
  ∀ j, j < m →
    (rows.getD j []).length = valueColumns + 1 ∧
    (∀ col, col < valueColumns →
      (rows.getD j []).getD col 0 =
        0 + (samples.getD (3 * j) []).getD col 0 / ((3 : Int) : R)
          + (samples.getD (3 * j + 1) []).getD col 0 / ((3 : Int) : R)
          + (samples.getD (3 * j + 2) []).getD col 0 / ((3 : Int) : R)) ∧
    (rows.getD j []).getD valueColumns 0 = (samples.getD (3 * j) []).getD valueColumns 0

/-- Run of the examples in `double`: the supply voltage set to `1.0`, then three
`getStaticCurrent` calls at time 0. -/
def exampleDoubleThreeSamples : List (SimCall Double) :=
  [.run (.setSupplyVoltage ((1 : Int) : Double)), .getStaticCurrent 0, .getStaticCurrent 0,
   .getStaticCurrent 0]

/-! ## Lemmas -/

variable {R : Type}

theorem getLast?_snoc {α : Type} (pre : List α) (x : α) : (pre ++ [x]).getLast? = some x := by
  simp

theorem new_elaborating [Zero R] (fs : FileSystem R) (name logFilePath : String)
    (logTimestep : Nat) : (PowerModelChannel.new fs name logFilePath logTimestep).Elaborating := by
  constructor <;> simp [PowerModelChannel.new, EventsUnique, StatesUnique]

/-- Outcome of `registerEvent` for a module name that is new. -/
theorem registerEvent_new {s : PowerModelChannel R} (h : s.Elaborating) (m : String)
    (e : PowerModelEventBase R) (hm : m ∉ s.m_moduleNames) :
    ∃ row, s.m_stateLog = [row] ∧ s.registerEvent m e = (.ok s.m_events.length,
      { s with m_moduleNames := s.m_moduleNames ++ [m],
               m_stateLog := [row ++ [-1]],
               m_events := s.m_events ++ [ModuleEventEntry.mk e s.m_moduleNames.length],
               m_eventRates := s.m_eventRates ++ [0] }) := by
  obtain ⟨row, hrow, -⟩ := h.stateLog
  refine ⟨row, hrow, ?_⟩
  have hidx : s.m_moduleNames.indexOf m = s.m_moduleNames.length := List.indexOf_eq_length.2 hm
  simp [PowerModelChannel.registerEvent, h.notRunning, hidx, hrow, PowerModelChannel.addEvent,
    h.rates, setBack]

/-- Outcome of `registerEvent` for a known module that has an event of that name. -/
theorem registerEvent_duplicate {s : PowerModelChannel R} (h : s.Elaborating) (m : String)
    (e : PowerModelEventBase R) (hm : m ∈ s.m_moduleNames)
    (hdup : ∃ x ∈ s.m_events, x.event.name = e.name ∧ x.moduleId = s.m_moduleNames.indexOf m) :
    s.registerEvent m e = (.error .duplicateName, s) := by
  have hidx : ¬ s.m_moduleNames.indexOf m = s.m_moduleNames.length := by
    rw [List.indexOf_eq_length]; simpa using hm
  obtain ⟨x, hx, hname, hid⟩ := hdup
  have hany : (s.m_events.any fun a =>
      a.event.name == e.name && a.moduleId == s.m_moduleNames.indexOf m) = true := by
    rw [List.any_eq_true]
    exact ⟨x, hx, by simp [hname, hid]⟩
  simp [PowerModelChannel.registerEvent, h.notRunning, hidx, hany]

/-- Outcome of `registerEvent` for a known module that has no event of that name. -/
theorem registerEvent_known {s : PowerModelChannel R} (h : s.Elaborating) (m : String)
    (e : PowerModelEventBase R) (hm : m ∈ s.m_moduleNames)
    (hnew : ¬ ∃ x ∈ s.m_events, x.event.name = e.name ∧ x.moduleId = s.m_moduleNames.indexOf m) :
    s.registerEvent m e = (.ok s.m_events.length,
      { s with m_events := s.m_events ++ [ModuleEventEntry.mk e (s.m_moduleNames.indexOf m)],
               m_eventRates := s.m_eventRates ++ [0] }) := by
  have hidx : ¬ s.m_moduleNames.indexOf m = s.m_moduleNames.length := by
    rw [List.indexOf_eq_length]; simpa using hm
  have hany : (s.m_events.any fun a =>
      a.event.name == e.name && a.moduleId == s.m_moduleNames.indexOf m) = false := by
    rw [Bool.eq_false_iff]
    intro hc
    rw [List.any_eq_true] at hc
    obtain ⟨x, hx, hc⟩ := hc
    exact hnew ⟨x, hx, by simpa using hc⟩
  simp [PowerModelChannel.registerEvent, h.notRunning, hidx, hany, PowerModelChannel.addEvent,
    h.rates]

/-- Outcome of `registerState` for a module name that is new. -/
theorem registerState_new {s : PowerModelChannel R} (h : s.Elaborating) (m : String)
    (e : PowerModelStateBase R) (hm : m ∉ s.m_moduleNames) :
    ∃ row, s.m_stateLog = [row] ∧ s.registerState m e = (.ok s.m_states.length,
      { s with m_moduleNames := s.m_moduleNames ++ [m],
               m_stateLog := [row ++ [(s.m_states.length : Int)]],
               m_states := s.m_states ++ [ModuleStateEntry.mk e s.m_moduleNames.length] }) := by
  obtain ⟨row, hrow, hlen⟩ := h.stateLog
  refine ⟨row, hrow, ?_⟩
  have hidx : s.m_moduleNames.indexOf m = s.m_moduleNames.length := List.indexOf_eq_length.2 hm
  simp [PowerModelChannel.registerState, h.notRunning, hidx, hrow, PowerModelChannel.addState,
    setBack, ← hlen]

/-- Outcome of `registerState` for a known module that has a state of that name. -/
theorem registerState_duplicate {s : PowerModelChannel R} (h : s.Elaborating) (m : String)
    (e : PowerModelStateBase R) (hm : m ∈ s.m_moduleNames)
    (hdup : ∃ x ∈ s.m_states, x.state.name = e.name ∧ x.moduleId = s.m_moduleNames.indexOf m) :
    s.registerState m e = (.error .duplicateName, s) := by
  have hidx : ¬ s.m_moduleNames.indexOf m = s.m_moduleNames.length := by
    rw [List.indexOf_eq_length]; simpa using hm
  obtain ⟨x, hx, hname, hid⟩ := hdup
  have hany : (s.m_states.any fun a =>
      a.state.name == e.name && a.moduleId == s.m_moduleNames.indexOf m) = true := by
    rw [List.any_eq_true]
    exact ⟨x, hx, by simp [hname, hid]⟩
  simp [PowerModelChannel.registerState, h.notRunning, hidx, hany]

/-- Outcome of `registerState` for a known module that has no state of that name. -/
theorem registerState_known {s : PowerModelChannel R} (h : s.Elaborating) (m : String)
    (e : PowerModelStateBase R) (hm : m ∈ s.m_moduleNames)
    (hnew : ¬ ∃ x ∈ s.m_states, x.state.name = e.name ∧ x.moduleId = s.m_moduleNames.indexOf m) :
    ∃ row, s.m_stateLog = [row] ∧ s.registerState m e = (.ok s.m_states.length,
      { s with m_states := s.m_states ++ [ModuleStateEntry.mk e (s.m_moduleNames.indexOf m)],
               m_stateLog :=
                 [if row[s.m_moduleNames.indexOf m]? = some (-1)
                  then row.set (s.m_moduleNames.indexOf m) (s.m_states.length : Int)
                  else row] }) := by
  obtain ⟨row, hrow, hlen⟩ := h.stateLog
  refine ⟨row, hrow, ?_⟩
  have hidx : ¬ s.m_moduleNames.indexOf m = s.m_moduleNames.length := by
    rw [List.indexOf_eq_length]; simpa using hm
  have hlt : s.m_moduleNames.indexOf m < row.length := by
    rw [hlen]; exact List.indexOf_lt_length.2 hm
  have hany : (s.m_states.any fun a =>
      a.state.name == e.name && a.moduleId == s.m_moduleNames.indexOf m) = false := by
    rw [Bool.eq_false_iff]
    intro hc
    rw [List.any_eq_true] at hc
    obtain ⟨x, hx, hc⟩ := hc
    exact hnew ⟨x, hx, by simpa using hc⟩
  have hget : row[s.m_moduleNames.indexOf m]? = some row[s.m_moduleNames.indexOf m] :=
    List.getElem?_eq_getElem hlt
  simp only [PowerModelChannel.registerState, h.notRunning, hidx, hany,
    PowerModelChannel.addState, hrow, hget]
  by_cases hc : row[s.m_moduleNames.indexOf m] = -1
  · simp [hc, setBack, hrow, hlt]
  · simp [hc, setBack, hrow, hlt]

theorem registerEvent_elaborating {s : PowerModelChannel R} (h : s.Elaborating) (m : String)
    (e : PowerModelEventBase R) : (s.registerEvent m e).2.Elaborating := by
  by_cases hm : m ∈ s.m_moduleNames
  · by_cases hdup : ∃ x ∈ s.m_events, x.event.name = e.name ∧
        x.moduleId = s.m_moduleNames.indexOf m
    · rw [registerEvent_duplicate h m e hm hdup]
      exact h
    · rw [registerEvent_known h m e hm hdup]
      refine ⟨h.notRunning, h.nodup, ?_, h.eventLog, h.stateLog, ?_, h.stateModule, ?_,
        h.statesUnique, ?_⟩
      · simp [h.rates]
      · intro x hx
        simp only [List.mem_append, List.mem_singleton] at hx
        rcases hx with hx | hx
        · exact h.eventModule x hx
        · subst hx
          exact List.indexOf_lt_length.2 hm
      · simp only [EventsUnique, List.pairwise_append, List.pairwise_singleton,
          List.mem_singleton, forall_eq, true_and]
        refine ⟨h.eventsUnique, ?_⟩
        intro a ha hc
        exact hdup ⟨a, ha, hc.2, hc.1⟩
      · intro c hc
        simp only [List.mem_append, List.mem_singleton] at hc
        rcases hc with hc | hc
        · exact h.ratesZero c hc
        · exact hc
  · obtain ⟨row, hrow, heq⟩ := registerEvent_new h m e hm
    obtain ⟨row2, hrow2, hlen⟩ := h.stateLog
    rw [hrow] at hrow2
    have hrr : row = row2 := by simpa using hrow2
    subst hrr
    rw [heq]
    refine ⟨h.notRunning, ?_, ?_, h.eventLog, ⟨row ++ [-1], rfl, ?_⟩, ?_, ?_, ?_,
      h.statesUnique, ?_⟩
    · simpa [List.nodup_append] using ⟨h.nodup, hm⟩
    · simp [h.rates]
    · simp [hlen]
    · intro x hx
      simp only [List.mem_append, List.mem_singleton] at hx
      rcases hx with hx | hx
      · have := h.eventModule x hx
        simp only [List.length_append, List.length_singleton]
        omega
      · subst hx
        simp
    · intro x hx
      have := h.stateModule x hx
      simp only [List.length_append, List.length_singleton]
      omega
    · simp only [EventsUnique, List.pairwise_append, List.pairwise_singleton,
        List.mem_singleton, forall_eq, true_and]
      refine ⟨h.eventsUnique, ?_⟩
      intro a ha hc
      have := h.eventModule a ha
      omega
    · intro c hc
      simp only [List.mem_append, List.mem_singleton] at hc
      rcases hc with hc | hc
      · exact h.ratesZero c hc
      · exact hc

theorem registerState_elaborating {s : PowerModelChannel R} (h : s.Elaborating) (m : String)
    (e : PowerModelStateBase R) : (s.registerState m e).2.Elaborating := by
  by_cases hm : m ∈ s.m_moduleNames
  · by_cases hdup : ∃ x ∈ s.m_states, x.state.name = e.name ∧
        x.moduleId = s.m_moduleNames.indexOf m
    · rw [registerState_duplicate h m e hm hdup]
      exact h
    · obtain ⟨row, hrow, heq⟩ := registerState_known h m e hm hdup
      obtain ⟨row2, hrow2, hlen⟩ := h.stateLog
      rw [hrow] at hrow2
      have hrr : row = row2 := by simpa using hrow2
      subst hrr
      rw [heq]
      refine ⟨h.notRunning, h.nodup, h.rates, h.eventLog, ⟨_, rfl, ?_⟩, h.eventModule, ?_,
        h.eventsUnique, ?_, h.ratesZero⟩
      · split_ifs <;> simp [hlen]
      · intro x hx
        simp only [List.mem_append, List.mem_singleton] at hx
        rcases hx with hx | hx
        · exact h.stateModule x hx
        · subst hx
          exact List.indexOf_lt_length.2 hm
      · simp only [StatesUnique, List.pairwise_append, List.pairwise_singleton,
          List.mem_singleton, forall_eq, true_and]
        refine ⟨h.statesUnique, ?_⟩
        intro a ha hc
        exact hdup ⟨a, ha, hc.2, hc.1⟩
  · obtain ⟨row, hrow, heq⟩ := registerState_new h m e hm
    obtain ⟨row2, hrow2, hlen⟩ := h.stateLog
    rw [hrow] at hrow2
    have hrr : row = row2 := by simpa using hrow2
    subst hrr
    rw [heq]
    refine ⟨h.notRunning, ?_, h.rates, h.eventLog, ⟨_, rfl, ?_⟩, ?_, ?_, h.eventsUnique, ?_,
      h.ratesZero⟩
    · simpa [List.nodup_append] using ⟨h.nodup, hm⟩
    · simp [hlen]
    · intro x hx
      have := h.eventModule x hx
      simp only [List.length_append, List.length_singleton]
      omega
    · intro x hx
      simp only [List.mem_append, List.mem_singleton] at hx
      rcases hx with hx | hx
      · have := h.stateModule x hx
        simp only [List.length_append, List.length_singleton]
        omega
      · subst hx
        simp
    · simp only [StatesUnique, List.pairwise_append, List.pairwise_singleton,
        List.mem_singleton, forall_eq, true_and]
      refine ⟨h.statesUnique, ?_⟩
      intro a ha hc
      have := h.stateModule a ha
      omega

theorem register_elaborating {s : PowerModelChannel R} (h : s.Elaborating) (c : RegCall R) :
    (s.register c).2.Elaborating := by
  cases c with
  | registerEvent m e => exact registerEvent_elaborating h m e
  | registerState m e => exact registerState_elaborating h m e

theorem registerAll_elaborating (calls : List (RegCall R)) {s : PowerModelChannel R}
    (h : s.Elaborating) : (s.registerAll calls).Elaborating := by
  induction calls generalizing s with
  | nil => exact h
  | cons c cs ih => exact ih (register_elaborating h c)

theorem toInt32_add (acc : Int) (n : Nat) : toInt32 (toInt32 acc + n) = toInt32 (acc + n) := by
  unfold toInt32
  omega

theorem toInt32_of_range {x : Int} (h0 : -2147483648 ≤ x) (h1 : x < 2147483648) :
    toInt32 x = x := by
  unfold toInt32
  omega

theorem setBack_replicate (n : Nat) (x : Int) :
    setBack (List.replicate (n + 1) (0 : Int)) x = List.replicate n 0 ++ [x] := by
  simp [setBack, List.dropLast_replicate]

/-- Outcome of the start of the simulation after elaboration. -/
theorem startSimulation_eq [SimTime R] {s : PowerModelChannel R} (h : s.Elaborating) :
    ∃ row, s.m_stateLog = [row] ∧ row.length = s.m_moduleNames.length ∧
      s.startSimulation = (.ok (),
        { s with sc_is_running := true,
                 m_eventLog := [List.replicate s.m_events.length 0 ++
                   [SimTime.to_microseconds R s.m_logTimestep]],
                 m_stateLog := [row ++ [SimTime.to_microseconds R s.m_logTimestep]] }) := by
  obtain ⟨row, hrow, hlen⟩ := h.stateLog
  refine ⟨row, hrow, hlen, ?_⟩
  simp [PowerModelChannel.startSimulation, PowerModelChannel.start_of_simulation, hrow,
    h.eventLog, setBack_replicate, setBack]

/-- The start of the simulation after elaboration establishes the run-phase invariant. -/
theorem startSimulation_running [SimTime R] {s : PowerModelChannel R} (h : s.Elaborating) :
    s.startSimulation.1 = .ok () ∧ s.startSimulation.2.Running ∧
      s.startSimulation.2.m_events = s.m_events ∧
      s.startSimulation.2.m_states = s.m_states ∧
      s.startSimulation.2.m_moduleNames = s.m_moduleNames ∧
      s.startSimulation.2.m_eventRates = s.m_eventRates := by
  obtain ⟨row, hrow, hlen, heq⟩ := startSimulation_eq h
  rw [heq]
  refine ⟨rfl, ⟨rfl, h.rates, ⟨[], _, rfl, ?_⟩, ⟨[], _, rfl, ?_⟩, h.stateModule⟩, rfl, rfl, rfl,
    rfl⟩
  · simp
  · simp [hlen]

/-- Outcome of `reportEvent` in the run phase for the id of a registered event. -/
theorem reportEvent_running {s : PowerModelChannel R} (h : s.Running) {eventId : Nat}
    (hid : eventId < s.m_events.length) (n : Nat) :
    ∃ pre row c x, s.m_eventLog = pre ++ [row] ∧ row.length = s.m_events.length + 1 ∧
      s.m_eventRates[eventId]? = some c ∧ row[eventId]? = some x ∧
      s.reportEvent eventId n = (.ok (),
        { s with m_eventRates := s.m_eventRates.set eventId (toInt32 (c + n)),
                 m_eventLog := pre ++ [row.set eventId (toInt32 (x + n))] }) := by
  obtain ⟨pre, row, hlog, hlen⟩ := h.eventLog
  have h1 : eventId < s.m_eventRates.length := by rw [h.rates]; exact hid
  have h2 : eventId < row.length := by omega
  refine ⟨pre, row, s.m_eventRates[eventId], row[eventId], hlog, hlen,
    List.getElem?_eq_getElem h1, List.getElem?_eq_getElem h2, ?_⟩
  simp [PowerModelChannel.reportEvent, h.running, hlog, h2, h1, setBack]

/-- Outcome of `reportState` in the run phase for the id of a registered state. -/
theorem reportState_running {s : PowerModelChannel R} (h : s.Running) {stateId : Nat}
    (hid : stateId < s.m_states.length) :
    ∃ pre row entry, s.m_stateLog = pre ++ [row] ∧ row.length = s.m_moduleNames.length + 1 ∧
      s.m_states[stateId]? = some entry ∧ entry.moduleId < s.m_moduleNames.length ∧
      s.reportState stateId = (.ok (),
        { s with m_stateLog := pre ++ [row.set entry.moduleId (stateId : Int)] }) := by
  obtain ⟨pre, row, hlog, hlen⟩ := h.stateLog
  have hmem : s.m_states[stateId] ∈ s.m_states := List.getElem_mem hid
  have hmod := h.stateModule _ hmem
  have h2 : s.m_states[stateId].moduleId < row.length := by omega
  refine ⟨pre, row, s.m_states[stateId], hlog, hlen, List.getElem?_eq_getElem hid, hmod, ?_⟩
  simp [PowerModelChannel.reportState, h.running, hlog, hid, h2, setBack]

/-- Outcome of `popEventCount` in the run phase for the id of a registered event. -/
theorem popEventCount_running {s : PowerModelChannel R} (h : s.Running) {eventId : Nat}
    (hid : eventId < s.m_events.length) :
    ∃ c, s.m_eventRates[eventId]? = some c ∧
      s.popEventCount eventId = (.ok c, { s with m_eventRates := s.m_eventRates.set eventId 0 }) := by
  obtain ⟨pre, row, hlog, hlen⟩ := h.eventLog
  have h1 : eventId < s.m_eventRates.length := by rw [h.rates]; exact hid
  have h2 : eventId < row.length := by omega
  refine ⟨s.m_eventRates[eventId], List.getElem?_eq_getElem h1, ?_⟩
  simp [PowerModelChannel.popEventCount, hlog, h2, h1]

/-- Outcome of one pass of the logger loop when the newest state-log row exists and is
not empty. -/
theorem logLoopBody_eq [SimTime R] {s : PowerModelChannel R} {pre : List (List Int)}
    {row : List Int} (hlog : s.m_stateLog = pre ++ [row]) (hne : row ≠ []) (now : Nat) :
    s.logLoopBody now = (.ok (),
      if s.m_eventLog.length > m_logDumpThreshold then
        { s.dumpEventCsv.dumpStateCsv with
          m_eventLog := [List.replicate s.m_events.length 0 ++
            [SimTime.to_microseconds R (s.m_logTimestep + now)]],
          m_stateLog := [setBack row (SimTime.to_microseconds R (s.m_logTimestep + now))] }
      else
        { s with
          m_eventLog := s.m_eventLog ++ [List.replicate s.m_events.length 0 ++
            [SimTime.to_microseconds R (s.m_logTimestep + now)]],
          m_stateLog := s.m_stateLog ++
            [setBack row (SimTime.to_microseconds R (s.m_logTimestep + now))] }) := by
  have hne2 : row.isEmpty = false := by
    cases row with
    | nil => exact absurd rfl hne
    | cons a t => rfl
  unfold PowerModelChannel.logLoopBody
  rw [hlog, getLast?_snoc]
  simp only [hne2, setBack_replicate]
  by_cases ht : s.m_eventLog.length > m_logDumpThreshold
  · simp only [ht, if_true]
    simp [PowerModelChannel.dumpStateCsv, PowerModelChannel.dumpEventCsv]
  · simp only [ht, if_false]
    simp [hlog]

/-- A wake-up of the periodic logger in the run phase succeeds, keeps the run-phase
invariant and touches neither the registry nor the pop counters. -/
theorem logLoop_running [SimTime R] {s : PowerModelChannel R} (h : s.Running) (now : Nat) :
    (s.logLoop now).1 = .ok () ∧ (s.logLoop now).2.Running ∧
      (s.logLoop now).2.m_events = s.m_events ∧
      (s.logLoop now).2.m_states = s.m_states ∧
      (s.logLoop now).2.m_moduleNames = s.m_moduleNames ∧
      (s.logLoop now).2.m_eventRates = s.m_eventRates := by
  obtain ⟨pre, row, hlog, hlen⟩ := h.stateLog
  have hne : row ≠ [] := by
    intro hc
    rw [hc] at hlen
    simp at hlen
  have hsb : ∀ x : Int, (setBack row x).length = s.m_moduleNames.length + 1 := by
    intro x
    have : 0 < row.length := by omega
    simp only [setBack, List.length_append, List.length_dropLast, List.length_singleton]
    omega
  unfold PowerModelChannel.logLoop
  by_cases hd : s.loggingDisabled = true
  · rw [if_pos hd]
    exact ⟨rfl, h, rfl, rfl, rfl, rfl⟩
  · rw [if_neg hd, logLoopBody_eq hlog hne]
    by_cases ht : s.m_eventLog.length > m_logDumpThreshold
    · rw [if_pos ht]
      exact ⟨rfl, ⟨h.running, h.rates, ⟨[], _, rfl,
        by simp [PowerModelChannel.dumpStateCsv, PowerModelChannel.dumpEventCsv]⟩,
        ⟨[], _, rfl, hsb _⟩, h.stateModule⟩, rfl, rfl, rfl, rfl⟩
    · rw [if_neg ht]
      exact ⟨rfl, ⟨h.running, h.rates, ⟨_, _, rfl, by simp⟩, ⟨_, _, rfl, hsb _⟩,
        h.stateModule⟩, rfl, rfl, rfl, rfl⟩

theorem setSupplyVoltage_running [DecidableEq R] {s : PowerModelChannel R} (h : s.Running)
    (val : R) :
    (s.setSupplyVoltage val).Running ∧ (s.setSupplyVoltage val).m_events = s.m_events ∧
      (s.setSupplyVoltage val).m_states = s.m_states ∧
      (s.setSupplyVoltage val).m_moduleNames = s.m_moduleNames ∧
      (s.setSupplyVoltage val).m_eventRates = s.m_eventRates := by
  unfold PowerModelChannel.setSupplyVoltage
  split_ifs
  · exact ⟨⟨h.running, h.rates, h.eventLog, h.stateLog, h.stateModule⟩, rfl, rfl, rfl, rfl⟩
  · exact ⟨h, rfl, rfl, rfl, rfl⟩

/-- One valid call of the run phase: it succeeds, keeps the invariant and the registry,
and moves the counter of every event as `pendingStep` says. -/
theorem runCall_running [DecidableEq R] [SimTime R] {s : PowerModelChannel R} (h : s.Running)
    (c : RunCall R) (hv : c.Valid s.m_events.length s.m_states.length) :
    (s.runCall c).1 = .ok () ∧ (s.runCall c).2.Running ∧
      (s.runCall c).2.m_events = s.m_events ∧
      (s.runCall c).2.m_states = s.m_states ∧
      (s.runCall c).2.m_moduleNames = s.m_moduleNames ∧
      ∀ id acc, s.m_eventRates[id]? = some (toInt32 acc) →
        (s.runCall c).2.m_eventRates[id]? = some (toInt32 (pendingStep id acc c)) := by
  cases c with
  | reportEvent j n =>
    obtain ⟨pre, row, c, x, hlog, hlen, hc, hx, heq⟩ := reportEvent_running h hv n
    have hr : s.runCall (.reportEvent j n) = _ := heq
    rw [hr]
    refine ⟨rfl, ⟨h.running, ?_, ⟨pre, _, rfl, ?_⟩, h.stateLog, h.stateModule⟩, rfl, rfl, rfl, ?_⟩
    · simp [h.rates]
    · simp [hlen]
    · intro id acc hacc
      have hj : j < s.m_eventRates.length := by rw [h.rates]; exact hv
      by_cases hji : j = id
      · subst hji
        rw [hc] at hacc
        have hca : c = toInt32 acc := by simpa using hacc
        simp [pendingStep, hj, hca, toInt32_add]
      · simp [pendingStep, hji, List.getElem?_set, hacc]
  | reportState j =>
    obtain ⟨pre, row, entry, hlog, hlen, he, hm, heq⟩ := reportState_running h hv
    have hr : s.runCall (.reportState j) = _ := heq
    rw [hr]
    refine ⟨rfl, ⟨h.running, h.rates, h.eventLog, ⟨pre, _, rfl, ?_⟩, h.stateModule⟩, rfl, rfl, rfl,
      ?_⟩
    · simp [hlen]
    · intro id acc hacc
      simpa [pendingStep] using hacc
  | setSupplyVoltage v =>
    obtain ⟨h1, h2, h3, h4, h5⟩ := setSupplyVoltage_running h v
    refine ⟨rfl, h1, h2, h3, h4, ?_⟩
    intro id acc hacc
    simp only [PowerModelChannel.runCall, h5, pendingStep]
    exact hacc
  | logLoop now =>
    obtain ⟨h0, h1, h2, h3, h4, h5⟩ := logLoop_running h now
    refine ⟨h0, h1, h2, h3, h4, ?_⟩
    intro id acc hacc
    simp only [PowerModelChannel.runCall, h5, pendingStep]
    exact hacc
  | popEventCount j =>
    obtain ⟨c, hc, heq⟩ := popEventCount_running h hv
    have hr : s.runCall (.popEventCount j) =
        (.ok (), { s with m_eventRates := s.m_eventRates.set j 0 }) := by
      simp only [PowerModelChannel.runCall, heq]
    rw [hr]
    refine ⟨rfl, ⟨h.running, ?_, h.eventLog, h.stateLog, h.stateModule⟩, rfl, rfl, rfl, ?_⟩
    · simp [h.rates]
    · intro id acc hacc
      have hj : j < s.m_eventRates.length := by rw [h.rates]; exact hv
      by_cases hji : j = id
      · subst hji
        simp [pendingStep, hj, toInt32]
      · simp [pendingStep, hji, List.getElem?_set, hacc]

/-- A sequence of valid calls of the run phase. -/
theorem runCalls_running [DecidableEq R] [SimTime R] (calls : List (RunCall R))
    {s : PowerModelChannel R} (h : s.Running)
    (hv : ∀ c ∈ calls, c.Valid s.m_events.length s.m_states.length) :
    (s.runCalls calls).1 = .ok () ∧ (s.runCalls calls).2.Running ∧
      (s.runCalls calls).2.m_events = s.m_events ∧
      (s.runCalls calls).2.m_states = s.m_states ∧
      (s.runCalls calls).2.m_moduleNames = s.m_moduleNames ∧
      ∀ id acc, s.m_eventRates[id]? = some (toInt32 acc) →
        (s.runCalls calls).2.m_eventRates[id]? =
          some (toInt32 (calls.foldl (pendingStep id) acc)) := by
  induction calls generalizing s with
  | nil => exact ⟨rfl, h, rfl, rfl, rfl, fun _ _ hacc => hacc⟩
  | cons c cs ih =>
    obtain ⟨h0, h1, h2, h3, h4, h5⟩ := runCall_running h c (hv c (List.mem_cons_self _ _))
    have hv2 : ∀ d ∈ cs, d.Valid (s.runCall c).2.m_events.length
        (s.runCall c).2.m_states.length := by
      intro d hd
      rw [h2, h3]
      exact hv d (List.mem_cons_of_mem _ hd)
    obtain ⟨i0, i1, i2, i3, i4, i5⟩ := ih h1 hv2
    have hstep : s.runCalls (c :: cs) = (s.runCall c).2.runCalls cs := by
      rw [PowerModelChannel.runCalls]
      cases hr : s.runCall c with
      | mk r t =>
        rw [hr] at h0
        simp only at h0
        subst h0
        rfl
    rw [hstep]
    refine ⟨i0, i1, i2.trans h2, i3.trans h3, i4.trans h4, ?_⟩
    intro id acc hacc
    exact i5 id _ (h5 id acc hacc)

theorem elaborated_elaborating [Zero R] (fs : FileSystem R) (name logFilePath : String)
    (logTimestep : Nat) (regs : List (RegCall R)) :
    (PowerModelChannel.elaborated fs name logFilePath logTimestep regs).Elaborating :=
  registerAll_elaborating regs (new_elaborating fs name logFilePath logTimestep)

theorem started_running [Zero R] [SimTime R] (fs : FileSystem R) (name logFilePath : String)
    (logTimestep : Nat) (regs : List (RegCall R)) :
    (PowerModelChannel.started fs name logFilePath logTimestep regs).Running :=
  (startSimulation_running (elaborated_elaborating fs name logFilePath logTimestep regs)).2.1

theorem started_ratesZero [Zero R] [SimTime R] (fs : FileSystem R) (name logFilePath : String)
    (logTimestep : Nat) (regs : List (RegCall R)) {eventId : Nat}
    (hid : eventId < (PowerModelChannel.started fs name logFilePath logTimestep regs).m_events.length) :
    (PowerModelChannel.started fs name logFilePath logTimestep regs).m_eventRates[eventId]? =
      some 0 := by
  have he := elaborated_elaborating fs name logFilePath logTimestep regs
  obtain ⟨-, hr, -, -, -, hrates⟩ := startSimulation_running he
  unfold PowerModelChannel.started at hid ⊢
  have hlt : eventId < (PowerModelChannel.elaborated fs name logFilePath logTimestep
      regs).startSimulation.2.m_eventRates.length := by
    rw [hr.rates]; exact hid
  rw [List.getElem?_eq_getElem hlt]
  congr 1
  apply he.ratesZero
  rw [← hrates]
  exact List.getElem_mem hlt

theorem pendingStep_nonneg (eventId : Nat) (acc : Int) (c : RunCall R) (h : 0 ≤ acc) :
    0 ≤ pendingStep eventId acc c := by
  cases c with
  | reportEvent j n =>
    simp only [pendingStep]
    split_ifs <;> omega
  | popEventCount j =>
    simp only [pendingStep]
    split_ifs <;> omega
  | reportState j => exact h
  | setSupplyVoltage v => exact h
  | logLoop now => exact h

theorem foldl_pendingStep_nonneg (eventId : Nat) (calls : List (RunCall R)) (acc : Int)
    (h : 0 ≤ acc) : 0 ≤ calls.foldl (pendingStep eventId) acc := by
  induction calls generalizing acc with
  | nil => exact h
  | cons c cs ih => exact ih _ (pendingStep_nonneg eventId acc c h)

theorem set_replicate_append_drop (l : List Int) (k : Nat) (hk : k < l.length) :
    (List.replicate k (0 : Int) ++ l.drop k).set k 0 =
      List.replicate (k + 1) 0 ++ l.drop (k + 1) := by
  have hd := List.drop_eq_getElem_cons hk
  rw [List.replicate_succ', List.append_assoc, List.set_append_right _ _ (by simp)]
  simp only [List.length_replicate, Nat.sub_self, List.singleton_append]
  rw [hd]
  rfl

theorem popDynamicEnergyLoop_eq [Add R] [Mul R] [IntCast R] (s : PowerModelChannel R)
    (hs : s.Running) (n : Nat) :
    ∀ (k : Nat) (acc : R), k + n = s.m_events.length →
      PowerModelChannel.popDynamicEnergyLoop (List.range' k n) acc
          { s with m_eventRates := List.replicate k 0 ++ s.m_eventRates.drop k } =
        (.ok ((List.zip (s.m_events.drop k) (s.m_eventRates.drop k)).foldl
            (fun sum p => sum + p.1.event.calculateEnergy s.m_supplyVoltage * ((p.2 : Int) : R))
            acc),
          { s with m_eventRates := List.replicate s.m_events.length 0 }) := by
  induction n with
  | zero =>
    intro k acc hk
    have hk2 : k = s.m_events.length := by omega
    have hr : s.m_eventRates.length ≤ k := by rw [hs.rates]; omega
    subst hk2
    simp [PowerModelChannel.popDynamicEnergyLoop, List.drop_eq_nil_of_le hr]
  | succ n ih =>
    intro k acc hk
    obtain ⟨pre, row, hlog, hlen⟩ := hs.eventLog
    have hkE : k < s.m_events.length := by omega
    have hkR : k < s.m_eventRates.length := by rw [hs.rates]; exact hkE
    have hkrow : k < row.length := by omega
    have hget : (List.replicate k (0 : Int) ++ s.m_eventRates.drop k)[k]? =
        some s.m_eventRates[k] := by
      rw [List.getElem?_append_right (by simp)]
      simp [hkR]
    have hpop : PowerModelChannel.popEventEnergy
        { s with m_eventRates := List.replicate k 0 ++ s.m_eventRates.drop k } k =
        (.ok (s.m_events[k].event.calculateEnergy s.m_supplyVoltage *
            ((s.m_eventRates[k] : Int) : R)),
          { s with m_eventRates := List.replicate (k + 1) 0 ++ s.m_eventRates.drop (k + 1) }) := by
      simp only [PowerModelChannel.popEventEnergy, PowerModelChannel.popEventCount, hlog,
        getLast?_snoc, hkrow, not_true_eq_false, if_false, List.getElem?_eq_getElem hkE, hget,
        set_replicate_append_drop _ _ hkR]
    rw [List.range'_succ, PowerModelChannel.popDynamicEnergyLoop, hpop]
    simp only
    rw [ih (k + 1) _ (by omega), List.drop_eq_getElem_cons hkE, List.drop_eq_getElem_cons hkR]
    simp only [List.zip_cons_cons, List.foldl_cons]

/-- Outcome of `popDynamicEnergy` in the run phase. -/
theorem popDynamicEnergy_eq [Zero R] [Add R] [Mul R] [IntCast R] (s : PowerModelChannel R)
    (hs : s.Running) :
    s.popDynamicEnergy =
      (.ok s.pendingEnergy, { s with m_eventRates := List.replicate s.m_events.length 0 }) := by
  have h := popDynamicEnergyLoop_eq s hs s.m_events.length 0 0 (by omega)
  simp only [List.replicate_zero, List.nil_append, List.drop_zero] at h
  unfold PowerModelChannel.popDynamicEnergy PowerModelChannel.pendingEnergy
  rw [List.range_eq_range']
  exact h

theorem foldl_zip_replicate_zero [Zero R] [Add R] [Mul R] [IntCast R] (v : R)
    (events : List (ModuleEventEntry R))
    (hz : ∀ e ∈ events, e.event.calculateEnergy v * ((0 : Int) : R) = 0)
    (h00 : (0 : R) + 0 = 0) (n : Nat) :
    (List.zip events (List.replicate n (0 : Int))).foldl
      (fun sum p => sum + p.1.event.calculateEnergy v * ((p.2 : Int) : R)) 0 = 0 := by
  induction events generalizing n with
  | nil => simp
  | cons e es ih =>
    cases n with
    | zero => simp
    | succ n =>
      simp only [List.replicate_succ, List.zip_cons_cons, List.foldl_cons]
      rw [hz e (List.mem_cons_self _ _), h00]
      exact ih (fun x hx => hz x (List.mem_cons_of_mem _ hx)) n

theorem indexOf_of_getElem? {l : List String} (hl : l.Nodup) {i : Nat} {m : String}
    (h : l[i]? = some m) : l.indexOf m = i ∧ m ∈ l := by
  obtain ⟨hi, hm⟩ := List.getElem?_eq_some_iff.1 h
  subst hm
  exact ⟨List.indexOf_getElem hl i hi, List.getElem_mem hi⟩

theorem hasEvent_iff {s : PowerModelChannel R} (h : s.Elaborating) (m n : String) :
    s.HasEvent m n ↔ m ∈ s.m_moduleNames ∧
      ∃ x ∈ s.m_events, x.event.name = n ∧ x.moduleId = s.m_moduleNames.indexOf m := by
  constructor
  · rintro ⟨x, hx, hn, hm⟩
    obtain ⟨hi, hmem⟩ := indexOf_of_getElem? h.nodup hm
    exact ⟨hmem, x, hx, hn, hi.symm⟩
  · rintro ⟨hmem, x, hx, hn, hi⟩
    exact ⟨x, hx, hn, by rw [hi]; exact List.getElem?_indexOf hmem⟩

theorem hasState_iff {s : PowerModelChannel R} (h : s.Elaborating) (m n : String) :
    s.HasState m n ↔ m ∈ s.m_moduleNames ∧
      ∃ x ∈ s.m_states, x.state.name = n ∧ x.moduleId = s.m_moduleNames.indexOf m := by
  constructor
  · rintro ⟨x, hx, hn, hm⟩
    obtain ⟨hi, hmem⟩ := indexOf_of_getElem? h.nodup hm
    exact ⟨hmem, x, hx, hn, hi.symm⟩
  · rintro ⟨hmem, x, hx, hn, hi⟩
    exact ⟨x, hx, hn, by rw [hi]; exact List.getElem?_indexOf hmem⟩

/-- The two outcomes of `registerEvent` during elaboration. -/
theorem registerEvent_cases {s : PowerModelChannel R} (h : s.Elaborating) (m : String)
    (e : PowerModelEventBase R) :
    (s.HasEvent m e.name ∧ s.registerEvent m e = (.error .duplicateName, s)) ∨
    (¬ s.HasEvent m e.name ∧ (s.registerEvent m e).1 = .ok s.m_events.length ∧
      (s.registerEvent m e).2.m_moduleNames =
        (if m ∈ s.m_moduleNames then s.m_moduleNames else s.m_moduleNames ++ [m]) ∧
      (s.registerEvent m e).2.m_events = s.m_events ++
        [ModuleEventEntry.mk e ((s.registerEvent m e).2.m_moduleNames.indexOf m)] ∧
      (s.registerEvent m e).2.m_states = s.m_states) := by
  by_cases hm : m ∈ s.m_moduleNames
  · by_cases hdup : ∃ x ∈ s.m_events, x.event.name = e.name ∧
        x.moduleId = s.m_moduleNames.indexOf m
    · exact Or.inl ⟨(hasEvent_iff h m e.name).2 ⟨hm, hdup⟩, registerEvent_duplicate h m e hm hdup⟩
    · refine Or.inr ⟨fun hc => hdup ((hasEvent_iff h m e.name).1 hc).2, ?_⟩
      rw [registerEvent_known h m e hm hdup]
      simp [hm]
  · refine Or.inr ⟨fun hc => hm ((hasEvent_iff h m e.name).1 hc).1, ?_⟩
    obtain ⟨row, -, heq⟩ := registerEvent_new h m e hm
    rw [heq]
    simp [hm, List.indexOf_append_of_not_mem hm]

/-- The two outcomes of `registerState` during elaboration. -/
theorem registerState_cases {s : PowerModelChannel R} (h : s.Elaborating) (m : String)
    (e : PowerModelStateBase R) :
    (s.HasState m e.name ∧ s.registerState m e = (.error .duplicateName, s)) ∨
    (¬ s.HasState m e.name ∧ (s.registerState m e).1 = .ok s.m_states.length ∧
      (s.registerState m e).2.m_moduleNames =
        (if m ∈ s.m_moduleNames then s.m_moduleNames else s.m_moduleNames ++ [m]) ∧
      (s.registerState m e).2.m_states = s.m_states ++
        [ModuleStateEntry.mk e ((s.registerState m e).2.m_moduleNames.indexOf m)] ∧
      (s.registerState m e).2.m_events = s.m_events) := by
  by_cases hm : m ∈ s.m_moduleNames
  · by_cases hdup : ∃ x ∈ s.m_states, x.state.name = e.name ∧
        x.moduleId = s.m_moduleNames.indexOf m
    · exact Or.inl ⟨(hasState_iff h m e.name).2 ⟨hm, hdup⟩, registerState_duplicate h m e hm hdup⟩
    · refine Or.inr ⟨fun hc => hdup ((hasState_iff h m e.name).1 hc).2, ?_⟩
      obtain ⟨row, -, heq⟩ := registerState_known h m e hm hdup
      rw [heq]
      simp [hm]
  · refine Or.inr ⟨fun hc => hm ((hasState_iff h m e.name).1 hc).1, ?_⟩
    obtain ⟨row, -, heq⟩ := registerState_new h m e hm
    rw [heq]
    simp [hm, List.indexOf_append_of_not_mem hm]

theorem registerAll_append (s : PowerModelChannel R) (a b : List (RegCall R)) :
    s.registerAll (a ++ b) = (s.registerAll a).registerAll b := by
  simp [PowerModelChannel.registerAll, List.foldl_append]

theorem registerAll_cons (s : PowerModelChannel R) (c : RegCall R) (cs : List (RegCall R)) :
    s.registerAll (c :: cs) = (s.register c).2.registerAll cs := rfl

/-- Module names after one registration call. -/
theorem register_moduleNames {s : PowerModelChannel R} (h : s.Elaborating) (c : RegCall R) :
    (s.register c).2.m_moduleNames =
      (if c.moduleName ∈ s.m_moduleNames then s.m_moduleNames
       else s.m_moduleNames ++ [c.moduleName]) := by
  cases c with
  | registerEvent m e =>
    rcases registerEvent_cases h m e with ⟨hh, heq⟩ | ⟨-, -, hn, -, -⟩
    · have hm := ((hasEvent_iff h m e.name).1 hh).1
      simp only [PowerModelChannel.register, heq, RegCall.moduleName, hm, if_true]
    · exact hn
  | registerState m e =>
    rcases registerState_cases h m e with ⟨hh, heq⟩ | ⟨-, -, hn, -, -⟩
    · have hm := ((hasState_iff h m e.name).1 hh).1
      simp only [PowerModelChannel.register, heq, RegCall.moduleName, hm, if_true]
    · exact hn

/-- One registration call only appends to the registry. -/
theorem register_grows {s : PowerModelChannel R} (h : s.Elaborating) (c : RegCall R) :
    ∃ ns es ss, (s.register c).2.m_moduleNames = s.m_moduleNames ++ ns ∧
      (s.register c).2.m_events = s.m_events ++ es ∧
      (s.register c).2.m_states = s.m_states ++ ss := by
  have hn := register_moduleNames h c
  have hns : ∃ ns, (s.register c).2.m_moduleNames = s.m_moduleNames ++ ns := by
    rw [hn]
    split_ifs
    · exact ⟨[], by simp⟩
    · exact ⟨_, rfl⟩
  obtain ⟨ns, hns⟩ := hns
  cases c with
  | registerEvent m e =>
    rcases registerEvent_cases h m e with ⟨-, heq⟩ | ⟨-, -, -, he, hs⟩
    · exact ⟨[], [], [], by simp [PowerModelChannel.register, heq]⟩
    · exact ⟨ns, _, [], hns, he, by simpa using hs⟩
  | registerState m e =>
    rcases registerState_cases h m e with ⟨-, heq⟩ | ⟨-, -, -, hs, he⟩
    · exact ⟨[], [], [], by simp [PowerModelChannel.register, heq]⟩
    · exact ⟨ns, [], _, hns, by simpa using he, hs⟩

/-- A sequence of registration calls only appends to the registry. -/
theorem registerAll_grows (calls : List (RegCall R)) {s : PowerModelChannel R}
    (h : s.Elaborating) :
    ∃ ns es ss, (s.registerAll calls).m_moduleNames = s.m_moduleNames ++ ns ∧
      (s.registerAll calls).m_events = s.m_events ++ es ∧
      (s.registerAll calls).m_states = s.m_states ++ ss := by
  induction calls generalizing s with
  | nil => exact ⟨[], [], [], by simp [PowerModelChannel.registerAll]⟩
  | cons c cs ih =>
    obtain ⟨ns, es, ss, h1, h2, h3⟩ := register_grows h c
    obtain ⟨ns2, es2, ss2, i1, i2, i3⟩ := ih (register_elaborating h c)
    rw [registerAll_cons]
    exact ⟨ns ++ ns2, es ++ es2, ss ++ ss2, by rw [i1, h1, List.append_assoc],
      by rw [i2, h2, List.append_assoc], by rw [i3, h3, List.append_assoc]⟩

theorem getElem?_append_of_some {α : Type} {l : List α} {i : Nat} {x : α} (t : List α)
    (h : l[i]? = some x) : (l ++ t)[i]? = some x := by
  obtain ⟨hi, hx⟩ := List.getElem?_eq_some_iff.1 h
  rw [List.getElem?_append_left hi]
  exact h

/-- Number of events after a sequence of registration calls. -/
theorem registerAll_events_length (calls : List (RegCall R)) {s : PowerModelChannel R}
    (h : s.Elaborating) :
    (s.registerAll calls).m_events.length = s.m_events.length + s.successfulEvents calls := by
  induction calls generalizing s with
  | nil => simp [PowerModelChannel.registerAll, PowerModelChannel.successfulEvents]
  | cons c cs ih =>
    rw [registerAll_cons, ih (register_elaborating h c)]
    cases c with
    | registerEvent m e =>
      rcases registerEvent_cases h m e with ⟨-, heq⟩ | ⟨-, hok, -, he, -⟩
      · simp [PowerModelChannel.register, PowerModelChannel.successfulEvents, heq]
      · simp only [PowerModelChannel.register, PowerModelChannel.successfulEvents, hok, he,
          List.length_append, List.length_singleton]
        omega
    | registerState m e =>
      rcases registerState_cases h m e with ⟨-, heq⟩ | ⟨-, hok, -, -, he⟩
      · simp [PowerModelChannel.register, PowerModelChannel.successfulEvents, heq]
      · simp only [PowerModelChannel.register, PowerModelChannel.successfulEvents, he]

/-- Number of states after a sequence of registration calls. -/
theorem registerAll_states_length (calls : List (RegCall R)) {s : PowerModelChannel R}
    (h : s.Elaborating) :
    (s.registerAll calls).m_states.length = s.m_states.length + s.successfulStates calls := by
  induction calls generalizing s with
  | nil => simp [PowerModelChannel.registerAll, PowerModelChannel.successfulStates]
  | cons c cs ih =>
    rw [registerAll_cons, ih (register_elaborating h c)]
    cases c with
    | registerEvent m e =>
      rcases registerEvent_cases h m e with ⟨-, heq⟩ | ⟨-, hok, -, -, hs⟩
      · simp [PowerModelChannel.register, PowerModelChannel.successfulStates, heq]
      · simp only [PowerModelChannel.register, PowerModelChannel.successfulStates, hs]
    | registerState m e =>
      rcases registerState_cases h m e with ⟨-, heq⟩ | ⟨-, hok, -, hs, -⟩
      · simp [PowerModelChannel.register, PowerModelChannel.successfulStates, heq]
      · simp only [PowerModelChannel.register, PowerModelChannel.successfulStates, hok, hs,
          List.length_append, List.length_singleton]
        omega

theorem hasEvent_grows {s t : PowerModelChannel R} {m n : String} (h : s.HasEvent m n)
    (hn : ∃ ns, t.m_moduleNames = s.m_moduleNames ++ ns)
    (he : ∃ es, t.m_events = s.m_events ++ es) : t.HasEvent m n := by
  obtain ⟨x, hx, hname, hmod⟩ := h
  obtain ⟨ns, hn⟩ := hn
  obtain ⟨es, he⟩ := he
  refine ⟨x, ?_, hname, ?_⟩
  · rw [he]
    exact List.mem_append_left _ hx
  · rw [hn]
    exact getElem?_append_of_some ns hmod

theorem hasState_grows {s t : PowerModelChannel R} {m n : String} (h : s.HasState m n)
    (hn : ∃ ns, t.m_moduleNames = s.m_moduleNames ++ ns)
    (he : ∃ es, t.m_states = s.m_states ++ es) : t.HasState m n := by
  obtain ⟨x, hx, hname, hmod⟩ := h
  obtain ⟨ns, hn⟩ := hn
  obtain ⟨es, he⟩ := he
  refine ⟨x, ?_, hname, ?_⟩
  · rw [he]
    exact List.mem_append_left _ hx
  · rw [hn]
    exact getElem?_append_of_some ns hmod

/-- A successful `registerEvent` during elaboration: the id returned, the entry stored and
the fact that the module now has an event of that name. -/
theorem registerEvent_ok {s : PowerModelChannel R} (h : s.Elaborating) (m : String)
    (e : PowerModelEventBase R) {id : Nat} (hok : (s.registerEvent m e).1 = .ok id) :
    id = s.m_events.length ∧ ¬ s.HasEvent m e.name ∧
      m ∈ (s.registerEvent m e).2.m_moduleNames ∧
      (s.registerEvent m e).2.m_events = s.m_events ++
        [ModuleEventEntry.mk e ((s.registerEvent m e).2.m_moduleNames.indexOf m)] ∧
      (s.registerEvent m e).2.m_states = s.m_states ∧
      (s.registerEvent m e).2.HasEvent m e.name := by
  rcases registerEvent_cases h m e with ⟨-, heq⟩ | ⟨hno, hid, hn, he, hs⟩
  · rw [heq] at hok
    cases hok
  · have hmem : m ∈ (s.registerEvent m e).2.m_moduleNames := by
      rw [hn]
      split_ifs with hm
      · exact hm
      · simp
    rw [hid] at hok
    refine ⟨(Except.ok.inj hok).symm, hno, hmem, he, hs,
      ⟨ModuleEventEntry.mk e ((s.registerEvent m e).2.m_moduleNames.indexOf m), ?_, rfl, ?_⟩⟩
    · rw [he]
      exact List.mem_append_right _ (List.mem_singleton_self _)
    · exact List.getElem?_indexOf hmem

/-- A successful `registerState` during elaboration: the id returned, the entry stored and
the fact that the module now has a state of that name. -/
theorem registerState_ok {s : PowerModelChannel R} (h : s.Elaborating) (m : String)
    (e : PowerModelStateBase R) {id : Nat} (hok : (s.registerState m e).1 = .ok id) :
    id = s.m_states.length ∧ ¬ s.HasState m e.name ∧
      m ∈ (s.registerState m e).2.m_moduleNames ∧
      (s.registerState m e).2.m_states = s.m_states ++
        [ModuleStateEntry.mk e ((s.registerState m e).2.m_moduleNames.indexOf m)] ∧
      (s.registerState m e).2.m_events = s.m_events ∧
      (s.registerState m e).2.HasState m e.name := by
  rcases registerState_cases h m e with ⟨-, heq⟩ | ⟨hno, hid, hn, he, hs⟩
  · rw [heq] at hok
    cases hok
  · have hmem : m ∈ (s.registerState m e).2.m_moduleNames := by
      rw [hn]
      split_ifs with hm
      · exact hm
      · simp
    rw [hid] at hok
    refine ⟨(Except.ok.inj hok).symm, hno, hmem, he, hs,
      ⟨ModuleStateEntry.mk e ((s.registerState m e).2.m_moduleNames.indexOf m), ?_, rfl, ?_⟩⟩
    · rw [he]
      exact List.mem_append_right _ (List.mem_singleton_self _)
    · exact List.getElem?_indexOf hmem

/-- Shape of the outcome of `registerEvent`: the state is untouched unless the call
returns an id, trips an assertion or has undefined behaviour. -/
theorem registerEvent_shape (s : PowerModelChannel R) (m : String)
    (e : PowerModelEventBase R) :
    (s.registerEvent m e).2 = s ∨ (∃ id, (s.registerEvent m e).1 = .ok id) ∨
      (s.registerEvent m e).1 = .error .assertion ∨
      (s.registerEvent m e).1 = .error .undefinedBehaviour := by
  generalize hr : s.registerEvent _ _ = r
  unfold PowerModelChannel.registerEvent PowerModelChannel.addEvent at hr
  repeat' ((try dsimp only at hr); split at hr)
  all_goals (subst hr; simp)

/-- Shape of the outcome of `registerState`. -/
theorem registerState_shape (s : PowerModelChannel R) (m : String)
    (e : PowerModelStateBase R) :
    (s.registerState m e).2 = s ∨ (∃ id, (s.registerState m e).1 = .ok id) ∨
      (s.registerState m e).1 = .error .assertion ∨
      (s.registerState m e).1 = .error .undefinedBehaviour := by
  generalize hr : s.registerState _ _ = r
  unfold PowerModelChannel.registerState PowerModelChannel.addState at hr
  repeat' ((try dsimp only at hr); split at hr)
  all_goals (subst hr; simp)

/-- Shape of the outcome of `reportEvent`. -/
theorem reportEvent_shape (s : PowerModelChannel R) (eventId n : Nat) :
    (s.reportEvent eventId n).2 = s ∨ (s.reportEvent eventId n).1 = .ok () ∨
      (s.reportEvent eventId n).1 = .error .assertion ∨
      (s.reportEvent eventId n).1 = .error .undefinedBehaviour := by
  generalize hr : s.reportEvent _ _ = r
  unfold PowerModelChannel.reportEvent at hr
  repeat' ((try dsimp only at hr); split at hr)
  all_goals (subst hr; simp)

/-- Shape of the outcome of `reportState`. -/
theorem reportState_shape (s : PowerModelChannel R) (stateId : Nat) :
    (s.reportState stateId).2 = s ∨ (s.reportState stateId).1 = .ok () ∨
      (s.reportState stateId).1 = .error .assertion ∨
      (s.reportState stateId).1 = .error .undefinedBehaviour := by
  generalize hr : s.reportState _ = r
  unfold PowerModelChannel.reportState at hr
  repeat' split at hr
  all_goals (subst hr; simp)

theorem signalled_ne {err : Error} (hs : err.Signalled) :
    err ≠ .assertion ∧ err ≠ .undefinedBehaviour := by
  rcases hs with rfl | rfl | rfl <;> exact ⟨by decide, by decide⟩

theorem elaborated_append [Zero R] (fs : FileSystem R) (name logFilePath : String)
    (logTimestep : Nat) (regs more : List (RegCall R)) :
    PowerModelChannel.elaborated fs name logFilePath logTimestep (regs ++ more) =
      (PowerModelChannel.elaborated fs name logFilePath logTimestep regs).registerAll more := by
  unfold PowerModelChannel.elaborated
  exact registerAll_append _ _ _

theorem registerAll_moduleNames (calls : List (RegCall R)) {s : PowerModelChannel R}
    (h : s.Elaborating) :
    (s.registerAll calls).m_moduleNames =
      (calls.map RegCall.moduleName).foldl
        (fun acc n => if n ∈ acc then acc else acc ++ [n]) s.m_moduleNames := by
  induction calls generalizing s with
  | nil => rfl
  | cons c cs ih =>
    rw [registerAll_cons, ih (register_elaborating h c), register_moduleNames h c]
    rfl

/-- Descriptors are never moved or replaced by later registrations, by the start of the
simulation or by calls of the run phase. -/
theorem registry_stable [Zero R] [DecidableEq R] [SimTime R] (fs : FileSystem R)
    (name logFilePath : String) (logTimestep : Nat) (regs more : List (RegCall R))
    (calls : List (RunCall R))
    (hv : ∀ r ∈ calls, r.Valid
      (PowerModelChannel.started fs name logFilePath logTimestep (regs ++ more)).m_events.length
      (PowerModelChannel.started fs name logFilePath logTimestep
        (regs ++ more)).m_states.length) :
    (∃ es, ((PowerModelChannel.started fs name logFilePath logTimestep
        (regs ++ more)).runCalls calls).2.m_events =
        (PowerModelChannel.elaborated fs name logFilePath logTimestep regs).m_events ++ es ∧
      (PowerModelChannel.elaborated fs name logFilePath logTimestep (regs ++ more)).m_events =
        (PowerModelChannel.elaborated fs name logFilePath logTimestep regs).m_events ++ es) ∧
    (∃ ss, ((PowerModelChannel.started fs name logFilePath logTimestep
        (regs ++ more)).runCalls calls).2.m_states =
        (PowerModelChannel.elaborated fs name logFilePath logTimestep regs).m_states ++ ss ∧
      (PowerModelChannel.elaborated fs name logFilePath logTimestep (regs ++ more)).m_states =
        (PowerModelChannel.elaborated fs name logFilePath logTimestep regs).m_states ++ ss) := by
  have h0 := elaborated_elaborating fs name logFilePath logTimestep regs
  obtain ⟨ns, es, ss, -, g2, g3⟩ := registerAll_grows more h0
  rw [← elaborated_append] at g2 g3
  have h1 := elaborated_elaborating fs name logFilePath logTimestep (regs ++ more)
  obtain ⟨-, hrun, s2, s3, -, -⟩ := startSimulation_running h1
  obtain ⟨-, -, r2, r3, -, -⟩ := runCalls_running calls
    (started_running fs name logFilePath logTimestep (regs ++ more)) hv
  refine ⟨⟨es, ?_, g2⟩, ⟨ss, ?_, g3⟩⟩
  · rw [r2, ← g2]
    exact s2
  · rw [r3, ← g3]
    exact s3

/-! ## The claims -/

/-- C1, as the code has it: after construction, any registrations and the start of the
simulation, every sequence of run-phase calls with registered ids (reports of any events,
state reports, voltage changes, wake-ups of the periodic logger, pops) succeeds, and
`popEventCount(id)` then returns the sum of the `n` reported for `id` since its previous
pop (or since registration), reduced to the 32-bit `int` the counter is kept in; this is
the sum itself whenever the sum is below `2^31`. A second pop right after returns 0. -/
theorem popEventCount_returns_pending_sum [Zero R] [DecidableEq R] [SimTime R]
    (fs : FileSystem R) (name logFilePath : String) (logTimestep : Nat)
    (regs : List (RegCall R)) (calls : List (RunCall R)) (eventId : Nat)
    (hid : eventId <
      (PowerModelChannel.started fs name logFilePath logTimestep regs).m_events.length)
    (hv : ∀ c ∈ calls, c.Valid
      (PowerModelChannel.started fs name logFilePath logTimestep regs).m_events.length
      (PowerModelChannel.started fs name logFilePath logTimestep regs).m_states.length) :
    ((PowerModelChannel.started fs name logFilePath logTimestep regs).runCalls calls).1 = .ok () ∧
    ((((PowerModelChannel.started fs name logFilePath logTimestep regs).runCalls
        calls).2.popEventCount eventId).1 = .ok (toInt32 (pendingCount eventId calls))) ∧
    (pendingCount eventId calls < 2147483648 →
      (((PowerModelChannel.started fs name logFilePath logTimestep regs).runCalls
        calls).2.popEventCount eventId).1 = .ok (pendingCount eventId calls)) ∧
    (((((PowerModelChannel.started fs name logFilePath logTimestep regs).runCalls
        calls).2.popEventCount eventId).2.popEventCount eventId).1 = .ok 0) := by
  have hrun := started_running fs name logFilePath logTimestep regs
  have hzero := started_ratesZero fs name logFilePath logTimestep regs hid
  obtain ⟨h0, h1, h2, -, -, h5⟩ := runCalls_running calls hrun hv
  have hcount := h5 eventId 0 (by simpa [toInt32] using hzero)
  have hid2 : eventId < ((PowerModelChannel.started fs name logFilePath logTimestep
      regs).runCalls calls).2.m_events.length := by rw [h2]; exact hid
  obtain ⟨c, hc, heq⟩ := popEventCount_running h1 hid2
  rw [hc] at hcount
  have hcv : c = toInt32 (pendingCount eventId calls) := by simpa [pendingCount] using hcount
  subst hcv
  have hpop : (((PowerModelChannel.started fs name logFilePath logTimestep regs).runCalls
      calls).2.popEventCount eventId).2.Running := by
    rw [heq]
    exact ⟨h1.running, by simp [h1.rates], h1.eventLog, h1.stateLog, h1.stateModule⟩
  have hid3 : eventId < (((PowerModelChannel.started fs name logFilePath logTimestep
      regs).runCalls calls).2.popEventCount eventId).2.m_events.length := by
    rw [heq]; exact hid2
  obtain ⟨c2, hc2, heq2⟩ := popEventCount_running hpop hid3
  have hlt : eventId < ((PowerModelChannel.started fs name logFilePath logTimestep
      regs).runCalls calls).2.m_eventRates.length := by rw [h1.rates]; exact hid2
  have hc20 : c2 = 0 := by
    rw [heq] at hc2
    simpa [hlt] using hc2.symm
  refine ⟨h0, ?_, ?_, ?_⟩
  · rw [heq]
  · intro hsmall
    rw [heq]
    have hnn : 0 ≤ pendingCount eventId calls := foldl_pendingStep_nonneg eventId calls 0 le_rfl
    simp only
    rw [toInt32_of_range (by omega) hsmall]
  · rw [heq2, hc20]

/-- C1, witness: the example channel, the example run, event 0 (pending sum 2 + 3). -/
theorem popEventCount_returns_pending_sum_witness :
    (0 < exampleRunning.m_events.length ∧
      ∀ c ∈ exampleRun, c.Valid exampleRunning.m_events.length exampleRunning.m_states.length) ∧
    ((exampleRunning.runCalls exampleRun).1 = .ok () ∧
      ((exampleRunning.runCalls exampleRun).2.popEventCount 0).1 =
        .ok (toInt32 (pendingCount 0 exampleRun)) ∧
      (pendingCount 0 exampleRun < 2147483648 →
        ((exampleRunning.runCalls exampleRun).2.popEventCount 0).1 =
          .ok (pendingCount 0 exampleRun)) ∧
      (((exampleRunning.runCalls exampleRun).2.popEventCount 0).2.popEventCount 0).1 = .ok 0) ∧
    pendingCount 0 exampleRun = 5 :=
  have hid : 0 < exampleRunning.m_events.length := by decide
  have hv : ∀ c ∈ exampleRun,
      c.Valid exampleRunning.m_events.length exampleRunning.m_states.length := by
    have hE : exampleRunning.m_events.length = 2 := by decide
    have hS : exampleRunning.m_states.length = 2 := by decide
    rw [hE, hS]
    intro c hc
    simp only [exampleRun, List.mem_cons, List.mem_singleton, List.not_mem_nil, or_false] at hc
    rcases hc with rfl | rfl | rfl | rfl | rfl | rfl | rfl | rfl | rfl <;>
      simp [RunCall.Valid]
  ⟨⟨hid, hv⟩,
    popEventCount_returns_pending_sum (fun _ => []) "ch" "." 1000000 exampleRegistrations
      exampleRun 0 hid hv,
    by decide⟩

/-- C1, counterexample to the claim as stated: one `reportEvent(0, 2147483648)` on the
example channel, and `popEventCount(0)` returns `-2147483648`, not the sum reported. -/
theorem popEventCount_not_the_sum_reported :
    (exampleRunning.runCalls exampleLargeReport).1 = .ok () ∧
    pendingCount 0 exampleLargeReport = 2147483648 ∧
    ((exampleRunning.runCalls exampleLargeReport).2.popEventCount 0).1 = .ok (-2147483648) ∧
    ((exampleRunning.runCalls exampleLargeReport).2.popEventCount 0).1 ≠
      .ok (pendingCount 0 exampleLargeReport) := by
  refine ⟨by rfl, by decide, by rfl, ?_⟩
  have h : ((exampleRunning.runCalls exampleLargeReport).2.popEventCount 0).1 =
      .ok (-2147483648) := by rfl
  have h2 : pendingCount 0 exampleLargeReport = 2147483648 := by decide
  rw [h, h2]
  intro hc
  injection hc with hc
  omega

/-- C2: in the run phase, for a registered event id, `popEventEnergy(id)` returns the
energy of the event's model at the supply voltage held at the moment of the pop times the
count that `popEventCount(id)` returns from the same state, it leaves the channel in the
state `popEventCount(id)` leaves it in, with the counter of `id` at 0; after
`setSupplyVoltage(v)` the same count is converted with the energy at `v`. -/
theorem popEventEnergy_is_count_times_energy [Mul R] [IntCast R] [DecidableEq R]
    (s : PowerModelChannel R) (hs : s.Running) (eventId : Nat)
    (hid : eventId < s.m_events.length) (v : R) :
    ∃ entry count, s.m_events[eventId]? = some entry ∧
      (s.popEventCount eventId).1 = .ok count ∧
      s.popEventEnergy eventId =
        (.ok (entry.event.calculateEnergy s.m_supplyVoltage * (count : R)),
          (s.popEventCount eventId).2) ∧
      (s.popEventEnergy eventId).2.m_eventRates[eventId]? = some 0 ∧
      ((s.popEventEnergy eventId).2.popEventCount eventId).1 = .ok 0 ∧
      ((s.setSupplyVoltage v).popEventCount eventId).1 = .ok count ∧
      ((s.setSupplyVoltage v).popEventEnergy eventId).1 =
        .ok (entry.event.calculateEnergy v * (count : R)) := by
  obtain ⟨c, hc, heq⟩ := popEventCount_running hs hid
  obtain ⟨pre, row, hlog, hlen⟩ := hs.eventLog
  have h2 : eventId < row.length := by omega
  have hlt : eventId < s.m_eventRates.length := by rw [hs.rates]; exact hid
  have hen : ∀ t : PowerModelChannel R, t.m_eventLog = s.m_eventLog → t.m_events = s.m_events →
      t.m_eventRates = s.m_eventRates →
      t.popEventEnergy eventId =
        (.ok (s.m_events[eventId].event.calculateEnergy t.m_supplyVoltage * (c : R)),
          { t with m_eventRates := s.m_eventRates.set eventId 0 }) := by
    intro t h1 h3 h4
    have hc2 : s.m_eventRates[eventId] = c := by
      rw [List.getElem?_eq_getElem hlt] at hc
      exact Option.some.inj hc
    simp [PowerModelChannel.popEventEnergy, PowerModelChannel.popEventCount, h1, h3, h4, hlog, h2,
      hid, hlt, hc2]
  have hsv : (s.setSupplyVoltage v).m_eventLog = s.m_eventLog ∧
      (s.setSupplyVoltage v).m_events = s.m_events ∧
      (s.setSupplyVoltage v).m_eventRates = s.m_eventRates ∧
      (s.setSupplyVoltage v).m_supplyVoltage = v := by
    unfold PowerModelChannel.setSupplyVoltage
    split_ifs with hne
    · exact ⟨rfl, rfl, rfl, rfl⟩
    · exact ⟨rfl, rfl, rfl, not_not.1 hne⟩
  have hpop : (s.popEventCount eventId).2.Running := by
    rw [heq]
    exact ⟨hs.running, by simp [hs.rates], hs.eventLog, hs.stateLog, hs.stateModule⟩
  have hid3 : eventId < (s.popEventCount eventId).2.m_events.length := by
    rw [heq]; exact hid
  obtain ⟨c2, hc2, heq2⟩ := popEventCount_running hpop hid3
  have hc20 : c2 = 0 := by
    rw [heq] at hc2
    simpa [hlt] using hc2.symm
  have hsvrun := (setSupplyVoltage_running hs v).1
  obtain ⟨c3, hc3, heq3⟩ := popEventCount_running hsvrun
    (by rw [hsv.2.1]; exact hid : eventId < (s.setSupplyVoltage v).m_events.length)
  have hc3c : c3 = c := by
    rw [hsv.2.2.1, hc] at hc3
    exact (Option.some.inj hc3).symm
  refine ⟨s.m_events[eventId], c, List.getElem?_eq_getElem hid, by rw [heq], ?_, ?_, ?_, ?_, ?_⟩
  · rw [hen s rfl rfl rfl, heq]
  · rw [hen s rfl rfl rfl]
    simp [hlt]
  · rw [hen s rfl rfl rfl]
    rw [heq] at heq2
    rw [heq2, hc20]
  · rw [heq3, hc3c]
  · rw [hen _ hsv.1 hsv.2.1 hsv.2.2.1, hsv.2.2.2]

/-- C2, witness: on the example channel the event "write" (0.001 J) reported twice pops
0.002 J, and an event of energy `3 * voltage` reported twice at voltage 0 and popped after
`setSupplyVoltage(2)` pops with the energy at voltage 2. -/
theorem popEventEnergy_is_count_times_energy_witness :
    (exampleRunning.Running ∧ 0 < exampleRunning.m_events.length) ∧
    (∃ entry count, exampleRunning.m_events[0]? = some entry ∧
      (exampleRunning.popEventCount 0).1 = .ok count ∧
      exampleRunning.popEventEnergy 0 =
        (.ok (entry.event.calculateEnergy exampleRunning.m_supplyVoltage * (count : ℚ)),
          (exampleRunning.popEventCount 0).2) ∧
      (exampleRunning.popEventEnergy 0).2.m_eventRates[0]? = some 0 ∧
      ((exampleRunning.popEventEnergy 0).2.popEventCount 0).1 = .ok 0 ∧
      ((exampleRunning.setSupplyVoltage 2).popEventCount 0).1 = .ok count ∧
      ((exampleRunning.setSupplyVoltage 2).popEventEnergy 0).1 =
        .ok (entry.event.calculateEnergy 2 * (count : ℚ))) ∧
    ((exampleRunning.runCalls [.reportEvent 0 1, .reportEvent 0 1]).2.popEventEnergy 0).1 =
      .ok (2 / 1000) ∧
    (((PowerModelChannel.started (fun _ => []) "ch" "." 1000000
        [.registerEvent "memory" (VoltageScaledEvent "write" 3)]).runCalls
        [.reportEvent 0 2, .setSupplyVoltage 2]).2.popEventEnergy 0).1 = .ok 12 :=
  have hrun : exampleRunning.Running :=
    started_running (fun _ => []) "ch" "." 1000000 exampleRegistrations
  have hid : 0 < exampleRunning.m_events.length := by decide
  have hwrite : ((exampleRunning.runCalls
      [.reportEvent 0 1, .reportEvent 0 1]).2.popEventEnergy 0).1 =
      .ok ((1 / 1000 : ℚ) * ((2 : Int) : ℚ)) := by rfl
  have hscaled : (((PowerModelChannel.started (fun _ => []) "ch" "." 1000000
      [.registerEvent "memory" (VoltageScaledEvent "write" 3)]).runCalls
      [.reportEvent 0 2, .setSupplyVoltage 2]).2.popEventEnergy 0).1 =
      .ok ((3 : ℚ) * 2 * ((2 : Int) : ℚ)) := by rfl
  ⟨⟨hrun, hid⟩, popEventEnergy_is_count_times_energy exampleRunning hrun 0 hid 2,
    by rw [hwrite]; norm_num, by rw [hscaled]; norm_num⟩

/-- C3: in the run phase `popDynamicEnergy()` returns the sum, over the registered events in
increasing id order, of the energy of the event at the present supply voltage times its
counter; afterwards every counter is 0 and nothing else has changed, so `popEventCount(i)`
returns 0 for every registered `i`, and a second `popDynamicEnergy()` returns 0 (for the
last point the products `energy * 0` and the sum `0 + 0` are taken to be 0, as they are
for finite doubles). -/
theorem popDynamicEnergy_sums_and_resets [Zero R] [Add R] [Mul R] [IntCast R]
    (s : PowerModelChannel R) (hs : s.Running) :
    s.popDynamicEnergy.1 = .ok s.pendingEnergy ∧
    s.popDynamicEnergy.2 = { s with m_eventRates := List.replicate s.m_events.length 0 } ∧
    (∀ i, i < s.m_events.length → s.popDynamicEnergy.2.m_eventRates[i]? = some 0) ∧
    (∀ i, i < s.m_events.length → (s.popDynamicEnergy.2.popEventCount i).1 = .ok 0) ∧
    ((∀ e ∈ s.m_events, e.event.calculateEnergy s.m_supplyVoltage * ((0 : Int) : R) = 0) →
      (0 : R) + 0 = 0 → s.popDynamicEnergy.2.popDynamicEnergy.1 = .ok 0) := by
  have heq := popDynamicEnergy_eq s hs
  have hrun2 : s.popDynamicEnergy.2.Running := by
    rw [heq]
    exact ⟨hs.running, by simp, hs.eventLog, hs.stateLog, hs.stateModule⟩
  refine ⟨by rw [heq], by rw [heq], ?_, ?_, ?_⟩
  · intro i hi
    rw [heq]
    simp [hi]
  · intro i hi
    obtain ⟨c, hc, hpop⟩ := popEventCount_running hrun2 (by rw [heq]; exact hi)
    rw [hpop]
    rw [heq] at hc
    have : c = 0 := by simpa [hi] using hc.symm
    rw [this]
  · intro hz h00
    rw [popDynamicEnergy_eq _ hrun2, heq]
    simp only [PowerModelChannel.pendingEnergy]
    rw [foldl_zip_replicate_zero s.m_supplyVoltage s.m_events hz h00]

/-- C3, witness: the example channel after two reports of "write" and three of "read":
the energy popped is `2 * 0.001 + 3 * 0.00005` J and a second pop returns 0. -/
theorem popDynamicEnergy_sums_and_resets_witness :
    (exampleRunning.runCalls [.reportEvent 0 2, .reportEvent 1 3]).2.Running ∧
    ((exampleRunning.runCalls [.reportEvent 0 2, .reportEvent 1 3]).2.popDynamicEnergy.1 =
        .ok (exampleRunning.runCalls [.reportEvent 0 2, .reportEvent 1 3]).2.pendingEnergy ∧
      (exampleRunning.runCalls [.reportEvent 0 2, .reportEvent 1 3]).2.pendingEnergy =
        43 / 20000 ∧
      (exampleRunning.runCalls
        [.reportEvent 0 2, .reportEvent 1 3]).2.popDynamicEnergy.2.popDynamicEnergy.1 = .ok 0) :=
  have hrun : (exampleRunning.runCalls [.reportEvent 0 2, .reportEvent 1 3]).2.Running :=
    (runCalls_running _ (started_running (fun _ => []) "ch" "." 1000000 exampleRegistrations)
      (by
        have hE : (PowerModelChannel.started (fun _ => []) "ch" "." 1000000
            exampleRegistrations).m_events.length = 2 := by decide
        rw [hE]
        intro c hc
        simp only [List.mem_cons, List.mem_singleton, List.not_mem_nil, or_false] at hc
        rcases hc with rfl | rfl <;> simp [RunCall.Valid])).2.1
  have hsum : (exampleRunning.runCalls [.reportEvent 0 2, .reportEvent 1 3]).2.pendingEnergy =
      (0 : ℚ) + 1 / 1000 * ((2 : Int) : ℚ) + 5 / 100000 * ((3 : Int) : ℚ) := by rfl
  have hthm := popDynamicEnergy_sums_and_resets
    (exampleRunning.runCalls [.reportEvent 0 2, .reportEvent 1 3]).2 hrun
  ⟨hrun, hthm.1, by rw [hsum]; norm_num,
    hthm.2.2.2.2 (fun e _ => by simp) (by norm_num)⟩

/-- C4: during elaboration, once `registerEvent(m, e)` has returned an id, every later
`registerEvent(m, e2)` with the name of `e` fails with the duplicate-name error, whatever
registrations were made in between, whereas `registerEvent(m2, e2)` under a module name
`m2` that has no event of that name (a name other than `m`, then) returns an id different
from the first one; the same holds for `registerState`. -/
theorem duplicate_name_within_module_only [Zero R] (fs : FileSystem R)
    (name logFilePath : String) (logTimestep : Nat) (regs more : List (RegCall R))
    (m m2 : String) (e e2 : PowerModelEventBase R) (st st2 : PowerModelStateBase R)
    (he : e2.name = e.name) (hst : st2.name = st.name) :
    (∀ id,
      ((PowerModelChannel.elaborated fs name logFilePath logTimestep regs).registerEvent
        m e).1 = .ok id →
      ((((PowerModelChannel.elaborated fs name logFilePath logTimestep regs).registerEvent
        m e).2.registerAll more).registerEvent m e2).1 = .error .duplicateName ∧
      (¬ (((PowerModelChannel.elaborated fs name logFilePath logTimestep regs).registerEvent
          m e).2.registerAll more).HasEvent m2 e2.name →
        ∃ id2, ((((PowerModelChannel.elaborated fs name logFilePath logTimestep
          regs).registerEvent m e).2.registerAll more).registerEvent m2 e2).1 = .ok id2 ∧
          id2 ≠ id)) ∧
    (∀ id,
      ((PowerModelChannel.elaborated fs name logFilePath logTimestep regs).registerState
        m st).1 = .ok id →
      ((((PowerModelChannel.elaborated fs name logFilePath logTimestep regs).registerState
        m st).2.registerAll more).registerState m st2).1 = .error .duplicateName ∧
      (¬ (((PowerModelChannel.elaborated fs name logFilePath logTimestep regs).registerState
          m st).2.registerAll more).HasState m2 st2.name →
        ∃ id2, ((((PowerModelChannel.elaborated fs name logFilePath logTimestep
          regs).registerState m st).2.registerAll more).registerState m2 st2).1 = .ok id2 ∧
          id2 ≠ id)) := by
  have h0 := elaborated_elaborating fs name logFilePath logTimestep regs
  constructor
  · intro id hok
    obtain ⟨hid, -, -, hev, -, hhas⟩ := registerEvent_ok h0 m e hok
    have h1 := registerEvent_elaborating h0 m e
    have h2 := registerAll_elaborating more h1
    obtain ⟨ns, es, ss, g1, g2, g3⟩ := registerAll_grows more h1
    have hhas2 := hasEvent_grows hhas ⟨ns, g1⟩ ⟨es, g2⟩
    rw [← he] at hhas2
    constructor
    · rcases registerEvent_cases h2 m e2 with ⟨-, heq⟩ | ⟨hno, -⟩
      · rw [heq]
      · exact absurd hhas2 hno
    · intro hfree
      rcases registerEvent_cases h2 m2 e2 with ⟨hyes, -⟩ | ⟨-, hok2, -⟩
      · exact absurd hyes hfree
      · refine ⟨_, hok2, ?_⟩
        rw [g2, hev, hid]
        simp only [List.length_append, List.length_singleton]
        omega
  · intro id hok
    obtain ⟨hid, -, -, hev, -, hhas⟩ := registerState_ok h0 m st hok
    have h1 := registerState_elaborating h0 m st
    have h2 := registerAll_elaborating more h1
    obtain ⟨ns, es, ss, g1, g2, g3⟩ := registerAll_grows more h1
    have hhas2 := hasState_grows hhas ⟨ns, g1⟩ ⟨ss, g3⟩
    rw [← hst] at hhas2
    constructor
    · rcases registerState_cases h2 m st2 with ⟨-, heq⟩ | ⟨hno, -⟩
      · rw [heq]
      · exact absurd hhas2 hno
    · intro hfree
      rcases registerState_cases h2 m2 st2 with ⟨hyes, -⟩ | ⟨-, hok2, -⟩
      · exact absurd hyes hfree
      · refine ⟨_, hok2, ?_⟩
        rw [g3, hev, hid]
        simp only [List.length_append, List.length_singleton]
        omega

/-- C4, witness: on the example channel "memory" registers the event "write" and the
state "off"; a second "write" resp. "off" under "memory" is refused, under "cpu" it gets
the next id. -/
theorem duplicate_name_within_module_only_witness :
    ((ConstantEnergyEvent "write" (1 / 500)).name = (ConstantEnergyEvent "write" (1 / 1000)).name ∧
      (ConstantCurrentState "off" 1).name = (ConstantCurrentState "off" 0).name) ∧
    (((PowerModelChannel.elaborated (fun _ => []) "ch" "." 1000000 []).registerEvent "memory"
        (ConstantEnergyEvent "write" (1 / 1000))).1 = .ok 0 ∧
      ((((PowerModelChannel.elaborated (fun _ => []) "ch" "." 1000000 []).registerEvent "memory"
        (ConstantEnergyEvent "write" (1 / 1000))).2.registerAll
        [.registerEvent "memory" (ConstantEnergyEvent "read" (1 / 20000))]).registerEvent
        "memory" (ConstantEnergyEvent "write" (1 / 500))).1 = .error .duplicateName ∧
      ∃ id2, ((((PowerModelChannel.elaborated (fun _ => []) "ch" "." 1000000 []).registerEvent
        "memory" (ConstantEnergyEvent "write" (1 / 1000))).2.registerAll
        [.registerEvent "memory" (ConstantEnergyEvent "read" (1 / 20000))]).registerEvent
        "cpu" (ConstantEnergyEvent "write" (1 / 500))).1 = .ok id2 ∧ id2 ≠ 0) ∧
    (((PowerModelChannel.elaborated (fun _ => []) "ch" "." 1000000 []).registerState "memory"
        (ConstantCurrentState "off" 0)).1 = .ok 0 ∧
      ((((PowerModelChannel.elaborated (fun _ => []) "ch" "." 1000000 []).registerState "memory"
        (ConstantCurrentState "off" 0)).2.registerAll
        [.registerEvent "memory" (ConstantEnergyEvent "read" (1 / 20000))]).registerState
        "memory" (ConstantCurrentState "off" 1)).1 = .error .duplicateName ∧
      ∃ id2, ((((PowerModelChannel.elaborated (fun _ => []) "ch" "." 1000000 []).registerState
        "memory" (ConstantCurrentState "off" 0)).2.registerAll
        [.registerEvent "memory" (ConstantEnergyEvent "read" (1 / 20000))]).registerState
        "cpu" (ConstantCurrentState "off" 1)).1 = .ok id2 ∧ id2 ≠ 0) :=
  have h := duplicate_name_within_module_only (fun _ => []) "ch" "." 1000000 []
    [.registerEvent "memory" (ConstantEnergyEvent "read" (1 / 20000))] "memory" "cpu"
    (ConstantEnergyEvent "write" (1 / 1000)) (ConstantEnergyEvent "write" (1 / 500))
    (ConstantCurrentState "off" 0) (ConstantCurrentState "off" 1) rfl rfl
  ⟨⟨rfl, rfl⟩,
    ⟨rfl, (h.1 0 rfl).1, (h.1 0 rfl).2 (by unfold PowerModelChannel.HasEvent; decide)⟩,
    ⟨rfl, (h.2 0 rfl).1, (h.2 0 rfl).2 (by unfold PowerModelChannel.HasState; decide)⟩⟩

/-- C5: while `sc_is_running()` is true every `registerEvent` and every `registerState`
call fails with the registration-after-start error, and while it is false every
`reportEvent` and every `reportState` call fails with the simulation-not-running error,
whatever the arguments and whatever else the state of the channel is. -/
theorem phase_gating (s : PowerModelChannel R) :
    (s.sc_is_running = true →
      (∀ (m : String) (e : PowerModelEventBase R),
        (s.registerEvent m e).1 = .error .registrationAfterStart) ∧
      (∀ (m : String) (st : PowerModelStateBase R),
        (s.registerState m st).1 = .error .registrationAfterStart)) ∧
    (s.sc_is_running = false →
      (∀ eventId n : Nat, (s.reportEvent eventId n).1 = .error .simulationNotRunning) ∧
      (∀ stateId : Nat, (s.reportState stateId).1 = .error .simulationNotRunning)) := by
  constructor
  · intro h
    exact ⟨fun m e => by simp [PowerModelChannel.registerEvent, h],
      fun m st => by simp [PowerModelChannel.registerState, h]⟩
  · intro h
    exact ⟨fun eventId n => by simp [PowerModelChannel.reportEvent, h],
      fun stateId => by simp [PowerModelChannel.reportState, h]⟩

/-- C5, witness: the example channel after the start of the simulation refuses
registrations, the example channel before it refuses reports. -/
theorem phase_gating_witness :
    (exampleRunning.sc_is_running = true ∧ exampleRegistered.sc_is_running = false) ∧
    ((∀ (m : String) (e : PowerModelEventBase ℚ),
        (exampleRunning.registerEvent m e).1 = .error .registrationAfterStart) ∧
      (∀ (m : String) (st : PowerModelStateBase ℚ),
        (exampleRunning.registerState m st).1 = .error .registrationAfterStart)) ∧
    ((∀ eventId n : Nat,
        (exampleRegistered.reportEvent eventId n).1 = .error .simulationNotRunning) ∧
      (∀ stateId : Nat,
        (exampleRegistered.reportState stateId).1 = .error .simulationNotRunning)) :=
  ⟨⟨rfl, rfl⟩, (phase_gating exampleRunning).1 rfl, (phase_gating exampleRegistered).2 rfl⟩

theorem popEventCount_flag (s : PowerModelChannel R) (b : Bool) (eventId : Nat) :
    ({ s with sc_is_running := b }.popEventCount eventId).1 = (s.popEventCount eventId).1 ∧
    ({ s with sc_is_running := b }.popEventCount eventId).2 =
      { (s.popEventCount eventId).2 with sc_is_running := b } := by
  unfold PowerModelChannel.popEventCount
  simp only
  split
  · exact ⟨rfl, rfl⟩
  · split
    · exact ⟨rfl, rfl⟩
    · split <;> exact ⟨rfl, rfl⟩

theorem popEventEnergy_flag [Mul R] [IntCast R] (s : PowerModelChannel R) (b : Bool)
    (eventId : Nat) :
    ({ s with sc_is_running := b }.popEventEnergy eventId).1 = (s.popEventEnergy eventId).1 ∧
    ({ s with sc_is_running := b }.popEventEnergy eventId).2 =
      { (s.popEventEnergy eventId).2 with sc_is_running := b } := by
  obtain ⟨h1, h2⟩ := popEventCount_flag s b eventId
  unfold PowerModelChannel.popEventEnergy
  simp only
  split
  · exact ⟨rfl, rfl⟩
  · split
    · exact ⟨rfl, rfl⟩
    · split
      · exact ⟨rfl, rfl⟩
      · cases hp : s.popEventCount eventId with
        | mk r t =>
          cases hq : PowerModelChannel.popEventCount { s with sc_is_running := b } eventId with
          | mk r2 t2 =>
            rw [hp, hq] at h1 h2
            simp only at h1 h2
            subst h1 h2
            cases r2 <;> exact ⟨rfl, rfl⟩

theorem popDynamicEnergyLoop_flag [Add R] [Mul R] [IntCast R] (b : Bool) (ids : List Nat) :
    ∀ (acc : R) (s : PowerModelChannel R),
      (PowerModelChannel.popDynamicEnergyLoop ids acc { s with sc_is_running := b }).1 =
        (PowerModelChannel.popDynamicEnergyLoop ids acc s).1 := by
  induction ids with
  | nil => intro acc s; rfl
  | cons i rest ih =>
    intro acc s
    obtain ⟨h1, h2⟩ := popEventEnergy_flag s b i
    rw [PowerModelChannel.popDynamicEnergyLoop, PowerModelChannel.popDynamicEnergyLoop]
    cases hp : s.popEventEnergy i with
    | mk r t =>
      cases hq : PowerModelChannel.popEventEnergy { s with sc_is_running := b } i with
      | mk r2 t2 =>
        rw [hp, hq] at h1 h2
        simp only at h1 h2
        subst h1 h2
        cases r2 with
        | error err => rfl
        | ok e => exact ih _ _

theorem popEventCount_error (s : PowerModelChannel R) (eventId : Nat) {err : Error}
    (h : (s.popEventCount eventId).1 = .error err) :
    err = .assertion ∨ err = .undefinedBehaviour := by
  generalize hr : s.popEventCount eventId = r at h
  unfold PowerModelChannel.popEventCount at hr
  repeat' split at hr
  all_goals (subst hr; simp at h <;> simp [← h])

theorem popEventEnergy_error [Mul R] [IntCast R] (s : PowerModelChannel R) (eventId : Nat)
    {err : Error} (h : (s.popEventEnergy eventId).1 = .error err) :
    err = .assertion ∨ err = .undefinedBehaviour := by
  generalize hr : s.popEventEnergy eventId = r at h
  unfold PowerModelChannel.popEventEnergy at hr
  split at hr
  · subst hr; simp at h; simp [← h]
  · split at hr
    · subst hr; simp at h; simp [← h]
    · split at hr
      · subst hr; simp at h; simp [← h]
      · split at hr
        · subst hr; simp at h
        · rename_i err2 s1 hpc
          subst hr
          have h3 : err2 = err := by simpa using h
          subst h3
          exact popEventCount_error s eventId (by rw [hpc])

theorem popDynamicEnergyLoop_error [Add R] [Mul R] [IntCast R] (ids : List Nat) :
    ∀ (acc : R) (s : PowerModelChannel R) {err : Error},
      (PowerModelChannel.popDynamicEnergyLoop ids acc s).1 = .error err →
      err = .assertion ∨ err = .undefinedBehaviour := by
  induction ids with
  | nil =>
    intro acc s err h
    simp [PowerModelChannel.popDynamicEnergyLoop] at h
  | cons i rest ih =>
    intro acc s err h
    rw [PowerModelChannel.popDynamicEnergyLoop] at h
    cases hp : s.popEventEnergy i with
    | mk r t =>
      rw [hp] at h
      cases r with
      | error err2 =>
        simp only at h
        have h3 : err2 = err := by simpa using h
        subst h3
        exact popEventEnergy_error s i (by rw [hp])
      | ok e => exact ih _ _ h

/-- C6, as the code has it: no pop call fails with the simulation-not-running error, in
any state of the channel; `popEventCount`, `popEventEnergy` and `popDynamicEnergy` do not
look at the phase, their outcome is the same whatever `sc_is_running()` returns. -/
theorem pops_do_not_check_the_phase [Zero R] [Add R] [Mul R] [IntCast R]
    (s : PowerModelChannel R) (b : Bool) (eventId : Nat) :
    (s.popEventCount eventId).1 ≠ .error .simulationNotRunning ∧
    (s.popEventEnergy eventId).1 ≠ .error .simulationNotRunning ∧
    s.popDynamicEnergy.1 ≠ .error .simulationNotRunning ∧
    ({ s with sc_is_running := b }.popEventCount eventId).1 = (s.popEventCount eventId).1 ∧
    ({ s with sc_is_running := b }.popEventEnergy eventId).1 = (s.popEventEnergy eventId).1 ∧
    (PowerModelChannel.popDynamicEnergy { s with sc_is_running := b }).1 =
      s.popDynamicEnergy.1 := by
  refine ⟨?_, ?_, ?_, (popEventCount_flag s b eventId).1, (popEventEnergy_flag s b eventId).1,
    popDynamicEnergyLoop_flag b _ 0 s⟩
  · intro h
    rcases popEventCount_error s eventId h with hc | hc <;> cases hc
  · intro h
    rcases popEventEnergy_error s eventId h with hc | hc <;> cases hc
  · intro h
    rcases popDynamicEnergyLoop_error _ _ _ h with hc | hc <;> cases hc

/-- C6, counterexample to the claim as stated: before the run phase `popDynamicEnergy()`
on the freshly constructed example channel returns 0, and on the registered example
channel whose `start_of_simulation` callback has run, `popEventCount(0)` returns 0 and
`popDynamicEnergy()` returns a value; none fails. -/
theorem pops_before_run_phase_return :
    exampleChannel.sc_is_running = false ∧
    exampleChannel.popDynamicEnergy.1 = .ok 0 ∧
    exampleRegistered.start_of_simulation.2.sc_is_running = false ∧
    (exampleRegistered.start_of_simulation.2.popEventCount 0).1 = .ok 0 ∧
    (∃ x, exampleRegistered.start_of_simulation.2.popDynamicEnergy.1 = .ok x) :=
  ⟨rfl, rfl, rfl, rfl, _, rfl⟩

/-- C7: whenever `registerEvent`, `registerState`, `reportEvent` or `reportState` fails
with one of the signalled errors (registration after start, duplicate name, simulation
not running), the state of the channel after the call is the state before it, in every
field. -/
theorem signalled_failure_changes_nothing (s : PowerModelChannel R) (m : String)
    (e : PowerModelEventBase R) (st : PowerModelStateBase R) (eventId n stateId : Nat)
    (err : Error) (hs : err.Signalled) :
    ((s.registerEvent m e).1 = .error err → (s.registerEvent m e).2 = s) ∧
    ((s.registerState m st).1 = .error err → (s.registerState m st).2 = s) ∧
    ((s.reportEvent eventId n).1 = .error err → (s.reportEvent eventId n).2 = s) ∧
    ((s.reportState stateId).1 = .error err → (s.reportState stateId).2 = s) := by
  obtain ⟨hna, hnu⟩ := signalled_ne hs
  refine ⟨fun h => ?_, fun h => ?_, fun h => ?_, fun h => ?_⟩
  · rcases registerEvent_shape s m e with h1 | ⟨id, h1⟩ | h1 | h1
    · exact h1
    · rw [h1] at h; cases h
    · rw [h1] at h; exact absurd (Except.error.inj h).symm hna
    · rw [h1] at h; exact absurd (Except.error.inj h).symm hnu
  · rcases registerState_shape s m st with h1 | ⟨id, h1⟩ | h1 | h1
    · exact h1
    · rw [h1] at h; cases h
    · rw [h1] at h; exact absurd (Except.error.inj h).symm hna
    · rw [h1] at h; exact absurd (Except.error.inj h).symm hnu
  · rcases reportEvent_shape s eventId n with h1 | h1 | h1 | h1
    · exact h1
    · rw [h1] at h; cases h
    · rw [h1] at h; exact absurd (Except.error.inj h).symm hna
    · rw [h1] at h; exact absurd (Except.error.inj h).symm hnu
  · rcases reportState_shape s stateId with h1 | h1 | h1 | h1
    · exact h1
    · rw [h1] at h; cases h
    · rw [h1] at h; exact absurd (Except.error.inj h).symm hna
    · rw [h1] at h; exact absurd (Except.error.inj h).symm hnu

/-- C7, witness: on the registered example channel a second "write" resp. "off" under
"memory" fails with the duplicate-name error and leaves the channel as it was. -/
theorem signalled_failure_changes_nothing_witness :
    Error.Signalled .duplicateName ∧
    ((exampleRegistered.registerEvent "memory" (ConstantEnergyEvent "write" 1)).1 =
        .error .duplicateName ∧
      (exampleRegistered.registerEvent "memory" (ConstantEnergyEvent "write" 1)).2 =
        exampleRegistered) ∧
    ((exampleRegistered.registerState "memory" (ConstantCurrentState "off" 1)).1 =
        .error .duplicateName ∧
      (exampleRegistered.registerState "memory" (ConstantCurrentState "off" 1)).2 =
        exampleRegistered) :=
  have hs : Error.Signalled .duplicateName := Or.inr (Or.inl rfl)
  have h := signalled_failure_changes_nothing exampleRegistered "memory"
    (ConstantEnergyEvent "write" 1) (ConstantCurrentState "off" 1) 0 0 0 .duplicateName hs
  ⟨hs, ⟨rfl, h.1 rfl⟩, ⟨rfl, h.2.1 rfl⟩⟩

/-- C8, the code at the failing input: the example channel has 2 events, and in the run
phase `reportEvent(2, 5)` and `popEventCount(2)` pass the assertion (the newest event-log
row has 3 entries) and go on to index `m_eventRates` outside its bounds; only from id 3
on does the assertion fail. -/
theorem event_id_equal_to_event_count_passes_assertion :
    exampleRunning.sc_is_running = true ∧
    exampleRunning.m_events.length = 2 ∧
    exampleRunning.m_eventRates.length = 2 ∧
    exampleRunning.m_eventLog.getLast?.map List.length = some 3 ∧
    (exampleRunning.reportEvent 2 5).1 = .error .undefinedBehaviour ∧
    (exampleRunning.reportEvent 2 5).1 ≠ .error .assertion ∧
    (exampleRunning.popEventCount 2).1 = .error .undefinedBehaviour ∧
    (exampleRunning.popEventCount 2).1 ≠ .error .assertion ∧
    (exampleRunning.reportEvent 3 5).1 = .error .assertion ∧
    (exampleRunning.popEventCount 3).1 = .error .assertion := by
  refine ⟨rfl, rfl, rfl, rfl, rfl, ?_, rfl, ?_, rfl, rfl⟩
  · have h : (exampleRunning.reportEvent 2 5).1 = .error .undefinedBehaviour := rfl
    rw [h]
    intro hc
    cases hc
  · have h : (exampleRunning.popEventCount 2).1 = .error .undefinedBehaviour := rfl
    rw [h]
    intro hc
    cases hc

/-- C9: during elaboration a successful `registerEvent` returns the number of
`registerEvent` calls that succeeded before it and stores its descriptor under that id,
a successful `registerState` returns the number of `registerState` calls that succeeded
before it, each kind leaves the other kind's descriptors alone, a failed registration
adds no descriptor, and a descriptor stored under an id is found unchanged under that id
after any later registrations, the start of the simulation and any run-phase calls. -/
theorem dense_stable_ids [Zero R] [DecidableEq R] [SimTime R] (fs : FileSystem R)
    (name logFilePath : String) (logTimestep : Nat) (regs more : List (RegCall R))
    (calls : List (RunCall R))
    (hv : ∀ r ∈ calls, r.Valid
      (PowerModelChannel.started fs name logFilePath logTimestep (regs ++ more)).m_events.length
      (PowerModelChannel.started fs name logFilePath logTimestep
        (regs ++ more)).m_states.length) :
    (∀ (m : String) (e : PowerModelEventBase R) (id : Nat),
      ((PowerModelChannel.elaborated fs name logFilePath logTimestep regs).registerEvent
        m e).1 = .ok id →
      id = (PowerModelChannel.new fs name logFilePath logTimestep).successfulEvents regs ∧
      (∃ entry, entry.event = e ∧
        ((PowerModelChannel.elaborated fs name logFilePath logTimestep regs).registerEvent
          m e).2.m_events[id]? = some entry) ∧
      ((PowerModelChannel.elaborated fs name logFilePath logTimestep regs).registerEvent
        m e).2.m_states =
        (PowerModelChannel.elaborated fs name logFilePath logTimestep regs).m_states) ∧
    (∀ (m : String) (st : PowerModelStateBase R) (id : Nat),
      ((PowerModelChannel.elaborated fs name logFilePath logTimestep regs).registerState
        m st).1 = .ok id →
      id = (PowerModelChannel.new fs name logFilePath logTimestep).successfulStates regs ∧
      (∃ entry, entry.state = st ∧
        ((PowerModelChannel.elaborated fs name logFilePath logTimestep regs).registerState
          m st).2.m_states[id]? = some entry) ∧
      ((PowerModelChannel.elaborated fs name logFilePath logTimestep regs).registerState
        m st).2.m_events =
        (PowerModelChannel.elaborated fs name logFilePath logTimestep regs).m_events) ∧
    (∀ (c : RegCall R) (err : Error),
      ((PowerModelChannel.elaborated fs name logFilePath logTimestep regs).register c).1 =
        .error err →
      ((PowerModelChannel.elaborated fs name logFilePath logTimestep regs).register c).2 =
        PowerModelChannel.elaborated fs name logFilePath logTimestep regs) ∧
    (∀ (i : Nat) (x : ModuleEventEntry R),
      (PowerModelChannel.elaborated fs name logFilePath logTimestep regs).m_events[i]? = some x →
      (PowerModelChannel.elaborated fs name logFilePath logTimestep
        (regs ++ more)).m_events[i]? = some x ∧
      ((PowerModelChannel.started fs name logFilePath logTimestep
        (regs ++ more)).runCalls calls).2.m_events[i]? = some x) ∧
    (∀ (i : Nat) (x : ModuleStateEntry R),
      (PowerModelChannel.elaborated fs name logFilePath logTimestep regs).m_states[i]? = some x →
      (PowerModelChannel.elaborated fs name logFilePath logTimestep
        (regs ++ more)).m_states[i]? = some x ∧
      ((PowerModelChannel.started fs name logFilePath logTimestep
        (regs ++ more)).runCalls calls).2.m_states[i]? = some x) := by
  have h0 := elaborated_elaborating fs name logFilePath logTimestep regs
  have hnew := new_elaborating fs name logFilePath logTimestep
  have hE := registerAll_events_length regs hnew
  have hS := registerAll_states_length regs hnew
  obtain ⟨⟨es, e1, e2⟩, ⟨ss, s1, s2⟩⟩ :=
    registry_stable fs name logFilePath logTimestep regs more calls hv
  refine ⟨?_, ?_, ?_, ?_, ?_⟩
  · intro m e id hok
    obtain ⟨hid, -, -, hev, hst, -⟩ := registerEvent_ok h0 m e hok
    have hstored : ((PowerModelChannel.elaborated fs name logFilePath logTimestep
        regs).registerEvent m e).2.m_events[id]? =
        some (ModuleEventEntry.mk e (List.indexOf m ((PowerModelChannel.elaborated fs name
          logFilePath logTimestep regs).registerEvent m e).2.m_moduleNames)) := by
      rw [hev, hid]
      simp
    refine ⟨?_, ⟨_, rfl, hstored⟩, hst⟩
    rw [hid]
    unfold PowerModelChannel.elaborated
    rw [hE]
    simp [PowerModelChannel.new]
  · intro m st id hok
    obtain ⟨hid, -, -, hev, hst, -⟩ := registerState_ok h0 m st hok
    have hstored : ((PowerModelChannel.elaborated fs name logFilePath logTimestep
        regs).registerState m st).2.m_states[id]? =
        some (ModuleStateEntry.mk st (List.indexOf m ((PowerModelChannel.elaborated fs name
          logFilePath logTimestep regs).registerState m st).2.m_moduleNames)) := by
      rw [hev, hid]
      simp
    refine ⟨?_, ⟨_, rfl, hstored⟩, hst⟩
    rw [hid]
    unfold PowerModelChannel.elaborated
    rw [hS]
    simp [PowerModelChannel.new]
  · intro c err herr
    cases c with
    | registerEvent m e =>
      rcases registerEvent_cases h0 m e with ⟨-, heq⟩ | ⟨-, hok, -⟩
      · exact congrArg Prod.snd heq
      · have herr2 : (PowerModelChannel.registerEvent _ m e).1 = .error err := herr
        rw [hok] at herr2
        cases herr2
    | registerState m e =>
      rcases registerState_cases h0 m e with ⟨-, heq⟩ | ⟨-, hok, -⟩
      · exact congrArg Prod.snd heq
      · have herr2 : (PowerModelChannel.registerState _ m e).1 = .error err := herr
        rw [hok] at herr2
        cases herr2
  · intro i x hx
    rw [e1, e2]
    exact ⟨getElem?_append_of_some es hx, getElem?_append_of_some es hx⟩
  · intro i x hx
    rw [s1, s2]
    exact ⟨getElem?_append_of_some ss hx, getElem?_append_of_some ss hx⟩

/-- C9, witness: "memory" registers "write", is refused a second "write", registers "off";
the next event gets id 1 and the next state id 1, the refused call has consumed nothing,
and after the later registrations, the start of the simulation and the example run, event
0 is still "write" of module 0. -/
theorem dense_stable_ids_witness :
    (∀ r ∈ exampleRun, r.Valid
      (PowerModelChannel.started (fun _ => []) "ch" "." 1000000
        (exampleRegistrationsWithDuplicate ++ exampleLaterRegistrations)).m_events.length
      (PowerModelChannel.started (fun _ => []) "ch" "." 1000000
        (exampleRegistrationsWithDuplicate ++ exampleLaterRegistrations)).m_states.length) ∧
    ((PowerModelChannel.elaborated (fun _ => []) "ch" "." 1000000
        exampleRegistrationsWithDuplicate).registerEvent "memory"
        (ConstantEnergyEvent "read" (5 / 100000))).1 = .ok 1 ∧
    (1 = (PowerModelChannel.new (fun _ => []) "ch" "." 1000000).successfulEvents
      exampleRegistrationsWithDuplicate) ∧
    ((PowerModelChannel.elaborated (fun _ => []) "ch" "." 1000000
        exampleRegistrationsWithDuplicate).registerState "memory"
        (ConstantCurrentState "on" (1 / 10000))).1 = .ok 1 ∧
    (1 = (PowerModelChannel.new (fun _ => []) "ch" "." 1000000).successfulStates
      exampleRegistrationsWithDuplicate) ∧
    ((PowerModelChannel.started (fun _ => []) "ch" "." 1000000
      (exampleRegistrationsWithDuplicate ++ exampleLaterRegistrations)).runCalls
      exampleRun).2.m_events[0]? =
      some (ModuleEventEntry.mk (ConstantEnergyEvent "write" (1 / 1000)) 0) :=
  have hv : ∀ r ∈ exampleRun, r.Valid
      (PowerModelChannel.started (fun _ => []) "ch" "." 1000000
        (exampleRegistrationsWithDuplicate ++ exampleLaterRegistrations)).m_events.length
      (PowerModelChannel.started (fun _ => []) "ch" "." 1000000
        (exampleRegistrationsWithDuplicate ++ exampleLaterRegistrations)).m_states.length := by
    have hE : (PowerModelChannel.started (fun _ => []) "ch" "." 1000000
        (exampleRegistrationsWithDuplicate ++ exampleLaterRegistrations)).m_events.length = 2 := by
      decide
    have hS : (PowerModelChannel.started (fun _ => []) "ch" "." 1000000
        (exampleRegistrationsWithDuplicate ++ exampleLaterRegistrations)).m_states.length = 2 := by
      decide
    rw [hE, hS]
    intro c hc
    simp only [exampleRun, List.mem_cons, List.mem_singleton, List.not_mem_nil, or_false] at hc
    rcases hc with rfl | rfl | rfl | rfl | rfl | rfl | rfl | rfl | rfl <;>
      simp [RunCall.Valid]
  have h := dense_stable_ids (fun _ => []) "ch" "." 1000000 exampleRegistrationsWithDuplicate
    exampleLaterRegistrations exampleRun hv
  ⟨hv, rfl, (h.1 "memory" (ConstantEnergyEvent "read" (5 / 100000)) 1 rfl).1, rfl,
    (h.2.1 "memory" (ConstantCurrentState "on" (1 / 10000)) 1 rfl).1,
    (h.2.2.2.1 0 _ rfl).2⟩

/-- C10: after any sequence of `registerEvent` / `registerState` calls on a new channel,
successful or refused, the module names are pairwise distinct and are the names the calls
were made under, in the order of their first occurrence; every descriptor stored by a
successful call, event or state, carries as module id the position of the call's module
name in that list; no two events have the same (module id, name) and no two states have
the same (module id, name). -/
theorem registry_invariant [Zero R] (fs : FileSystem R) (name logFilePath : String)
    (logTimestep : Nat) (regs : List (RegCall R)) :
    (PowerModelChannel.elaborated fs name logFilePath logTimestep regs).m_moduleNames.Nodup ∧
    (PowerModelChannel.elaborated fs name logFilePath logTimestep regs).m_moduleNames =
      firstOccurrences (regs.map RegCall.moduleName) ∧
    (∀ x ∈ (PowerModelChannel.elaborated fs name logFilePath logTimestep regs).m_events,
      x.moduleId <
        (PowerModelChannel.elaborated fs name logFilePath logTimestep regs).m_moduleNames.length) ∧
    (∀ x ∈ (PowerModelChannel.elaborated fs name logFilePath logTimestep regs).m_states,
      x.moduleId <
        (PowerModelChannel.elaborated fs name logFilePath logTimestep regs).m_moduleNames.length) ∧
    (∀ (pre post : List (RegCall R)) (c : RegCall R) (id : Nat), regs = pre ++ c :: post →
      ((PowerModelChannel.elaborated fs name logFilePath logTimestep pre).register c).1 =
        .ok id →
      (PowerModelChannel.elaborated fs name logFilePath logTimestep regs).storedModuleId c id =
        some ((PowerModelChannel.elaborated fs name logFilePath logTimestep
          regs).m_moduleNames.indexOf c.moduleName)) ∧
    EventsUnique (PowerModelChannel.elaborated fs name logFilePath logTimestep regs).m_events ∧
    StatesUnique (PowerModelChannel.elaborated fs name logFilePath logTimestep regs).m_states := by
  have h := elaborated_elaborating fs name logFilePath logTimestep regs
  refine ⟨h.nodup, ?_, h.eventModule, h.stateModule, ?_, h.eventsUnique, h.statesUnique⟩
  · unfold PowerModelChannel.elaborated firstOccurrences
    rw [registerAll_moduleNames regs (new_elaborating fs name logFilePath logTimestep)]
    rfl
  · intro pre post c id hregs hok
    subst hregs
    have h0 := elaborated_elaborating fs name logFilePath logTimestep pre
    have h1 := register_elaborating h0 c
    obtain ⟨ns, es, ss, g1, g2, g3⟩ := registerAll_grows post h1
    rw [elaborated_append, registerAll_cons]
    cases c with
    | registerEvent m e =>
      obtain ⟨hid, -, hmem, hev, -, -⟩ := registerEvent_ok h0 m e hok
      have hstored : ((PowerModelChannel.elaborated fs name logFilePath logTimestep
          pre).registerEvent m e).2.m_events[id]? =
          some (ModuleEventEntry.mk e (List.indexOf m ((PowerModelChannel.elaborated fs name
            logFilePath logTimestep pre).registerEvent m e).2.m_moduleNames)) := by
        rw [hev, hid]
        simp
      simp only [PowerModelChannel.register] at g1 g2 ⊢
      simp only [PowerModelChannel.storedModuleId, RegCall.moduleName]
      rw [g1, g2, getElem?_append_of_some es hstored, List.indexOf_append_of_mem hmem]
      rfl
    | registerState m e =>
      obtain ⟨hid, -, hmem, hev, -, -⟩ := registerState_ok h0 m e hok
      have hstored : ((PowerModelChannel.elaborated fs name logFilePath logTimestep
          pre).registerState m e).2.m_states[id]? =
          some (ModuleStateEntry.mk e (List.indexOf m ((PowerModelChannel.elaborated fs name
            logFilePath logTimestep pre).registerState m e).2.m_moduleNames)) := by
        rw [hev, hid]
        simp
      simp only [PowerModelChannel.register] at g1 g3 ⊢
      simp only [PowerModelChannel.storedModuleId, RegCall.moduleName]
      rw [g1, g3, getElem?_append_of_some ss hstored, List.indexOf_append_of_mem hmem]
      rfl

/-- C10, witness: two modules registering in turn, with a refused call; "memory" is module
0 and "cpu" module 1 for their events and for their states. -/
theorem registry_invariant_witness :
    (PowerModelChannel.elaborated (fun _ => []) "ch" "." 1000000
      exampleTwoModules).m_moduleNames = ["memory", "cpu"] ∧
    firstOccurrences (exampleTwoModules.map RegCall.moduleName) = ["memory", "cpu"] ∧
    ((PowerModelChannel.elaborated (fun _ => []) "ch" "." 1000000
      exampleTwoModules).m_events.map (fun x => (x.moduleId, x.event.name))) =
      [(0, "write"), (0, "read"), (1, "write")] ∧
    ((PowerModelChannel.elaborated (fun _ => []) "ch" "." 1000000
      exampleTwoModules).m_states.map (fun x => (x.moduleId, x.state.name))) =
      [(0, "off"), (1, "off")] ∧
    EventsUnique (PowerModelChannel.elaborated (fun _ => []) "ch" "." 1000000
      exampleTwoModules).m_events ∧
    StatesUnique (PowerModelChannel.elaborated (fun _ => []) "ch" "." 1000000
      exampleTwoModules).m_states :=
  have h := registry_invariant (fun _ => []) "ch" "." 1000000 exampleTwoModules
  ⟨by rfl, by rfl, by rfl, by rfl, h.2.2.2.2.2.1, h.2.2.2.2.2.2⟩

/-! ## Claims C11 to C20 -/

theorem isDefaultState_append {states : List (ModuleStateEntry R)} {k : Nat} {v : Int}
    (h : IsDefaultState states k v) (x : ModuleStateEntry R)
    (hx : x.moduleId ≠ k ∨ v ≠ -1) : IsDefaultState (states ++ [x]) k v := by
  rcases h with ⟨hv, hnone⟩ | ⟨i, y, hv, hy, hk, hfirst⟩
  · rcases hx with hx | hx
    · left
      refine ⟨hv, ?_⟩
      intro z hz
      simp only [List.mem_append, List.mem_singleton] at hz
      rcases hz with hz | hz
      · exact hnone z hz
      · rw [hz]; exact hx
    · exact absurd hv hx
  · right
    have hi : i < states.length := (List.getElem?_eq_some_iff.1 hy).1
    refine ⟨i, y, hv, getElem?_append_of_some _ hy, hk, ?_⟩
    intro j z hj hz
    rw [List.getElem?_append_left (by omega)] at hz
    exact hfirst j z hj hz

theorem isDefaultState_first {states : List (ModuleStateEntry R)} {k : Nat}
    (h : ∀ x ∈ states, x.moduleId ≠ k) (e : PowerModelStateBase R) :
    IsDefaultState (states ++ [ModuleStateEntry.mk e k]) k (states.length : Int) := by
  right
  refine ⟨states.length, ModuleStateEntry.mk e k, rfl, by simp, rfl, ?_⟩
  intro j y hj hy
  rw [List.getElem?_append_left hj] at hy
  exact h y (List.getElem?_mem hy)

theorem currentState_singleton {s : PowerModelChannel R} {row : List Int}
    (h : s.m_stateLog = [row]) (k : Nat) : s.currentState k = row[k]? := by
  simp [PowerModelChannel.currentState, h]

/-- One registration call keeps every current state the default state of its module. -/
theorem register_defaultStates {s : PowerModelChannel R} (h : s.Elaborating)
    (hd : ∀ k v, s.currentState k = some v → IsDefaultState s.m_states k v) (c : RegCall R) :
    ∀ k v, (s.register c).2.currentState k = some v →
      IsDefaultState (s.register c).2.m_states k v := by
  obtain ⟨row0, hrow0, hlen0⟩ := h.stateLog
  have hd0 : ∀ k v, row0[k]? = some v → IsDefaultState s.m_states k v := by
    intro k v hk
    exact hd k v (by rw [currentState_singleton hrow0]; exact hk)
  cases c with
  | registerEvent m e =>
    show ∀ k v, (s.registerEvent m e).2.currentState k = some v →
      IsDefaultState (s.registerEvent m e).2.m_states k v
    by_cases hm : m ∈ s.m_moduleNames
    · by_cases hdup : ∃ x ∈ s.m_events, x.event.name = e.name ∧
          x.moduleId = s.m_moduleNames.indexOf m
      · rw [registerEvent_duplicate h m e hm hdup]
        exact hd
      · rw [registerEvent_known h m e hm hdup]
        exact hd
    · obtain ⟨row, hrow, heq⟩ := registerEvent_new h m e hm
      rw [hrow0] at hrow
      have hrr : row0 = row := by simpa using hrow
      subst hrr
      rw [heq]
      intro k v hk
      rw [currentState_singleton rfl] at hk
      by_cases hlt : k < row0.length
      · rw [List.getElem?_append_left hlt] at hk
        exact hd0 k v hk
      · rw [List.getElem?_append_right (by omega)] at hk
        have hk0 : k - row0.length = 0 := by
          by_contra hne
          have : ([-1] : List Int)[k - row0.length]? = none := by
            apply List.getElem?_eq_none
            simp
            omega
          rw [this] at hk
          cases hk
        rw [hk0] at hk
        have hv : v = -1 := by simpa using hk.symm
        left
        refine ⟨hv, ?_⟩
        intro x hx
        have := h.stateModule x hx
        omega
  | registerState m e =>
    show ∀ k v, (s.registerState m e).2.currentState k = some v →
      IsDefaultState (s.registerState m e).2.m_states k v
    by_cases hm : m ∈ s.m_moduleNames
    · by_cases hdup : ∃ x ∈ s.m_states, x.state.name = e.name ∧
          x.moduleId = s.m_moduleNames.indexOf m
      · rw [registerState_duplicate h m e hm hdup]
        exact hd
      · obtain ⟨row, hrow, heq⟩ := registerState_known h m e hm hdup
        rw [hrow0] at hrow
        have hrr : row0 = row := by simpa using hrow
        subst hrr
        rw [heq]
        intro k v hk
        rw [currentState_singleton rfl] at hk
        have hidx : s.m_moduleNames.indexOf m < row0.length := by
          rw [hlen0]; exact List.indexOf_lt_length.2 hm
        by_cases hunset : row0[s.m_moduleNames.indexOf m]? = some (-1)
        · rw [if_pos hunset] at hk
          by_cases hki : k = s.m_moduleNames.indexOf m
          · subst hki
            rw [List.getElem?_set_self hidx] at hk
            have hv : v = (s.m_states.length : Int) := by simpa using hk.symm
            rw [hv]
            rcases hd0 _ _ hunset with ⟨-, hnone⟩ | ⟨i, y, hv2, -⟩
            · exact isDefaultState_first hnone e
            · omega
          · rw [List.getElem?_set_ne (Ne.symm hki)] at hk
            exact isDefaultState_append (hd0 k v hk) _ (Or.inl (Ne.symm hki))
        · rw [if_neg hunset] at hk
          by_cases hki : k = s.m_moduleNames.indexOf m
          · subst hki
            have hv : v ≠ -1 := by
              intro hc
              rw [hc] at hk
              exact hunset hk
            exact isDefaultState_append (hd0 _ v hk) _ (Or.inr hv)
          · exact isDefaultState_append (hd0 k v hk) _ (Or.inl (Ne.symm hki))
    · obtain ⟨row, hrow, heq⟩ := registerState_new h m e hm
      rw [hrow0] at hrow
      have hrr : row0 = row := by simpa using hrow
      subst hrr
      rw [heq]
      intro k v hk
      rw [currentState_singleton rfl] at hk
      by_cases hlt : k < row0.length
      · rw [List.getElem?_append_left hlt] at hk
        refine isDefaultState_append (hd0 k v hk) _ (Or.inl ?_)
        simp only
        omega
      · rw [List.getElem?_append_right (by omega)] at hk
        have hk0 : k - row0.length = 0 := by
          by_contra hne
          have : ([(s.m_states.length : Int)] : List Int)[k - row0.length]? = none := by
            apply List.getElem?_eq_none
            simp
            omega
          rw [this] at hk
          cases hk
        rw [hk0] at hk
        have hv : v = (s.m_states.length : Int) := by simpa using hk.symm
        have hkM : k = s.m_moduleNames.length := by omega
        rw [hv, hkM]
        apply isDefaultState_first
        intro x hx
        have := h.stateModule x hx
        omega

theorem registerAll_defaultStates (calls : List (RegCall R)) {s : PowerModelChannel R}
    (h : s.Elaborating)
    (hd : ∀ k v, s.currentState k = some v → IsDefaultState s.m_states k v) :
    ∀ k v, (s.registerAll calls).currentState k = some v →
      IsDefaultState (s.registerAll calls).m_states k v := by
  induction calls generalizing s with
  | nil => exact hd
  | cons c cs ih => exact ih (register_elaborating h c) (register_defaultStates h hd c)

theorem isDefaultState_unique {states : List (ModuleStateEntry R)} {k : Nat} {v w : Int}
    (hv : IsDefaultState states k v) (hw : IsDefaultState states k w) : v = w := by
  rcases hv with ⟨hv, hnone⟩ | ⟨i, x, hv, hx, hxk, hfirst⟩
  · rcases hw with ⟨hw, -⟩ | ⟨j, y, -, hy, hyk, -⟩
    · rw [hv, hw]
    · exact absurd hyk (hnone y (List.getElem?_mem hy))
  · rcases hw with ⟨-, hnone⟩ | ⟨j, y, hw, hy, hyk, hfirst2⟩
    · exact absurd hxk (hnone x (List.getElem?_mem hx))
    · have hij : i = j := by
        rcases Nat.lt_trichotomy i j with hlt | heq | hgt
        · exact absurd hxk (hfirst2 i x hlt hx)
        · exact heq
        · exact absurd hyk (hfirst j y hgt hy)
      rw [hv, hw, hij]

theorem isDefaultState_grows {states : List (ModuleStateEntry R)} {k : Nat} {v : Int}
    (h : IsDefaultState states k v) (hv : v ≠ -1) (more : List (ModuleStateEntry R)) :
    IsDefaultState (states ++ more) k v := by
  rcases h with ⟨hv2, -⟩ | ⟨i, y, hv2, hy, hk, hfirst⟩
  · exact absurd hv2 hv
  · right
    have hi : i < states.length := (List.getElem?_eq_some_iff.1 hy).1
    refine ⟨i, y, hv2, getElem?_append_of_some _ hy, hk, ?_⟩
    intro j z hj hz
    rw [List.getElem?_append_left (by omega)] at hz
    exact hfirst j z hj hz

theorem elaborated_defaultStates [Zero R] (fs : FileSystem R) (name logFilePath : String)
    (logTimestep : Nat) (regs : List (RegCall R)) :
    ∀ k v, (PowerModelChannel.elaborated fs name logFilePath logTimestep regs).currentState k =
        some v →
      IsDefaultState (PowerModelChannel.elaborated fs name logFilePath logTimestep regs).m_states
        k v := by
  apply registerAll_defaultStates regs (new_elaborating fs name logFilePath logTimestep)
  intro k v hk
  simp [PowerModelChannel.currentState, PowerModelChannel.new] at hk

/-- C11: after any sequence of registrations on a new channel, the current state of every
module is defined and is the default state of the module: the id of the first state
registered with the module's id if there is one, the unset marker -1 if the module has
registered events only. Once set it is not changed by any later registration, and the
start of the simulation leaves it as it is. -/
theorem default_current_state [Zero R] [SimTime R] (fs : FileSystem R)
    (name logFilePath : String) (logTimestep : Nat) (regs more : List (RegCall R)) (k : Nat)
    (hk : k < (PowerModelChannel.elaborated fs name logFilePath logTimestep
      regs).m_moduleNames.length) :
    ∃ v, (PowerModelChannel.elaborated fs name logFilePath logTimestep regs).currentState k =
        some v ∧
      IsDefaultState (PowerModelChannel.elaborated fs name logFilePath logTimestep regs).m_states
        k v ∧
      (PowerModelChannel.started fs name logFilePath logTimestep regs).currentState k = some v ∧
      (v ≠ -1 → (PowerModelChannel.elaborated fs name logFilePath logTimestep
        (regs ++ more)).currentState k = some v) := by
  have h0 := elaborated_elaborating fs name logFilePath logTimestep regs
  obtain ⟨row, hrow, hlen⟩ := h0.stateLog
  have hkr : k < row.length := by rw [hlen]; exact hk
  have hcur : (PowerModelChannel.elaborated fs name logFilePath logTimestep regs).currentState k =
      some row[k] := by
    rw [currentState_singleton hrow, List.getElem?_eq_getElem hkr]
  have hdef := elaborated_defaultStates fs name logFilePath logTimestep regs k _ hcur
  refine ⟨row[k], hcur, hdef, ?_, ?_⟩
  · obtain ⟨row2, hrow2, -, heq⟩ := startSimulation_eq h0
    rw [hrow] at hrow2
    have hrr : row = row2 := by simpa using hrow2
    subst hrr
    unfold PowerModelChannel.started
    rw [heq, currentState_singleton rfl, List.getElem?_append_left hkr,
      List.getElem?_eq_getElem hkr]
  · intro hv
    have h1 := elaborated_elaborating fs name logFilePath logTimestep (regs ++ more)
    obtain ⟨row1, hrow1, hlen1⟩ := h1.stateLog
    obtain ⟨ns, es, ss, g1, g2, g3⟩ := registerAll_grows more h0
    rw [← elaborated_append] at g1 g3
    have hk1 : k < row1.length := by
      rw [hlen1, g1, List.length_append]
      omega
    have hcur1 : (PowerModelChannel.elaborated fs name logFilePath logTimestep
        (regs ++ more)).currentState k = some row1[k] := by
      rw [currentState_singleton hrow1, List.getElem?_eq_getElem hk1]
    have hdef1 := elaborated_defaultStates fs name logFilePath logTimestep (regs ++ more) k _ hcur1
    rw [g3] at hdef1
    rw [hcur1, isDefaultState_unique hdef1 (isDefaultState_grows hdef hv ss)]

/-- C11, witness: after the registrations of the example and an event of a module "bus",
module 0 ("memory") is in state 0 ("off", its first state) and module 1 ("bus", events
only) is unset; a later state of "memory" does not change its current state. -/
theorem default_current_state_witness :
    (0 < (PowerModelChannel.elaborated (fun _ => []) "ch" "." 1000000
      exampleWithEventOnlyModule).m_moduleNames.length ∧
      1 < (PowerModelChannel.elaborated (fun _ => []) "ch" "." 1000000
        exampleWithEventOnlyModule).m_moduleNames.length) ∧
    (PowerModelChannel.elaborated (fun _ => []) "ch" "." 1000000
      exampleWithEventOnlyModule).currentState 0 = some 0 ∧
    (PowerModelChannel.elaborated (fun _ => []) "ch" "." 1000000
      exampleWithEventOnlyModule).currentState 1 = some (-1) ∧
    (PowerModelChannel.elaborated (fun _ => []) "ch" "." 1000000
      (exampleWithEventOnlyModule ++
        [.registerState "memory" (ConstantCurrentState "sleep" 0)])).currentState 0 = some 0 ∧
    (∃ v, (PowerModelChannel.elaborated (fun _ => []) "ch" "." 1000000
        exampleWithEventOnlyModule).currentState 1 = some v ∧
      IsDefaultState (PowerModelChannel.elaborated (fun _ => []) "ch" "." 1000000
        exampleWithEventOnlyModule).m_states 1 v ∧
      (PowerModelChannel.started (fun _ => []) "ch" "." 1000000
        exampleWithEventOnlyModule).currentState 1 = some v ∧
      (v ≠ -1 → (PowerModelChannel.elaborated (fun _ => []) "ch" "." 1000000
        (exampleWithEventOnlyModule ++ [])).currentState 1 = some v)) :=
  have h0 : 0 < (PowerModelChannel.elaborated (fun _ => []) "ch" "." 1000000
      exampleWithEventOnlyModule).m_moduleNames.length := by decide
  have h1 : 1 < (PowerModelChannel.elaborated (fun _ => []) "ch" "." 1000000
      exampleWithEventOnlyModule).m_moduleNames.length := by decide
  have hthm := default_current_state (fun _ => []) "ch" "." 1000000 exampleWithEventOnlyModule
    [.registerState "memory" (ConstantCurrentState "sleep" 0)] 0 h0
  have hcur : (PowerModelChannel.elaborated (fun _ => []) "ch" "." 1000000
      exampleWithEventOnlyModule).currentState 0 = some 0 := by rfl
  ⟨⟨h0, h1⟩, hcur, by rfl,
    by
      obtain ⟨v, hv, -, -, hlater⟩ := hthm
      rw [hcur] at hv
      have hv0 : v = 0 := (Option.some.inj hv).symm
      subst hv0
      exact hlater (by decide),
    default_current_state (fun _ => []) "ch" "." 1000000 exampleWithEventOnlyModule [] 1 h1⟩

/-- C12: in the run phase `reportState(stateId)` for a registered state id succeeds and
replaces, in the newest state-log row, the column of the module that owns the state by
`stateId`; every other column of that row (the other modules, the trailing time stamp),
every other row and every other field of the channel (the pop counters, the event log,
the files) are as before; a second `reportState(stateId)` right after changes nothing. -/
theorem reportState_sets_only_its_module (s : PowerModelChannel R) (hs : s.Running)
    (stateId : Nat) (hid : stateId < s.m_states.length) :
    ∃ pre row entry, s.m_stateLog = pre ++ [row] ∧ s.m_states[stateId]? = some entry ∧
      entry.moduleId < s.m_moduleNames.length ∧ row.length = s.m_moduleNames.length + 1 ∧
      s.reportState stateId = (.ok (),
        { s with m_stateLog := pre ++ [row.set entry.moduleId (stateId : Int)] }) ∧
      (s.reportState stateId).2.currentState entry.moduleId = some (stateId : Int) ∧
      (∀ k, k ≠ entry.moduleId → (s.reportState stateId).2.currentState k = s.currentState k) ∧
      (s.reportState stateId).2.currentState s.m_moduleNames.length =
        s.currentState s.m_moduleNames.length ∧
      (s.reportState stateId).2.m_eventRates = s.m_eventRates ∧
      (s.reportState stateId).2.m_eventLog = s.m_eventLog ∧
      (s.reportState stateId).2.reportState stateId = (.ok (), (s.reportState stateId).2) := by
  obtain ⟨pre, row, entry, hlog, hlen, hentry, hmod, heq⟩ := reportState_running hs hid
  have hcur : ∀ k, s.currentState k = row[k]? := by
    intro k
    simp [PowerModelChannel.currentState, hlog]
  have hcur2 : ∀ k, (s.reportState stateId).2.currentState k =
      (row.set entry.moduleId (stateId : Int))[k]? := by
    intro k
    rw [heq]
    simp [PowerModelChannel.currentState]
  have hrun2 : (s.reportState stateId).2.Running := by
    rw [heq]
    exact ⟨hs.running, hs.rates, hs.eventLog, ⟨pre, _, rfl, by simp [hlen]⟩, hs.stateModule⟩
  refine ⟨pre, row, entry, hlog, hentry, hmod, hlen, heq, ?_, ?_, ?_, by rw [heq], by rw [heq],
    ?_⟩
  · rw [hcur2, List.getElem?_set_self (by omega)]
  · intro k hk
    rw [hcur2, hcur, List.getElem?_set_ne (Ne.symm hk)]
  · rw [hcur2, hcur, List.getElem?_set_ne (by omega)]
  · obtain ⟨pre2, row2, entry2, hlog2, -, hentry2, -, heq2⟩ :=
      reportState_running hrun2 (by rw [heq]; exact hid : stateId <
        (s.reportState stateId).2.m_states.length)
    rw [heq2]
    rw [heq] at hlog2 hentry2 ⊢
    simp only at hlog2 hentry2 ⊢
    rw [hentry] at hentry2
    have he : entry = entry2 := Option.some.inj hentry2
    subst he
    obtain ⟨hp, hr⟩ := List.append_inj' hlog2 rfl
    have hr2 : row.set entry.moduleId (stateId : Int) = row2 := by simpa using hr
    subst hr2
    subst hp
    simp

/-- C12, witness: on the running example channel `reportState(1)` puts module 0 in state 1
("on") and leaves the time stamp of the row in place. -/
theorem reportState_sets_only_its_module_witness :
    (exampleRunning.Running ∧ 1 < exampleRunning.m_states.length) ∧
    (exampleRunning.reportState 1).2.m_stateLog = [[1, 1]] ∧
    exampleRunning.m_stateLog = [[0, 1]] ∧
    (exampleRunning.reportState 1).2.reportState 1 = (.ok (), (exampleRunning.reportState 1).2) :=
  have hrun : exampleRunning.Running :=
    started_running (fun _ => []) "ch" "." 1000000 exampleRegistrations
  have hid : 1 < exampleRunning.m_states.length := by decide
  ⟨⟨hrun, hid⟩, by rfl, by rfl,
    (reportState_sets_only_its_module exampleRunning hrun 1 hid).elim
      (fun _ h => h.elim (fun _ h => h.elim (fun _ h => h.2.2.2.2.2.2.2.2.2.2)))⟩

/-- C13, the code at the failing input: on the running example channel with the module
"bus" that has registered events only, after `reportState(1)` ("memory" is "on", 0.0001 A)
the module columns are `[1, -1]` and the static current of the claim is 0.0001 A, but
`getStaticCurrent()` converts the column -1 to `unsigned int` and indexes `m_states` with
it. -/
theorem getStaticCurrent_undefined_with_unset_module :
    (exampleRunningWithEventOnlyModule.reportState 1).1 = .ok () ∧
    (exampleRunningWithEventOnlyModule.reportState 1).2.sc_is_running = true ∧
    (exampleRunningWithEventOnlyModule.reportState 1).2.moduleColumns = [1, -1] ∧
    (exampleRunningWithEventOnlyModule.reportState 1).2.staticCurrent = 1 / 10000 ∧
    toUInt32 (-1) = 4294967295 ∧
    ((exampleRunningWithEventOnlyModule.reportState 1).2.getStaticCurrent 0).1 =
      .error .undefinedBehaviour := by
  refine ⟨rfl, rfl, rfl, ?_, by decide, rfl⟩
  have h : (exampleRunningWithEventOnlyModule.reportState 1).2.staticCurrent =
      (0 : ℚ) + 1 / 10000 := by rfl
  rw [h]
  norm_num

/-- C18, the code at the failing input: the example channel constructed with the log path
`"none"` names all four log files `"none"`; three `getStaticCurrent()` calls write a header
and an averaged row to the file `"none"`, and the destructor writes the event-log header,
the event-log row and the state-log row to it. -/
theorem log_path_none_still_writes :
    exampleNoLogging.m_eventLogFileName = "none" ∧
    exampleNoLogging.m_stateLogFileName = "none" ∧
    exampleNoLogging.m_staticPowerLogFileName = "none" ∧
    exampleNoLogging.m_eventPowerLogFileName = "none" ∧
    exampleNoLogging.files "none" = [] ∧
    exampleNoLogging.destroy.1 = .ok () ∧
    (exampleNoLogging.destroy.2.files "none").length = 3 ∧
    (exampleNoLogging.destroy.2.files "none").head? =
      some [Cell.text "memory write", Cell.text "memory read", Cell.text "time(us)"] ∧
    (exampleNoLogging.destroy.2.files "none")[1]? =
      some [Cell.int 0, Cell.int 0, Cell.int 1] ∧
    ((((exampleNoLogging.getStaticCurrent 0).2.getStaticCurrent 1).2.getStaticCurrent
      2).2.files "none").length = 2 ∧
    ((((exampleNoLogging.getStaticCurrent 0).2.getStaticCurrent 1).2.getStaticCurrent
      2).2.files "none").head? = some [Cell.text "memory", Cell.text "time(s)"] :=
  ⟨rfl, rfl, rfl, rfl, rfl, rfl, rfl, rfl, rfl, rfl, rfl⟩

/-- C14, counterexample to the claim as stated: the only module of the channel registers
"on" (0.1 A) first; `reportState` is never called, and `getStaticCurrent()` returns the
0.1 A of the default state, not the empty sum of the other modules. -/
theorem getStaticCurrent_counts_default_state :
    exampleRunningOnFirst.sc_is_running = true ∧
    exampleRunningOnFirst.m_moduleNames = ["memory"] ∧
    exampleRunningOnFirst.moduleColumns = [0] ∧
    (exampleRunningOnFirst.getStaticCurrent 0).1 = .ok (1 / 10) ∧
    (exampleRunningOnFirst.getStaticCurrent 0).1 ≠ .ok 0 := by
  have h : (exampleRunningOnFirst.getStaticCurrent 0).1 = .ok ((0 : ℚ) + 1 / 10) := by rfl
  refine ⟨rfl, rfl, rfl, ?_, ?_⟩
  · rw [h]; norm_num
  · rw [h]
    intro hc
    have := Except.ok.inj hc
    norm_num at this

theorem staticPowerEntries_eq [Zero R] [Mul R] (s : PowerModelChannel R) (l : List Int)
    {es : List R} (h : s.staticPowerEntries l = some es) : es = l.map s.staticPower := by
  induction l generalizing es with
  | nil =>
    simp [PowerModelChannel.staticPowerEntries] at h
    simp [h]
  | cons v rest ih =>
    rw [PowerModelChannel.staticPowerEntries] at h
    by_cases hv : 0 ≤ v
    · rw [if_pos hv] at h
      cases hm : s.m_states[v.toNat]? with
      | none => rw [hm] at h; cases h
      | some e =>
        rw [hm] at h
        cases hr : s.staticPowerEntries rest with
        | none => rw [hr] at h; cases h
        | some t =>
          rw [hr] at h
          simp only [Option.map_some'] at h
          have := Option.some.inj h
          subst this
          simp [PowerModelChannel.staticPower, hv, hm, ih hr]
    · rw [if_neg hv] at h
      cases hr : s.staticPowerEntries rest with
      | none => rw [hr] at h; cases h
      | some t =>
        rw [hr] at h
        simp only [Option.map_some'] at h
        have := Option.some.inj h
        subst this
        simp [PowerModelChannel.staticPower, hv, ih hr]

theorem staticPowerEntries_of_valid [Zero R] [Mul R] (s : PowerModelChannel R) (l : List Int)
    (h : ∀ v ∈ l, 0 ≤ v ∧ v < (s.m_states.length : Int)) :
    s.staticPowerEntries l = some (l.map s.staticPower) := by
  induction l with
  | nil => rfl
  | cons v rest ih =>
    obtain ⟨h0, h1⟩ := h v (List.mem_cons_self _ _)
    have hlt : v.toNat < s.m_states.length := by omega
    rw [PowerModelChannel.staticPowerEntries, if_pos h0, List.getElem?_eq_getElem hlt,
      ih (fun w hw => h w (List.mem_cons_of_mem _ hw))]
    simp [PowerModelChannel.staticPower, h0, hlt]

theorem staticCurrentSum_of_valid [Add R] (s : PowerModelChannel R) (l : List Int)
    (hS : s.m_states.length < 2147483648)
    (h : ∀ v ∈ l, 0 ≤ v ∧ v < (s.m_states.length : Int)) (sum : R) :
    s.staticCurrentSum l sum = some (l.foldl
      (fun sum stateId =>
        if 0 ≤ stateId then
          match s.m_states[stateId.toNat]? with
          | some e => sum + e.state.calculateCurrent s.m_supplyVoltage
          | none => sum
        else sum) sum) := by
  induction l generalizing sum with
  | nil => rfl
  | cons v rest ih =>
    obtain ⟨h0, h1⟩ := h v (List.mem_cons_self _ _)
    have hu : toUInt32 v = v := by
      unfold toUInt32
      omega
    have hlt : v.toNat < s.m_states.length := by omega
    rw [PowerModelChannel.staticCurrentSum, hu, if_pos h0, List.getElem?_eq_getElem hlt]
    simp only [List.foldl_cons, if_pos h0, List.getElem?_eq_getElem hlt]
    exact ih (fun w hw => h w (List.mem_cons_of_mem _ hw)) _

theorem addScaled_length [Add R] [Div R] [IntCast R] (factor : Nat) (res row : List R) :
    (addScaled factor res row).length = res.length := by
  induction res generalizing row with
  | nil => cases row <;> simp [addScaled]
  | cons r res ih =>
    cases row with
    | nil => simp [addScaled]
    | cons x row => simp [addScaled, ih]

theorem setBack_length {α : Type} (v : List α) (x : α) (h : v ≠ []) :
    (setBack v x).length = v.length := by
  unfold setBack
  have : 0 < v.length := List.length_pos.mpr h
  simp
  omega

theorem averageLoop_total [Zero R] [Add R] [Div R] [IntCast R] (factor size n : Nat)
    (rows : List (List R)) (hrows : ∀ row ∈ rows, row.length = n + 1) (i : Nat) (res : List R)
    (out : FileContent R) (hres : res.length = n + 1) :
    ∃ extra, averageLoop factor size i rows res out = some (out ++ extra) ∧
      (∀ l ∈ extra, RealLine l ∧ l.length = n + 1) ∧ extra.length ≤ rows.length := by
  induction rows generalizing i res out with
  | nil => exact ⟨[], by simp [averageLoop], by simp, by simp⟩
  | cons row rest ih =>
    have hrow : row.length = n + 1 := hrows row (List.mem_cons_self _ _)
    have hrest : ∀ r ∈ rest, r.length = n + 1 := fun r hr => hrows r (List.mem_cons_of_mem _ hr)
    have hrow0 : row ≠ [] := by
      intro h
      rw [h] at hrow
      simp at hrow
    have hres0 : res ≠ [] := by
      intro h
      rw [h] at hres
      simp at hres
    have hcond : (row.isEmpty || decide (res.length < row.length - 1) || res.isEmpty) = false := by
      cases row with
      | nil => exact absurd rfl hrow0
      | cons a row =>
        cases res with
        | nil => exact absurd rfl hres0
        | cons b res =>
          simp only [List.isEmpty_cons, Bool.false_or, Bool.or_false, decide_eq_false_iff_not]
          rw [hres, hrow]
          omega
    rw [averageLoop, hcond]
    simp only [Bool.false_eq_true, if_false]
    have hl1 : (addScaled factor res row.dropLast).length = n + 1 := by
      rw [addScaled_length, hres]
    generalize hres1 : addScaled factor res row.dropLast = res1 at hl1
    generalize hdump : ((decide (0 < i) && i % factor == 0) || i == size - 1) = dump
    have hl2 : (if dump = true then res1.map (fun _ => (0 : R)) else res1).length = n + 1 := by
      split <;> simp [hl1]
    generalize hres2 : (if dump = true then res1.map (fun _ => (0 : R)) else res1) = res2 at hl2
    have hres20 : res2 ≠ [] := by
      intro h
      rw [h] at hl2
      simp at hl2
    have hl3 : (if (i % factor == 0) = true then
          match row.getLast? with
          | some t => setBack res2 t
          | none => res2
        else res2).length = n + 1 := by
      split
      · split
        · rw [setBack_length _ _ hres20, hl2]
        · exact hl2
      · exact hl2
    obtain ⟨extra, he, hlines, hlen⟩ := ih hrest (i + 1) _
      (if dump = true then out ++ [res1.map Cell.real] else out) hl3
    cases dump with
    | true =>
      refine ⟨(res1.map Cell.real) :: extra, ?_, ?_, ?_⟩
      · rw [he]
        simp
      · intro l hl
        rcases List.mem_cons.mp hl with h | h
        · subst h
          refine ⟨⟨?_, ?_⟩, by simp [hl1]⟩
          · intro h0
            have := congrArg List.length h0
            simp [hl1] at this
          · intro c hc
            obtain ⟨x, _, hx⟩ := List.mem_map.mp hc
            exact ⟨x, hx.symm⟩
        · exact hlines l h
      · simp
        omega
    | false =>
      refine ⟨extra, ?_, hlines, ?_⟩
      · rw [he]
        simp
      · simp
        omega

theorem dumpStaticPowerCsv_ok [Zero R] [Add R] [Div R] [IntCast R] (s : PowerModelChannel R)
    (n : Nat) (hlog : ∃ pre row, s.m_stateLog = pre ++ [row] ∧ row.length = n + 1)
    (hrows : ∀ row ∈ s.m_staticPowerLog, row.length = n + 2) :
    ∃ lines, averageLoop m_staticPowerAveragingFactor s.m_staticPowerLog.length 0
        s.m_staticPowerLog (List.replicate (n + 2) (0 : R)) [] = some lines ∧
      (∀ l ∈ lines, RealLine l ∧ l.length = n + 2) ∧
      lines.length ≤ s.m_staticPowerLog.length ∧
      s.dumpStaticPowerCsv = (.ok (),
        { s with
          files :=
            (s.files.append s.m_staticPowerLogFileName
              (if (s.files s.m_staticPowerLogFileName).isEmpty then
                [s.m_moduleNames.map Cell.text ++ [Cell.text "time(s)"]]
              else [])).append s.m_staticPowerLogFileName lines }) := by
  obtain ⟨pre, row, hl, hrow⟩ := hlog
  obtain ⟨extra, he, hlines, hlen⟩ := averageLoop_total m_staticPowerAveragingFactor
    s.m_staticPowerLog.length (n + 1) s.m_staticPowerLog hrows 0
    (List.replicate (n + 2) (0 : R)) [] (by simp)
  rw [List.nil_append] at he
  refine ⟨extra, he, hlines, hlen, ?_⟩
  unfold PowerModelChannel.dumpStaticPowerCsv
  simp only [hl, getLast?_snoc, hrow, he]

theorem dumpEventPowerCsv_ok [Zero R] [Add R] [Div R] [IntCast R] (s : PowerModelChannel R)
    (n : Nat) (hlog : ∃ pre row, s.m_eventLog = pre ++ [row] ∧ row.length = n + 1)
    (hrows : ∀ row ∈ s.m_eventPowerLog, row.length = n + 2) :
    ∃ lines, averageLoop m_eventPowerAveragingFactor s.m_eventPowerLog.length 0
        s.m_eventPowerLog (List.replicate (n + 2) (0 : R)) [] = some lines ∧
      (∀ l ∈ lines, RealLine l ∧ l.length = n + 2) ∧
      lines.length ≤ s.m_eventPowerLog.length ∧
      s.dumpEventPowerCsv = (.ok (),
        { s with
          files :=
            (s.files.append s.m_eventPowerLogFileName
              (if (s.files s.m_eventPowerLogFileName).isEmpty then
                [s.m_events.map (fun e => Cell.text e.event.name) ++ [Cell.text "time(s)"]]
              else [])).append s.m_eventPowerLogFileName lines }) := by
  obtain ⟨pre, row, hl, hrow⟩ := hlog
  obtain ⟨extra, he, hlines, hlen⟩ := averageLoop_total m_eventPowerAveragingFactor
    s.m_eventPowerLog.length (n + 1) s.m_eventPowerLog hrows 0
    (List.replicate (n + 2) (0 : R)) [] (by simp)
  rw [List.nil_append] at he
  refine ⟨extra, he, hlines, hlen, ?_⟩
  unfold PowerModelChannel.dumpEventPowerCsv
  simp only [hl, getLast?_snoc, hrow, he]

theorem moduleColumns_length (s : PowerModelChannel R) (hs : s.Running) :
    s.moduleColumns.length = s.m_moduleNames.length := by
  obtain ⟨pre, row, hl, hrow⟩ := hs.stateLog
  simp [PowerModelChannel.moduleColumns, hl, getLast?_snoc, hrow]

theorem staticPowerSample_length [Zero R] [Mul R] [SimTime R] (s : PowerModelChannel R)
    (hs : s.Running) (now : Nat) :
    (s.staticPowerSample now).length = s.m_moduleNames.length + 2 := by
  simp [PowerModelChannel.staticPowerSample, moduleColumns_length s hs]

theorem getStaticCurrent_ok [Zero R] [Add R] [Mul R] [Div R] [IntCast R] [SimTime R]
    (s : PowerModelChannel R) (now : Nat) (hs : s.Running) (ha : s.AllModulesSet)
    (hp : s.Sampling) :
    ∃ lines,
      averageLoop m_staticPowerAveragingFactor (s.m_staticPowerLog.length + 1) 0
        (s.m_staticPowerLog ++ [s.staticPowerSample now])
        (List.replicate (s.m_moduleNames.length + 2) (0 : R)) [] = some lines ∧
      (∀ l ∈ lines, RealLine l ∧ l.length = s.m_moduleNames.length + 2) ∧
      s.getStaticCurrent now = (.ok s.staticCurrent,
        if s.m_staticPowerLog.length < 2 then
          { s with m_staticPowerLog := s.m_staticPowerLog ++ [s.staticPowerSample now] }
        else
          { s with
            m_staticPowerLog := []
            files :=
              (s.files.append s.m_staticPowerLogFileName
                (if (s.files s.m_staticPowerLogFileName).isEmpty then
                  [s.m_moduleNames.map Cell.text ++ [Cell.text "time(s)"]]
                else [])).append s.m_staticPowerLogFileName lines }) := by
  have hsl := hs.stateLog
  obtain ⟨pre, row, hl, hrow⟩ := hsl
  have hgl : s.m_stateLog.getLast? = some row := by rw [hl, getLast?_snoc]
  have hcols : s.moduleColumns = row.dropLast := by
    simp [PowerModelChannel.moduleColumns, hgl]
  have hvalid : ∀ v ∈ row.dropLast, 0 ≤ v ∧ v < (s.m_states.length : Int) := by
    rw [← hcols]
    exact ha.2
  have hrowE : row.isEmpty = false := by
    cases row with
    | nil => simp at hrow
    | cons a t => rfl
  have hsample : s.staticPowerSample now =
      row.dropLast.map s.staticPower ++ [0, SimTime.to_seconds now] := by
    rw [PowerModelChannel.staticPowerSample, hcols]
  have hsum : ∀ s2 : PowerModelChannel R, s2.m_states = s.m_states →
      s2.m_supplyVoltage = s.m_supplyVoltage →
      s2.staticCurrentSum row.dropLast 0 = some s.staticCurrent := by
    intro s2 h1 h2
    rw [staticCurrentSum_of_valid s2 row.dropLast (by rw [h1]; exact ha.1)
      (by rw [h1]; exact hvalid), PowerModelChannel.staticCurrent, hcols, h1, h2]
  have hrows1 : ∀ r ∈ s.m_staticPowerLog ++ [s.staticPowerSample now],
      r.length = s.m_moduleNames.length + 2 := by
    intro r hr
    rcases List.mem_append.mp hr with h | h
    · exact hp.staticRows r h
    · rw [List.mem_singleton.mp h]
      exact staticPowerSample_length s hs now
  obtain ⟨lines, hav, hlines, _, hdump⟩ :=
    dumpStaticPowerCsv_ok
      { s with m_staticPowerLog := s.m_staticPowerLog ++ [s.staticPowerSample now] }
      s.m_moduleNames.length ⟨pre, row, hl, hrow⟩ hrows1
  simp only [List.length_append, List.length_singleton] at hav
  simp only at hdump
  refine ⟨lines, hav, hlines, ?_⟩
  unfold PowerModelChannel.getStaticCurrent
  simp only [hgl, hrowE, Bool.false_eq_true, if_false,
    staticPowerEntries_of_valid s row.dropLast hvalid, ← hsample]
  by_cases hlt : s.m_staticPowerLog.length < 2
  · have hnot : ¬ (s.m_staticPowerLog ++ [s.staticPowerSample now]).length > m_logDumpThreshold := by
      simp [m_logDumpThreshold]
      omega
    simp only [hnot, if_false, if_pos hlt]
    rw [hsum { s with m_staticPowerLog := s.m_staticPowerLog ++ [s.staticPowerSample now] }
      rfl rfl]
  · have hyes : (s.m_staticPowerLog ++ [s.staticPowerSample now]).length > m_logDumpThreshold := by
      simp [m_logDumpThreshold]
      omega
    simp only [hyes, if_true, if_neg hlt]
    rw [hdump]
    simp only
    generalize hs2 : ({ s with
      m_staticPowerLog := []
      files := (s.files.append s.m_staticPowerLogFileName
        (if (s.files s.m_staticPowerLogFileName).isEmpty then
          [s.m_moduleNames.map Cell.text ++ [Cell.text "time(s)"]]
        else [])).append s.m_staticPowerLogFileName lines } : PowerModelChannel R) = s2
    have h1 : s2.m_states = s.m_states := by rw [← hs2]
    have h2 : s2.m_supplyVoltage = s.m_supplyVoltage := by rw [← hs2]
    rw [hsum s2 h1 h2]

/-- C14 (amended): in the run phase, when the column of every module holds the id of a
registered state, `getStaticCurrent()` succeeds and returns the sum, over all module
columns in order, of the current of the module's current state at the present supply
voltage. A module that never reported a state is not left out: its column holds its
default state, and that state's current is part of the sum. -/
theorem getStaticCurrent_sums_current_states [Zero R] [Add R] [Mul R] [Div R] [IntCast R]
    [SimTime R] (s : PowerModelChannel R) (now : Nat) (hs : s.Running) (ha : s.AllModulesSet)
    (hp : s.Sampling) :
    (s.getStaticCurrent now).1 = .ok s.staticCurrent ∧
    s.moduleColumns.length = s.m_moduleNames.length ∧
    (∀ k, k < s.m_moduleNames.length → ∃ (v : Int) (e : ModuleStateEntry R),
      s.currentState k = some v ∧ s.moduleColumns[k]? = some v ∧ 0 ≤ v ∧
      s.m_states[v.toNat]? = some e) ∧
    s.staticCurrent = s.moduleColumns.foldl
      (fun sum stateId =>
        match s.m_states[stateId.toNat]? with
        | some e => sum + e.state.calculateCurrent s.m_supplyVoltage
        | none => sum) 0 := by
  obtain ⟨lines, -, -, heq⟩ := getStaticCurrent_ok s now hs ha hp
  have hlen := moduleColumns_length s hs
  refine ⟨by rw [heq], hlen, ?_, ?_⟩
  · intro k hk
    obtain ⟨pre, row, hl, hrow⟩ := hs.stateLog
    have hcols : s.moduleColumns = row.dropLast := by
      simp [PowerModelChannel.moduleColumns, hl, getLast?_snoc]
    have hk2 : k < s.moduleColumns.length := by omega
    have hmem : s.moduleColumns[k] ∈ s.moduleColumns := List.getElem_mem hk2
    obtain ⟨h0, h1⟩ := ha.2 _ hmem
    have hlt : (s.moduleColumns[k]).toNat < s.m_states.length := by omega
    refine ⟨s.moduleColumns[k], s.m_states[(s.moduleColumns[k]).toNat], ?_,
      List.getElem?_eq_getElem hk2, h0, List.getElem?_eq_getElem hlt⟩
    have hk3 : k < row.dropLast.length := by rw [← hcols]; exact hk2
    have hk4 : k < row.length := by omega
    have e1 : s.currentState k = row[k]? := by
      simp [PowerModelChannel.currentState, hl, getLast?_snoc]
    have e2 : s.moduleColumns[k]? = row[k]? := by
      rw [hcols, List.getElem?_eq_getElem hk3, List.getElem?_eq_getElem hk4,
        List.getElem_dropLast]
    rw [e1, ← e2, List.getElem?_eq_getElem hk2]
  · unfold PowerModelChannel.staticCurrent
    apply List.foldl_ext
    intro sum v hv
    rw [if_pos (ha.2 v hv).1]

/-- C14 (amended), witness: the running example channel whose module registered "on"
(0.1 A) first and never reported a state. -/
theorem getStaticCurrent_sums_current_states_witness :
    (exampleRunningOnFirst.Running ∧ exampleRunningOnFirst.AllModulesSet ∧
      exampleRunningOnFirst.Sampling) ∧
    (exampleRunningOnFirst.getStaticCurrent 0).1 = .ok exampleRunningOnFirst.staticCurrent ∧
    exampleRunningOnFirst.staticCurrent = 1 / 10 :=
  have hrun : exampleRunningOnFirst.Running := started_running _ _ _ _ _
  have hall : exampleRunningOnFirst.AllModulesSet := by
    refine ⟨by decide, ?_⟩
    intro v hv
    have hc : exampleRunningOnFirst.moduleColumns = [0] := rfl
    rw [hc] at hv
    rw [List.mem_singleton.mp hv]
    decide
  have hsam : exampleRunningOnFirst.Sampling :=
    ⟨fun _ h => absurd h (List.not_mem_nil _), by decide,
      fun _ h => absurd h (List.not_mem_nil _), by decide⟩
  ⟨⟨hrun, hall, hsam⟩,
    (getStaticCurrent_sums_current_states exampleRunningOnFirst 0 hrun hall hsam).1, by
      have h : exampleRunningOnFirst.staticCurrent = (0 : ℚ) + 1 / 10 := by rfl
      rw [h]
      norm_num⟩

/-- C20, counterexample to the claim as stated: one module, reported "on" (0.0001 A), supply
voltage 2 V. The row that `getStaticCurrent()` appends has three entries, not two, and the
entry of the module is voltage times current (0.0002), not the current. -/
theorem getStaticCurrent_row_is_power_with_extra_entry :
    exampleOnAtTwoVolts.sc_is_running = true ∧
    exampleOnAtTwoVolts.m_moduleNames = ["memory"] ∧
    exampleOnAtTwoVolts.m_supplyVoltage = 2 ∧
    exampleOnAtTwoVolts.moduleColumns = [1] ∧
    (exampleOnAtTwoVolts.m_states.map (fun e => e.state.calculateCurrent 2)) = [0, 1 / 10000] ∧
    exampleOnAtTwoVolts.m_staticPowerLog = [] ∧
    (exampleOnAtTwoVolts.getStaticCurrent 0).2.m_staticPowerLog =
      [[2 * (1 / 10000), 0, SimTime.to_seconds 0]] ∧
    ((exampleOnAtTwoVolts.getStaticCurrent 0).2.m_staticPowerLog.map List.length) = [3] ∧
    (2 : ℚ) * (1 / 10000) ≠ 1 / 10000 :=
  ⟨rfl, rfl, rfl, rfl, rfl, rfl, rfl, rfl, by norm_num⟩

/-- C20 (amended): in the run phase, when the column of every module holds the id of a
registered state, `getStaticCurrent()` adds one row to the static-power buffer. Entry `k`
of the row, for each module `k`, is the supply voltage times the current of the current
state of module `k` at that voltage, and the last entry of the row is the time of the call
in seconds. With fewer than 2 rows waiting the row is appended and nothing else changes;
with 2 rows waiting the three rows are averaged into the static-power file and the buffer
is left empty. -/
theorem getStaticCurrent_appends_power_row [Zero R] [Add R] [Mul R] [Div R] [IntCast R]
    [SimTime R] (s : PowerModelChannel R) (now : Nat) (hs : s.Running) (ha : s.AllModulesSet)
    (hp : s.Sampling) :
    (∀ k, k < s.m_moduleNames.length → ∃ (v : Int) (e : ModuleStateEntry R),
      s.currentState k = some v ∧ 0 ≤ v ∧ s.m_states[v.toNat]? = some e ∧
      (s.staticPowerSample now)[k]? =
        some (s.m_supplyVoltage * e.state.calculateCurrent s.m_supplyVoltage)) ∧
    (s.staticPowerSample now).getLast? = some (SimTime.to_seconds now) ∧
    (s.m_staticPowerLog.length < 2 →
      (s.getStaticCurrent now).2 =
        { s with m_staticPowerLog := s.m_staticPowerLog ++ [s.staticPowerSample now] }) ∧
    (s.m_staticPowerLog.length = 2 → ∃ lines,
      averageLoop m_staticPowerAveragingFactor 3 0
        (s.m_staticPowerLog ++ [s.staticPowerSample now])
        (List.replicate (s.m_moduleNames.length + 2) (0 : R)) [] = some lines ∧
      (s.getStaticCurrent now).2 =
        { s with
          m_staticPowerLog := []
          files :=
            (s.files.append s.m_staticPowerLogFileName
              (if (s.files s.m_staticPowerLogFileName).isEmpty then
                [s.m_moduleNames.map Cell.text ++ [Cell.text "time(s)"]]
              else [])).append s.m_staticPowerLogFileName lines }) := by
  obtain ⟨lines, hav, -, heq⟩ := getStaticCurrent_ok s now hs ha hp
  have hlen := moduleColumns_length s hs
  refine ⟨?_, ?_, ?_, ?_⟩
  · intro k hk
    obtain ⟨pre, row, hl, hrow⟩ := hs.stateLog
    have hcols : s.moduleColumns = row.dropLast := by
      simp [PowerModelChannel.moduleColumns, hl, getLast?_snoc]
    have hk2 : k < s.moduleColumns.length := by omega
    have hmem : s.moduleColumns[k] ∈ s.moduleColumns := List.getElem_mem hk2
    obtain ⟨h0, h1⟩ := ha.2 _ hmem
    have hlt : (s.moduleColumns[k]).toNat < s.m_states.length := by omega
    have hk3 : k < row.dropLast.length := by rw [← hcols]; exact hk2
    have hk4 : k < row.length := by omega
    have e1 : s.currentState k = row[k]? := by
      simp [PowerModelChannel.currentState, hl, getLast?_snoc]
    have e2 : s.moduleColumns[k]? = row[k]? := by
      rw [hcols, List.getElem?_eq_getElem hk3, List.getElem?_eq_getElem hk4,
        List.getElem_dropLast]
    refine ⟨s.moduleColumns[k], s.m_states[(s.moduleColumns[k]).toNat], ?_, h0,
      List.getElem?_eq_getElem hlt, ?_⟩
    · rw [e1, ← e2, List.getElem?_eq_getElem hk2]
    · have hk5 : k < (s.moduleColumns.map s.staticPower).length := by simpa using hk2
      rw [PowerModelChannel.staticPowerSample, List.getElem?_append_left hk5,
        List.getElem?_map, List.getElem?_eq_getElem hk2]
      simp [PowerModelChannel.staticPower, h0, hlt]
  · simp [PowerModelChannel.staticPowerSample, List.getLast?_append]
  · intro hlt
    rw [heq, if_pos hlt]
  · intro h2
    rw [h2] at hav
    refine ⟨lines, hav, ?_⟩
    rw [heq, if_neg (by omega)]

/-- C20 (amended), witness: the call on the running example channel at 2 V with the module
"memory" reported "on". -/
theorem getStaticCurrent_appends_power_row_witness :
    (exampleOnAtTwoVolts.Running ∧ exampleOnAtTwoVolts.AllModulesSet ∧
      exampleOnAtTwoVolts.Sampling) ∧
    (exampleOnAtTwoVolts.getStaticCurrent 0).2 =
      { exampleOnAtTwoVolts with
        m_staticPowerLog := [exampleOnAtTwoVolts.staticPowerSample 0] } ∧
    exampleOnAtTwoVolts.staticPowerSample 0 = [2 * (1 / 10000), 0, SimTime.to_seconds 0] :=
  have hrun0 : exampleRunning.Running := started_running _ _ _ _ _
  have hrun1 : (exampleRunning.setSupplyVoltage 2).Running :=
    (setSupplyVoltage_running hrun0 2).1
  have hid : 1 < (exampleRunning.setSupplyVoltage 2).m_states.length := by decide
  have hrun : exampleOnAtTwoVolts.Running :=
    (runCall_running hrun1 (RunCall.reportState 1) hid).2.1
  have hall : exampleOnAtTwoVolts.AllModulesSet := by
    refine ⟨by decide, ?_⟩
    intro v hv
    have hc : exampleOnAtTwoVolts.moduleColumns = [1] := rfl
    rw [hc] at hv
    rw [List.mem_singleton.mp hv]
    decide
  have hsam : exampleOnAtTwoVolts.Sampling :=
    ⟨fun _ h => absurd h (List.not_mem_nil _), by decide,
      fun _ h => absurd h (List.not_mem_nil _), by decide⟩
  ⟨⟨hrun, hall, hsam⟩,
    (getStaticCurrent_appends_power_row exampleOnAtTwoVolts 0 hrun hall hsam).2.2.1 (by decide),
    rfl⟩

theorem setBack_snoc {α : Type} (a : List α) (r x : α) : setBack (a ++ [r]) x = a ++ [x] := by
  simp [setBack]

theorem rowLines_of_nonempty (log : List (List Int)) (h : ∀ r ∈ log, r ≠ []) :
    (rowLines log : FileContent R) = log.map (List.map Cell.int) := by
  unfold rowLines
  have hf : log.filter (fun row => !row.isEmpty) = log := by
    apply List.filter_eq_self.mpr
    intro r hr
    have := h r hr
    cases r with
    | nil => exact absurd rfl this
    | cons a t => rfl
  rw [hf]

theorem sameSetup_refl (s : PowerModelChannel R) : s.SameSetup s :=
  ⟨rfl, rfl, rfl, rfl, rfl, rfl, rfl, rfl⟩

theorem sameSetup_headers {base s : PowerModelChannel R} (h : base.SameSetup s) :
    s.eventLogHeader = base.eventLogHeader ∧ s.stateLogHeader = base.stateLogHeader ∧
      s.loggingDisabled = base.loggingDisabled := by
  refine ⟨?_, ?_, ?_⟩
  · unfold PowerModelChannel.eventLogHeader
    rw [h.events, h.moduleNames]
  · unfold PowerModelChannel.stateLogHeader
    rw [h.states, h.moduleNames]
  · unfold PowerModelChannel.loggingDisabled
    rw [h.eventName, h.timestep]

theorem logInv_reportEvent {base s : PowerModelChannel R}
    {evRows stRows flushedE flushedS : List (List Int)}
    (h : base.LogInv s evRows stRows flushedE flushedS) {eventId : Nat}
    (hid : eventId < s.m_events.length) (n : Nat) :
    (s.reportEvent eventId n).1 = .ok () ∧
    base.LogInv (s.reportEvent eventId n).2
      (match evRows.getLast? with
        | some row => setBack evRows (row.set eventId (toInt32 (row.getD eventId 0 + (n : Int))))
        | none => evRows)
      stRows flushedE flushedS := by
  obtain ⟨pre, row, c, x, hlog, hlen, hc, hx, heq⟩ := reportEvent_running h.running hid n
  have hev : evRows = (flushedE ++ pre) ++ [row] := by
    rw [← h.eventRows, hlog, List.append_assoc]
  have hlt : eventId < row.length := by omega
  have hxd : row.getD eventId 0 = x := by
    rw [List.getD_eq_getElem?_getD, hx]
    rfl
  rw [heq]
  refine ⟨rfl, ?_⟩
  rw [hev, getLast?_snoc]
  simp only [setBack_snoc, hxd]
  have hs := h.running
  exact
    { running := ⟨hs.running, by simp [hs.rates], ⟨pre, _, rfl, by simp [hlen]⟩, hs.stateLog,
        hs.stateModule⟩
      setup := ⟨h.setup.events, h.setup.states, h.setup.moduleNames, h.setup.eventName,
        h.setup.stateName, h.setup.staticName, h.setup.powerName, h.setup.timestep⟩
      eventRows := by simp
      stateRows := h.stateRows
      flushedLength := h.flushedLength
      bufferLength := by
        have := h.bufferLength
        rw [hlog] at this
        simpa using this
      eventNonempty := by
        intro r hr
        rcases List.mem_append.mp hr with hr1 | hr1
        · exact h.eventNonempty r (by rw [hev]; exact List.mem_append_left _ hr1)
        · rw [List.mem_singleton.mp hr1]
          intro h0
          have := congrArg List.length h0
          rw [List.length_set, List.length_nil] at this
          omega
      stateNonempty := h.stateNonempty
      eventFile := h.eventFile
      stateFile := h.stateFile
      otherFiles := h.otherFiles
      disabled := h.disabled
      staticLog := h.staticLog
      powerLog := h.powerLog }

theorem logInv_reportState {base s : PowerModelChannel R}
    {evRows stRows flushedE flushedS : List (List Int)}
    (h : base.LogInv s evRows stRows flushedE flushedS) {stateId : Nat}
    (hid : stateId < s.m_states.length) :
    (s.reportState stateId).1 = .ok () ∧
    base.LogInv (s.reportState stateId).2 evRows
      (match stRows.getLast?, base.m_states[stateId]? with
        | some row, some e => setBack stRows (row.set e.moduleId (stateId : Int))
        | _, _ => stRows)
      flushedE flushedS := by
  obtain ⟨pre, row, entry, hlog, hlen, hentry, hmod, heq⟩ := reportState_running h.running hid
  have hst : stRows = (flushedS ++ pre) ++ [row] := by
    rw [← h.stateRows, hlog, List.append_assoc]
  rw [heq]
  refine ⟨rfl, ?_⟩
  rw [hst, getLast?_snoc, ← h.setup.states, hentry]
  simp only [setBack_snoc]
  have hs := h.running
  exact
    { running := ⟨hs.running, hs.rates, hs.eventLog, ⟨pre, _, rfl, by simp [hlen]⟩,
        hs.stateModule⟩
      setup := ⟨h.setup.events, h.setup.states, h.setup.moduleNames, h.setup.eventName,
        h.setup.stateName, h.setup.staticName, h.setup.powerName, h.setup.timestep⟩
      eventRows := h.eventRows
      stateRows := by simp
      flushedLength := h.flushedLength
      bufferLength := by
        have := h.bufferLength
        rw [hlog] at this
        simpa using this
      eventNonempty := h.eventNonempty
      stateNonempty := by
        intro r hr
        rcases List.mem_append.mp hr with hr1 | hr1
        · exact h.stateNonempty r (by rw [hst]; exact List.mem_append_left _ hr1)
        · rw [List.mem_singleton.mp hr1]
          intro h0
          have := congrArg List.length h0
          rw [List.length_set, List.length_nil] at this
          omega
      eventFile := h.eventFile
      stateFile := h.stateFile
      otherFiles := h.otherFiles
      disabled := h.disabled
      staticLog := h.staticLog
      powerLog := h.powerLog }

theorem logInv_popEventCount {base s : PowerModelChannel R}
    {evRows stRows flushedE flushedS : List (List Int)}
    (h : base.LogInv s evRows stRows flushedE flushedS) {eventId : Nat}
    (hid : eventId < s.m_events.length) :
    (∃ c, (s.popEventCount eventId).1 = .ok c) ∧
    base.LogInv (s.popEventCount eventId).2 evRows stRows flushedE flushedS := by
  obtain ⟨c, hc, heq⟩ := popEventCount_running h.running hid
  rw [heq]
  refine ⟨⟨c, rfl⟩, ?_⟩
  have hs := h.running
  exact
    { running := ⟨hs.running, by simp [hs.rates], hs.eventLog, hs.stateLog, hs.stateModule⟩
      setup := ⟨h.setup.events, h.setup.states, h.setup.moduleNames, h.setup.eventName,
        h.setup.stateName, h.setup.staticName, h.setup.powerName, h.setup.timestep⟩
      eventRows := h.eventRows
      stateRows := h.stateRows
      flushedLength := h.flushedLength
      bufferLength := h.bufferLength
      eventNonempty := h.eventNonempty
      stateNonempty := h.stateNonempty
      eventFile := h.eventFile
      stateFile := h.stateFile
      otherFiles := h.otherFiles
      disabled := h.disabled
      staticLog := h.staticLog
      powerLog := h.powerLog }

theorem logInv_setSupplyVoltage [DecidableEq R] {base s : PowerModelChannel R}
    {evRows stRows flushedE flushedS : List (List Int)}
    (h : base.LogInv s evRows stRows flushedE flushedS) (val : R) :
    base.LogInv (s.setSupplyVoltage val) evRows stRows flushedE flushedS := by
  unfold PowerModelChannel.setSupplyVoltage
  split
  · have hs := h.running
    exact
      { running := ⟨hs.running, hs.rates, hs.eventLog, hs.stateLog, hs.stateModule⟩
        setup := ⟨h.setup.events, h.setup.states, h.setup.moduleNames, h.setup.eventName,
          h.setup.stateName, h.setup.staticName, h.setup.powerName, h.setup.timestep⟩
        eventRows := h.eventRows
        stateRows := h.stateRows
        flushedLength := h.flushedLength
        bufferLength := h.bufferLength
        eventNonempty := h.eventNonempty
        stateNonempty := h.stateNonempty
        eventFile := h.eventFile
        stateFile := h.stateFile
        otherFiles := h.otherFiles
        disabled := h.disabled
        staticLog := h.staticLog
        powerLog := h.powerLog }
  · exact h

theorem dumpEventCsv_dumpStateCsv_files (s : PowerModelChannel R)
    (hne : s.m_eventLogFileName ≠ s.m_stateLogFileName) :
    s.dumpEventCsv.dumpStateCsv.files s.m_eventLogFileName =
      s.files s.m_eventLogFileName ++
        ((if (s.files s.m_eventLogFileName).isEmpty then [s.eventLogHeader] else []) ++
          rowLines s.m_eventLog) ∧
    s.dumpEventCsv.dumpStateCsv.files s.m_stateLogFileName =
      s.files s.m_stateLogFileName ++
        ((if (s.files s.m_stateLogFileName).isEmpty then s.stateLogHeader else []) ++
          rowLines s.m_stateLog) ∧
    ∀ f, f ≠ s.m_eventLogFileName → f ≠ s.m_stateLogFileName →
      s.dumpEventCsv.dumpStateCsv.files f = s.files f := by
  refine ⟨?_, ?_, ?_⟩
  · simp only [PowerModelChannel.dumpEventCsv, PowerModelChannel.dumpStateCsv,
      FileSystem.append, if_neg hne, if_true]
  · simp only [PowerModelChannel.dumpEventCsv, PowerModelChannel.dumpStateCsv,
      FileSystem.append, if_neg (Ne.symm hne), if_true]
    rfl
  · intro f h1 h2
    simp only [PowerModelChannel.dumpEventCsv, PowerModelChannel.dumpStateCsv,
      FileSystem.append, if_neg h1, if_neg h2]

theorem logInv_logLoop [SimTime R] {base s : PowerModelChannel R}
    {evRows stRows flushedE flushedS : List (List Int)}
    (h : base.LogInv s evRows stRows flushedE flushedS)
    (hb : base.loggingDisabled = false →
      base.m_eventLogFileName ≠ base.m_stateLogFileName ∧
      base.files base.m_eventLogFileName = [] ∧ base.files base.m_stateLogFileName = [])
    (now : Nat) :
    (s.logLoop now).1 = .ok () ∧
    ∃ fE fS, base.LogInv (s.logLoop now).2
      (eventRowsStep base.m_events.length base.m_logTimestep (!base.loggingDisabled) evRows
        (RunCall.logLoop now : RunCall R))
      (stateRowsStep base.m_states base.m_logTimestep (!base.loggingDisabled) stRows
        (RunCall.logLoop now : RunCall R)) fE fS := by
  have hs := h.running
  obtain ⟨hheadE, hheadS, hdis⟩ := sameSetup_headers h.setup
  by_cases hd : base.loggingDisabled = true
  · have hd2 : s.loggingDisabled = true := by rw [hdis]; exact hd
    unfold PowerModelChannel.logLoop
    rw [if_pos hd2]
    refine ⟨rfl, flushedE, flushedS, ?_⟩
    simp only [eventRowsStep, stateRowsStep, hd, Bool.not_true, Bool.false_eq_true, if_false]
    exact h
  · have hd1 : base.loggingDisabled = false := by simpa using hd
    have hd2 : ¬ s.loggingDisabled = true := by rw [hdis]; exact hd
    obtain ⟨hnames, hfE, hfS⟩ := hb hd1
    obtain ⟨pre, row, hlog, hlen⟩ := hs.stateLog
    have hne : row ≠ [] := by
      intro hc
      rw [hc] at hlen
      simp at hlen
    have hsb : ∀ x : Int, (setBack row x).length = s.m_moduleNames.length + 1 := by
      intro x
      rw [setBack_length _ _ hne, hlen]
    have hst : stRows = (flushedS ++ pre) ++ [row] := by
      rw [← h.stateRows, hlog, List.append_assoc]
    have hnames2 : s.m_eventLogFileName ≠ s.m_stateLogFileName := by
      rw [h.setup.eventName, h.setup.stateName]; exact hnames
    obtain ⟨hdE, hdS, hdO⟩ := dumpEventCsv_dumpStateCsv_files s hnames2
    rw [h.setup.eventName] at hdE
    rw [h.setup.stateName] at hdS
    rw [h.setup.eventName, h.setup.stateName] at hdO
    have hbufE : ∀ r ∈ s.m_eventLog, r ≠ [] := fun r hr =>
      h.eventNonempty r (by rw [← h.eventRows]; exact List.mem_append_right _ hr)
    have hbufS : ∀ r ∈ s.m_stateLog, r ≠ [] := fun r hr =>
      h.stateNonempty r (by rw [← h.stateRows]; exact List.mem_append_right _ hr)
    rw [rowLines_of_nonempty _ hbufE, hheadE, h.eventFile] at hdE
    rw [rowLines_of_nonempty _ hbufS, hheadS, h.stateFile] at hdS
    unfold PowerModelChannel.logLoop
    rw [if_neg hd2, logLoopBody_eq hlog hne]
    refine ⟨rfl, ?_⟩
    simp only [eventRowsStep, stateRowsStep, hd1, Bool.not_false, if_true]
    rw [hst, getLast?_snoc, ← hst]
    simp only
    have hnewE : ∀ r ∈ evRows ++ [List.replicate base.m_events.length (0 : Int) ++
        [SimTime.to_microseconds R (base.m_logTimestep + now)]], r ≠ [] := by
      intro r hr
      rcases List.mem_append.mp hr with hr1 | hr1
      · exact h.eventNonempty r hr1
      · rw [List.mem_singleton.mp hr1]
        simp
    have hnewS : ∀ r ∈ stRows ++ [setBack row
        (SimTime.to_microseconds R (base.m_logTimestep + now))], r ≠ [] := by
      intro r hr
      rcases List.mem_append.mp hr with hr1 | hr1
      · exact h.stateNonempty r hr1
      · rw [List.mem_singleton.mp hr1]
        simp [setBack]
    by_cases ht : s.m_eventLog.length > m_logDumpThreshold
    · rw [if_pos ht]
      have hEne : s.m_eventLog ≠ [] := by
        intro hc
        rw [hc] at ht
        simp at ht
      have hSne : s.m_stateLog ≠ [] := by
        rw [hlog]
        simp
      refine ⟨flushedE ++ s.m_eventLog, flushedS ++ s.m_stateLog, ?_⟩
      exact
        { running := ⟨hs.running, hs.rates,
            ⟨[], _, rfl, by simp [PowerModelChannel.dumpEventCsv, PowerModelChannel.dumpStateCsv]⟩,
            ⟨[], _, rfl, hsb _⟩, hs.stateModule⟩
          setup := ⟨h.setup.events, h.setup.states, h.setup.moduleNames, h.setup.eventName,
            h.setup.stateName, h.setup.staticName, h.setup.powerName, h.setup.timestep⟩
          eventRows := by
            show (flushedE ++ s.m_eventLog) ++ [_] = _
            rw [h.eventRows, h.setup.events, h.setup.timestep]
          stateRows := by
            show (flushedS ++ s.m_stateLog) ++ [_] = _
            rw [h.stateRows, h.setup.timestep]
          flushedLength := by
            simp only [List.length_append]
            rw [h.flushedLength, h.bufferLength]
          bufferLength := rfl
          eventNonempty := hnewE
          stateNonempty := hnewS
          eventFile := by
            show s.dumpEventCsv.dumpStateCsv.files base.m_eventLogFileName = _
            rw [hdE]
            by_cases hf : flushedE = []
            · subst hf
              simp [hfE, hEne]
            · simp [hf]
          stateFile := by
            show s.dumpEventCsv.dumpStateCsv.files base.m_stateLogFileName = _
            rw [hdS]
            by_cases hf : flushedS = []
            · subst hf
              simp [hfS, hSne]
            · have hh : base.stateLogHeader ≠ ([] : FileContent R) := by
                simp [PowerModelChannel.stateLogHeader]
              simp [hf, hh]
          otherFiles := by
            intro f h1 h2
            show s.dumpEventCsv.dumpStateCsv.files f = _
            rw [hdO f h1 h2]
            exact h.otherFiles f h1 h2
          disabled := fun hc => absurd hc hd
          staticLog := h.staticLog
          powerLog := h.powerLog }
    · rw [if_neg ht]
      refine ⟨flushedE, flushedS, ?_⟩
      exact
        { running := ⟨hs.running, hs.rates, ⟨s.m_eventLog, _, rfl, by simp⟩,
            ⟨s.m_stateLog, _, rfl, hsb _⟩, hs.stateModule⟩
          setup := ⟨h.setup.events, h.setup.states, h.setup.moduleNames, h.setup.eventName,
            h.setup.stateName, h.setup.staticName, h.setup.powerName, h.setup.timestep⟩
          eventRows := by
            show flushedE ++ (s.m_eventLog ++ [_]) = _
            rw [← List.append_assoc, h.eventRows, h.setup.events, h.setup.timestep]
          stateRows := by
            show flushedS ++ (s.m_stateLog ++ [_]) = _
            rw [← List.append_assoc, h.stateRows, h.setup.timestep]
          flushedLength := h.flushedLength
          bufferLength := by
            show (s.m_eventLog ++ [_]).length = (s.m_stateLog ++ [_]).length
            simp only [List.length_append, List.length_singleton]
            rw [h.bufferLength]
          eventNonempty := hnewE
          stateNonempty := hnewS
          eventFile := h.eventFile
          stateFile := h.stateFile
          otherFiles := h.otherFiles
          disabled := h.disabled
          staticLog := h.staticLog
          powerLog := h.powerLog }

theorem sameOutput_refl (s : PowerModelChannel R) : s.SameOutput s :=
  ⟨rfl, rfl, rfl, rfl, rfl, rfl, rfl, rfl⟩

theorem sameOutput_trans {a b c : PowerModelChannel R} (h1 : a.SameOutput b)
    (h2 : b.SameOutput c) : a.SameOutput c :=
  ⟨h2.eventName.trans h1.eventName, h2.stateName.trans h1.stateName,
    h2.staticName.trans h1.staticName, h2.powerName.trans h1.powerName,
    h2.timestep.trans h1.timestep, h2.files.trans h1.files, h2.staticLog.trans h1.staticLog,
    h2.powerLog.trans h1.powerLog⟩

theorem addEvent_sameOutput (s : PowerModelChannel R) (e : PowerModelEventBase R) (k : Nat) :
    s.SameOutput (s.addEvent e k).2 := by
  unfold PowerModelChannel.addEvent
  simp only
  split <;> exact ⟨rfl, rfl, rfl, rfl, rfl, rfl, rfl, rfl⟩

theorem addState_sameOutput (s : PowerModelChannel R) (e : PowerModelStateBase R) (k : Nat) :
    s.SameOutput (s.addState e k).2 := by
  unfold PowerModelChannel.addState
  simp only
  repeat' split
  all_goals exact ⟨rfl, rfl, rfl, rfl, rfl, rfl, rfl, rfl⟩

theorem registerEvent_sameOutput (s : PowerModelChannel R) (m : String)
    (e : PowerModelEventBase R) : s.SameOutput (s.registerEvent m e).2 := by
  unfold PowerModelChannel.registerEvent
  simp only
  split
  · exact sameOutput_refl s
  · split
    · split
      · exact ⟨rfl, rfl, rfl, rfl, rfl, rfl, rfl, rfl⟩
      · refine sameOutput_trans ?_ (addEvent_sameOutput _ e _)
        exact ⟨rfl, rfl, rfl, rfl, rfl, rfl, rfl, rfl⟩
    · split
      · exact sameOutput_refl s
      · exact addEvent_sameOutput s e _

theorem registerState_sameOutput (s : PowerModelChannel R) (m : String)
    (e : PowerModelStateBase R) : s.SameOutput (s.registerState m e).2 := by
  unfold PowerModelChannel.registerState
  simp only
  split
  · exact sameOutput_refl s
  · split
    · split
      · exact ⟨rfl, rfl, rfl, rfl, rfl, rfl, rfl, rfl⟩
      · refine sameOutput_trans ?_ (addState_sameOutput _ e _)
        exact ⟨rfl, rfl, rfl, rfl, rfl, rfl, rfl, rfl⟩
    · split
      · exact sameOutput_refl s
      · exact addState_sameOutput s e _

theorem registerAll_sameOutput (calls : List (RegCall R)) (s : PowerModelChannel R) :
    s.SameOutput (s.registerAll calls) := by
  induction calls generalizing s with
  | nil => exact sameOutput_refl s
  | cons c cs ih =>
    rw [registerAll_cons]
    refine sameOutput_trans ?_ (ih _)
    cases c with
    | registerEvent m e => exact registerEvent_sameOutput s m e
    | registerState m e => exact registerState_sameOutput s m e

theorem started_sameOutput [Zero R] [SimTime R] (fs : FileSystem R) (name logFilePath : String)
    (logTimestep : Nat) (regs : List (RegCall R)) :
    (PowerModelChannel.new fs name logFilePath logTimestep : PowerModelChannel R).SameOutput
      (PowerModelChannel.started fs name logFilePath logTimestep regs) := by
  have he := elaborated_elaborating fs name logFilePath logTimestep regs
  obtain ⟨row, -, -, heq⟩ := startSimulation_eq he
  unfold PowerModelChannel.started
  rw [heq]
  have h := registerAll_sameOutput regs
    (PowerModelChannel.new fs name logFilePath logTimestep : PowerModelChannel R)
  exact ⟨h.eventName, h.stateName, h.staticName, h.powerName, h.timestep, h.files, h.staticLog,
    h.powerLog⟩

theorem string_append_left_cancel (p a b : String) (h : p ++ a = p ++ b) : a = b := by
  have h1 := congrArg String.data h
  rw [String.data_append, String.data_append] at h1
  exact String.ext (List.append_cancel_left h1)

theorem new_distinctLogFiles [Zero R] (fs : FileSystem R) (name logFilePath : String)
    (logTimestep : Nat) (hp : logFilePath ≠ "none") :
    (PowerModelChannel.new fs name logFilePath logTimestep : PowerModelChannel R).DistinctLogFiles ∧
    (∀ f, f = (PowerModelChannel.new fs name logFilePath logTimestep :
          PowerModelChannel R).m_eventLogFileName ∨
        f = (PowerModelChannel.new fs name logFilePath logTimestep :
          PowerModelChannel R).m_stateLogFileName ∨
        f = (PowerModelChannel.new fs name logFilePath logTimestep :
          PowerModelChannel R).m_staticPowerLogFileName ∨
        f = (PowerModelChannel.new fs name logFilePath logTimestep :
          PowerModelChannel R).m_eventPowerLogFileName →
      (PowerModelChannel.new fs name logFilePath logTimestep : PowerModelChannel R).files f =
        []) := by
  have hn : ∀ suffix, logFileName name logFilePath suffix = (logFilePath ++ "/" ++ name) ++ suffix := by
    intro suffix
    rw [logFileName, if_neg hp]
  have hd : ∀ a b : String, a ≠ b →
      logFileName name logFilePath a ≠ logFileName name logFilePath b := by
    intro a b hab hc
    rw [hn, hn] at hc
    exact hab (string_append_left_cancel _ _ _ hc)
  have h1 := hd "_eventlog.csv" "_statelog.csv" (by decide)
  have h2 := hd "_eventlog.csv" "_static_power_log.csv" (by decide)
  have h3 := hd "_eventlog.csv" "_event_power_log.csv" (by decide)
  have h4 := hd "_statelog.csv" "_static_power_log.csv" (by decide)
  have h5 := hd "_statelog.csv" "_event_power_log.csv" (by decide)
  have h6 := hd "_static_power_log.csv" "_event_power_log.csv" (by decide)
  refine ⟨⟨h1, h2, h3, h4, h5, h6⟩, ?_⟩
  intro f hf
  simp only [PowerModelChannel.new, if_pos hp, FileSystem.truncate] at hf ⊢
  rcases hf with hf | hf | hf | hf
  · subst hf
    simp [h1, h2, h3]
  · subst hf
    simp [h4, h5]
  · subst hf
    simp [h6]
  · subst hf
    simp

theorem started_distinctLogFiles [Zero R] [SimTime R] (fs : FileSystem R)
    (name logFilePath : String) (logTimestep : Nat) (regs : List (RegCall R))
    (hp : logFilePath ≠ "none") :
    (PowerModelChannel.started fs name logFilePath logTimestep regs).DistinctLogFiles ∧
    (PowerModelChannel.started fs name logFilePath logTimestep regs).files
      (PowerModelChannel.started fs name logFilePath logTimestep regs).m_eventLogFileName = [] ∧
    (PowerModelChannel.started fs name logFilePath logTimestep regs).files
      (PowerModelChannel.started fs name logFilePath logTimestep regs).m_stateLogFileName = [] ∧
    (PowerModelChannel.started fs name logFilePath logTimestep regs).files
      (PowerModelChannel.started fs name logFilePath logTimestep regs).m_staticPowerLogFileName =
        [] ∧
    (PowerModelChannel.started fs name logFilePath logTimestep regs).files
      (PowerModelChannel.started fs name logFilePath logTimestep regs).m_eventPowerLogFileName =
        [] := by
  have h := started_sameOutput fs name logFilePath logTimestep regs
  obtain ⟨hd, hf⟩ := new_distinctLogFiles (R := R) fs name logFilePath logTimestep hp
  rw [h.files, h.eventName, h.stateName, h.staticName, h.powerName]
  refine ⟨⟨?_, ?_, ?_, ?_, ?_, ?_⟩, hf _ (Or.inl rfl), hf _ (Or.inr (Or.inl rfl)),
    hf _ (Or.inr (Or.inr (Or.inl rfl))), hf _ (Or.inr (Or.inr (Or.inr rfl)))⟩
  · rw [h.eventName, h.stateName]; exact hd.eventState
  · rw [h.eventName, h.staticName]; exact hd.eventStatic
  · rw [h.eventName, h.powerName]; exact hd.eventPower
  · rw [h.stateName, h.staticName]; exact hd.stateStatic
  · rw [h.stateName, h.powerName]; exact hd.statePower
  · rw [h.staticName, h.powerName]; exact hd.staticPower

theorem started_loggingDisabled [Zero R] [SimTime R] (fs : FileSystem R)
    (name logFilePath : String) (logTimestep : Nat) (regs : List (RegCall R)) :
    (PowerModelChannel.started fs name logFilePath logTimestep regs).m_logTimestep =
      logTimestep ∧
    ((PowerModelChannel.started fs name logFilePath logTimestep regs).loggingDisabled = false ↔
      logFilePath ≠ "none" ∧ logTimestep ≠ 0) := by
  have h := started_sameOutput fs name logFilePath logTimestep regs
  have ht : (PowerModelChannel.started fs name logFilePath logTimestep regs).m_logTimestep =
      logTimestep := by rw [h.timestep]; rfl
  refine ⟨ht, ?_⟩
  unfold PowerModelChannel.loggingDisabled
  rw [h.eventName, ht]
  have hn : (PowerModelChannel.new fs name logFilePath logTimestep :
      PowerModelChannel R).m_eventLogFileName = logFileName name logFilePath "_eventlog.csv" := rfl
  rw [hn]
  by_cases hp : logFilePath = "none"
  · simp [logFileName, hp]
  · have hne : logFileName name logFilePath "_eventlog.csv" ≠ "none" := by
      rw [logFileName, if_neg hp]
      intro hc
      have h1 := congrArg String.length hc
      simp only [String.length_append] at h1
      have h2 : "_eventlog.csv".length = 13 := by decide
      have h3 : "none".length = 4 := by decide
      omega
    simp [hp, hne]

theorem started_logInv [Zero R] [SimTime R] (fs : FileSystem R) (name logFilePath : String)
    (logTimestep : Nat) (regs : List (RegCall R)) :
    (PowerModelChannel.started fs name logFilePath logTimestep regs).LogInv
      (PowerModelChannel.started fs name logFilePath logTimestep regs)
      (PowerModelChannel.started fs name logFilePath logTimestep regs).m_eventLog
      (PowerModelChannel.started fs name logFilePath logTimestep regs).m_stateLog [] [] ∧
    (PowerModelChannel.started fs name logFilePath logTimestep regs).m_eventLog =
      [List.replicate
        (PowerModelChannel.started fs name logFilePath logTimestep regs).m_events.length 0 ++
        [SimTime.to_microseconds R logTimestep]] ∧
    (PowerModelChannel.started fs name logFilePath logTimestep regs).m_stateLog.length = 1 := by
  have hrun := started_running fs name logFilePath logTimestep regs
  have ht := (started_loggingDisabled fs name logFilePath logTimestep regs).1
  have he := elaborated_elaborating fs name logFilePath logTimestep regs
  obtain ⟨row, hrow, hlen, heq⟩ := startSimulation_eq he
  have hE : (PowerModelChannel.started fs name logFilePath logTimestep regs).m_eventLog =
      [List.replicate
        (PowerModelChannel.started fs name logFilePath logTimestep regs).m_events.length 0 ++
        [SimTime.to_microseconds R
          (PowerModelChannel.started fs name logFilePath logTimestep regs).m_logTimestep]] := by
    unfold PowerModelChannel.started
    rw [heq]
  have hS : (PowerModelChannel.started fs name logFilePath logTimestep regs).m_stateLog =
      [row ++ [SimTime.to_microseconds R
        (PowerModelChannel.elaborated fs name logFilePath logTimestep regs).m_logTimestep]] := by
    unfold PowerModelChannel.started
    rw [heq]
  refine ⟨?_, by rw [hE, ht], by rw [hS]; rfl⟩
  exact
    { running := hrun
      setup := sameSetup_refl _
      eventRows := rfl
      stateRows := rfl
      flushedLength := rfl
      bufferLength := by rw [hE, hS]; rfl
      eventNonempty := by
        intro r hr
        rw [hE] at hr
        rw [List.mem_singleton.mp hr]
        simp
      stateNonempty := by
        intro r hr
        rw [hS] at hr
        rw [List.mem_singleton.mp hr]
        simp
      eventFile := by simp
      stateFile := by simp
      otherFiles := fun _ _ _ => rfl
      disabled := fun _ => rfl
      staticLog := rfl
      powerLog := rfl }

theorem logInv_runCall [DecidableEq R] [SimTime R] {base s : PowerModelChannel R}
    {evRows stRows flushedE flushedS : List (List Int)}
    (h : base.LogInv s evRows stRows flushedE flushedS)
    (hb : base.loggingDisabled = false →
      base.m_eventLogFileName ≠ base.m_stateLogFileName ∧
      base.files base.m_eventLogFileName = [] ∧ base.files base.m_stateLogFileName = [])
    (c : RunCall R) (hv : c.Valid base.m_events.length base.m_states.length) :
    (s.runCall c).1 = .ok () ∧
    ∃ fE fS, base.LogInv (s.runCall c).2
      (eventRowsStep base.m_events.length base.m_logTimestep (!base.loggingDisabled) evRows c)
      (stateRowsStep base.m_states base.m_logTimestep (!base.loggingDisabled) stRows c)
      fE fS := by
  cases c with
  | reportEvent j n =>
    have hj : j < s.m_events.length := by rw [h.setup.events]; exact hv
    obtain ⟨h1, h2⟩ := logInv_reportEvent h hj n
    exact ⟨h1, flushedE, flushedS, h2⟩
  | reportState j =>
    have hj : j < s.m_states.length := by rw [h.setup.states]; exact hv
    obtain ⟨h1, h2⟩ := logInv_reportState h hj
    exact ⟨h1, flushedE, flushedS, h2⟩
  | setSupplyVoltage val =>
    exact ⟨rfl, flushedE, flushedS, logInv_setSupplyVoltage h val⟩
  | logLoop now => exact logInv_logLoop h hb now
  | popEventCount j =>
    have hj : j < s.m_events.length := by rw [h.setup.events]; exact hv
    obtain ⟨⟨c, h1⟩, h2⟩ := logInv_popEventCount h hj
    obtain ⟨c2, hc2, heq⟩ := popEventCount_running h.running hj
    have hr : s.runCall (RunCall.popEventCount j) =
        (.ok (), { s with m_eventRates := s.m_eventRates.set j 0 }) := by
      simp only [PowerModelChannel.runCall, heq]
    rw [heq] at h2
    rw [hr]
    exact ⟨rfl, flushedE, flushedS, h2⟩

theorem logInv_runCalls [DecidableEq R] [SimTime R] {base : PowerModelChannel R}
    (hb : base.loggingDisabled = false →
      base.m_eventLogFileName ≠ base.m_stateLogFileName ∧
      base.files base.m_eventLogFileName = [] ∧ base.files base.m_stateLogFileName = [])
    (calls : List (RunCall R))
    (hv : ∀ c ∈ calls, c.Valid base.m_events.length base.m_states.length)
    {s : PowerModelChannel R} {evRows stRows flushedE flushedS : List (List Int)}
    (h : base.LogInv s evRows stRows flushedE flushedS) :
    (s.runCalls calls).1 = .ok () ∧
    ∃ fE fS, base.LogInv (s.runCalls calls).2
      (eventRows base.m_events.length base.m_logTimestep (!base.loggingDisabled) evRows calls)
      (stateRows base.m_states base.m_logTimestep (!base.loggingDisabled) stRows calls)
      fE fS := by
  induction calls generalizing s evRows stRows flushedE flushedS with
  | nil => exact ⟨rfl, flushedE, flushedS, h⟩
  | cons c cs ih =>
    obtain ⟨h1, fE, fS, h2⟩ := logInv_runCall h hb c (hv c (List.mem_cons_self _ _))
    obtain ⟨h3, h4⟩ := ih (fun d hd => hv d (List.mem_cons_of_mem _ hd)) h2
    have hstep : s.runCalls (c :: cs) = (s.runCall c).2.runCalls cs := by
      rw [PowerModelChannel.runCalls]
      generalize hr : s.runCall c = r at h1
      obtain ⟨r1, r2⟩ := r
      simp only at h1
      subst h1
      rfl
    rw [hstep]
    exact ⟨h3, h4⟩

theorem eventRowsStep_length [SimTime R] (events logTimestep : Nat) (rows : List (List Int))
    (hne : rows ≠ []) (c : RunCall R) :
    (eventRowsStep events logTimestep true rows c).length =
      rows.length + (if c.isLogLoop then 1 else 0) := by
  cases c with
  | reportEvent j n =>
    simp only [eventRowsStep, RunCall.isLogLoop]
    split
    · rw [setBack_length _ _ hne]
      rfl
    · rfl
  | logLoop now => simp [eventRowsStep, RunCall.isLogLoop]
  | reportState j => rfl
  | setSupplyVoltage v => rfl
  | popEventCount j => rfl

theorem stateRowsStep_length [SimTime R] (states : List (ModuleStateEntry R))
    (logTimestep : Nat) (rows : List (List Int)) (hne : rows ≠ []) (c : RunCall R) :
    (stateRowsStep states logTimestep true rows c).length =
      rows.length + (if c.isLogLoop then 1 else 0) := by
  cases c with
  | reportState j =>
    simp only [stateRowsStep, RunCall.isLogLoop]
    split
    · rw [setBack_length _ _ hne]
      rfl
    · rfl
  | logLoop now =>
    obtain ⟨a, r, rfl⟩ : ∃ a r, rows = a ++ [r] :=
      ⟨rows.dropLast, rows.getLast hne, (List.dropLast_append_getLast hne).symm⟩
    simp [stateRowsStep, RunCall.isLogLoop, getLast?_snoc]
  | reportEvent j n => rfl
  | setSupplyVoltage v => rfl
  | popEventCount j => rfl

theorem eventRows_length [SimTime R] (events logTimestep : Nat) (calls : List (RunCall R))
    (rows : List (List Int)) (hne : rows ≠ []) :
    (eventRows events logTimestep true rows calls).length = rows.length + loggerSteps calls := by
  induction calls generalizing rows with
  | nil => rfl
  | cons c cs ih =>
    have hl := eventRowsStep_length events logTimestep rows hne c
    have hne2 : eventRowsStep events logTimestep true rows c ≠ [] := by
      intro hc
      rw [hc] at hl
      have := List.length_pos.mpr hne
      simp at hl
      omega
    have := ih _ hne2
    unfold eventRows at this ⊢
    rw [List.foldl_cons, this, hl]
    cases c
    all_goals simp [loggerSteps, RunCall.isLogLoop, List.filter_cons]
    all_goals omega

theorem stateRows_length [SimTime R] (states : List (ModuleStateEntry R)) (logTimestep : Nat)
    (calls : List (RunCall R)) (rows : List (List Int)) (hne : rows ≠ []) :
    (stateRows states logTimestep true rows calls).length = rows.length + loggerSteps calls := by
  induction calls generalizing rows with
  | nil => rfl
  | cons c cs ih =>
    have hl := stateRowsStep_length states logTimestep rows hne c
    have hne2 : stateRowsStep states logTimestep true rows c ≠ [] := by
      intro hc
      rw [hc] at hl
      have := List.length_pos.mpr hne
      simp at hl
      omega
    have := ih _ hne2
    unfold stateRows at this ⊢
    rw [List.foldl_cons, this, hl]
    cases c
    all_goals simp [loggerSteps, RunCall.isLogLoop, List.filter_cons]
    all_goals omega

theorem destroy_eq [Zero R] [Add R] [Div R] [IntCast R] (s : PowerModelChannel R)
    (hs : s.Running) (hp : s.Sampling) :
    ∃ linesS linesP,
      averageLoop m_staticPowerAveragingFactor s.m_staticPowerLog.length 0 s.m_staticPowerLog
        (List.replicate (s.m_moduleNames.length + 2) (0 : R)) [] = some linesS ∧
      averageLoop m_eventPowerAveragingFactor s.m_eventPowerLog.length 0 s.m_eventPowerLog
        (List.replicate (s.m_events.length + 2) (0 : R)) [] = some linesP ∧
      s.destroy.1 = .ok () ∧
      (∀ f, f ≠ s.m_staticPowerLogFileName → f ≠ s.m_eventPowerLogFileName →
        s.destroy.2.files f = s.dumpEventCsv.dumpStateCsv.files f) ∧
      (s.m_staticPowerLogFileName ≠ s.m_eventPowerLogFileName →
        s.destroy.2.files s.m_staticPowerLogFileName =
          s.dumpEventCsv.dumpStateCsv.files s.m_staticPowerLogFileName ++
            (if (s.dumpEventCsv.dumpStateCsv.files s.m_staticPowerLogFileName).isEmpty then
              [s.m_moduleNames.map Cell.text ++ [Cell.text "time(s)"]]
            else []) ++ linesS ∧
        s.destroy.2.files s.m_eventPowerLogFileName =
          s.dumpEventCsv.dumpStateCsv.files s.m_eventPowerLogFileName ++
            (if (s.dumpEventCsv.dumpStateCsv.files s.m_eventPowerLogFileName).isEmpty then
              [s.m_events.map (fun e => Cell.text e.event.name) ++ [Cell.text "time(s)"]]
            else []) ++ linesP) := by
  obtain ⟨lS, hS, -, -, hdS⟩ := dumpStaticPowerCsv_ok s.dumpEventCsv.dumpStateCsv
    s.m_moduleNames.length hs.stateLog hp.staticRows
  simp only [PowerModelChannel.dumpEventCsv, PowerModelChannel.dumpStateCsv] at hS
  obtain ⟨lP, hP, -, -, hdP⟩ := dumpEventPowerCsv_ok
    (s.dumpEventCsv.dumpStateCsv.dumpStaticPowerCsv).2 s.m_events.length
    (by rw [hdS]; exact hs.eventLog) (by rw [hdS]; exact hp.eventRows)
  rw [hdS] at hP
  simp only [PowerModelChannel.dumpEventCsv, PowerModelChannel.dumpStateCsv] at hP
  have hd : s.destroy = (s.dumpEventCsv.dumpStateCsv.dumpStaticPowerCsv).2.dumpEventPowerCsv := by
    unfold PowerModelChannel.destroy
    rw [hdS]
  refine ⟨lS, lP, hS, hP, ?_, ?_, ?_⟩
  · rw [hd, hdP]
  · intro f h1 h2
    rw [hd, hdP, hdS]
    simp only [FileSystem.append]
    have h1' : ¬ f = s.dumpEventCsv.dumpStateCsv.m_staticPowerLogFileName := h1
    have h2' : ¬ f = s.dumpEventCsv.dumpStateCsv.m_eventPowerLogFileName := h2
    simp only [if_neg h1', if_neg h2']
  · intro hne
    have hne1 : ¬ s.dumpEventCsv.dumpStateCsv.m_staticPowerLogFileName =
        s.dumpEventCsv.dumpStateCsv.m_eventPowerLogFileName := hne
    have hne2 : ¬ s.dumpEventCsv.dumpStateCsv.m_eventPowerLogFileName =
        s.dumpEventCsv.dumpStateCsv.m_staticPowerLogFileName := fun h => hne h.symm
    have e1 : s.m_staticPowerLogFileName =
      s.dumpEventCsv.dumpStateCsv.m_staticPowerLogFileName := rfl
    have e2 : s.m_eventPowerLogFileName =
      s.dumpEventCsv.dumpStateCsv.m_eventPowerLogFileName := rfl
    have e3 : s.m_moduleNames = s.dumpEventCsv.dumpStateCsv.m_moduleNames := rfl
    have e4 : s.m_events = s.dumpEventCsv.dumpStateCsv.m_events := rfl
    rw [hd, hdP, hdS, e1, e2, e3, e4]
    generalize s.dumpEventCsv.dumpStateCsv = t at hne1 hne2
    simp only [FileSystem.append, if_neg hne1, if_neg hne2, if_true, List.append_assoc]
    exact ⟨trivial, trivial⟩

theorem started_buffers [Zero R] [SimTime R] (fs : FileSystem R) (name logFilePath : String)
    (logTimestep : Nat) (regs : List (RegCall R)) :
    (PowerModelChannel.started fs name logFilePath logTimestep regs).m_staticPowerLog = [] ∧
    (PowerModelChannel.started fs name logFilePath logTimestep regs).m_eventPowerLog = [] := by
  have h := started_sameOutput fs name logFilePath logTimestep regs
  exact ⟨by rw [h.staticLog]; rfl, by rw [h.powerLog]; rfl⟩

/-- C16: a run with logging enabled (a log path other than `"none"`, a logging interval
other than 0) that starts the simulation, makes any sequence of reports, voltage changes,
pops and `k` wake-ups of the periodic logger with registered ids, and then destroys the
channel, succeeds; the event-log file then holds the header followed by exactly the `k + 1`
event-log rows created during the run, in creation order, each once and with its final
counts, the unfinished last row included; the state-log file holds its header followed by
exactly the `k + 1` state-log rows. -/
theorem teardown_writes_every_row [Zero R] [Add R] [Div R] [IntCast R] [DecidableEq R]
    [SimTime R] (fs : FileSystem R) (name logFilePath : String) (logTimestep : Nat)
    (regs : List (RegCall R)) (calls : List (RunCall R)) (hp : logFilePath ≠ "none")
    (ht : logTimestep ≠ 0)
    (hv : ∀ c ∈ calls, c.Valid
      (PowerModelChannel.started fs name logFilePath logTimestep regs).m_events.length
      (PowerModelChannel.started fs name logFilePath logTimestep regs).m_states.length) :
    ((PowerModelChannel.started fs name logFilePath logTimestep regs).runCalls calls).1 =
      .ok () ∧
    ((PowerModelChannel.started fs name logFilePath logTimestep regs).runCalls
      calls).2.destroy.1 = .ok () ∧
    ((PowerModelChannel.started fs name logFilePath logTimestep regs).runCalls
        calls).2.destroy.2.files
      (PowerModelChannel.started fs name logFilePath logTimestep regs).m_eventLogFileName =
      (PowerModelChannel.started fs name logFilePath logTimestep regs).eventLogHeader ::
        (eventRows
          (PowerModelChannel.started fs name logFilePath logTimestep regs).m_events.length
          logTimestep true
          (PowerModelChannel.started fs name logFilePath logTimestep regs).m_eventLog
          calls).map (List.map Cell.int) ∧
    (eventRows (PowerModelChannel.started fs name logFilePath logTimestep regs).m_events.length
      logTimestep true
      (PowerModelChannel.started fs name logFilePath logTimestep regs).m_eventLog
      calls).length = loggerSteps calls + 1 ∧
    ((PowerModelChannel.started fs name logFilePath logTimestep regs).runCalls
        calls).2.destroy.2.files
      (PowerModelChannel.started fs name logFilePath logTimestep regs).m_stateLogFileName =
      (PowerModelChannel.started fs name logFilePath logTimestep regs).stateLogHeader ++
        (stateRows (PowerModelChannel.started fs name logFilePath logTimestep regs).m_states
          logTimestep true
          (PowerModelChannel.started fs name logFilePath logTimestep regs).m_stateLog
          calls).map (List.map Cell.int) ∧
    (stateRows (PowerModelChannel.started fs name logFilePath logTimestep regs).m_states
      logTimestep true
      (PowerModelChannel.started fs name logFilePath logTimestep regs).m_stateLog
      calls).length = loggerSteps calls + 1 := by
  obtain ⟨hinv0, hE0, hS0⟩ := started_logInv fs name logFilePath logTimestep regs
  obtain ⟨hdist, hfE, hfS, -, -⟩ :=
    started_distinctLogFiles fs name logFilePath logTimestep regs hp
  obtain ⟨hts, hdis⟩ := started_loggingDisabled fs name logFilePath logTimestep regs
  obtain ⟨hb1, hb2⟩ := started_buffers fs name logFilePath logTimestep regs
  have hen : (PowerModelChannel.started fs name logFilePath logTimestep regs).loggingDisabled =
      false := hdis.mpr ⟨hp, ht⟩
  generalize PowerModelChannel.started fs name logFilePath logTimestep regs = s0 at *
  obtain ⟨hok, fE, fS, hinv⟩ := logInv_runCalls (fun _ => ⟨hdist.eventState, hfE, hfS⟩) calls hv hinv0
  rw [hen, hts] at hinv
  simp only [Bool.not_false] at hinv
  generalize hs : (s0.runCalls calls).2 = s at *
  have hsam : s.Sampling :=
    ⟨(by rw [hinv.staticLog, hb1]; intro r hr; cases hr),
      (by rw [hinv.staticLog, hb1]; simp),
      (by rw [hinv.powerLog, hb2]; intro r hr; cases hr),
      (by rw [hinv.powerLog, hb2]; simp)⟩
  obtain ⟨lS, lP, -, -, hdok, hother, -⟩ := destroy_eq s hinv.running hsam
  have hnames : s.m_eventLogFileName ≠ s.m_stateLogFileName := by
    rw [hinv.setup.eventName, hinv.setup.stateName]; exact hdist.eventState
  obtain ⟨hdE, hdS, -⟩ := dumpEventCsv_dumpStateCsv_files s hnames
  have hbufE : ∀ r ∈ s.m_eventLog, r ≠ [] := fun r hr =>
    hinv.eventNonempty r (by rw [← hinv.eventRows]; exact List.mem_append_right _ hr)
  have hbufS : ∀ r ∈ s.m_stateLog, r ≠ [] := fun r hr =>
    hinv.stateNonempty r (by rw [← hinv.stateRows]; exact List.mem_append_right _ hr)
  obtain ⟨hheadE, hheadS, -⟩ := sameSetup_headers hinv.setup
  have hE0ne : s0.m_eventLog ≠ [] := by rw [hE0]; simp
  have hS0ne : s0.m_stateLog ≠ [] := by
    intro hc
    rw [hc] at hS0
    simp at hS0
  have hlenE := eventRows_length s0.m_events.length logTimestep calls s0.m_eventLog hE0ne
  have hlenS := stateRows_length s0.m_states logTimestep calls s0.m_stateLog hS0ne
  have hE1 : s0.m_eventLog.length = 1 := by rw [hE0]; rfl
  refine ⟨hok, hdok, ?_, by omega, ?_, by omega⟩
  · rw [hother _ (by rw [hinv.setup.staticName]; exact hdist.eventStatic)
      (by rw [hinv.setup.powerName]; exact hdist.eventPower), ← hinv.setup.eventName, hdE,
      hinv.setup.eventName, hinv.eventFile, rowLines_of_nonempty _ hbufE, hheadE,
      ← hinv.eventRows]
    by_cases hf : fE = []
    · subst hf
      simp [hfE]
    · simp [hf]
  · rw [hother _ (by rw [hinv.setup.staticName]; exact hdist.stateStatic)
      (by rw [hinv.setup.powerName]; exact hdist.statePower), ← hinv.setup.stateName, hdS,
      hinv.setup.stateName, hinv.stateFile, rowLines_of_nonempty _ hbufS, hheadS,
      ← hinv.stateRows]
    by_cases hf : fS = []
    · subst hf
      simp [hfS]
    · have hh : s0.stateLogHeader ≠ ([] : FileContent R) := by
        simp [PowerModelChannel.stateLogHeader]
      simp [hf, hh]

/-- C16, witness: the example channel (log path ".", interval 1 us), the example run with
three wake-ups of the logger; the event-log file ends with four rows, the state-log file
with four rows after its legend. -/
theorem teardown_writes_every_row_witness :
    (("." : String) ≠ "none" ∧ (1000000 : Nat) ≠ 0 ∧
      ∀ c ∈ exampleLoggedRun,
        c.Valid exampleRunning.m_events.length exampleRunning.m_states.length) ∧
    ((exampleRunning.runCalls exampleLoggedRun).2.destroy.1 = .ok () ∧
      (exampleRunning.runCalls exampleLoggedRun).2.destroy.2.files "./ch_eventlog.csv" =
        exampleRunning.eventLogHeader ::
          (eventRows 2 1000000 true exampleRunning.m_eventLog exampleLoggedRun).map
            (List.map Cell.int) ∧
      (exampleRunning.runCalls exampleLoggedRun).2.destroy.2.files "./ch_statelog.csv" =
        exampleRunning.stateLogHeader ++
          (stateRows exampleRunning.m_states 1000000 true exampleRunning.m_stateLog
            exampleLoggedRun).map (List.map Cell.int)) ∧
    eventRows 2 1000000 true exampleRunning.m_eventLog exampleLoggedRun =
      [[4, 0, 1], [0, 7, 2], [0, 0, 3], [1, 0, 4]] ∧
    stateRows exampleRunning.m_states 1000000 true exampleRunning.m_stateLog exampleLoggedRun =
      [[0, 1], [1, 2], [1, 3], [1, 4]] ∧
    loggerSteps exampleLoggedRun = 3 :=
  have hp : ("." : String) ≠ "none" := by decide
  have ht : (1000000 : Nat) ≠ 0 := by decide
  have hv : ∀ c ∈ exampleLoggedRun,
      c.Valid exampleRunning.m_events.length exampleRunning.m_states.length := by
    have hE : exampleRunning.m_events.length = 2 := by decide
    have hS : exampleRunning.m_states.length = 2 := by decide
    rw [hE, hS]
    intro c hc
    simp only [exampleLoggedRun, List.mem_cons, List.mem_singleton, List.not_mem_nil,
      or_false] at hc
    rcases hc with rfl | rfl | rfl | rfl | rfl | rfl | rfl <;> simp [RunCall.Valid]
  have h := teardown_writes_every_row (fun _ => []) "ch" "." 1000000 exampleRegistrations
    exampleLoggedRun hp ht hv
  ⟨⟨hp, ht, hv⟩, ⟨h.2.1, h.2.2.1, h.2.2.2.2.1⟩, by decide, by decide, by decide⟩

theorem columnSum_append (column : Nat) (a b : List (List Int)) :
    columnSum column (a ++ b) = columnSum column a + columnSum column b := by
  simp [columnSum]

theorem columnSum_nonneg (column : Nat) (rows : List (List Int))
    (h : ∀ r ∈ rows, 0 ≤ r.getD column 0) : 0 ≤ columnSum column rows := by
  induction rows with
  | nil => simp [columnSum]
  | cons r rs ih =>
    have h1 := h r (List.mem_cons_self _ _)
    have h2 := ih (fun x hx => h x (List.mem_cons_of_mem _ hx))
    simp only [columnSum, List.map_cons, List.sum_cons] at h2 ⊢
    omega

theorem eventRowsStep_columnSum [SimTime R] (eventId events logTimestep : Nat)
    (enabled : Bool) (hid : eventId < events) (c : RunCall R) (rows : List (List Int))
    (hne : rows ≠ []) (hnn : ∀ r ∈ rows, 0 ≤ r.getD eventId 0)
    (hlen : ∀ r ∈ rows, eventId < r.length)
    (hsmall : columnSum eventId rows + (reportedBy eventId c : Int) < 2147483648) :
    eventRowsStep events logTimestep enabled rows c ≠ [] ∧
    (∀ r ∈ eventRowsStep events logTimestep enabled rows c, 0 ≤ r.getD eventId 0) ∧
    (∀ r ∈ eventRowsStep events logTimestep enabled rows c, eventId < r.length) ∧
    columnSum eventId (eventRowsStep events logTimestep enabled rows c) =
      columnSum eventId rows + (reportedBy eventId c : Int) := by
  cases c with
  | reportEvent j n =>
    obtain ⟨a, row, rfl⟩ : ∃ a r, rows = a ++ [r] :=
      ⟨rows.dropLast, rows.getLast hne, (List.dropLast_append_getLast hne).symm⟩
    have hrow := hnn row (by simp)
    have hrl := hlen row (by simp)
    have ha : 0 ≤ columnSum eventId a :=
      columnSum_nonneg _ _ (fun r hr => hnn r (List.mem_append_left _ hr))
    simp only [eventRowsStep, getLast?_snoc, setBack_snoc, reportedBy] at hsmall ⊢
    rw [columnSum_append] at hsmall ⊢
    have hone : ∀ r : List Int, columnSum eventId [r] = r.getD eventId 0 := by
      intro r
      simp [columnSum]
    rw [hone] at hsmall
    rw [columnSum_append, hone, hone]
    by_cases hj : j = eventId
    · subst hj
      rw [if_pos rfl] at hsmall ⊢
      have hwrap : toInt32 (row.getD j 0 + (n : Int)) = row.getD j 0 + (n : Int) :=
        toInt32_of_range (by omega) (by omega)
      have hget : (row.set j (row.getD j 0 + (n : Int))).getD j 0 = row.getD j 0 + (n : Int) := by
        rw [List.getD_eq_getElem?_getD, List.getElem?_set_self hrl]
        rfl
      rw [hwrap]
      refine ⟨by simp, ?_, ?_, ?_⟩
      · intro r hr
        rcases List.mem_append.mp hr with h1 | h1
        · exact hnn r (List.mem_append_left _ h1)
        · rw [List.mem_singleton.mp h1, hget]
          omega
      · intro r hr
        rcases List.mem_append.mp hr with h1 | h1
        · exact hlen r (List.mem_append_left _ h1)
        · rw [List.mem_singleton.mp h1, List.length_set]
          exact hrl
      · rw [hget]
        omega
    · rw [if_neg hj] at hsmall ⊢
      have hget : ∀ v : Int, (row.set j v).getD eventId 0 = row.getD eventId 0 := by
        intro v
        rw [List.getD_eq_getElem?_getD, List.getD_eq_getElem?_getD, List.getElem?_set_ne hj]
      refine ⟨by simp, ?_, ?_, ?_⟩
      · intro r hr
        rcases List.mem_append.mp hr with h1 | h1
        · exact hnn r (List.mem_append_left _ h1)
        · rw [List.mem_singleton.mp h1, hget]
          exact hrow
      · intro r hr
        rcases List.mem_append.mp hr with h1 | h1
        · exact hlen r (List.mem_append_left _ h1)
        · rw [List.mem_singleton.mp h1, List.length_set]
          exact hrl
      · rw [hget]
        simp
  | logLoop now =>
    simp only [eventRowsStep, reportedBy]
    cases enabled with
    | false => exact ⟨hne, hnn, hlen, by simp⟩
    | true =>
      simp only [if_true]
      have hget : (List.replicate events (0 : Int) ++
          [SimTime.to_microseconds R (logTimestep + now)]).getD eventId 0 = 0 := by
        rw [List.getD_eq_getElem?_getD, List.getElem?_append_left (by simpa using hid)]
        simp [hid]
      refine ⟨by simp, ?_, ?_, ?_⟩
      · intro r hr
        rcases List.mem_append.mp hr with h1 | h1
        · exact hnn r h1
        · rw [List.mem_singleton.mp h1, hget]
      · intro r hr
        rcases List.mem_append.mp hr with h1 | h1
        · exact hlen r h1
        · rw [List.mem_singleton.mp h1]
          simp
          omega
      · rw [columnSum_append]
        have hone : columnSum eventId [List.replicate events (0 : Int) ++
            [SimTime.to_microseconds R (logTimestep + now)]] = 0 := by
          simp only [columnSum, List.map_cons, List.map_nil, List.sum_cons, List.sum_nil, hget]
          rfl
        rw [hone]
        simp
  | reportState j => exact ⟨hne, hnn, hlen, by simp [eventRowsStep, reportedBy]⟩
  | setSupplyVoltage v => exact ⟨hne, hnn, hlen, by simp [eventRowsStep, reportedBy]⟩
  | popEventCount j => exact ⟨hne, hnn, hlen, by simp [eventRowsStep, reportedBy]⟩

theorem eventRows_columnSum [SimTime R] (eventId events logTimestep : Nat) (enabled : Bool)
    (hid : eventId < events) (calls : List (RunCall R)) (rows : List (List Int))
    (hne : rows ≠ []) (hnn : ∀ r ∈ rows, 0 ≤ r.getD eventId 0)
    (hlen : ∀ r ∈ rows, eventId < r.length)
    (hsmall : columnSum eventId rows + (reportedTotal eventId calls : Int) < 2147483648) :
    columnSum eventId (eventRows events logTimestep enabled rows calls) =
      columnSum eventId rows + (reportedTotal eventId calls : Int) := by
  induction calls generalizing rows with
  | nil => simp [eventRows, reportedTotal]
  | cons c cs ih =>
    have htot : (reportedTotal eventId (c :: cs) : Int) =
        (reportedBy eventId c : Int) + (reportedTotal eventId cs : Int) := by
      simp [reportedTotal]
    rw [htot] at hsmall ⊢
    obtain ⟨h1, h2, h3, h4⟩ := eventRowsStep_columnSum eventId events logTimestep enabled hid c
      rows hne hnn hlen (by omega)
    have := ih _ h1 h2 h3 (by rw [h4]; omega)
    unfold eventRows at this ⊢
    rw [List.foldl_cons, this, h4]
    omega

theorem popEventCount_only_counters (s : PowerModelChannel R) (eventId : Nat) :
    (s.popEventCount eventId).2 =
      { s with m_eventRates := (s.popEventCount eventId).2.m_eventRates } := by
  unfold PowerModelChannel.popEventCount
  repeat' split
  all_goals rfl

theorem popEventEnergy_only_counters [Mul R] [IntCast R] (s : PowerModelChannel R)
    (eventId : Nat) :
    (s.popEventEnergy eventId).2 =
      { s with m_eventRates := (s.popEventEnergy eventId).2.m_eventRates } := by
  have h := popEventCount_only_counters s eventId
  unfold PowerModelChannel.popEventEnergy
  split
  · rfl
  · split
    · rfl
    · split
      · rfl
      · generalize s.popEventCount eventId = r at h
        obtain ⟨r1, r2⟩ := r
        cases r1 with
        | ok c => exact h
        | error e => exact h

theorem popDynamicEnergyLoop_only_counters [Add R] [Mul R] [IntCast R] (ids : List Nat)
    (result : R) (s : PowerModelChannel R) :
    (PowerModelChannel.popDynamicEnergyLoop ids result s).2 =
      { s with m_eventRates :=
        (PowerModelChannel.popDynamicEnergyLoop ids result s).2.m_eventRates } := by
  induction ids generalizing result s with
  | nil => rfl
  | cons i rest ih =>
    have h := popEventEnergy_only_counters s i
    rw [PowerModelChannel.popDynamicEnergyLoop]
    generalize s.popEventEnergy i = r at h
    obtain ⟨r1, r2⟩ := r
    cases r1 with
    | error e => exact h
    | ok c =>
      simp only at h ⊢
      have h2 := ih (result + c) r2
      rw [h2]
      rw [h]

/-- C15, counterexample to the claim as stated: after one `reportEvent(0, 2147483648)` on
the example channel the only event-log row holds -2147483648 in column 0, no row has been
written to the file, and the column does not sum to the 2147483648 occurrences reported. -/
theorem eventLog_column_wraps :
    (exampleRunning.runCalls exampleLargeReport).1 = .ok () ∧
    reportedTotal 0 exampleLargeReport = 2147483648 ∧
    (exampleRunning.runCalls exampleLargeReport).2.m_eventLog = [[-2147483648, 0, 1]] ∧
    (exampleRunning.runCalls exampleLargeReport).2.files "./ch_eventlog.csv" = [] ∧
    columnSum 0 (exampleRunning.runCalls exampleLargeReport).2.m_eventLog = -2147483648 := by
  refine ⟨by rfl, by decide, by decide, by rfl, by decide⟩

/-- C15 (amended): at every point of the run phase, that is after any sequence of reports,
voltage changes, pops and wake-ups of the periodic logger with registered ids, every call
has returned and the rows written to the event-log file (after its header) followed by the
rows still buffered are the rows created so far, each report added to the newest row at
the time of the report as a 32-bit `int`; this holds for every such run, whatever the
totals reported and also for a channel without events. For every registered event whose
reports total less than `2^31`, its column summed over all these rows is that total. The
three pop functions change nothing but the counters: no event-log row and no file. -/
theorem eventLog_column_sums_to_reports [Zero R] [Add R] [Mul R] [IntCast R] [DecidableEq R]
    [SimTime R] (fs : FileSystem R) (name logFilePath : String) (logTimestep : Nat)
    (regs : List (RegCall R)) (calls : List (RunCall R))
    (hv : ∀ c ∈ calls, c.Valid
      (PowerModelChannel.started fs name logFilePath logTimestep regs).m_events.length
      (PowerModelChannel.started fs name logFilePath logTimestep regs).m_states.length) :
    ((PowerModelChannel.started fs name logFilePath logTimestep regs).runCalls calls).1 =
      .ok () ∧
    (∃ flushed : List (List Int),
      ((PowerModelChannel.started fs name logFilePath logTimestep regs).runCalls calls).2.files
          (PowerModelChannel.started fs name logFilePath logTimestep regs).m_eventLogFileName =
        (if flushed = [] then
          (PowerModelChannel.started fs name logFilePath logTimestep regs).files
            (PowerModelChannel.started fs name logFilePath logTimestep regs).m_eventLogFileName
        else
          (PowerModelChannel.started fs name logFilePath logTimestep regs).eventLogHeader ::
            flushed.map (List.map Cell.int)) ∧
      flushed ++
          ((PowerModelChannel.started fs name logFilePath logTimestep regs).runCalls
            calls).2.m_eventLog =
        eventRows
          (PowerModelChannel.started fs name logFilePath logTimestep regs).m_events.length
          logTimestep
          (!(PowerModelChannel.started fs name logFilePath logTimestep regs).loggingDisabled)
          (PowerModelChannel.started fs name logFilePath logTimestep regs).m_eventLog calls ∧
      (∀ eventId : Nat,
        eventId <
          (PowerModelChannel.started fs name logFilePath logTimestep regs).m_events.length →
        reportedTotal eventId calls < 2147483648 →
        columnSum eventId (flushed ++
            ((PowerModelChannel.started fs name logFilePath logTimestep regs).runCalls
              calls).2.m_eventLog) = (reportedTotal eventId calls : Int))) ∧
    (∀ (s : PowerModelChannel R) (j : Nat),
      (s.popEventCount j).2 = { s with m_eventRates := (s.popEventCount j).2.m_eventRates } ∧
      (s.popEventEnergy j).2 = { s with m_eventRates := (s.popEventEnergy j).2.m_eventRates } ∧
      s.popDynamicEnergy.2 = { s with m_eventRates := s.popDynamicEnergy.2.m_eventRates }) := by
  obtain ⟨hinv0, hE0, -⟩ := started_logInv fs name logFilePath logTimestep regs
  obtain ⟨hts, hdis⟩ := started_loggingDisabled fs name logFilePath logTimestep regs
  have hb : (PowerModelChannel.started fs name logFilePath logTimestep regs).loggingDisabled =
        false →
      (PowerModelChannel.started fs name logFilePath logTimestep regs).m_eventLogFileName ≠
        (PowerModelChannel.started fs name logFilePath logTimestep regs).m_stateLogFileName ∧
      (PowerModelChannel.started fs name logFilePath logTimestep regs).files
        (PowerModelChannel.started fs name logFilePath logTimestep regs).m_eventLogFileName =
          [] ∧
      (PowerModelChannel.started fs name logFilePath logTimestep regs).files
        (PowerModelChannel.started fs name logFilePath logTimestep regs).m_stateLogFileName =
          [] := by
    intro hen
    obtain ⟨hdist, hfE, hfS, -, -⟩ :=
      started_distinctLogFiles fs name logFilePath logTimestep regs (hdis.mp hen).1
    exact ⟨hdist.eventState, hfE, hfS⟩
  generalize PowerModelChannel.started fs name logFilePath logTimestep regs = s0 at *
  obtain ⟨hok, fE, fS, hinv⟩ := logInv_runCalls hb calls hv hinv0
  rw [hts] at hinv
  refine ⟨hok, ⟨fE, hinv.eventFile, hinv.eventRows, ?_⟩, ?_⟩
  · intro eventId hid hsmall
    rw [hinv.eventRows]
    have hstart : columnSum eventId s0.m_eventLog = 0 := by
      rw [hE0]
      simp only [columnSum, List.map_cons, List.map_nil, List.sum_cons, List.sum_nil]
      rw [List.getD_eq_getElem?_getD, List.getElem?_append_left (by simpa using hid)]
      simp [hid]
    have hrows : ∀ r ∈ s0.m_eventLog,
        r = List.replicate s0.m_events.length (0 : Int) ++
          [SimTime.to_microseconds R logTimestep] := by
      intro r hr
      rw [hE0] at hr
      exact List.mem_singleton.mp hr
    have := eventRows_columnSum eventId s0.m_events.length logTimestep (!s0.loggingDisabled)
      hid calls s0.m_eventLog (by rw [hE0]; simp)
      (by
        intro r hr
        rw [hrows r hr, List.getD_eq_getElem?_getD,
          List.getElem?_append_left (by simpa using hid)]
        simp [hid])
      (by
        intro r hr
        rw [hrows r hr]
        simp
        omega)
      (by rw [hstart]; omega)
    rw [this, hstart]
    simp
  · intro s j
    exact ⟨popEventCount_only_counters s j, popEventEnergy_only_counters s j,
      popDynamicEnergyLoop_only_counters _ _ s⟩

/-- C15 (amended), witness: the example channel and the example run with three wake-ups of
the logger; the column of event 0 (reports of 4 and 1) sums to 5 and the column of event 1
(one report of 7) to 7. The rows are also as stated after the one report of `2^31`
occurrences, whose column wraps. -/
theorem eventLog_column_sums_to_reports_witness :
    (∀ c ∈ exampleLoggedRun,
      c.Valid exampleRunning.m_events.length exampleRunning.m_states.length) ∧
    (∃ flushed : List (List Int),
      (exampleRunning.runCalls exampleLoggedRun).2.files "./ch_eventlog.csv" =
        (if flushed = [] then exampleRunning.files "./ch_eventlog.csv"
        else exampleRunning.eventLogHeader :: flushed.map (List.map Cell.int)) ∧
      flushed ++ (exampleRunning.runCalls exampleLoggedRun).2.m_eventLog =
        eventRows 2 1000000 (!exampleRunning.loggingDisabled) exampleRunning.m_eventLog
          exampleLoggedRun ∧
      (∀ eventId : Nat, eventId < exampleRunning.m_events.length →
        reportedTotal eventId exampleLoggedRun < 2147483648 →
        columnSum eventId (flushed ++ (exampleRunning.runCalls exampleLoggedRun).2.m_eventLog) =
          (reportedTotal eventId exampleLoggedRun : Int))) ∧
    exampleRunning.m_events.length = 2 ∧
    reportedTotal 0 exampleLoggedRun = 5 ∧
    reportedTotal 1 exampleLoggedRun = 7 ∧
    (exampleRunning.runCalls exampleLoggedRun).2.m_eventLog = [[1, 0, 4]] ∧
    ((exampleRunning.runCalls exampleLoggedRun).2.files "./ch_eventlog.csv").drop 1 =
      [[Cell.int 4, Cell.int 0, Cell.int 1], [Cell.int 0, Cell.int 7, Cell.int 2],
       [Cell.int 0, Cell.int 0, Cell.int 3]] ∧
    (∃ flushed : List (List Int),
      (exampleRunning.runCalls exampleLargeReport).2.files "./ch_eventlog.csv" =
        (if flushed = [] then exampleRunning.files "./ch_eventlog.csv"
        else exampleRunning.eventLogHeader :: flushed.map (List.map Cell.int)) ∧
      flushed ++ (exampleRunning.runCalls exampleLargeReport).2.m_eventLog =
        eventRows 2 1000000 (!exampleRunning.loggingDisabled) exampleRunning.m_eventLog
          exampleLargeReport ∧
      (∀ eventId : Nat, eventId < exampleRunning.m_events.length →
        reportedTotal eventId exampleLargeReport < 2147483648 →
        columnSum eventId (flushed ++ (exampleRunning.runCalls exampleLargeReport).2.m_eventLog) =
          (reportedTotal eventId exampleLargeReport : Int))) ∧
    eventRows 2 1000000 (!exampleRunning.loggingDisabled) exampleRunning.m_eventLog
      exampleLargeReport = [[-2147483648, 0, 1]] :=
  have hv2 : ∀ c ∈ exampleLargeReport,
      c.Valid exampleRunning.m_events.length exampleRunning.m_states.length := by
    have hE : exampleRunning.m_events.length = 2 := by decide
    have hS : exampleRunning.m_states.length = 2 := by decide
    rw [hE, hS]
    intro c hc
    simp only [exampleLargeReport, List.mem_singleton] at hc
    subst hc
    simp [RunCall.Valid]
  have hv : ∀ c ∈ exampleLoggedRun,
      c.Valid exampleRunning.m_events.length exampleRunning.m_states.length := by
    have hE : exampleRunning.m_events.length = 2 := by decide
    have hS : exampleRunning.m_states.length = 2 := by decide
    rw [hE, hS]
    intro c hc
    simp only [exampleLoggedRun, List.mem_cons, List.mem_singleton, List.not_mem_nil,
      or_false] at hc
    rcases hc with rfl | rfl | rfl | rfl | rfl | rfl | rfl <;> simp [RunCall.Valid]
  ⟨hv,
    (eventLog_column_sums_to_reports (fun _ => []) "ch" "." 1000000 exampleRegistrations
      exampleLoggedRun hv).2.1,
    by decide, by decide, by decide, by decide, by rfl,
    (eventLog_column_sums_to_reports (fun _ => []) "ch" "." 1000000 exampleRegistrations
      exampleLargeReport hv2).2.1,
    by decide⟩

theorem addScaled_snoc [Add R] [Div R] [IntCast R] (factor : Nat) (vals row : List R) (t : R)
    (h : vals.length = row.length) :
    addScaled factor (vals ++ [t]) row =
      List.zipWith (fun r x => r + x / (((factor : Int) : R))) vals row ++ [t] := by
  induction vals generalizing row with
  | nil =>
    cases row with
    | nil => simp [addScaled]
    | cons x row => simp at h
  | cons v vals ih =>
    cases row with
    | nil => simp at h
    | cons x row =>
      simp only [List.length_cons, Nat.add_right_cancel_iff] at h
      simp [addScaled, ih row h]

theorem zipWith_window3 [Zero R] [Add R] [Div R] [IntCast R] (n : Nat) (a b c : List R)
    (ha : a.length = n) (hb : b.length = n) (hc : c.length = n) :
    List.zipWith (fun r x => r + x / (((3 : Nat) : Int) : R))
      (List.zipWith (fun r x => r + x / (((3 : Nat) : Int) : R))
        (List.zipWith (fun r x => r + x / (((3 : Nat) : Int) : R)) (List.replicate n (0 : R)) a)
        b) c =
    List.zipWith3
      (fun x y z => 0 + x / ((3 : Int) : R) + y / ((3 : Int) : R) + z / ((3 : Int) : R))
      a b c := by
  induction n generalizing a b c with
  | zero =>
    cases a with
    | nil => rfl
    | cons _ _ => simp at ha
  | succ n ih =>
    cases a with
    | nil => simp at ha
    | cons x a =>
      cases b with
      | nil => simp at hb
      | cons y b =>
        cases c with
        | nil => simp at hc
        | cons z c =>
          simp only [List.length_cons, Nat.add_right_cancel_iff] at ha hb hc
          simp only [List.replicate_succ, List.zipWith_cons_cons, List.zipWith3, ih a b c ha hb hc]
          rfl

theorem averageLoop_three [Zero R] [Add R] [Div R] [IntCast R] (n : Nat) (a b c : List R)
    (ha : a.length = n + 1)
    (hb : b.length = n + 1) (hc : c.length = n + 1) :
    averageLoop 3 3 0 [a, b, c] (List.replicate (n + 1) (0 : R)) [] =
      some [(windowRow3 a b c).map Cell.real] := by
  have hsplit : ∀ l : List R, l.length = n + 1 → ∃ l1 t, l = l1 ++ [t] ∧ l1.length = n := by
    intro l hl
    have hne : l ≠ [] := by
      intro h0
      rw [h0] at hl
      simp at hl
    refine ⟨l.dropLast, l.getLast hne, (List.dropLast_append_getLast hne).symm, ?_⟩
    simp [hl]
  obtain ⟨a1, ta, rfl, ha1⟩ := hsplit a ha
  obtain ⟨b1, tb, rfl, hb1⟩ := hsplit b hb
  obtain ⟨c1, tc, rfl, hc1⟩ := hsplit c hc
  have hrep : List.replicate (n + 1) (0 : R) = List.replicate n 0 ++ [0] := by
    rw [List.replicate_succ']
  have hz1 : (List.zipWith (fun r x => r + x / (((3 : Nat) : Int) : R))
      (List.replicate n (0 : R)) a1).length = n := by simp [ha1]
  have hz2 : (List.zipWith (fun r x => r + x / (((3 : Nat) : Int) : R))
      (List.zipWith (fun r x => r + x / (((3 : Nat) : Int) : R))
        (List.replicate n (0 : R)) a1) b1).length = n := by simp [ha1, hb1]
  have hcond : ∀ (x y : List R) (t u : R), x.length = n → y.length = n →
      ((y ++ [u]).isEmpty || decide ((x ++ [t]).length < (y ++ [u]).length - 1) ||
        (x ++ [t]).isEmpty) = false := by
    intro x y t u hx hy
    simp [hx, hy]
  have hd0 : (decide (0 < 0) && 0 % 3 == 0 || 0 == 3 - 1) = false := by decide
  have hd1 : (decide (0 < 0 + 1) && (0 + 1) % 3 == 0 || 0 + 1 == 3 - 1) = false := by decide
  have hd2 : (decide (0 < 0 + 1 + 1) && (0 + 1 + 1) % 3 == 0 || 0 + 1 + 1 == 3 - 1) = true := by
    decide
  have ht0 : (0 % 3 == 0) = true := by decide
  have ht1 : ((0 + 1) % 3 == 0) = false := by decide
  have ht2 : ((0 + 1 + 1) % 3 == 0) = false := by decide
  rw [hrep, averageLoop]
  rw [hd0, ht0]
  simp only [hcond _ _ _ _ (List.length_replicate n 0) ha1, Bool.false_eq_true,
    if_false, if_true, List.dropLast_concat, List.getLast?_concat,
    addScaled_snoc 3 (List.replicate n (0 : R)) a1 0 (by simp [ha1]), setBack_snoc]
  rw [averageLoop]
  rw [hd1, ht1]
  simp only [hcond _ _ _ _ hz1 hb1, Bool.false_eq_true,
    if_false, List.dropLast_concat, addScaled_snoc 3 _ b1 ta (by rw [hz1, hb1])]
  rw [averageLoop]
  rw [hd2, ht2]
  simp only [hcond _ _ _ _ hz2 hc1, Bool.false_eq_true,
    if_false, if_true, List.dropLast_concat, addScaled_snoc 3 _ c1 ta (by rw [hz2, hc1]),
    averageLoop, List.nil_append]
  rw [zipWith_window3 n a1 b1 c1 ha1 hb1 hc1]
  simp [windowRow3]

theorem fullWindowRows_append [Zero R] [Add R] [Div R] [IntCast R] (k : Nat)
    (flushed rest : List (List R))
    (h : flushed.length = 3 * k) :
    fullWindowRows (flushed ++ rest) = fullWindowRows flushed ++ fullWindowRows rest := by
  induction k generalizing flushed with
  | zero =>
    have : flushed = [] := List.length_eq_zero.mp (by omega)
    subst this
    simp [fullWindowRows]
  | succ k ih =>
    match flushed, h with
    | a :: b :: c :: tl, h =>
      have htl : tl.length = 3 * k := by
        simp only [List.length_cons] at h
        omega
      have := ih tl htl
      show fullWindowRows (a :: b :: c :: (tl ++ rest)) =
        fullWindowRows (a :: b :: c :: tl) ++ fullWindowRows rest
      rw [fullWindowRows, fullWindowRows, this]
      rfl
    | [], h => simp at h
    | [_], h => simp at h; omega
    | [_, _], h => simp at h; omega

theorem fullWindowRows_length [Zero R] [Add R] [Div R] [IntCast R] (k : Nat)
    (samples : List (List R))
    (h : samples.length = 3 * k) : (fullWindowRows samples).length = k := by
  induction k generalizing samples with
  | zero =>
    have : samples = [] := List.length_eq_zero.mp (by omega)
    subst this
    simp [fullWindowRows]
  | succ k ih =>
    match samples, h with
    | a :: b :: c :: tl, h =>
      have htl : tl.length = 3 * k := by
        simp only [List.length_cons] at h
        omega
      simp only [fullWindowRows, List.length_cons, ih tl htl]
    | [], h => simp at h
    | [_], h => simp at h; omega
    | [_, _], h => simp at h; omega

theorem sampleInv_empty [Zero R] [Add R] [Div R] [IntCast R] (width : Nat)
    (header : List (Cell R)) :
    SampleInv width header [] [] [] :=
  ⟨⟨[], rfl, rfl, rfl⟩, by simp, fun _ h => absurd h (List.not_mem_nil _)⟩

theorem sampleInv_push_small [Zero R] [Add R] [Div R] [IntCast R] {width : Nat}
    {header : List (Cell R)} {samples buffer : List (List R)} {file : FileContent R}
    (h : SampleInv width header samples buffer file) (sample : List R)
    (hw : sample.length = width) (hlt : buffer.length < 2) :
    SampleInv width header (samples ++ [sample]) (buffer ++ [sample]) file := by
  obtain ⟨flushed, hs, hmod, hfile⟩ := h.split
  refine ⟨⟨flushed, by rw [hs, List.append_assoc], hmod, hfile⟩, by simp; omega, ?_⟩
  intro r hr
  rcases List.mem_append.mp hr with h1 | h1
  · exact h.rows r h1
  · rw [List.mem_singleton.mp h1]
    exact hw

theorem sampleInv_push_flush [Zero R] [Add R] [Div R] [IntCast R] {n : Nat}
    {header : List (Cell R)}
    {samples buffer : List (List R)} {file : FileContent R}
    (h : SampleInv (n + 1) header samples buffer file) (sample : List R)
    (hw : sample.length = n + 1) (hlen : ¬ buffer.length < 2) (lines : FileContent R)
    (hl : averageLoop 3 (buffer.length + 1) 0 (buffer ++ [sample])
      (List.replicate (n + 1) (0 : R)) [] = some lines) :
    SampleInv (n + 1) header (samples ++ [sample]) []
      ((file ++ (if file.isEmpty then [header] else [])) ++ lines) := by
  obtain ⟨flushed, hs, hmod, hfile⟩ := h.split
  have hb := h.bound
  have hrows : ∀ r ∈ samples ++ [sample], r.length = n + 1 := by
    intro r hr
    rcases List.mem_append.mp hr with h1 | h1
    · exact h.rows r h1
    · rw [List.mem_singleton.mp h1]
      exact hw
  match buffer, hlen, hb, hs, hl with
  | [a, b], _, _, hs, hl =>
    have ha : a.length = n + 1 := h.rows a (by rw [hs]; simp)
    have hbl : b.length = n + 1 := h.rows b (by rw [hs]; simp)
    have h3 := averageLoop_three n a b sample ha hbl hw
    simp only [List.length_cons, List.length_nil, List.cons_append, List.nil_append] at hl
    rw [h3] at hl
    have hlines : lines = [(windowRow3 a b sample).map Cell.real] := (Option.some.inj hl).symm
    obtain ⟨k, hk⟩ : ∃ k, flushed.length = 3 * k := ⟨flushed.length / 3, by omega⟩
    have hmr : fullWindowRows (flushed ++ [a, b, sample]) =
        fullWindowRows flushed ++ [windowRow3 a b sample] := by
      rw [fullWindowRows_append k _ _ hk]
      simp [fullWindowRows]
    refine ⟨⟨flushed ++ [a, b, sample], by rw [hs]; simp, by simp; omega, ?_⟩, by simp, hrows⟩
    rw [hmr, hlines, hfile]
    cases flushed with
    | nil => simp [fullWindowRows]
    | cons x xs => simp
  | [], hlen, _, _, _ => simp at hlen
  | [_], hlen, _, _, _ => simp at hlen
  | _ :: _ :: _ :: _, _, hb, _, _ => simp at hb

theorem sampleInv_final [Zero R] [Add R] [Div R] [IntCast R] {width : Nat}
    {header : List (Cell R)}
    {samples buffer : List (List R)} {file : FileContent R}
    (h : SampleInv width header samples buffer file) (m : Nat) (hm : samples.length = 3 * m) :
    buffer = [] ∧
    file ++ (if file.isEmpty then [header] else []) =
      header :: (fullWindowRows samples).map (List.map Cell.real) ∧
    (fullWindowRows samples).length = m := by
  obtain ⟨flushed, hs, hmod, hfile⟩ := h.split
  have hb := h.bound
  have hlen : samples.length = flushed.length + buffer.length := by rw [hs]; simp
  have hb0 : buffer = [] := List.length_eq_zero.mp (by omega)
  subst hb0
  rw [List.append_nil] at hs
  subst hs
  refine ⟨rfl, ?_, fullWindowRows_length m _ hm⟩
  rw [hfile]
  cases samples with
  | nil => simp [fullWindowRows]
  | cons x xs => simp

theorem runCall_frame [DecidableEq R] [SimTime R] {s : PowerModelChannel R} (hs : s.Running)
    (c : RunCall R) (hv : c.Valid s.m_events.length s.m_states.length) :
    s.SameSetup (s.runCall c).2 ∧
    (s.runCall c).2.m_staticPowerLog = s.m_staticPowerLog ∧
    (s.runCall c).2.m_eventPowerLog = s.m_eventPowerLog ∧
    ∀ f, f ≠ s.m_eventLogFileName → f ≠ s.m_stateLogFileName →
      (s.runCall c).2.files f = s.files f := by
  cases c with
  | reportEvent j n =>
    obtain ⟨pre, row, c, x, -, -, -, -, heq⟩ := reportEvent_running hs hv n
    have hr : s.runCall (RunCall.reportEvent j n) = _ := heq
    rw [hr]
    exact ⟨⟨rfl, rfl, rfl, rfl, rfl, rfl, rfl, rfl⟩, rfl, rfl, fun _ _ _ => rfl⟩
  | reportState j =>
    obtain ⟨pre, row, entry, -, -, -, -, heq⟩ := reportState_running hs hv
    have hr : s.runCall (RunCall.reportState j) = _ := heq
    rw [hr]
    exact ⟨⟨rfl, rfl, rfl, rfl, rfl, rfl, rfl, rfl⟩, rfl, rfl, fun _ _ _ => rfl⟩
  | setSupplyVoltage val =>
    simp only [PowerModelChannel.runCall, PowerModelChannel.setSupplyVoltage]
    split
    · exact ⟨⟨rfl, rfl, rfl, rfl, rfl, rfl, rfl, rfl⟩, rfl, rfl, fun _ _ _ => rfl⟩
    · exact ⟨⟨rfl, rfl, rfl, rfl, rfl, rfl, rfl, rfl⟩, rfl, rfl, fun _ _ _ => rfl⟩
  | popEventCount j =>
    obtain ⟨c2, -, heq⟩ := popEventCount_running hs hv
    have hr : s.runCall (RunCall.popEventCount j) =
        (.ok (), { s with m_eventRates := s.m_eventRates.set j 0 }) := by
      simp only [PowerModelChannel.runCall, heq]
    rw [hr]
    exact ⟨⟨rfl, rfl, rfl, rfl, rfl, rfl, rfl, rfl⟩, rfl, rfl, fun _ _ _ => rfl⟩
  | logLoop now =>
    obtain ⟨pre, row, hlog, hlen⟩ := hs.stateLog
    have hne : row ≠ [] := by
      intro hc
      rw [hc] at hlen
      simp at hlen
    simp only [PowerModelChannel.runCall, PowerModelChannel.logLoop]
    split
    · exact ⟨⟨rfl, rfl, rfl, rfl, rfl, rfl, rfl, rfl⟩, rfl, rfl, fun _ _ _ => rfl⟩
    · rw [logLoopBody_eq hlog hne]
      split
      · refine ⟨⟨rfl, rfl, rfl, rfl, rfl, rfl, rfl, rfl⟩, rfl, rfl, ?_⟩
        intro f h1 h2
        simp only [PowerModelChannel.dumpEventCsv, PowerModelChannel.dumpStateCsv,
          FileSystem.append, if_neg h1, if_neg h2]
      · exact ⟨⟨rfl, rfl, rfl, rfl, rfl, rfl, rfl, rfl⟩, rfl, rfl, fun _ _ _ => rfl⟩

theorem popEventEnergy_running [Mul R] [IntCast R] {s : PowerModelChannel R} (hs : s.Running)
    {eventId : Nat} (hid : eventId < s.m_events.length) :
    ∃ v, s.popEventEnergy eventId =
      (.ok v, { s with m_eventRates := s.m_eventRates.set eventId 0 }) := by
  obtain ⟨pre, row, hlog, hlen⟩ := hs.eventLog
  obtain ⟨c, -, heq⟩ := popEventCount_running hs hid
  have h2 : eventId < row.length := by omega
  refine ⟨s.m_events[eventId].event.calculateEnergy s.m_supplyVoltage * ((c : Int) : R), ?_⟩
  unfold PowerModelChannel.popEventEnergy
  rw [hlog, getLast?_snoc]
  simp only [h2, not_true_eq_false, if_false, List.getElem?_eq_getElem hid]
  rw [← hlog, heq]

theorem sameSetup_trans {a b c : PowerModelChannel R} (h1 : a.SameSetup b)
    (h2 : b.SameSetup c) : a.SameSetup c :=
  ⟨h2.events.trans h1.events, h2.states.trans h1.states, h2.moduleNames.trans h1.moduleNames,
    h2.eventName.trans h1.eventName, h2.stateName.trans h1.stateName,
    h2.staticName.trans h1.staticName, h2.powerName.trans h1.powerName,
    h2.timestep.trans h1.timestep⟩

theorem getStaticCurrent_state [Zero R] [Add R] [Mul R] [Div R] [IntCast R] [SimTime R]
    (s : PowerModelChannel R) (now : Nat) (hs : s.Running) (hp : s.Sampling) (v : R)
    (hok : (s.getStaticCurrent now).1 = .ok v) :
    ∃ lines,
      averageLoop m_staticPowerAveragingFactor (s.m_staticPowerLog.length + 1) 0
        (s.m_staticPowerLog ++ [s.staticPowerSample now])
        (List.replicate (s.m_moduleNames.length + 2) (0 : R)) [] = some lines ∧
      (s.getStaticCurrent now).2 =
        if s.m_staticPowerLog.length < 2 then
          { s with m_staticPowerLog := s.m_staticPowerLog ++ [s.staticPowerSample now] }
        else
          { s with
            m_staticPowerLog := []
            files :=
              (s.files.append s.m_staticPowerLogFileName
                (if (s.files s.m_staticPowerLogFileName).isEmpty then
                  [s.m_moduleNames.map Cell.text ++ [Cell.text "time(s)"]]
                else [])).append s.m_staticPowerLogFileName lines } := by
  have hsl := hs.stateLog
  obtain ⟨pre, row, hl, hrow⟩ := hsl
  have hgl : s.m_stateLog.getLast? = some row := by rw [hl, getLast?_snoc]
  have hcols : s.moduleColumns = row.dropLast := by
    simp [PowerModelChannel.moduleColumns, hgl]
  have hrowE : row.isEmpty = false := by
    cases row with
    | nil => simp at hrow
    | cons a t => rfl
  have hsample : s.staticPowerSample now =
      row.dropLast.map s.staticPower ++ [0, SimTime.to_seconds now] := by
    rw [PowerModelChannel.staticPowerSample, hcols]
  have hent : s.staticPowerEntries row.dropLast = some (row.dropLast.map s.staticPower) := by
    cases he : s.staticPowerEntries row.dropLast with
    | some es => rw [staticPowerEntries_eq s _ he]
    | none =>
      unfold PowerModelChannel.getStaticCurrent at hok
      simp only [hgl, hrowE, he] at hok
      simp at hok
  have hrows1 : ∀ r ∈ s.m_staticPowerLog ++ [s.staticPowerSample now],
      r.length = s.m_moduleNames.length + 2 := by
    intro r hr
    rcases List.mem_append.mp hr with h | h
    · exact hp.staticRows r h
    · rw [List.mem_singleton.mp h]
      exact staticPowerSample_length s hs now
  obtain ⟨lines, hav, -, -, hdump⟩ :=
    dumpStaticPowerCsv_ok
      { s with m_staticPowerLog := s.m_staticPowerLog ++ [s.staticPowerSample now] }
      s.m_moduleNames.length ⟨pre, row, hl, hrow⟩ hrows1
  simp only [List.length_append, List.length_singleton] at hav
  simp only at hdump
  refine ⟨lines, hav, ?_⟩
  unfold PowerModelChannel.getStaticCurrent
  simp only [hgl, hrowE, Bool.false_eq_true, if_false, hent, ← hsample]
  by_cases hlt : s.m_staticPowerLog.length < 2
  · have hnot : ¬ (s.m_staticPowerLog ++ [s.staticPowerSample now]).length > m_logDumpThreshold := by
      simp [m_logDumpThreshold]
      omega
    simp only [hnot, if_false, if_pos hlt]
    split <;> rfl
  · have hyes : (s.m_staticPowerLog ++ [s.staticPowerSample now]).length > m_logDumpThreshold := by
      simp [m_logDumpThreshold]
      omega
    simp only [hyes, if_true, if_neg hlt]
    rw [hdump]
    simp only
    split <;> rfl

theorem dynamicPowerEntries_some [Mul R] [Div R] [IntCast R] [SimTime R]
    (s : PowerModelChannel R) (l : List Int) (i : Nat) (h : i + l.length ≤ s.m_events.length) :
    ∃ es, s.dynamicPowerEntries i l = some es ∧ es.length = l.length := by
  induction l generalizing i with
  | nil => exact ⟨[], rfl, rfl⟩
  | cons x rest ih =>
    simp only [List.length_cons] at h
    have hi : i < s.m_events.length := by omega
    obtain ⟨es, he, hlen⟩ := ih (i + 1) (by omega)
    rw [PowerModelChannel.dynamicPowerEntries, List.getElem?_eq_getElem hi]
    simp only [he, Option.map_some']
    exact ⟨_, rfl, by simp [hlen]⟩

theorem totalLoop_some [Add R] (total count fuel : Nat) (sample : List R)
    (ht : total < sample.length) (hc : count ≤ total) :
    ∃ r, totalLoop total count fuel sample = some r ∧ r.length = sample.length := by
  induction fuel generalizing sample with
  | zero => exact ⟨sample, rfl, rfl⟩
  | succ fuel ih =>
    have hi : count - (fuel + 1) < sample.length := by omega
    rw [totalLoop]
    simp only [List.getElem?_eq_getElem ht, List.getElem?_eq_getElem hi]
    obtain ⟨r, hr, hlen⟩ := ih (sample.set total (sample[total] + sample[count - (fuel + 1)]))
      (by simpa using ht)
    exact ⟨r, hr, by simpa using hlen⟩

theorem getDynamicPower_ok [Zero R] [Add R] [Mul R] [Div R] [IntCast R] [SimTime R]
    (s : PowerModelChannel R) (now : Nat) (hs : s.Running) (hp : s.Sampling) :
    ∃ lines,
      (s.dynamicPowerSample now).length = s.m_events.length + 2 ∧
      averageLoop m_eventPowerAveragingFactor (s.m_eventPowerLog.length + 1) 0
        (s.m_eventPowerLog ++ [s.dynamicPowerSample now])
        (List.replicate (s.m_events.length + 2) (0 : R)) [] = some lines ∧
      s.getDynamicPower now = (.ok (),
        if s.m_eventPowerLog.length < 2 then
          { s with m_eventPowerLog := s.m_eventPowerLog ++ [s.dynamicPowerSample now] }
        else
          { s with
            m_eventPowerLog := []
            files :=
              (s.files.append s.m_eventPowerLogFileName
                (if (s.files s.m_eventPowerLogFileName).isEmpty then
                  [s.m_events.map (fun e => Cell.text e.event.name) ++ [Cell.text "time(s)"]]
                else [])).append s.m_eventPowerLogFileName lines }) := by
  have hel := hs.eventLog
  obtain ⟨pre, row, hl, hrow⟩ := hel
  have hgl : s.m_eventLog.getLast? = some row := by rw [hl, getLast?_snoc]
  have hrowE : row.isEmpty = false := by
    cases row with
    | nil => simp at hrow
    | cons a t => rfl
  obtain ⟨es, hes, heslen⟩ := dynamicPowerEntries_some s row.dropLast 0 (by simp [hrow])
  have heslen2 : es.length = s.m_events.length := by rw [heslen]; simp [hrow]
  obtain ⟨sample, hsample, hslen⟩ := totalLoop_some s.m_events.length s.m_events.length
    s.m_events.length (es ++ [(0 : R), SimTime.to_seconds now]) (by simp [heslen2])
    (Nat.le_refl _)
  have hslen2 : sample.length = s.m_events.length + 2 := by rw [hslen]; simp [heslen2]
  have hdef : s.dynamicPowerSample now = sample := by
    unfold PowerModelChannel.dynamicPowerSample
    simp only [hgl, hes, hsample]
  have hrows1 : ∀ r ∈ s.m_eventPowerLog ++ [sample], r.length = s.m_events.length + 2 := by
    intro r hr
    rcases List.mem_append.mp hr with h | h
    · exact hp.eventRows r h
    · rw [List.mem_singleton.mp h]
      exact hslen2
  obtain ⟨lines, hav, -, -, hdump⟩ :=
    dumpEventPowerCsv_ok { s with m_eventPowerLog := s.m_eventPowerLog ++ [sample] }
      s.m_events.length ⟨pre, row, hl, hrow⟩ hrows1
  simp only [List.length_append, List.length_singleton] at hav
  simp only at hdump
  rw [hdef]
  refine ⟨lines, hslen2, hav, ?_⟩
  unfold PowerModelChannel.getDynamicPower
  simp only [hgl, hrowE, Bool.false_eq_true, if_false, hes, hsample]
  by_cases hlt : s.m_eventPowerLog.length < 2
  · have hnot : ¬ (s.m_eventPowerLog ++ [sample]).length > m_logDumpThreshold := by
      simp [m_logDumpThreshold]
      omega
    simp only [hnot, if_false, if_pos hlt]
  · have hyes : (s.m_eventPowerLog ++ [sample]).length > m_logDumpThreshold := by
      simp [m_logDumpThreshold]
      omega
    simp only [hyes, if_true, if_neg hlt]
    rw [hdump]

theorem powerInv_sampling [Zero R] [Add R] [Div R] [IntCast R]
    {base s : PowerModelChannel R}
    {stSamples dynSamples : List (List R)} (h : base.PowerInv s stSamples dynSamples) :
    s.Sampling := by
  obtain ⟨f1, hs1, -, -⟩ := h.static.split
  obtain ⟨f2, hs2, -, -⟩ := h.dynamic.split
  refine ⟨?_, h.static.bound, ?_, h.dynamic.bound⟩
  · intro r hr
    rw [h.setup.moduleNames]
    exact h.static.rows r (by rw [hs1]; exact List.mem_append_right _ hr)
  · intro r hr
    rw [h.setup.events]
    exact h.dynamic.rows r (by rw [hs2]; exact List.mem_append_right _ hr)

theorem powerInv_of_frame [Zero R] [Add R] [Div R] [IntCast R]
    {base s t : PowerModelChannel R}
    {stSamples dynSamples : List (List R)} (h : base.PowerInv s stSamples dynSamples)
    (hrun : t.Running) (hsetup : s.SameSetup t)
    (h1 : t.m_staticPowerLog = s.m_staticPowerLog)
    (h2 : t.m_eventPowerLog = s.m_eventPowerLog)
    (h3 : t.files base.m_staticPowerLogFileName = s.files base.m_staticPowerLogFileName)
    (h4 : t.files base.m_eventPowerLogFileName = s.files base.m_eventPowerLogFileName) :
    base.PowerInv t stSamples dynSamples := by
  refine ⟨hrun, sameSetup_trans h.setup hsetup, ?_, ?_⟩
  · rw [h1, h3]
    exact h.static
  · rw [h2, h4]
    exact h.dynamic

theorem powerInv_getStaticCurrent [Zero R] [Add R] [Mul R] [Div R] [IntCast R] [SimTime R]
    {base s : PowerModelChannel R}
    {stSamples dynSamples : List (List R)} (h : base.PowerInv s stSamples dynSamples)
    (hd : base.DistinctLogFiles) (now : Nat) (v : R)
    (hok : (s.getStaticCurrent now).1 = .ok v) :
    base.PowerInv (s.getStaticCurrent now).2 (stSamples ++ [s.staticPowerSample now])
      dynSamples := by
  have hs := h.running
  have hset := h.setup
  obtain ⟨lines, hav, heq⟩ := getStaticCurrent_state s now hs (powerInv_sampling h) v hok
  have hw : (s.staticPowerSample now).length = base.m_moduleNames.length + 2 := by
    rw [staticPowerSample_length s hs now, hset.moduleNames]
  rw [heq]
  by_cases hlt : s.m_staticPowerLog.length < 2
  · rw [if_pos hlt]
    exact ⟨⟨hs.running, hs.rates, hs.eventLog, hs.stateLog, hs.stateModule⟩,
      ⟨hset.events, hset.states, hset.moduleNames, hset.eventName, hset.stateName,
        hset.staticName, hset.powerName, hset.timestep⟩,
      sampleInv_push_small h.static _ hw hlt, h.dynamic⟩
  · rw [if_neg hlt]
    rw [hset.moduleNames] at hav
    have hpush := sampleInv_push_flush (n := base.m_moduleNames.length + 1) h.static _ hw hlt
      lines hav
    refine ⟨⟨hs.running, hs.rates, hs.eventLog, hs.stateLog, hs.stateModule⟩,
      ⟨hset.events, hset.states, hset.moduleNames, hset.eventName, hset.stateName,
        hset.staticName, hset.powerName, hset.timestep⟩, ?_, ?_⟩
    · have hfile : ((s.files.append s.m_staticPowerLogFileName
          (if (s.files s.m_staticPowerLogFileName).isEmpty then
            [s.m_moduleNames.map Cell.text ++ [Cell.text "time(s)"]]
          else [])).append s.m_staticPowerLogFileName lines) base.m_staticPowerLogFileName =
          (s.files base.m_staticPowerLogFileName ++
            (if (s.files base.m_staticPowerLogFileName).isEmpty then [base.staticPowerHeader]
             else [])) ++ lines := by
        rw [hset.staticName, hset.moduleNames]
        simp only [FileSystem.append, if_true]
        rfl
      show SampleInv _ _ _ [] (((s.files.append s.m_staticPowerLogFileName _).append
        s.m_staticPowerLogFileName lines) base.m_staticPowerLogFileName)
      rw [hfile]
      exact hpush
    · have hfile : ((s.files.append s.m_staticPowerLogFileName
          (if (s.files s.m_staticPowerLogFileName).isEmpty then
            [s.m_moduleNames.map Cell.text ++ [Cell.text "time(s)"]]
          else [])).append s.m_staticPowerLogFileName lines) base.m_eventPowerLogFileName =
          s.files base.m_eventPowerLogFileName := by
        rw [hset.staticName]
        simp only [FileSystem.append, if_neg (Ne.symm hd.staticPower)]
      show SampleInv _ _ _ s.m_eventPowerLog (((s.files.append s.m_staticPowerLogFileName
        _).append s.m_staticPowerLogFileName lines) base.m_eventPowerLogFileName)
      rw [hfile]
      exact h.dynamic

theorem powerInv_getDynamicPower [Zero R] [Add R] [Mul R] [Div R] [IntCast R] [SimTime R]
    {base s : PowerModelChannel R}
    {stSamples dynSamples : List (List R)} (h : base.PowerInv s stSamples dynSamples)
    (hd : base.DistinctLogFiles) (now : Nat) :
    (s.getDynamicPower now).1 = .ok () ∧
    base.PowerInv (s.getDynamicPower now).2 stSamples
      (dynSamples ++ [s.dynamicPowerSample now]) := by
  have hs := h.running
  have hset := h.setup
  obtain ⟨lines, hw0, hav, heq⟩ := getDynamicPower_ok s now hs (powerInv_sampling h)
  have hw : (s.dynamicPowerSample now).length = base.m_events.length + 2 := by
    rw [hw0, hset.events]
  rw [heq]
  refine ⟨rfl, ?_⟩
  by_cases hlt : s.m_eventPowerLog.length < 2
  · simp only [if_pos hlt]
    exact ⟨⟨hs.running, hs.rates, hs.eventLog, hs.stateLog, hs.stateModule⟩,
      ⟨hset.events, hset.states, hset.moduleNames, hset.eventName, hset.stateName,
        hset.staticName, hset.powerName, hset.timestep⟩,
      h.static, sampleInv_push_small h.dynamic _ hw hlt⟩
  · simp only [if_neg hlt]
    rw [hset.events] at hav
    have hpush := sampleInv_push_flush (n := base.m_events.length + 1) h.dynamic _ hw hlt
      lines hav
    refine ⟨⟨hs.running, hs.rates, hs.eventLog, hs.stateLog, hs.stateModule⟩,
      ⟨hset.events, hset.states, hset.moduleNames, hset.eventName, hset.stateName,
        hset.staticName, hset.powerName, hset.timestep⟩, ?_, ?_⟩
    · have hfile : ((s.files.append s.m_eventPowerLogFileName
          (if (s.files s.m_eventPowerLogFileName).isEmpty then
            [s.m_events.map (fun e => Cell.text e.event.name) ++ [Cell.text "time(s)"]]
          else [])).append s.m_eventPowerLogFileName lines) base.m_staticPowerLogFileName =
          s.files base.m_staticPowerLogFileName := by
        rw [hset.powerName]
        simp only [FileSystem.append, if_neg hd.staticPower]
      show SampleInv _ _ _ s.m_staticPowerLog (((s.files.append s.m_eventPowerLogFileName
        _).append s.m_eventPowerLogFileName lines) base.m_staticPowerLogFileName)
      rw [hfile]
      exact h.static
    · have hfile : ((s.files.append s.m_eventPowerLogFileName
          (if (s.files s.m_eventPowerLogFileName).isEmpty then
            [s.m_events.map (fun e => Cell.text e.event.name) ++ [Cell.text "time(s)"]]
          else [])).append s.m_eventPowerLogFileName lines) base.m_eventPowerLogFileName =
          (s.files base.m_eventPowerLogFileName ++
            (if (s.files base.m_eventPowerLogFileName).isEmpty then [base.eventPowerHeader]
             else [])) ++ lines := by
        rw [hset.powerName, hset.events]
        simp only [FileSystem.append, if_true]
        rfl
      show SampleInv _ _ _ [] (((s.files.append s.m_eventPowerLogFileName _).append
        s.m_eventPowerLogFileName lines) base.m_eventPowerLogFileName)
      rw [hfile]
      exact hpush

theorem powerInv_simCall [Zero R] [Add R] [Mul R] [Div R] [IntCast R] [DecidableEq R]
    [SimTime R] {base s : PowerModelChannel R}
    {stSamples dynSamples : List (List R)} (h : base.PowerInv s stSamples dynSamples)
    (hd : base.DistinctLogFiles) (c : SimCall R)
    (hv : c.Valid base.m_events.length base.m_states.length)
    (hok : (s.simCall c).1 = .ok ()) :
    base.PowerInv (s.simCall c).2 (stSamples ++ s.staticSampleOf c)
      (dynSamples ++ s.dynamicSampleOf c) := by
  have hs := h.running
  have hset := h.setup
  cases c with
  | run c =>
    have hv2 : c.Valid s.m_events.length s.m_states.length := by
      rw [hset.events, hset.states]; exact hv
    obtain ⟨hsetup, h1, h2, h3⟩ := runCall_frame hs c hv2
    have hrun := (runCall_running hs c hv2).2.1
    simp only [PowerModelChannel.staticSampleOf, PowerModelChannel.dynamicSampleOf,
      List.append_nil]
    refine powerInv_of_frame h hrun hsetup h1 h2 (h3 _ ?_ ?_) (h3 _ ?_ ?_)
    · rw [hset.eventName]; exact Ne.symm hd.eventStatic
    · rw [hset.stateName]; exact Ne.symm hd.stateStatic
    · rw [hset.eventName]; exact Ne.symm hd.eventPower
    · rw [hset.stateName]; exact Ne.symm hd.statePower
  | popEventEnergy j =>
    have hj : j < s.m_events.length := by rw [hset.events]; exact hv
    obtain ⟨v, heq⟩ := popEventEnergy_running hs hj
    have hr : s.simCall (SimCall.popEventEnergy j) =
        (.ok (), { s with m_eventRates := s.m_eventRates.set j 0 }) := by
      simp only [PowerModelChannel.simCall, heq]
    rw [hr]
    simp only [PowerModelChannel.staticSampleOf, PowerModelChannel.dynamicSampleOf,
      List.append_nil]
    exact powerInv_of_frame h
      ⟨hs.running, by simp [hs.rates], hs.eventLog, hs.stateLog, hs.stateModule⟩
      ⟨rfl, rfl, rfl, rfl, rfl, rfl, rfl, rfl⟩ rfl rfl rfl rfl
  | popDynamicEnergy =>
    have heq := popDynamicEnergy_eq s hs
    have hr : s.simCall SimCall.popDynamicEnergy =
        (.ok (), { s with m_eventRates := List.replicate s.m_events.length 0 }) := by
      simp only [PowerModelChannel.simCall, heq]
    rw [hr]
    simp only [PowerModelChannel.staticSampleOf, PowerModelChannel.dynamicSampleOf,
      List.append_nil]
    exact powerInv_of_frame h
      ⟨hs.running, by simp, hs.eventLog, hs.stateLog, hs.stateModule⟩
      ⟨rfl, rfl, rfl, rfl, rfl, rfl, rfl, rfl⟩ rfl rfl rfl rfl
  | getStaticCurrent now =>
    simp only [PowerModelChannel.staticSampleOf, PowerModelChannel.dynamicSampleOf,
      List.append_nil]
    have hcases : ∃ v, (s.getStaticCurrent now).1 = .ok v ∧
        (s.simCall (SimCall.getStaticCurrent now)).2 = (s.getStaticCurrent now).2 := by
      simp only [PowerModelChannel.simCall] at hok ⊢
      generalize s.getStaticCurrent now = r at hok ⊢
      obtain ⟨r1, r2⟩ := r
      cases r1 with
      | ok v => exact ⟨v, rfl, rfl⟩
      | error e => simp at hok
    obtain ⟨v, hv1, hv2⟩ := hcases
    rw [hv2]
    exact powerInv_getStaticCurrent h hd now v hv1
  | getDynamicPower now =>
    simp only [PowerModelChannel.staticSampleOf, PowerModelChannel.dynamicSampleOf,
      List.append_nil]
    exact (powerInv_getDynamicPower h hd now).2

theorem powerInv_simCalls [Zero R] [Add R] [Mul R] [Div R] [IntCast R] [DecidableEq R]
    [SimTime R] {base : PowerModelChannel R}
    (hd : base.DistinctLogFiles) (calls : List (SimCall R))
    (hv : ∀ c ∈ calls, c.Valid base.m_events.length base.m_states.length)
    {s : PowerModelChannel R} {stSamples dynSamples : List (List R)}
    (h : base.PowerInv s stSamples dynSamples) (hok : (s.simCalls calls).1 = .ok ()) :
    base.PowerInv (s.simCalls calls).2 (stSamples ++ s.staticSamples calls)
      (dynSamples ++ s.dynamicSamples calls) := by
  induction calls generalizing s stSamples dynSamples with
  | nil =>
    simp only [PowerModelChannel.staticSamples, PowerModelChannel.dynamicSamples,
      List.append_nil]
    exact h
  | cons c cs ih =>
    have hstep : (s.simCall c).1 = .ok () ∧
        s.simCalls (c :: cs) = (s.simCall c).2.simCalls cs := by
      rw [PowerModelChannel.simCalls] at hok ⊢
      generalize s.simCall c = r at hok ⊢
      obtain ⟨r1, r2⟩ := r
      cases r1 with
      | ok u => exact ⟨rfl, rfl⟩
      | error e => simp at hok
    obtain ⟨h1, h2⟩ := hstep
    have hinv := powerInv_simCall h hd c (hv c (List.mem_cons_self _ _)) h1
    rw [h2] at hok ⊢
    have := ih (fun d hd2 => hv d (List.mem_cons_of_mem _ hd2)) hinv hok
    simp only [PowerModelChannel.staticSamples, PowerModelChannel.dynamicSamples]
    rw [← List.append_assoc, ← List.append_assoc]
    exact this

theorem started_powerInv [Zero R] [Add R] [Mul R] [Div R] [IntCast R] [SimTime R]
    (fs : FileSystem R) (name logFilePath : String)
    (logTimestep : Nat) (regs : List (RegCall R)) (hp : logFilePath ≠ "none") :
    (PowerModelChannel.started fs name logFilePath logTimestep regs).PowerInv
      (PowerModelChannel.started fs name logFilePath logTimestep regs) [] [] := by
  obtain ⟨-, -, -, hf3, hf4⟩ := started_distinctLogFiles fs name logFilePath logTimestep regs hp
  obtain ⟨hb1, hb2⟩ := started_buffers fs name logFilePath logTimestep regs
  refine ⟨started_running fs name logFilePath logTimestep regs, sameSetup_refl _, ?_, ?_⟩
  · rw [hb1, hf3]
    exact sampleInv_empty _ _
  · rw [hb2, hf4]
    exact sampleInv_empty _ _

theorem getD_zipWith3_append (f : R → R → R → R) (d : R) (col : Nat) (a b c t : List R)
    (ha : col < a.length) (hb : col < b.length) (hc : col < c.length) :
    (List.zipWith3 f a b c ++ t).getD col d = f (a.getD col d) (b.getD col d) (c.getD col d) := by
  induction col generalizing a b c with
  | zero =>
    match a, b, c, ha, hb, hc with
    | x :: _, y :: _, z :: _, _, _, _ => rfl
  | succ col ih =>
    match a, b, c, ha, hb, hc with
    | x :: a, y :: b, z :: c, ha, hb, hc =>
      simp only [List.length_cons, Nat.add_lt_add_iff_right] at ha hb hc
      simpa [List.zipWith3] using ih a b c ha hb hc

theorem getD_dropLast (d : R) (col : Nat) (a : List R) (h : col + 1 < a.length) :
    a.dropLast.getD col d = a.getD col d := by
  have h1 : col < a.dropLast.length := by simp; omega
  rw [List.getD_eq_getElem?_getD, List.getD_eq_getElem?_getD, List.getElem?_eq_getElem h1,
    List.getElem_dropLast, List.getElem?_eq_getElem (by omega)]

theorem windowRow3_getD [Zero R] [Add R] [Div R] [IntCast R] (n col : Nat) (hcol : col < n)
    (a b c : List R) (ha : a.length = n + 1) (hb : b.length = n + 1) (hc : c.length = n + 1) :
    (windowRow3 a b c).getD col 0 =
      0 + a.getD col 0 / ((3 : Int) : R) + b.getD col 0 / ((3 : Int) : R)
        + c.getD col 0 / ((3 : Int) : R) := by
  rw [windowRow3, getD_zipWith3_append _ _ _ _ _ _ _ (by simp; omega) (by simp; omega)
    (by simp; omega), getD_dropLast _ _ _ (by omega), getD_dropLast _ _ _ (by omega),
    getD_dropLast _ _ _ (by omega)]

theorem length_zipWith3_eq {α : Type} (f : α → α → α → α) (n : Nat) (a b c : List α)
    (ha : a.length = n) (hb : b.length = n) (hc : c.length = n) :
    (List.zipWith3 f a b c).length = n := by
  induction n generalizing a b c with
  | zero =>
    have : a = [] := List.length_eq_zero.mp ha
    subst this
    rfl
  | succ n ih =>
    match a, b, c, ha, hb, hc with
    | x :: a, y :: b, z :: c, ha, hb, hc =>
      simp only [List.length_cons, Nat.add_right_cancel_iff] at ha hb hc
      simp [List.zipWith3, ih a b c ha hb hc]

theorem windowRow3_length [Zero R] [Add R] [Div R] [IntCast R] (n : Nat)
    (a b c : List R) (ha : a.length = n + 1) (hb : b.length = n + 1) (hc : c.length = n + 1) :
    (windowRow3 a b c).length = n + 1 := by
  have hne : a ≠ [] := by
    intro h0
    rw [h0] at ha
    simp at ha
  obtain ⟨t, ht⟩ : ∃ t, a.getLast? = some t := ⟨a.getLast hne, List.getLast?_eq_getLast _ hne⟩
  rw [windowRow3, List.length_append,
    length_zipWith3_eq _ n _ _ _ (by simp [ha]) (by simp [hb]) (by simp [hc]), ht]
  rfl

theorem windowRow3_stamp [Zero R] [Add R] [Div R] [IntCast R] (n : Nat)
    (a b c : List R) (ha : a.length = n + 1) (hb : b.length = n + 1) (hc : c.length = n + 1) :
    (windowRow3 a b c).getD n 0 = a.getD n 0 := by
  have hne : a ≠ [] := by
    intro h0
    rw [h0] at ha
    simp at ha
  have hsplit : a = a.dropLast ++ [a.getLast hne] := (List.dropLast_append_getLast hne).symm
  have hlen : (List.zipWith3
      (fun x y z => 0 + x / ((3 : Int) : R) + y / ((3 : Int) : R) + z / ((3 : Int) : R))
      a.dropLast b.dropLast c.dropLast).length = n :=
    length_zipWith3_eq _ n _ _ _ (by simp [ha]) (by simp [hb]) (by simp [hc])
  have hd : a.dropLast.length = n := by simp [ha]
  rw [windowRow3, List.getLast?_eq_getLast _ hne, List.getD_eq_getElem?_getD,
    List.getElem?_append_right (by omega), hlen]
  conv_rhs => rw [hsplit, List.getD_eq_getElem?_getD, List.getElem?_append_right (by omega), hd]
  simp

theorem fullWindowRows_averagedInThrees [Zero R] [Add R] [Div R] [IntCast R] (n m : Nat)
    (samples : List (List R)) (hm : samples.length = 3 * m)
    (hrows : ∀ r ∈ samples, r.length = n + 1) :
    AveragedInThrees n m samples (fullWindowRows samples) := by
  refine ⟨fullWindowRows_length m samples hm, ?_⟩
  induction m generalizing samples with
  | zero =>
    intro j hj
    omega
  | succ m ih =>
    match samples, hm, hrows with
    | a :: b :: c :: tl, hm, hrows =>
      have htl : tl.length = 3 * m := by
        simp only [List.length_cons] at hm
        omega
      have ha : a.length = n + 1 := hrows a (by simp)
      have hb : b.length = n + 1 := hrows b (by simp)
      have hc : c.length = n + 1 := hrows c (by simp)
      intro j hj
      cases j with
      | zero =>
        refine ⟨windowRow3_length n a b c ha hb hc, ?_, windowRow3_stamp n a b c ha hb hc⟩
        intro col hcol
        exact windowRow3_getD n col hcol a b c ha hb hc
      | succ j =>
        have h := ih tl htl (fun r hr => hrows r (by simp [hr])) j (by omega)
        have e0 : 3 * (j + 1) = 3 * j + 3 := by omega
        have e1 : 3 * (j + 1) + 1 = (3 * j + 1) + 3 := by omega
        have e2 : 3 * (j + 1) + 2 = (3 * j + 2) + 3 := by omega
        have hg : ∀ i, (a :: b :: c :: tl).getD (i + 3) [] = tl.getD i [] := by
          intro i
          rfl
        rw [e1, e2, e0, hg, hg, hg]
        exact h
    | [], hm, _ => simp at hm
    | [_], hm, _ => simp at hm; omega
    | [_, _], hm, _ => simp at hm; omega

theorem destroy_power_files [Zero R] [Add R] [Div R] [IntCast R]
    {base s : PowerModelChannel R}
    {stSamples dynSamples : List (List R)} (h : base.PowerInv s stSamples dynSamples)
    (hd : base.DistinctLogFiles) :
    s.destroy.1 = .ok () ∧
    (∀ m, stSamples.length = 3 * m →
      s.destroy.2.files base.m_staticPowerLogFileName =
        base.staticPowerHeader :: (fullWindowRows stSamples).map (List.map Cell.real) ∧
      (fullWindowRows stSamples).length = m) ∧
    (∀ m, dynSamples.length = 3 * m →
      s.destroy.2.files base.m_eventPowerLogFileName =
        base.eventPowerHeader :: (fullWindowRows dynSamples).map (List.map Cell.real) ∧
      (fullWindowRows dynSamples).length = m) := by
  have hset := h.setup
  obtain ⟨lS, lP, hlS, hlP, hok, -, hfiles⟩ := destroy_eq s h.running (powerInv_sampling h)
  have hne : s.m_staticPowerLogFileName ≠ s.m_eventPowerLogFileName := by
    rw [hset.staticName, hset.powerName]; exact hd.staticPower
  have hnames : s.m_eventLogFileName ≠ s.m_stateLogFileName := by
    rw [hset.eventName, hset.stateName]; exact hd.eventState
  obtain ⟨hf1, hf2⟩ := hfiles hne
  obtain ⟨-, -, hother⟩ := dumpEventCsv_dumpStateCsv_files s hnames
  have ho1 := hother s.m_staticPowerLogFileName
    (by rw [hset.staticName, hset.eventName]; exact Ne.symm hd.eventStatic)
    (by rw [hset.staticName, hset.stateName]; exact Ne.symm hd.stateStatic)
  have ho2 := hother s.m_eventPowerLogFileName
    (by rw [hset.powerName, hset.eventName]; exact Ne.symm hd.eventPower)
    (by rw [hset.powerName, hset.stateName]; exact Ne.symm hd.statePower)
  rw [ho1, hset.staticName, hset.moduleNames] at hf1
  rw [ho2, hset.powerName, hset.events] at hf2
  refine ⟨hok, ?_, ?_⟩
  · intro m hm
    obtain ⟨hb, hfile, hlen⟩ := sampleInv_final h.static m hm
    rw [hb] at hlS
    simp only [averageLoop] at hlS
    have hl : lS = [] := (Option.some.inj hlS).symm
    rw [hf1, hl, List.append_nil]
    exact ⟨hfile, hlen⟩
  · intro m hm
    obtain ⟨hb, hfile, hlen⟩ := sampleInv_final h.dynamic m hm
    rw [hb] at hlP
    simp only [averageLoop] at hlP
    have hl : lP = [] := (Option.some.inj hlP).symm
    rw [hf2, hl, List.append_nil]
    exact ⟨hfile, hlen⟩

/-- Where the arithmetic is exact (a field), the row written for three samples is the row
of their arithmetic means. -/
theorem windowRow3_eq_meanRow [Field R] (a b c : List R) : windowRow3 a b c = meanRow a b c := by
  have hf : (fun x y z : R =>
      0 + x / ((3 : Int) : R) + y / ((3 : Int) : R) + z / ((3 : Int) : R)) =
      (fun x y z : R => (x + y + z) / ((3 : Int) : R)) := by
    funext x y z
    ring
  rw [windowRow3, meanRow, hf]

set_option maxRecDepth 100000 in
/-- Known values of binary64 arithmetic in the model of `double`: `0.1 + 0.2` is
`0x1.3333333333334p-2` and not the `double` `0.3`, which is `0x1.3333333333333p-2`;
`1.0 / 3.0` is `0x1.5555555555555p-2`; `0.1 * 3.0` is `0x1.3333333333334p-2`; the literal
`1.500055` is `0x1.80039abf33871p+0`; the integer `2^53 + 1` is converted to `2^53`. -/
theorem double_known_values :
    Double.round 1 10 0 + Double.round 2 10 0 = ⟨0x13333333333334, -54⟩ ∧
    Double.round 3 10 0 = ⟨0x13333333333333, -54⟩ ∧
    ((1 : Int) : Double) / ((3 : Int) : Double) = ⟨0x15555555555555, -54⟩ ∧
    Double.round 1 10 0 * ((3 : Int) : Double) = ⟨0x13333333333334, -54⟩ ∧
    exampleDoubleCurrent = ⟨0x180039abf33871, -52⟩ ∧
    ((9007199254740993 : Int) : Double) = ⟨0x10000000000000, 1⟩ := by
  refine ⟨by decide, by decide, by decide, by decide, by decide, by decide⟩

set_option maxRecDepth 100000 in
/-- C17, counterexample to the claim as stated, in `double` arithmetic: the channel with
the one state "on" of current `1.500055` at `1.0` V, three `getStaticCurrent` calls, then
the destructor. The three raw samples hold the same value `0x1.80039abf33871p+0` (the
`double` `1.500055`) in the column of the module, so their arithmetic mean is that value,
and it is also what `(x + y + z) / 3` gives in `double`; the one row of the file holds
`0x1.80039abf33872p+0`, the result of `0.0 + x / 3 + y / 3 + z / 3`, which is another
`double`. The decimal number 1.500055 lies between the two, so that they also differ when
written with six significant digits (1.50005 for the mean, 1.50006 for the row). -/
theorem averaged_row_is_not_the_mean :
    (exampleDoubleRunning.simCalls exampleDoubleThreeSamples).1 = .ok () ∧
    exampleDoubleRunning.staticSamples exampleDoubleThreeSamples =
      [[⟨0x180039abf33871, -52⟩, 0, 0], [⟨0x180039abf33871, -52⟩, 0, 0],
       [⟨0x180039abf33871, -52⟩, 0, 0]] ∧
    (exampleDoubleRunning.simCalls exampleDoubleThreeSamples).2.destroy.1 = .ok () ∧
    (exampleDoubleRunning.simCalls exampleDoubleThreeSamples).2.destroy.2.files
        "./ch_static_power_log.csv" =
      [[Cell.text "memory", Cell.text "time(s)"],
       [Cell.real ⟨0x180039abf33872, -52⟩, Cell.real 0, Cell.real 0]] ∧
    meanRows (exampleDoubleRunning.staticSamples exampleDoubleThreeSamples) =
      [[⟨0x180039abf33871, -52⟩, 0, 0]] ∧
    (⟨0x180039abf33872, -52⟩ : Double) ≠ ⟨0x180039abf33871, -52⟩ ∧
    Double.toRat ⟨0x180039abf33871, -52⟩ < 1500055 / 1000000 ∧
    1500055 / 1000000 < Double.toRat ⟨0x180039abf33872, -52⟩ := by
  refine ⟨by rfl, by decide, by rfl, by rfl, by decide, by decide, ?_, ?_⟩
  · norm_num [Double.toRat]
  · norm_num [Double.toRat]

/-- C17 (amended): a run with a log path other than `"none"` that starts the simulation,
makes any sequence of calls with registered ids that all return, and then destroys the
channel. If `getStaticCurrent()` was called exactly `3 * m` times, the static-power file
holds its header followed by exactly `m` rows, the `j`-th of which has in every value
column the entries of the raw samples `3j`, `3j+1`, `3j+2`, each divided by 3, added in
this order to 0, and in its last column the time stamp of raw sample `3j`; likewise for
`getDynamicPower()` and the event-power file. The operations are those of the carrier, in
the order of the code, and no law of arithmetic is assumed. -/
theorem power_logs_hold_averaged_rows [Zero R] [Add R] [Mul R] [Div R] [IntCast R]
    [DecidableEq R] [SimTime R]
    (fs : FileSystem R) (name logFilePath : String) (logTimestep : Nat)
    (regs : List (RegCall R)) (calls : List (SimCall R)) (hp : logFilePath ≠ "none")
    (hv : ∀ c ∈ calls, c.Valid
      (PowerModelChannel.started fs name logFilePath logTimestep regs).m_events.length
      (PowerModelChannel.started fs name logFilePath logTimestep regs).m_states.length)
    (hok : ((PowerModelChannel.started fs name logFilePath logTimestep regs).simCalls
      calls).1 = .ok ()) :
    ((PowerModelChannel.started fs name logFilePath logTimestep regs).simCalls
      calls).2.destroy.1 = .ok () ∧
    (∀ m, ((PowerModelChannel.started fs name logFilePath logTimestep regs).staticSamples
        calls).length = 3 * m →
      ((PowerModelChannel.started fs name logFilePath logTimestep regs).simCalls
          calls).2.destroy.2.files
        (PowerModelChannel.started fs name logFilePath logTimestep
          regs).m_staticPowerLogFileName =
        (PowerModelChannel.started fs name logFilePath logTimestep regs).staticPowerHeader ::
          (fullWindowRows ((PowerModelChannel.started fs name logFilePath logTimestep
            regs).staticSamples calls)).map (List.map Cell.real) ∧
      AveragedInThrees
        ((PowerModelChannel.started fs name logFilePath logTimestep regs).m_moduleNames.length
          + 1) m
        ((PowerModelChannel.started fs name logFilePath logTimestep regs).staticSamples calls)
        (fullWindowRows ((PowerModelChannel.started fs name logFilePath logTimestep
          regs).staticSamples calls))) ∧
    (∀ m, ((PowerModelChannel.started fs name logFilePath logTimestep regs).dynamicSamples
        calls).length = 3 * m →
      ((PowerModelChannel.started fs name logFilePath logTimestep regs).simCalls
          calls).2.destroy.2.files
        (PowerModelChannel.started fs name logFilePath logTimestep
          regs).m_eventPowerLogFileName =
        (PowerModelChannel.started fs name logFilePath logTimestep regs).eventPowerHeader ::
          (fullWindowRows ((PowerModelChannel.started fs name logFilePath logTimestep
            regs).dynamicSamples calls)).map (List.map Cell.real) ∧
      AveragedInThrees
        ((PowerModelChannel.started fs name logFilePath logTimestep regs).m_events.length + 1)
        m
        ((PowerModelChannel.started fs name logFilePath logTimestep regs).dynamicSamples
          calls)
        (fullWindowRows ((PowerModelChannel.started fs name logFilePath logTimestep
          regs).dynamicSamples calls))) := by
  have hinv0 := started_powerInv fs name logFilePath logTimestep regs hp
  obtain ⟨hdist, -⟩ := started_distinctLogFiles fs name logFilePath logTimestep regs hp
  have hinv := powerInv_simCalls hdist calls hv hinv0 hok
  rw [List.nil_append, List.nil_append] at hinv
  obtain ⟨hd, hS, hP⟩ := destroy_power_files hinv hdist
  refine ⟨hd, ?_, ?_⟩
  · intro m hm
    exact ⟨(hS m hm).1, fullWindowRows_averagedInThrees _ m _ hm hinv.static.rows⟩
  · intro m hm
    exact ⟨(hP m hm).1, fullWindowRows_averagedInThrees _ m _ hm hinv.dynamic.rows⟩

/-- C17 (amended), witness: the example channel (log path "."), the example run with three
samples of each kind; each power-log file ends with its header and one row. In the
static log the column of "memory" holds `0 + 0/3 + 0/3 + (2 * 0.0001)/3` and the time
stamp is that of the first sample. -/
theorem power_logs_hold_averaged_rows_witness :
    (("." : String) ≠ "none" ∧
      (∀ c ∈ exampleSampledRun,
        c.Valid exampleRunning.m_events.length exampleRunning.m_states.length) ∧
      (exampleRunning.simCalls exampleSampledRun).1 = .ok ()) ∧
    (exampleRunning.staticSamples exampleSampledRun).length = 3 * 1 ∧
    ((exampleRunning.simCalls exampleSampledRun).2.destroy.2.files
        "./ch_static_power_log.csv" =
      exampleRunning.staticPowerHeader ::
        (fullWindowRows (exampleRunning.staticSamples exampleSampledRun)).map
          (List.map Cell.real) ∧
      AveragedInThrees (exampleRunning.m_moduleNames.length + 1) 1
        (exampleRunning.staticSamples exampleSampledRun)
        (fullWindowRows (exampleRunning.staticSamples exampleSampledRun))) ∧
    exampleRunning.staticSamples exampleSampledRun =
      [[2 * 0, 0, SimTime.to_seconds 0], [2 * 0, 0, SimTime.to_seconds 1000000],
       [2 * (1 / 10000), 0, SimTime.to_seconds 2000000]] ∧
    fullWindowRows (exampleRunning.staticSamples exampleSampledRun) =
      [[0 + 2 * 0 / 3 + 2 * 0 / 3 + 2 * (1 / 10000) / 3, 0 + 0 / 3 + 0 / 3 + 0 / 3,
        SimTime.to_seconds 0]] ∧
    (exampleRunning.dynamicSamples exampleSampledRun).length = 3 * 1 ∧
    ((exampleRunning.simCalls exampleSampledRun).2.destroy.2.files
        "./ch_event_power_log.csv" =
      exampleRunning.eventPowerHeader ::
        (fullWindowRows (exampleRunning.dynamicSamples exampleSampledRun)).map
          (List.map Cell.real) ∧
      AveragedInThrees (exampleRunning.m_events.length + 1) 1
        (exampleRunning.dynamicSamples exampleSampledRun)
        (fullWindowRows (exampleRunning.dynamicSamples exampleSampledRun))) :=
  have hp : ("." : String) ≠ "none" := by decide
  have hv : ∀ c ∈ exampleSampledRun,
      c.Valid exampleRunning.m_events.length exampleRunning.m_states.length := by
    have hE : exampleRunning.m_events.length = 2 := by decide
    have hS : exampleRunning.m_states.length = 2 := by decide
    rw [hE, hS]
    intro c hc
    simp only [exampleSampledRun, List.mem_cons, List.mem_singleton, List.not_mem_nil,
      or_false] at hc
    rcases hc with rfl | rfl | rfl | rfl | rfl | rfl | rfl | rfl | rfl | rfl <;>
      simp [SimCall.Valid, RunCall.Valid]
  have hok : (exampleRunning.simCalls exampleSampledRun).1 = .ok () := by rfl
  have hlen : (exampleRunning.staticSamples exampleSampledRun).length = 3 * 1 := by rfl
  have hlen2 : (exampleRunning.dynamicSamples exampleSampledRun).length = 3 * 1 := by rfl
  ⟨⟨hp, hv, hok⟩, hlen,
    (power_logs_hold_averaged_rows (fun _ => []) "ch" "." 1000000 exampleRegistrations
      exampleSampledRun hp hv hok).2.1 1 hlen,
    by rfl, by rfl, hlen2,
    (power_logs_hold_averaged_rows (fun _ => []) "ch" "." 1000000 exampleRegistrations
      exampleSampledRun hp hv hok).2.2 1 hlen2⟩

/-! ## Claims C21 to C27 -/

theorem logLoop_enabled_eq [SimTime R] {s : PowerModelChannel R} (h : s.Running)
    (hen : s.loggingDisabled = false) (now : Nat) :
    ∃ pre row, s.m_stateLog = pre ++ [row] ∧ row.length = s.m_moduleNames.length + 1 ∧
      s.logLoop now = (.ok (),
        if s.m_eventLog.length > m_logDumpThreshold then
          { s.dumpEventCsv.dumpStateCsv with
            m_eventLog := [List.replicate s.m_events.length 0 ++
              [SimTime.to_microseconds R (s.m_logTimestep + now)]],
            m_stateLog := [setBack row (SimTime.to_microseconds R (s.m_logTimestep + now))] }
        else
          { s with
            m_eventLog := s.m_eventLog ++ [List.replicate s.m_events.length 0 ++
              [SimTime.to_microseconds R (s.m_logTimestep + now)]],
            m_stateLog := s.m_stateLog ++
              [setBack row (SimTime.to_microseconds R (s.m_logTimestep + now))] }) := by
  obtain ⟨pre, row, hlog, hlen⟩ := h.stateLog
  have hne : row ≠ [] := by
    intro hc
    rw [hc] at hlen
    simp at hlen
  refine ⟨pre, row, hlog, hlen, ?_⟩
  unfold PowerModelChannel.logLoop
  rw [hen]
  simp only [Bool.false_eq_true, if_false]
  exact logLoopBody_eq hlog hne now

/-- C24: a step of the enabled periodic logger in the run phase returns; whether or not it
flushes the row buffers, every pop counter is as before, the module columns of the newest
state-log row are those of the newest state-log row before the step (so the current state
of every module is unchanged), and the newest event-log row holds 0 for every event,
followed by the time stamp of the end of the new interval. -/
theorem logLoop_keeps_counters_and_current_states [SimTime R] (s : PowerModelChannel R)
    (now : Nat) (hs : s.Running) (hen : s.loggingDisabled = false) :
    (s.logLoop now).1 = .ok () ∧
    (s.logLoop now).2.m_eventRates = s.m_eventRates ∧
    (s.logLoop now).2.moduleColumns = s.moduleColumns ∧
    (∀ k, k < s.m_moduleNames.length →
      (s.logLoop now).2.currentState k = s.currentState k) ∧
    (s.logLoop now).2.m_eventLog.getLast? =
      some (List.replicate s.m_events.length 0 ++
        [SimTime.to_microseconds R (s.m_logTimestep + now)]) ∧
    (s.logLoop now).2.m_events = s.m_events ∧
    (s.logLoop now).2.m_states = s.m_states ∧
    (s.logLoop now).2.m_supplyVoltage = s.m_supplyVoltage ∧
    (s.m_eventLog.length > m_logDumpThreshold →
      (s.logLoop now).2.m_eventLog.length = 1 ∧ (s.logLoop now).2.m_stateLog.length = 1) ∧
    (¬ s.m_eventLog.length > m_logDumpThreshold →
      (s.logLoop now).2.m_eventLog.length = s.m_eventLog.length + 1 ∧
      (s.logLoop now).2.m_stateLog.length = s.m_stateLog.length + 1 ∧
      (s.logLoop now).2.files = s.files) := by
  obtain ⟨pre, row, hlog, hlen, heq⟩ := logLoop_enabled_eq hs hen now
  have hne : row ≠ [] := by
    intro hc
    rw [hc] at hlen
    simp at hlen
  have hcols : s.moduleColumns = row.dropLast := by
    simp [PowerModelChannel.moduleColumns, hlog, getLast?_snoc]
  have hcur : ∀ k, k < s.m_moduleNames.length → s.currentState k = row[k]? := by
    intro k _
    simp [PowerModelChannel.currentState, hlog, getLast?_snoc]
  have hsb : ∀ (x : Int) (k : Nat), k < s.m_moduleNames.length →
      (setBack row x)[k]? = row[k]? := by
    intro x k hk
    have hk2 : k < row.dropLast.length := by simp [hlen]; exact hk
    rw [setBack, List.getElem?_append_left hk2, List.getElem?_eq_getElem hk2,
      List.getElem_dropLast, List.getElem?_eq_getElem (by omega)]
  have hdl : ∀ x : Int, (setBack row x).dropLast = row.dropLast := by
    intro x
    simp [setBack]
  rw [heq]
  by_cases ht : s.m_eventLog.length > m_logDumpThreshold
  · rw [if_pos ht]
    refine ⟨rfl, rfl, ?_, ?_, rfl, rfl, rfl, rfl, fun _ => ⟨rfl, rfl⟩, fun hc => absurd ht hc⟩
    · rw [hcols]
      simp [PowerModelChannel.moduleColumns, hdl]
    · intro k hk
      rw [hcur k hk]
      simp [PowerModelChannel.currentState, hsb _ k hk]
  · rw [if_neg ht]
    refine ⟨rfl, rfl, ?_, ?_, by simp, rfl, rfl, rfl, fun hc => absurd hc ht,
      fun _ => ⟨by simp, by simp, rfl⟩⟩
    · rw [hcols]
      simp [PowerModelChannel.moduleColumns, hdl]
    · intro k hk
      rw [hcur k hk]
      simp [PowerModelChannel.currentState, hsb _ k hk]

/-- C24, witness: the first wake-up of the logger on the example channel after
`reportEvent(0, 4)` and `reportState(1)`. -/
theorem logLoop_keeps_counters_and_current_states_witness :
    (exampleReported.Running ∧ exampleReported.loggingDisabled = false) ∧
    ((exampleReported.logLoop 1000000).1 = .ok () ∧
      (exampleReported.logLoop 1000000).2.m_eventRates = exampleReported.m_eventRates ∧
      (exampleReported.logLoop 1000000).2.moduleColumns = exampleReported.moduleColumns) ∧
    exampleReported.m_eventRates = [4, 0] ∧
    exampleReported.moduleColumns = [1] ∧
    exampleReported.m_eventLog = [[4, 0, 1]] ∧
    (exampleReported.logLoop 1000000).2.m_eventLog = [[4, 0, 1], [0, 0, 2]] ∧
    (exampleReported.logLoop 1000000).2.m_stateLog = [[1, 1], [1, 2]] :=
  have hrun0 : exampleRunning.Running := started_running _ _ _ _ _
  have hv : ∀ c ∈ [RunCall.reportEvent 0 4, RunCall.reportState 1],
      c.Valid exampleRunning.m_events.length exampleRunning.m_states.length := by
    have hE : exampleRunning.m_events.length = 2 := by decide
    have hS : exampleRunning.m_states.length = 2 := by decide
    rw [hE, hS]
    intro c hc
    simp only [List.mem_cons, List.mem_singleton, List.not_mem_nil, or_false] at hc
    rcases hc with rfl | rfl <;> simp [RunCall.Valid]
  have hrun : exampleReported.Running :=
    (runCalls_running [RunCall.reportEvent 0 4, RunCall.reportState 1] hrun0 hv).2.1
  have hen : exampleReported.loggingDisabled = false := by rfl
  have h := logLoop_keeps_counters_and_current_states exampleReported 1000000 hrun hen
  ⟨⟨hrun, hen⟩, ⟨h.1, h.2.1, h.2.2.1⟩, by rfl, by rfl, by rfl, by rfl, by rfl⟩

theorem dynamicPowerEntries_eq [Mul R] [Div R] [IntCast R] [SimTime R]
    (s : PowerModelChannel R) (l : List Int) (i : Nat) (h : i + l.length ≤ s.m_events.length) :
    s.dynamicPowerEntries i l = some (List.zipWith
      (fun (c : Int) (e : ModuleEventEntry R) =>
        (c : R) * e.event.calculateEnergy s.m_supplyVoltage /
          SimTime.to_seconds s.m_logTimestep) l (s.m_events.drop i)) := by
  induction l generalizing i with
  | nil => simp [PowerModelChannel.dynamicPowerEntries]
  | cons x rest ih =>
    simp only [List.length_cons] at h
    have hi : i < s.m_events.length := by omega
    rw [PowerModelChannel.dynamicPowerEntries, List.getElem?_eq_getElem hi, ih (i + 1) (by omega),
      List.drop_eq_getElem_cons hi]
    rfl

theorem totalLoop_eq [Add R] (entries : List R) (t : R) (fuel : Nat)
    (hf : fuel ≤ entries.length) (acc : R) :
    totalLoop entries.length entries.length fuel (entries ++ [acc, t]) =
      some (entries ++ [(entries.drop (entries.length - fuel)).foldl (fun a b => a + b) acc,
        t]) := by
  induction fuel generalizing acc with
  | zero => simp [totalLoop]
  | succ fuel ih =>
    have hi : entries.length - (fuel + 1) < entries.length := by omega
    have h1 : (entries ++ [acc, t])[entries.length]? = some acc := by
      rw [List.getElem?_append_right (Nat.le_refl _)]
      simp
    have h2 : (entries ++ [acc, t])[entries.length - (fuel + 1)]? =
        some entries[entries.length - (fuel + 1)] := by
      rw [List.getElem?_append_left hi, List.getElem?_eq_getElem hi]
    have h3 : (entries ++ [acc, t]).set entries.length
        (acc + entries[entries.length - (fuel + 1)]) =
        entries ++ [acc + entries[entries.length - (fuel + 1)], t] := by
      rw [List.set_append_right _ _ (Nat.le_refl _)]
      simp
    rw [totalLoop]
    simp only [h1, h2, h3]
    rw [ih (by omega), List.drop_eq_getElem_cons hi]
    have h4 : entries.length - (fuel + 1) + 1 = entries.length - fuel := by omega
    rw [h4]
    rfl

theorem dynamicPowerSample_eq [Zero R] [Add R] [Mul R] [Div R] [IntCast R] [SimTime R]
    (s : PowerModelChannel R) (hs : s.Running) (now : Nat) :
    s.dynamicPowerSample now = s.dynamicPowerRow now ∧
    s.eventCounts.length = s.m_events.length := by
  obtain ⟨pre, row, hl, hrow⟩ := hs.eventLog
  have hgl : s.m_eventLog.getLast? = some row := by rw [hl, getLast?_snoc]
  have hcounts : s.eventCounts = row.dropLast := by
    simp [PowerModelChannel.eventCounts, hgl]
  have hlen : row.dropLast.length = s.m_events.length := by simp [hrow]
  have hes := dynamicPowerEntries_eq s row.dropLast 0 (by rw [hlen]; omega)
  rw [List.drop_zero] at hes
  have hzl : (List.zipWith
      (fun (c : Int) (e : ModuleEventEntry R) =>
        (c : R) * e.event.calculateEnergy s.m_supplyVoltage /
          SimTime.to_seconds s.m_logTimestep) row.dropLast s.m_events).length =
      s.m_events.length := by simp [hlen]
  have ht := totalLoop_eq (List.zipWith
      (fun (c : Int) (e : ModuleEventEntry R) =>
        (c : R) * e.event.calculateEnergy s.m_supplyVoltage /
          SimTime.to_seconds s.m_logTimestep) row.dropLast s.m_events)
    (SimTime.to_seconds now) s.m_events.length (by rw [hzl]) (0 : R)
  rw [hzl] at ht
  simp only [Nat.sub_self, List.drop_zero] at ht
  refine ⟨?_, by rw [hcounts, hlen]⟩
  unfold PowerModelChannel.dynamicPowerSample PowerModelChannel.dynamicPowerRow
  simp only [hgl, hes, ht, hcounts]
  rfl

/-- C21: in the run phase `getDynamicPower()` returns and takes one raw sample row. For
every registered event `i`, entry `i` of the row is the count of event `i` in the newest
event-log row times the energy of the event at the present supply voltage, divided by the
logging interval in seconds; the entry after them is the sum of these entries and the last
entry is the time of the call in seconds. With fewer than 2 rows waiting the row is
appended to the buffer; with 2 rows waiting the three rows are averaged into the
event-power file and the buffer is left empty. No counter and no event-log or state-log
row changes. -/
theorem getDynamicPower_appends_power_row [Zero R] [Add R] [Mul R] [Div R] [IntCast R]
    [SimTime R] (s : PowerModelChannel R) (now : Nat) (hs : s.Running) (hp : s.Sampling) :
    (s.getDynamicPower now).1 = .ok () ∧
    s.dynamicPowerSample now = s.dynamicPowerRow now ∧
    (∀ i, i < s.m_events.length → ∃ (row : List Int) (c : Int) (e : ModuleEventEntry R),
      s.m_eventLog.getLast? = some row ∧ row[i]? = some c ∧ s.m_events[i]? = some e ∧
      (s.dynamicPowerSample now)[i]? =
        some ((c : R) * e.event.calculateEnergy s.m_supplyVoltage /
          SimTime.to_seconds s.m_logTimestep)) ∧
    (s.dynamicPowerSample now)[s.m_events.length]? =
      some (((s.dynamicPowerSample now).take s.m_events.length).foldl (fun a b => a + b) 0) ∧
    (s.dynamicPowerSample now).getLast? = some (SimTime.to_seconds now) ∧
    (s.m_eventPowerLog.length < 2 →
      (s.getDynamicPower now).2 =
        { s with m_eventPowerLog := s.m_eventPowerLog ++ [s.dynamicPowerSample now] }) ∧
    (s.m_eventPowerLog.length = 2 → ∃ lines,
      averageLoop m_eventPowerAveragingFactor 3 0
        (s.m_eventPowerLog ++ [s.dynamicPowerSample now])
        (List.replicate (s.m_events.length + 2) (0 : R)) [] = some lines ∧
      (s.getDynamicPower now).2 =
        { s with
          m_eventPowerLog := []
          files :=
            (s.files.append s.m_eventPowerLogFileName
              (if (s.files s.m_eventPowerLogFileName).isEmpty then
                [s.m_events.map (fun e => Cell.text e.event.name) ++ [Cell.text "time(s)"]]
              else [])).append s.m_eventPowerLogFileName lines }) ∧
    (s.getDynamicPower now).2.m_eventRates = s.m_eventRates ∧
    (s.getDynamicPower now).2.m_eventLog = s.m_eventLog ∧
    (s.getDynamicPower now).2.m_stateLog = s.m_stateLog := by
  obtain ⟨lines, -, hav, heq⟩ := getDynamicPower_ok s now hs hp
  obtain ⟨hrowEq, hclen⟩ := dynamicPowerSample_eq s hs now
  obtain ⟨pre, row, hl, hrow⟩ := hs.eventLog
  have hgl : s.m_eventLog.getLast? = some row := by rw [hl, getLast?_snoc]
  have hcounts : s.eventCounts = row.dropLast := by
    simp [PowerModelChannel.eventCounts, hgl]
  have hzl : (List.zipWith s.dynamicPower s.eventCounts s.m_events).length =
      s.m_events.length := by simp [hclen]
  refine ⟨by rw [heq], hrowEq, ?_, ?_, ?_, ?_, ?_, ?_, ?_, ?_⟩
  · intro i hi
    have hi2 : i < row.length := by omega
    have hi3 : i < row.dropLast.length := by simp [hrow]; exact hi
    have hi4 : i < s.eventCounts.length := by rw [hclen]; exact hi
    refine ⟨row, row[i], s.m_events[i], hgl, List.getElem?_eq_getElem hi2,
      List.getElem?_eq_getElem hi, ?_⟩
    rw [hrowEq, PowerModelChannel.dynamicPowerRow,
      List.getElem?_append_left (by rw [hzl]; exact hi),
      List.getElem?_eq_getElem (by rw [hzl]; exact hi), List.getElem_zipWith]
    have hc : s.eventCounts[i] = row[i] := by
      simp only [hcounts, List.getElem_dropLast]
    rw [hc]
    rfl
  · rw [hrowEq, PowerModelChannel.dynamicPowerRow,
      List.getElem?_append_right (by rw [hzl]), hzl, Nat.sub_self,
      List.take_append_of_le_length (by rw [hzl]), ← hzl, List.take_length]
    rfl
  · rw [hrowEq, PowerModelChannel.dynamicPowerRow]
    simp [List.getLast?_append]
  · intro hlt
    rw [heq, if_pos hlt]
  · intro h2
    rw [h2] at hav
    refine ⟨lines, hav, ?_⟩
    rw [heq, if_neg (by omega)]
  · rw [heq]
    split <;> rfl
  · rw [heq]
    split <;> rfl
  · rw [heq]
    split <;> rfl

/-- C21, witness: the example channel (logging interval 1 us) after `reportEvent(0, 4)`:
the row holds 4 * 0.001 J / 1 us for "write", 0 for "read", their sum and the time. -/
theorem getDynamicPower_appends_power_row_witness :
    (exampleReported.Running ∧ exampleReported.Sampling) ∧
    ((exampleReported.getDynamicPower 0).1 = .ok () ∧
      (exampleReported.getDynamicPower 0).2 =
        { exampleReported with m_eventPowerLog := [exampleReported.dynamicPowerSample 0] }) ∧
    exampleReported.eventCounts = [4, 0] ∧
    exampleReported.dynamicPowerSample 0 =
      [((4 : Int) : ℚ) * (1 / 1000) / SimTime.to_seconds 1000000,
       ((0 : Int) : ℚ) * (5 / 100000) / SimTime.to_seconds 1000000,
       0 + ((4 : Int) : ℚ) * (1 / 1000) / SimTime.to_seconds 1000000 +
         ((0 : Int) : ℚ) * (5 / 100000) / SimTime.to_seconds 1000000,
       SimTime.to_seconds 0] ∧
    ((4 : Int) : ℚ) * (1 / 1000) / SimTime.to_seconds 1000000 = 4000 :=
  have hrun0 : exampleRunning.Running := started_running _ _ _ _ _
  have hv : ∀ c ∈ [RunCall.reportEvent 0 4, RunCall.reportState 1],
      c.Valid exampleRunning.m_events.length exampleRunning.m_states.length := by
    have hE : exampleRunning.m_events.length = 2 := by decide
    have hS : exampleRunning.m_states.length = 2 := by decide
    rw [hE, hS]
    intro c hc
    simp only [List.mem_cons, List.mem_singleton, List.not_mem_nil, or_false] at hc
    rcases hc with rfl | rfl <;> simp [RunCall.Valid]
  have hrun : exampleReported.Running :=
    (runCalls_running [RunCall.reportEvent 0 4, RunCall.reportState 1] hrun0 hv).2.1
  have hsam : exampleReported.Sampling :=
    ⟨fun _ h => absurd h (List.not_mem_nil _), by decide,
      fun _ h => absurd h (List.not_mem_nil _), by decide⟩
  have h := getDynamicPower_appends_power_row exampleReported 0 hrun hsam
  ⟨⟨hrun, hsam⟩, ⟨h.1, h.2.2.2.2.2.1 (by decide)⟩, by rfl, by rfl, by
    simp only [SimTime.to_seconds]
    norm_num⟩

theorem wellFormedEntry_of_default {states : List (ModuleStateEntry R)} {k : Nat} {v : Int}
    (h : IsDefaultState states k v) : WellFormedEntry states k v := by
  rcases h with ⟨h1, -⟩ | ⟨i, x, hv, hx, hk, -⟩
  · exact Or.inl h1
  · refine Or.inr ⟨x, by omega, ?_, hk⟩
    rw [hv]
    simpa using hx

theorem stateRowsStep_wellFormed [SimTime R] (states : List (ModuleStateEntry R))
    (modules logTimestep : Nat) (enabled : Bool)
    (hmod : ∀ e ∈ states, e.moduleId < modules) (c : RunCall R) (rows : List (List Int))
    (h : ∀ r ∈ rows, r.length = modules + 1 ∧ WellFormedRow states modules r) :
    ∀ r ∈ stateRowsStep states logTimestep enabled rows c,
      r.length = modules + 1 ∧ WellFormedRow states modules r := by
  cases c with
  | reportState j =>
    simp only [stateRowsStep]
    split
    · rename_i row e hgl hst
      have hrows : rows = rows.dropLast ++ [row] := by
        have hne : rows ≠ [] := by
          intro hc
          rw [hc] at hgl
          simp at hgl
        have hl := List.dropLast_append_getLast hne
        rw [List.getLast?_eq_getLast _ hne] at hgl
        rw [← Option.some.inj hgl]
        exact hl.symm
      have hrow := h row (by rw [hrows]; simp)
      have hjl : j < states.length := by
        by_contra hc
        rw [List.getElem?_eq_none (by omega)] at hst
        cases hst
      have hem : e ∈ states := by
        rw [List.getElem?_eq_getElem hjl] at hst
        rw [← Option.some.inj hst]
        exact List.getElem_mem hjl
      have hek := hmod e hem
      intro r hr
      rw [hrows, setBack_snoc] at hr
      rcases List.mem_append.mp hr with h1 | h1
      · exact h r (by rw [hrows]; exact List.mem_append_left _ h1)
      · rw [List.mem_singleton.mp h1]
        refine ⟨by rw [List.length_set]; exact hrow.1, ?_⟩
        intro k hk
        by_cases hke : e.moduleId = k
        · subst hke
          refine ⟨(j : Int), ?_, Or.inr ⟨e, by omega, by simpa using hst, rfl⟩⟩
          rw [List.getElem?_set_self (by rw [hrow.1]; omega)]
        · obtain ⟨v, hv, hw⟩ := hrow.2 k hk
          exact ⟨v, by rw [List.getElem?_set_ne hke]; exact hv, hw⟩
    · exact h
  | logLoop now =>
    simp only [stateRowsStep]
    cases enabled with
    | false => exact h
    | true =>
      simp only [if_true]
      split
      · rename_i row hgl
        have hne : rows ≠ [] := by
          intro hc
          rw [hc] at hgl
          simp at hgl
        have hmem : row ∈ rows := by
          rw [List.getLast?_eq_getLast _ hne] at hgl
          rw [← Option.some.inj hgl]
          exact List.getLast_mem hne
        have hrow := h row hmem
        have hrne : row ≠ [] := by
          intro hc
          have := hrow.1
          rw [hc] at this
          simp at this
        intro r hr
        rcases List.mem_append.mp hr with h1 | h1
        · exact h r h1
        · rw [List.mem_singleton.mp h1]
          refine ⟨by rw [setBack_length _ _ hrne]; exact hrow.1, ?_⟩
          intro k hk
          obtain ⟨v, hv, hw⟩ := hrow.2 k hk
          refine ⟨v, ?_, hw⟩
          have hk2 : k < row.dropLast.length := by simp [hrow.1]; exact hk
          rw [setBack, List.getElem?_append_left hk2, List.getElem?_eq_getElem hk2,
            List.getElem_dropLast, ← List.getElem?_eq_getElem (by omega)]
          exact hv
      · exact h
  | reportEvent j n => exact h
  | setSupplyVoltage v => exact h
  | popEventCount j => exact h

theorem stateRows_wellFormed [SimTime R] (states : List (ModuleStateEntry R))
    (modules logTimestep : Nat) (enabled : Bool)
    (hmod : ∀ e ∈ states, e.moduleId < modules) (calls : List (RunCall R))
    (rows : List (List Int))
    (h : ∀ r ∈ rows, r.length = modules + 1 ∧ WellFormedRow states modules r) :
    ∀ r ∈ stateRows states logTimestep enabled rows calls,
      r.length = modules + 1 ∧ WellFormedRow states modules r := by
  induction calls generalizing rows with
  | nil => exact h
  | cons c cs ih =>
    have := ih _ (stateRowsStep_wellFormed states modules logTimestep enabled hmod c rows h)
    unfold stateRows at this ⊢
    rw [List.foldl_cons]
    exact this

theorem started_stateLog [Zero R] [SimTime R] (fs : FileSystem R) (name logFilePath : String)
    (logTimestep : Nat) (regs : List (RegCall R)) :
    ∃ row0 : List Int,
      (PowerModelChannel.elaborated fs name logFilePath logTimestep regs).m_stateLog = [row0] ∧
      row0.length =
        (PowerModelChannel.elaborated fs name logFilePath logTimestep regs).m_moduleNames.length ∧
      (PowerModelChannel.started fs name logFilePath logTimestep regs).m_stateLog =
        [row0 ++ [SimTime.to_microseconds R logTimestep]] ∧
      (PowerModelChannel.started fs name logFilePath logTimestep regs).m_states =
        (PowerModelChannel.elaborated fs name logFilePath logTimestep regs).m_states ∧
      (PowerModelChannel.started fs name logFilePath logTimestep regs).m_moduleNames =
        (PowerModelChannel.elaborated fs name logFilePath logTimestep regs).m_moduleNames ∧
      (PowerModelChannel.started fs name logFilePath logTimestep regs).m_events =
        (PowerModelChannel.elaborated fs name logFilePath logTimestep regs).m_events := by
  have he := elaborated_elaborating fs name logFilePath logTimestep regs
  have ht := (started_loggingDisabled fs name logFilePath logTimestep regs).1
  obtain ⟨row, hrow, hlen, heq⟩ := startSimulation_eq he
  have hS : (PowerModelChannel.started fs name logFilePath logTimestep regs).m_stateLog =
      [row ++ [SimTime.to_microseconds R
        (PowerModelChannel.started fs name logFilePath logTimestep regs).m_logTimestep]] := by
    unfold PowerModelChannel.started
    rw [heq]
  rw [ht] at hS
  refine ⟨row, hrow, hlen, hS, ?_, ?_, ?_⟩
  · unfold PowerModelChannel.started
    rw [heq]
  · unfold PowerModelChannel.started
    rw [heq]
  · unfold PowerModelChannel.started
    rw [heq]

/-- C26: after any sequence of registrations on a new channel the current-state entry of
every module is the unset marker -1 or the id of a registered state whose module is that
module. The same holds after the start of the simulation and any sequence of run-phase
calls with registered ids (reports, voltage changes, pops, logger steps): in every
state-log row still buffered, the newest one (the current states) included, and in every
state-log row written to the file, every module column is -1 or the id of a registered
state of the column's module; the registry is the one of the end of elaboration. -/
theorem current_states_well_formed [Zero R] [DecidableEq R] [SimTime R] (fs : FileSystem R)
    (name logFilePath : String) (logTimestep : Nat) (regs : List (RegCall R))
    (calls : List (RunCall R))
    (hv : ∀ c ∈ calls, c.Valid
      (PowerModelChannel.started fs name logFilePath logTimestep regs).m_events.length
      (PowerModelChannel.started fs name logFilePath logTimestep regs).m_states.length) :
    (∀ k, k < (PowerModelChannel.elaborated fs name logFilePath logTimestep
        regs).m_moduleNames.length →
      ∃ v, (PowerModelChannel.elaborated fs name logFilePath logTimestep regs).currentState k =
          some v ∧
        WellFormedEntry
          (PowerModelChannel.elaborated fs name logFilePath logTimestep regs).m_states k v) ∧
    ((PowerModelChannel.started fs name logFilePath logTimestep regs).runCalls calls).1 =
      .ok () ∧
    ((PowerModelChannel.started fs name logFilePath logTimestep regs).runCalls
        calls).2.m_states =
      (PowerModelChannel.elaborated fs name logFilePath logTimestep regs).m_states ∧
    ((PowerModelChannel.started fs name logFilePath logTimestep regs).runCalls
        calls).2.m_moduleNames =
      (PowerModelChannel.elaborated fs name logFilePath logTimestep regs).m_moduleNames ∧
    (∀ row ∈ ((PowerModelChannel.started fs name logFilePath logTimestep regs).runCalls
        calls).2.m_stateLog,
      WellFormedRow (PowerModelChannel.elaborated fs name logFilePath logTimestep regs).m_states
        (PowerModelChannel.elaborated fs name logFilePath logTimestep regs).m_moduleNames.length
        row) ∧
    (∀ k, k < (PowerModelChannel.elaborated fs name logFilePath logTimestep
        regs).m_moduleNames.length →
      ∃ v, ((PowerModelChannel.started fs name logFilePath logTimestep regs).runCalls
          calls).2.currentState k = some v ∧
        WellFormedEntry
          (PowerModelChannel.elaborated fs name logFilePath logTimestep regs).m_states k v) ∧
    (∃ flushed : List (List Int),
      ((PowerModelChannel.started fs name logFilePath logTimestep regs).runCalls calls).2.files
          (PowerModelChannel.started fs name logFilePath logTimestep regs).m_stateLogFileName =
        (if flushed = [] then
          (PowerModelChannel.started fs name logFilePath logTimestep regs).files
            (PowerModelChannel.started fs name logFilePath logTimestep regs).m_stateLogFileName
        else
          (PowerModelChannel.started fs name logFilePath logTimestep regs).stateLogHeader ++
            flushed.map (List.map Cell.int)) ∧
      ∀ row ∈ flushed,
        WellFormedRow
          (PowerModelChannel.elaborated fs name logFilePath logTimestep regs).m_states
          (PowerModelChannel.elaborated fs name logFilePath logTimestep
            regs).m_moduleNames.length row) := by
  obtain ⟨row0, hrow0, hlen0, hS0, hst, hmn, -⟩ :=
    started_stateLog fs name logFilePath logTimestep regs
  have hdef := elaborated_defaultStates fs name logFilePath logTimestep regs
  have hrun0 := started_running fs name logFilePath logTimestep regs
  obtain ⟨hinv0, -, -⟩ := started_logInv fs name logFilePath logTimestep regs
  obtain ⟨hts, hdis⟩ := started_loggingDisabled fs name logFilePath logTimestep regs
  have hb : (PowerModelChannel.started fs name logFilePath logTimestep regs).loggingDisabled =
        false →
      (PowerModelChannel.started fs name logFilePath logTimestep regs).m_eventLogFileName ≠
        (PowerModelChannel.started fs name logFilePath logTimestep regs).m_stateLogFileName ∧
      (PowerModelChannel.started fs name logFilePath logTimestep regs).files
        (PowerModelChannel.started fs name logFilePath logTimestep regs).m_eventLogFileName =
          [] ∧
      (PowerModelChannel.started fs name logFilePath logTimestep regs).files
        (PowerModelChannel.started fs name logFilePath logTimestep regs).m_stateLogFileName =
          [] := by
    intro hen
    obtain ⟨hdist, hfE, hfS, -, -⟩ :=
      started_distinctLogFiles fs name logFilePath logTimestep regs (hdis.mp hen).1
    exact ⟨hdist.eventState, hfE, hfS⟩
  have hA : ∀ k, k < (PowerModelChannel.elaborated fs name logFilePath logTimestep
        regs).m_moduleNames.length →
      ∃ v, row0[k]? = some v ∧
        WellFormedEntry
          (PowerModelChannel.elaborated fs name logFilePath logTimestep regs).m_states k v := by
    intro k hk
    have hk2 : k < row0.length := by rw [hlen0]; exact hk
    refine ⟨row0[k], List.getElem?_eq_getElem hk2, wellFormedEntry_of_default
      (hdef k _ ?_)⟩
    rw [currentState_singleton hrow0, List.getElem?_eq_getElem hk2]
  generalize PowerModelChannel.elaborated fs name logFilePath logTimestep regs = se at *
  generalize PowerModelChannel.started fs name logFilePath logTimestep regs = s0 at *
  obtain ⟨hok, fE, fS, hinv⟩ := logInv_runCalls hb calls hv hinv0
  have hstart : ∀ r ∈ s0.m_stateLog,
      r.length = s0.m_moduleNames.length + 1 ∧ WellFormedRow s0.m_states
        s0.m_moduleNames.length r := by
    intro r hr
    rw [hS0] at hr
    rw [List.mem_singleton.mp hr, hmn, hst]
    refine ⟨by simp [hlen0], ?_⟩
    intro k hk
    obtain ⟨v, hv1, hv2⟩ := hA k hk
    refine ⟨v, ?_, hv2⟩
    rw [List.getElem?_append_left (by rw [hlen0]; exact hk)]
    exact hv1
  have hall := stateRows_wellFormed s0.m_states s0.m_moduleNames.length s0.m_logTimestep
    (!s0.loggingDisabled) hrun0.stateModule calls s0.m_stateLog hstart
  rw [← hinv.stateRows, hst, hmn] at hall
  have hbuf : ∀ row ∈ (s0.runCalls calls).2.m_stateLog,
      WellFormedRow se.m_states se.m_moduleNames.length row :=
    fun row hr => (hall row (List.mem_append_right _ hr)).2
  refine ⟨?_, hok, by rw [hinv.setup.states, hst], by rw [hinv.setup.moduleNames, hmn], hbuf,
    ?_, ⟨fS, hinv.stateFile, fun row hr => (hall row (List.mem_append_left _ hr)).2⟩⟩
  · intro k hk
    obtain ⟨v, hv1, hv2⟩ := hA k hk
    exact ⟨v, by rw [currentState_singleton hrow0]; exact hv1, hv2⟩
  · intro k hk
    obtain ⟨pre, row, hlog, -⟩ := hinv.running.stateLog
    obtain ⟨v, hv1, hv2⟩ := hbuf row (by rw [hlog]; simp) k hk
    refine ⟨v, ?_, hv2⟩
    simp [PowerModelChannel.currentState, hlog, getLast?_snoc, hv1]

/-- C26, witness: the example channel and the example run with `reportState(1)` and three
wake-ups of the logger; the buffered row and the rows in the file hold state ids 0 and 1
of the module "memory". -/
theorem current_states_well_formed_witness :
    (∀ c ∈ exampleLoggedRun,
      c.Valid exampleRunning.m_events.length exampleRunning.m_states.length) ∧
    ((∀ row ∈ (exampleRunning.runCalls exampleLoggedRun).2.m_stateLog,
        WellFormedRow exampleRegistered.m_states exampleRegistered.m_moduleNames.length row) ∧
      (∀ k, k < exampleRegistered.m_moduleNames.length →
        ∃ v, (exampleRunning.runCalls exampleLoggedRun).2.currentState k = some v ∧
          WellFormedEntry exampleRegistered.m_states k v)) ∧
    exampleRegistered.m_stateLog = [[0]] ∧
    (exampleRunning.runCalls exampleLoggedRun).2.m_stateLog = [[1, 4]] ∧
    ((exampleRunning.runCalls exampleLoggedRun).2.files "./ch_statelog.csv").drop 6 =
      [[Cell.int 0, Cell.int 1], [Cell.int 1, Cell.int 2], [Cell.int 1, Cell.int 3]] ∧
    exampleRegistered.m_states.map (fun e => e.moduleId) = [0, 0] :=
  have hv : ∀ c ∈ exampleLoggedRun,
      c.Valid exampleRunning.m_events.length exampleRunning.m_states.length := by
    have hE : exampleRunning.m_events.length = 2 := by decide
    have hS : exampleRunning.m_states.length = 2 := by decide
    rw [hE, hS]
    intro c hc
    simp only [exampleLoggedRun, List.mem_cons, List.mem_singleton, List.not_mem_nil,
      or_false] at hc
    rcases hc with rfl | rfl | rfl | rfl | rfl | rfl | rfl <;> simp [RunCall.Valid]
  have h := current_states_well_formed (fun _ => []) "ch" "." 1000000 exampleRegistrations
    exampleLoggedRun hv
  ⟨hv, ⟨h.2.2.2.2.1, h.2.2.2.2.2.1⟩, by rfl, by rfl, by rfl, by rfl⟩

theorem sameCore_refl (s : PowerModelChannel R) : s.SameCore s :=
  ⟨rfl, rfl, rfl, rfl, rfl, rfl, rfl, rfl, rfl, rfl, rfl, rfl, rfl, rfl⟩

theorem sameCore_trans {a b c : PowerModelChannel R} (h1 : a.SameCore b)
    (h2 : b.SameCore c) : a.SameCore c :=
  ⟨h2.running.trans h1.running, h2.supplyVoltage.trans h1.supplyVoltage,
    h2.notified.trans h1.notified, h2.moduleNames.trans h1.moduleNames,
    h2.events.trans h1.events, h2.eventRates.trans h1.eventRates, h2.states.trans h1.states,
    h2.eventName.trans h1.eventName, h2.stateName.trans h1.stateName,
    h2.staticName.trans h1.staticName, h2.powerName.trans h1.powerName,
    h2.timestep.trans h1.timestep, h2.eventLog.trans h1.eventLog,
    h2.stateLog.trans h1.stateLog⟩

theorem dumpStaticPowerCsv_sameCore [Zero R] [Add R] [Div R] [IntCast R]
    (s : PowerModelChannel R) : s.SameCore s.dumpStaticPowerCsv.2 := by
  unfold PowerModelChannel.dumpStaticPowerCsv
  simp only
  repeat' split
  all_goals exact ⟨rfl, rfl, rfl, rfl, rfl, rfl, rfl, rfl, rfl, rfl, rfl, rfl, rfl, rfl⟩

theorem dumpEventPowerCsv_sameCore [Zero R] [Add R] [Div R] [IntCast R]
    (s : PowerModelChannel R) : s.SameCore s.dumpEventPowerCsv.2 := by
  unfold PowerModelChannel.dumpEventPowerCsv
  simp only
  repeat' split
  all_goals exact ⟨rfl, rfl, rfl, rfl, rfl, rfl, rfl, rfl, rfl, rfl, rfl, rfl, rfl, rfl⟩

theorem getStaticCurrent_sameCore [Zero R] [Add R] [Mul R] [Div R] [IntCast R] [SimTime R]
    (s : PowerModelChannel R) (now : Nat) : s.SameCore (s.getStaticCurrent now).2 := by
  unfold PowerModelChannel.getStaticCurrent
  split
  · exact sameCore_refl s
  · split
    · exact sameCore_refl s
    · split
      · exact sameCore_refl s
      · rename_i entries hentries
        simp only
        by_cases hlen : (s.m_staticPowerLog ++
            [entries ++ [(0 : R), SimTime.to_seconds now]]).length > m_logDumpThreshold
        · rw [if_pos hlen]
          have hd := dumpStaticPowerCsv_sameCore
            { s with m_staticPowerLog := s.m_staticPowerLog ++
              [entries ++ [(0 : R), SimTime.to_seconds now]] }
          generalize PowerModelChannel.dumpStaticPowerCsv
            { s with m_staticPowerLog := s.m_staticPowerLog ++
              [entries ++ [(0 : R), SimTime.to_seconds now]] } = r at hd
          obtain ⟨r1, r2⟩ := r
          have hd2 : s.SameCore r2 :=
            ⟨hd.running, hd.supplyVoltage, hd.notified, hd.moduleNames, hd.events,
              hd.eventRates, hd.states, hd.eventName, hd.stateName, hd.staticName,
              hd.powerName, hd.timestep, hd.eventLog, hd.stateLog⟩
          cases r1 with
          | error e => exact hd2
          | ok u =>
            simp only
            split <;>
              exact ⟨hd2.running, hd2.supplyVoltage, hd2.notified, hd2.moduleNames, hd2.events,
                hd2.eventRates, hd2.states, hd2.eventName, hd2.stateName, hd2.staticName,
                hd2.powerName, hd2.timestep, hd2.eventLog, hd2.stateLog⟩
        · rw [if_neg hlen]
          simp only
          split <;> exact ⟨rfl, rfl, rfl, rfl, rfl, rfl, rfl, rfl, rfl, rfl, rfl, rfl, rfl, rfl⟩

theorem getDynamicPower_sameCore [Zero R] [Add R] [Mul R] [Div R] [IntCast R] [SimTime R]
    (s : PowerModelChannel R) (now : Nat) : s.SameCore (s.getDynamicPower now).2 := by
  unfold PowerModelChannel.getDynamicPower
  split
  · exact sameCore_refl s
  · split
    · exact sameCore_refl s
    · split
      · exact sameCore_refl s
      · simp only
        split
        · exact ⟨rfl, rfl, rfl, rfl, rfl, rfl, rfl, rfl, rfl, rfl, rfl, rfl, rfl, rfl⟩
        · rename_i sample hsample
          split
          · have hd := dumpEventPowerCsv_sameCore
              { s with m_eventPowerLog := s.m_eventPowerLog ++ [sample] }
            generalize PowerModelChannel.dumpEventPowerCsv
              { s with m_eventPowerLog := s.m_eventPowerLog ++ [sample] } = r at hd
            obtain ⟨r1, r2⟩ := r
            have hd2 : s.SameCore r2 :=
              ⟨hd.running, hd.supplyVoltage, hd.notified, hd.moduleNames, hd.events,
                hd.eventRates, hd.states, hd.eventName, hd.stateName, hd.staticName,
                hd.powerName, hd.timestep, hd.eventLog, hd.stateLog⟩
            cases r1 with
            | error e => exact hd2
            | ok u =>
              exact ⟨hd2.running, hd2.supplyVoltage, hd2.notified, hd2.moduleNames, hd2.events,
                hd2.eventRates, hd2.states, hd2.eventName, hd2.stateName, hd2.staticName,
                hd2.powerName, hd2.timestep, hd2.eventLog, hd2.stateLog⟩
          · exact ⟨rfl, rfl, rfl, rfl, rfl, rfl, rfl, rfl, rfl, rfl, rfl, rfl, rfl, rfl⟩

theorem running_of_sameCore {s t : PowerModelChannel R} (hs : s.Running) (h : s.SameCore t) :
    t.Running := by
  refine ⟨by rw [h.running]; exact hs.running, by rw [h.eventRates, h.events]; exact hs.rates,
    ?_, ?_, ?_⟩
  · rw [h.eventLog, h.events]; exact hs.eventLog
  · rw [h.stateLog, h.moduleNames]; exact hs.stateLog
  · rw [h.states, h.moduleNames]; exact hs.stateModule

theorem boundedLogs_of_sameCore {s t : PowerModelChannel R} (hs : s.BoundedLogs)
    (h : s.SameCore t) : t.BoundedLogs :=
  ⟨by rw [h.eventLog, h.stateLog]; exact hs.sameLength, by rw [h.eventLog]; exact hs.bound⟩

theorem runCall_boundedLogs [DecidableEq R] [SimTime R] {s : PowerModelChannel R}
    (hs : s.Running) (hb : s.BoundedLogs) (c : RunCall R)
    (hv : c.Valid s.m_events.length s.m_states.length) : (s.runCall c).2.BoundedLogs := by
  cases c with
  | reportEvent j n =>
    obtain ⟨pre, row, c, x, hlog, -, -, -, heq⟩ := reportEvent_running hs hv n
    have hr : s.runCall (RunCall.reportEvent j n) = _ := heq
    rw [hr]
    have h1 := hb.sameLength
    have h2 := hb.bound
    rw [hlog] at h1 h2
    exact ⟨by simpa using h1, by simpa using h2⟩
  | reportState j =>
    obtain ⟨pre, row, entry, hlog, -, -, -, heq⟩ := reportState_running hs hv
    have hr : s.runCall (RunCall.reportState j) = _ := heq
    rw [hr]
    have h1 := hb.sameLength
    rw [hlog] at h1
    exact ⟨by simpa using h1, hb.bound⟩
  | setSupplyVoltage val =>
    simp only [PowerModelChannel.runCall, PowerModelChannel.setSupplyVoltage]
    split
    · exact ⟨hb.sameLength, hb.bound⟩
    · exact hb
  | popEventCount j =>
    obtain ⟨c2, -, heq⟩ := popEventCount_running hs hv
    have hr : s.runCall (RunCall.popEventCount j) =
        (.ok (), { s with m_eventRates := s.m_eventRates.set j 0 }) := by
      simp only [PowerModelChannel.runCall, heq]
    rw [hr]
    exact ⟨hb.sameLength, hb.bound⟩
  | logLoop now =>
    by_cases hd : s.loggingDisabled = true
    · simp only [PowerModelChannel.runCall, PowerModelChannel.logLoop, hd, if_true]
      exact hb
    · have hen : s.loggingDisabled = false := by simpa using hd
      obtain ⟨pre, row, -, -, heq⟩ := logLoop_enabled_eq hs hen now
      have hr : s.runCall (RunCall.logLoop now) = _ := heq
      rw [hr]
      have h1 := hb.sameLength
      have h2 := hb.bound
      by_cases ht : s.m_eventLog.length > m_logDumpThreshold
      · rw [if_pos ht]
        exact ⟨rfl, by simp⟩
      · rw [if_neg ht]
        have ht2 : s.m_eventLog.length ≤ 2 := by
          simp only [m_logDumpThreshold] at ht
          omega
        exact ⟨by simp [h1], by simp; omega⟩

theorem simCall_sameCore_or_run [Zero R] [Add R] [Mul R] [Div R] [IntCast R] [DecidableEq R]
    [SimTime R] {s : PowerModelChannel R} (hs : s.Running) (hb : s.BoundedLogs)
    (c : SimCall R) (hv : c.Valid s.m_events.length s.m_states.length) :
    (s.simCall c).2.Running ∧ (s.simCall c).2.BoundedLogs ∧
    (s.simCall c).2.m_events = s.m_events ∧ (s.simCall c).2.m_states = s.m_states ∧
    (s.simCall c).2.m_moduleNames = s.m_moduleNames := by
  cases c with
  | run c =>
    obtain ⟨-, h1, h2, h3, h4, -⟩ := runCall_running hs c hv
    exact ⟨h1, runCall_boundedLogs hs hb c hv, h2, h3, h4⟩
  | popEventEnergy j =>
    obtain ⟨v, heq⟩ := popEventEnergy_running hs hv
    have hr : s.simCall (SimCall.popEventEnergy j) =
        (.ok (), { s with m_eventRates := s.m_eventRates.set j 0 }) := by
      simp only [PowerModelChannel.simCall, heq]
    rw [hr]
    exact ⟨⟨hs.running, by simp [hs.rates], hs.eventLog, hs.stateLog, hs.stateModule⟩,
      ⟨hb.sameLength, hb.bound⟩, rfl, rfl, rfl⟩
  | popDynamicEnergy =>
    have heq := popDynamicEnergy_eq s hs
    have hr : s.simCall SimCall.popDynamicEnergy =
        (.ok (), { s with m_eventRates := List.replicate s.m_events.length 0 }) := by
      simp only [PowerModelChannel.simCall, heq]
    rw [hr]
    exact ⟨⟨hs.running, by simp, hs.eventLog, hs.stateLog, hs.stateModule⟩,
      ⟨hb.sameLength, hb.bound⟩, rfl, rfl, rfl⟩
  | getStaticCurrent now =>
    have hc := getStaticCurrent_sameCore s now
    have h2 : (s.simCall (SimCall.getStaticCurrent now)).2 = (s.getStaticCurrent now).2 := by
      simp only [PowerModelChannel.simCall]
      generalize s.getStaticCurrent now = r
      obtain ⟨r1, r2⟩ := r
      cases r1 <;> rfl
    rw [h2]
    exact ⟨running_of_sameCore hs hc, boundedLogs_of_sameCore hb hc, hc.events, hc.states,
      hc.moduleNames⟩
  | getDynamicPower now =>
    have hc := getDynamicPower_sameCore s now
    exact ⟨running_of_sameCore hs hc, boundedLogs_of_sameCore hb hc, hc.events, hc.states,
      hc.moduleNames⟩

theorem simCalls_boundedLogs [Zero R] [Add R] [Mul R] [Div R] [IntCast R] [DecidableEq R]
    [SimTime R] (calls : List (SimCall R)) {s : PowerModelChannel R} (hs : s.Running)
    (hb : s.BoundedLogs)
    (hv : ∀ c ∈ calls, c.Valid s.m_events.length s.m_states.length) :
    (s.simCalls calls).2.Running ∧ (s.simCalls calls).2.BoundedLogs ∧
    (s.simCalls calls).2.m_events = s.m_events ∧ (s.simCalls calls).2.m_states = s.m_states ∧
    (s.simCalls calls).2.m_moduleNames = s.m_moduleNames := by
  induction calls generalizing s with
  | nil => exact ⟨hs, hb, rfl, rfl, rfl⟩
  | cons c cs ih =>
    obtain ⟨h1, h2, h3, h4, h5⟩ := simCall_sameCore_or_run hs hb c (hv c (List.mem_cons_self _ _))
    rw [PowerModelChannel.simCalls]
    generalize hr : s.simCall c = r at h1 h2 h3 h4 h5
    obtain ⟨r1, r2⟩ := r
    simp only at h1 h2 h3 h4 h5
    cases r1 with
    | error e => exact ⟨h1, h2, h3, h4, h5⟩
    | ok u =>
      have := ih h1 h2 (by
        intro d hd
        rw [h3, h4]
        exact hv d (List.mem_cons_of_mem _ hd))
      simp only
      exact ⟨this.1, this.2.1, this.2.2.1.trans h3, this.2.2.2.1.trans h4,
        this.2.2.2.2.trans h5⟩

/-- C25: in every state reached after the start of the simulation by reports, pops,
sampling calls and logger steps with registered ids, the event-log buffer and the
state-log buffer are not empty, hold the same number of rows, at most 3, their newest rows
have (number of events + 1) and (number of modules + 1) entries and there is one pop
counter per event. Hence `reportEvent`, `popEventCount` and `reportState` with a
registered id find the newest row and the column of the id and return, the row of
`getDynamicPower` is computed from a count and an event for every column, and the module
columns that `getStaticCurrent` reads are one per module. -/
theorem log_buffers_bounded_and_nonempty [Zero R] [Add R] [Mul R] [Div R] [IntCast R]
    [DecidableEq R] [SimTime R] (fs : FileSystem R) (name logFilePath : String)
    (logTimestep : Nat) (regs : List (RegCall R)) (calls : List (SimCall R))
    (hv : ∀ c ∈ calls, c.Valid
      (PowerModelChannel.started fs name logFilePath logTimestep regs).m_events.length
      (PowerModelChannel.started fs name logFilePath logTimestep regs).m_states.length) :
    ((PowerModelChannel.started fs name logFilePath logTimestep regs).simCalls
      calls).2.m_eventLog ≠ [] ∧
    ((PowerModelChannel.started fs name logFilePath logTimestep regs).simCalls
      calls).2.m_stateLog ≠ [] ∧
    ((PowerModelChannel.started fs name logFilePath logTimestep regs).simCalls
        calls).2.m_eventLog.length =
      ((PowerModelChannel.started fs name logFilePath logTimestep regs).simCalls
        calls).2.m_stateLog.length ∧
    ((PowerModelChannel.started fs name logFilePath logTimestep regs).simCalls
      calls).2.m_eventLog.length ≤ 3 ∧
    (∃ row, ((PowerModelChannel.started fs name logFilePath logTimestep regs).simCalls
        calls).2.m_eventLog.getLast? = some row ∧
      row.length =
        (PowerModelChannel.started fs name logFilePath logTimestep regs).m_events.length + 1) ∧
    (∃ row, ((PowerModelChannel.started fs name logFilePath logTimestep regs).simCalls
        calls).2.m_stateLog.getLast? = some row ∧
      row.length =
        (PowerModelChannel.started fs name logFilePath logTimestep
          regs).m_moduleNames.length + 1) ∧
    ((PowerModelChannel.started fs name logFilePath logTimestep regs).simCalls
        calls).2.m_eventRates.length =
      (PowerModelChannel.started fs name logFilePath logTimestep regs).m_events.length ∧
    (∀ eventId n,
      eventId <
        (PowerModelChannel.started fs name logFilePath logTimestep regs).m_events.length →
      (((PowerModelChannel.started fs name logFilePath logTimestep regs).simCalls
        calls).2.reportEvent eventId n).1 = .ok ()) ∧
    (∀ eventId,
      eventId <
        (PowerModelChannel.started fs name logFilePath logTimestep regs).m_events.length →
      ∃ c, (((PowerModelChannel.started fs name logFilePath logTimestep regs).simCalls
        calls).2.popEventCount eventId).1 = .ok c) ∧
    (∀ stateId,
      stateId <
        (PowerModelChannel.started fs name logFilePath logTimestep regs).m_states.length →
      (((PowerModelChannel.started fs name logFilePath logTimestep regs).simCalls
        calls).2.reportState stateId).1 = .ok ()) ∧
    (∀ now,
      ((PowerModelChannel.started fs name logFilePath logTimestep regs).simCalls
          calls).2.dynamicPowerSample now =
        ((PowerModelChannel.started fs name logFilePath logTimestep regs).simCalls
          calls).2.dynamicPowerRow now) ∧
    ((PowerModelChannel.started fs name logFilePath logTimestep regs).simCalls
        calls).2.moduleColumns.length =
      (PowerModelChannel.started fs name logFilePath logTimestep
        regs).m_moduleNames.length := by
  have hrun0 := started_running fs name logFilePath logTimestep regs
  obtain ⟨-, hE0, hS0⟩ := started_logInv fs name logFilePath logTimestep regs
  have hb0 : (PowerModelChannel.started fs name logFilePath logTimestep regs).BoundedLogs :=
    ⟨by rw [hE0, hS0]; rfl, by rw [hE0]; simp⟩
  generalize PowerModelChannel.started fs name logFilePath logTimestep regs = s0 at *
  obtain ⟨hrun, hb, hev, hst, hmn⟩ := simCalls_boundedLogs calls hrun0 hb0 hv
  generalize (s0.simCalls calls).2 = s at *
  obtain ⟨preE, rowE, hlogE, hlenE⟩ := hrun.eventLog
  obtain ⟨preS, rowS, hlogS, hlenS⟩ := hrun.stateLog
  refine ⟨by rw [hlogE]; simp, by rw [hlogS]; simp, hb.sameLength, hb.bound,
    ⟨rowE, by rw [hlogE, getLast?_snoc], by rw [hlenE, hev]⟩,
    ⟨rowS, by rw [hlogS, getLast?_snoc], by rw [hlenS, hmn]⟩,
    by rw [hrun.rates, hev], ?_, ?_, ?_, ?_, ?_⟩
  · intro j n hj
    obtain ⟨_, _, _, _, _, _, _, _, heq⟩ := reportEvent_running hrun (by rw [hev]; exact hj) n
    rw [heq]
  · intro j hj
    obtain ⟨c, _, heq⟩ := popEventCount_running hrun (by rw [hev]; exact hj)
    exact ⟨c, by rw [heq]⟩
  · intro j hj
    obtain ⟨_, _, _, _, _, _, _, heq⟩ := reportState_running hrun (by rw [hst]; exact hj)
    rw [heq]
  · intro now
    exact (dynamicPowerSample_eq s hrun now).1
  · rw [moduleColumns_length s hrun, hmn]

/-- C25, witness: the example channel and the example run with five wake-ups of the
logger; three rows wait in each buffer at the end. -/
theorem log_buffers_bounded_and_nonempty_witness :
    (∀ c ∈ exampleMixedRun,
      c.Valid exampleRunning.m_events.length exampleRunning.m_states.length) ∧
    ((exampleRunning.simCalls exampleMixedRun).2.m_eventLog ≠ [] ∧
      (exampleRunning.simCalls exampleMixedRun).2.m_eventLog.length =
        (exampleRunning.simCalls exampleMixedRun).2.m_stateLog.length ∧
      (exampleRunning.simCalls exampleMixedRun).2.m_eventLog.length ≤ 3) ∧
    (exampleRunning.simCalls exampleMixedRun).1 = .ok () ∧
    (exampleRunning.simCalls exampleMixedRun).2.m_eventLog =
      [[0, 7, 4], [0, 0, 5], [0, 0, 6]] ∧
    (exampleRunning.simCalls exampleMixedRun).2.m_stateLog = [[1, 4], [1, 5], [1, 6]] := by
  have hv : ∀ c ∈ exampleMixedRun,
      c.Valid exampleRunning.m_events.length exampleRunning.m_states.length := by
    have hE : exampleRunning.m_events.length = 2 := by decide
    have hS : exampleRunning.m_states.length = 2 := by decide
    rw [hE, hS]
    intro c hc
    simp only [exampleMixedRun, List.mem_cons, List.mem_singleton, List.not_mem_nil,
      or_false] at hc
    rcases hc with rfl | rfl | rfl | rfl | rfl | rfl | rfl | rfl | rfl | rfl | rfl <;>
      simp [SimCall.Valid, RunCall.Valid]
  have h := log_buffers_bounded_and_nonempty (fun _ => []) "ch" "." 1000000
    exampleRegistrations exampleMixedRun hv
  refine ⟨hv, ?_, by rfl, by rfl, by rfl⟩
  unfold exampleRunning
  exact ⟨h.1, h.2.2.1, h.2.2.2.1⟩

/-- C22, the code at the failing input: on the example channel one sample of each kind is
taken at 5 us and the channel is destroyed. Each power-log file then holds its header and
one row, and the last entry of that row, the time stamp, is 0 and not the 5 us of the only
raw sample of the window: the dump functions write the row before they copy the time
stamp. With two samples buffered (5 us and 6 us) the row carries the 5 us of the first. -/
theorem single_sample_window_has_zero_time_stamp :
    (exampleRunning.simCalls exampleOneSampleRun).1 = .ok () ∧
    (exampleRunning.simCalls exampleOneSampleRun).2.m_staticPowerLog =
      [[2 * (1 / 10000), 0, SimTime.to_seconds 5000000]] ∧
    ((exampleRunning.simCalls exampleOneSampleRun).2.m_eventPowerLog.map List.getLast?) =
      [some (SimTime.to_seconds 5000000)] ∧
    (SimTime.to_seconds 5000000 : ℚ) = 5 / 1000000 ∧
    (exampleRunning.simCalls exampleOneSampleRun).2.destroy.1 = .ok () ∧
    ((exampleRunning.simCalls exampleOneSampleRun).2.destroy.2.files
      "./ch_static_power_log.csv").map List.length = [2, 3] ∧
    ((exampleRunning.simCalls exampleOneSampleRun).2.destroy.2.files
      "./ch_static_power_log.csv").map List.getLast? =
        [some (Cell.text "time(s)"), some (Cell.real 0)] ∧
    ((exampleRunning.simCalls exampleOneSampleRun).2.destroy.2.files
      "./ch_event_power_log.csv").map List.getLast? =
        [some (Cell.text "time(s)"), some (Cell.real 0)] ∧
    ((exampleRunning.simCalls exampleTwoSampleRun).2.destroy.2.files
      "./ch_static_power_log.csv").map List.getLast? =
        [some (Cell.text "time(s)"), some (Cell.real (SimTime.to_seconds 5000000))] := by
  refine ⟨by rfl, by rfl, by rfl, ?_, by rfl, by rfl, by rfl, by rfl, by rfl⟩
  simp only [SimTime.to_seconds]
  norm_num

/-- C27, the code at the failing input: the example channel (one module, two events, two
states), the example run with three samples of each kind, then the destructor. The
event-log file has 3 fields in its header and in its row, the state-log file 2 fields in
its column header and in its row; the static-power file has a header of 2 fields and a row
of 3 fields, the event-power file a header of 3 fields and a row of 4 fields. -/
theorem power_log_rows_are_wider_than_header :
    exampleRunning.m_moduleNames.length = 1 ∧
    exampleRunning.m_events.length = 2 ∧
    (exampleRunning.simCalls exampleSampledRun).1 = .ok () ∧
    (exampleRunning.simCalls exampleSampledRun).2.destroy.1 = .ok () ∧
    ((exampleRunning.simCalls exampleSampledRun).2.destroy.2.files
      "./ch_eventlog.csv").map List.length = [3, 3] ∧
    ((exampleRunning.simCalls exampleSampledRun).2.destroy.2.files
      "./ch_statelog.csv").map List.length = [3, 3, 3, 0, 0, 2, 2] ∧
    ((exampleRunning.simCalls exampleSampledRun).2.destroy.2.files
      "./ch_static_power_log.csv").map List.length = [2, 3] ∧
    ((exampleRunning.simCalls exampleSampledRun).2.destroy.2.files
      "./ch_static_power_log.csv").head? = some [Cell.text "memory", Cell.text "time(s)"] ∧
    ((exampleRunning.simCalls exampleSampledRun).2.destroy.2.files
      "./ch_event_power_log.csv").map List.length = [3, 4] ∧
    ((exampleRunning.simCalls exampleSampledRun).2.destroy.2.files
      "./ch_event_power_log.csv").head? =
        some [Cell.text "write", Cell.text "read", Cell.text "time(s)"] := by
  refine ⟨by rfl, by rfl, by rfl, by rfl, by rfl, by rfl, by rfl, by rfl, by rfl, by rfl⟩

end FusedPs
